import Mathlib

/-!
A shallow embedding of the query builder `pgsql-builder`.

The Go package `pgsqlbuilder` turns a struct description into SQL text for one
table and assembles WHERE / SET / ORDER BY fragments with `$n` placeholders.
This file embeds the functions of `builder.go`, `builder_internal.go`,
`filters.go`, `funcs.go` and `opval.go` as Lean functions and proves
properties of them.

Conventions of the embedding

* A Go `string` is a Lean `String`; character-level work is done on `String.data`.
  All byte slicing in the source (`s[1:]`, `s[5:]`) cuts an ASCII prefix, so
  cutting characters and cutting bytes agree.
* A Go `map[string]T` is an association list read with first-match lookup; its
  key set is the list of distinct keys.  Iteration order never reaches a result
  in the embedded functions (every iteration is followed by `sort.Strings`).
* A Go function returning `(string, error)` returns a pair `String × Option GoError`;
  a run-time panic is the `Except.error` side of `Go`.
* `int` is 64 bits wide: the placeholder counter is incremented with wrap-around.
  Lengths of slices and maps are natural numbers (they cannot overflow).
-/

namespace PgsqlBuilder

/-! ## Go run-time model -/

/-- Run-time panics the embedded code can raise. -/
inductive Panic where
  /-- index out of range -/
  | indexOutOfRange
  /-- slice bounds out of range -/
  | sliceBounds
  /-- nil pointer dereference (method call on a nil `reflect.Type`) -/
  | nilDereference
  /-- failed type assertion without the comma-ok form -/
  | typeAssertion
  /-- strings: negative Repeat count -/
  | negativeRepeat
  deriving DecidableEq, Repr

/-- A Go computation that either panics or yields a value. -/
abbrev Go (α : Type) := Except Panic α

deriving instance DecidableEq for Except

/-- Go `error` values built by the package: `errors.New` and `&ErrBuilder{...}` (err.go). -/
inductive GoError where
  | errorsNew (text : String)
  | ErrBuilder (Op : String) (Tag : String) (Err : GoError)
  deriving DecidableEq, Repr

/-- Lower bound and upper bound of a Go `int` (64 bits). -/
def inInt64 (x : Int) : Prop := -9223372036854775808 ≤ x ∧ x < 9223372036854775808

instance (x : Int) : Decidable (inInt64 x) := by unfold inInt64; infer_instance

/-- Two's complement wrap-around of a 64-bit `int`. -/
def wrapInt64 (x : Int) : Int :=
  (x + 9223372036854775808) % 18446744073709551616 - 9223372036854775808

/-- The verb `%d` of `fmt.Sprintf` on an `int`. -/
def fmtInt (x : Int) : String := toString x

/-- Values of types that are neither slices nor arrays, as far as the package looks at them. -/
inductive Scalar where
  | int (n : Int)
  | str (s : String)
  | bool (b : Bool)
  /-- any other non-sequence value (float, struct, pointer, ...), identified by a label -/
  | other (typeName : String) (label : Nat)
  deriving DecidableEq, Repr

/-- Element types of sequences: the fourteen that `Interfaces` expands, plus the rest. -/
inductive ElemType where
  | int8 | int16 | int32 | int64 | int
  | uint8 | uint16 | uint32 | uint64 | uint
  | float32 | float64 | bool | string
  /-- the empty interface type `interface{}` -/
  | iface
  /-- any other element type, or a named slice type -/
  | other (typeName : String)
  deriving DecidableEq, Repr

/-- An `interface{}` value stored in the raw list of a filter. -/
inductive Arg where
  /-- the nil interface -/
  | nil
  | scalar (v : Scalar)
  /-- a value of the unnamed slice type `[]t` -/
  | slice (t : ElemType) (xs : List Scalar)
  /-- a value of an array type `[n]t` -/
  | array (t : ElemType) (xs : List Scalar)
  deriving DecidableEq, Repr

/-- An `interface{}` value stored in `OpVal.Val`. -/
inductive GoValue where
  /-- nil, a scalar, a typed slice or an array -/
  | item (a : Arg)
  /-- a value of type `[]interface{}` -/
  | ifaces (xs : List Arg)
  deriving DecidableEq, Repr

/-- What `reflect.TypeOf(a).Kind()` tells the package about a value: `none` stands for
the nil `reflect.Type` of a nil interface, on which `Kind()` panics. -/
inductive SeqKind where
  | Slice | Array | NotSeq
  deriving DecidableEq, Repr

/-- Kind of a raw-list element; `none` for the nil interface. -/
def Arg.kind? : Arg → Option SeqKind
  | .nil => none
  | .scalar _ => some .NotSeq
  | .slice _ _ => some .Slice
  | .array _ _ => some .Array

/-- Result of `reflect.ValueOf(a).Len()` on a slice or array. -/
def Arg.len : Arg → Nat
  | .slice _ xs => xs.length
  | .array _ xs => xs.length
  | _ => 0

/-- Kind of a filter value; `none` for the nil interface. -/
def GoValue.kind? : GoValue → Option SeqKind
  | .item a => a.kind?
  | .ifaces _ => some .Slice

/-- Result of `reflect.ValueOf(v).Len()` on a slice or array. -/
def GoValue.len : GoValue → Nat
  | .item a => a.len
  | .ifaces xs => xs.length

/-- Type assertion `v.([]interface{})`. -/
def GoValue.asIfaces : GoValue → Go (List Arg)
  | .ifaces xs => pure xs
  | .item _ => throw .typeAssertion

/-- Type assertion `a.(string)`. -/
def Arg.asString : Arg → Go String
  | .scalar (.str s) => pure s
  | _ => throw .typeAssertion

/-! ## opval.go, filters.go: operators and filters -/

/-- Conjunction `OpOR = iota * 1` (opval.go:8). -/
def OpOR : Int := 0
/-- Conjunction `OpAND` (opval.go:9). -/
def OpAND : Int := 1

/-- Operator `OpEqual = iota * 1` (opval.go:13). -/
def OpEqual : Int := 0
/-- Operator `OpNotEqual` (opval.go:14). -/
def OpNotEqual : Int := 1
/-- Operator `OpLike` (opval.go:15). -/
def OpLike : Int := 2
/-- Operator `OpMatch` (opval.go:16). -/
def OpMatch : Int := 3
/-- Operator `OpGreater` (opval.go:17). -/
def OpGreater : Int := 4
/-- Operator `OpLower` (opval.go:18). -/
def OpLower : Int := 5
/-- Operator `OpGreaterOrEqual` (opval.go:19). -/
def OpGreaterOrEqual : Int := 6
/-- Operator `OpLowerOrEqual` (opval.go:20). -/
def OpLowerOrEqual : Int := 7
/-- Operator `OpBit` (opval.go:21). -/
def OpBit : Int := 8

/-- The struct `OpVal`; the defaults are Go's zero values. -/
structure OpVal where
  Op : Int := 0
  Val : GoValue := .item .nil
  deriving DecidableEq, Repr

/-- Go maps with string keys, as association lists with first-match lookup. -/
abbrev GoMap (β : Type) := List (String × β)

/-- Lookup with the comma-ok form: `v, ok := m[k]`. -/
def GoMap.get? {β : Type} (m : GoMap β) (k : String) : Option β :=
  (m.find? (fun e => decide (e.1 = k))).map Prod.snd

/-- Assignment `m[k] = v`. -/
def GoMap.set {β : Type} (m : GoMap β) (k : String) (v : β) : GoMap β :=
  (k, v) :: m

/-- The key set of the map, each key once. -/
def GoMap.keys {β : Type} (m : GoMap β) : List String :=
  (m.map Prod.fst).dedup

/-- The builtin `len(m)`. -/
def GoMap.len {β : Type} (m : GoMap β) : Nat := m.keys.length

/-- The type `Filters` is `map[string]OpVal` (filters.go:9). -/
abbrev Filters := GoMap OpVal

/-- Indexing `(*filters)[name]`: the zero `OpVal` for a missing key. -/
def Filters.at (f : Filters) (name : String) : OpVal :=
  (GoMap.get? f name).getD {}

/-- The method `Filters.Add`. -/
def Filters.Add (f : Filters) (name : String) (value : OpVal) : Filters :=
  GoMap.set f name value

/-- The reserved key of the raw entry (filters.go:16). -/
def Raw : String := "_"

/-! ## Library functions used by the package -/

/-- Byte-wise order of two strings, which for valid UTF-8 is the lexicographic order
of their code points. -/
def strLE (a b : String) : Prop := ¬ (b.data < a.data)

instance : DecidableRel strLE := fun a b => by unfold strLE; infer_instance

/-- The function `sort.Strings`: the ascending arrangement of the list. -/
def sortStrings (l : List String) : List String := l.insertionSort strLE

/-- Slice expression `s[n:]` for a string whose first `n` characters are ASCII. -/
def sliceFrom (s : String) (n : Nat) : String := ⟨s.data.drop n⟩

/-- Worker of `replaceFirst`. -/
def replaceFirstChars (old new : List Char) : List Char → List Char
  | [] => if old.isEmpty then new else []
  | c :: cs =>
    if old.isPrefixOf (c :: cs) then new ++ (c :: cs).drop old.length
    else c :: replaceFirstChars old new cs

/-- The call `strings.Replace(s, old, new, 1)`: the first occurrence of `old` is replaced. -/
def replaceFirst (s old new : String) : String :=
  ⟨replaceFirstChars old.data new.data s.data⟩

/-- Worker of `replaceAll`; `skip` counts characters of a match still to be dropped. -/
def replaceAllChars (old new : List Char) : Nat → List Char → List Char
  | _, [] => []
  | skip + 1, _ :: cs => replaceAllChars old new skip cs
  | 0, c :: cs =>
    if old.isPrefixOf (c :: cs) then new ++ replaceAllChars old new (old.length - 1) cs
    else c :: replaceAllChars old new 0 cs

/-- The call `strings.ReplaceAll(s, old, new)` for a non-empty `old`: non-overlapping
occurrences are replaced from left to right. -/
def replaceAll (s old new : String) : String :=
  ⟨replaceAllChars old.data new.data 0 s.data⟩

/-- The character class `[a-zA-Z0-9_]`. -/
def isFieldChar (c : Char) : Bool := c.isAlphanum || c == '_'

/-- Worker of `findAllFields`: `cur` holds the reversed characters read since the dot of
a candidate match, `none` outside a candidate. -/
def findAllFieldsAux : Option (List Char) → List Char → List String
  | none, [] => []
  | some acc, [] => if 1 < acc.length then [⟨acc.reverse⟩] else []
  | none, c :: cs =>
    if c = '.' then findAllFieldsAux (some ['.']) cs else findAllFieldsAux none cs
  | some acc, c :: cs =>
    if isFieldChar c then findAllFieldsAux (some (c :: acc)) cs
    else
      let rest := if c = '.' then findAllFieldsAux (some ['.']) cs else findAllFieldsAux none cs
      if 1 < acc.length then ⟨acc.reverse⟩ :: rest else rest

/-- The call `regexpFieldInRaw.FindAllString(s, -1)` with the expression
`\.[a-zA-Z0-9_]+` (builder.go:56): the successive leftmost, greedy matches. -/
def findAllFields (s : String) : List String := findAllFieldsAux none s.data

/-- The call `fmt.Sprintf` with the format `"%s"` in double quotes. -/
def quoted (s : String) : String := "\"" ++ s ++ "\""

/-! ## builder.go: the builder and its constants -/

/-- Builder flag `FlagHasModificationFields = 1 << 1`. -/
def FlagHasModificationFields : Nat := 2
/-- Field flag `FieldFlagUnique = 1 << 1`. -/
def FieldFlagUnique : Nat := 2
/-- Field flag `FieldFlagNotString = 1 << 2`. -/
def FieldFlagNotString : Nat := 4
/-- Field flag `FieldFlagPassword = 1 << 3`. -/
def FieldFlagPassword : Nat := 8

/-- The struct `Builder` (builder.go:10). -/
structure Builder where
  tagName : String := ""
  flags : Nat := 0
  queryCreateTable : String := ""
  queryDropTable : String := ""
  queryInsert : String := ""
  queryUpdateById : String := ""
  queryInsertOnConflictUpdate : String := ""
  querySelectById : String := ""
  queryDeleteById : String := ""
  querySelectPrefix : String := ""
  querySelectCountPrefix : String := ""
  queryDeletePrefix : String := ""
  queryUpdatePrefix : String := ""
  tableName : String := ""
  fieldColumnName : GoMap String := []
  columnFieldName : GoMap String := []
  fieldFlags : GoMap Nat := []
  fieldColumnType : GoMap String := []
  fieldDefault : GoMap String := []
  columnDefinitions : List String := []
  columnNames : List String := []
  reflectError : Option GoError := none
  deriving DecidableEq, Repr

/-- Indexing `b.fieldFlags[name]`: zero for a missing key. -/
def Builder.flagsOf (b : Builder) (name : String) : Nat :=
  (GoMap.get? b.fieldFlags name).getD 0

/-! ## builder_internal.go: dynamic clauses -/

/-- Body of the loop of `queryOrder` (builder_internal.go:269-287) over the remaining
elements of `order`; reading `order[i+1]` past the end panics. -/
def queryOrderLoop (b : Builder) : List String → String → Go (String × Option GoError)
  | [], qOrder => pure (qOrder, none)
  | [_], _ => throw .indexOutOfRange
  | field :: direction :: rest, qOrder =>
    match GoMap.get? b.fieldColumnName field with
    | none => pure ("", some (.ErrBuilder "queryOrder" "" (.errorsNew "invalid order field/column")))
    | some fieldColumn =>
      let queryDirection := if direction = "desc" then "DESC" else "ASC"
      queryOrderLoop b rest (qOrder ++ "," ++ quoted fieldColumn ++ " " ++ queryDirection)

/-- The method `queryOrder` (builder_internal.go:263). -/
def queryOrder (b : Builder) (order : List String) : Go (String × Option GoError) :=
  if order.length = 0 then pure ("", none)
  else do
    let r ← queryOrderLoop b order ""
    match r with
    | (_, some err) => pure ("", some err)
    | (qOrder, none) =>
      if qOrder = "" then pure (qOrder, none) else pure (sliceFrom qOrder 1, none)

/-- The method `queryLimitOffset` (builder_internal.go:296). -/
def queryLimitOffset (limit : Int) (offset : Int) : String :=
  if limit = 0 then ""
  else if offset > 0 then "LIMIT " ++ fmtInt limit ++ " OFFSET " ++ fmtInt offset
  else "LIMIT " ++ fmtInt limit

/-- First loop of `querySet` (builder_internal.go:314-324): the column of every key, or
`none` when a key is not a field. -/
def querySetColumns (b : Builder) : List String → Option (List String)
  | [] => some []
  | value :: rest =>
    match GoMap.get? b.fieldColumnName value with
    | none => none
    | some fieldColumn => (querySetColumns b rest).map (fun cs => fieldColumn :: cs)

/-- Second loop of `querySet` (builder_internal.go:333-336), `i` being the loop counter. -/
def querySetAssign : List String → Nat → String → String
  | [], _, querySet => querySet
  | column :: rest, i, querySet =>
    querySetAssign rest (i + 1) (querySet ++ "," ++ quoted column ++ "=$" ++ fmtInt i)

/-- The method `querySet` (builder_internal.go:308). -/
def querySet (b : Builder) (values : GoMap GoValue) : String × Nat × Option GoError :=
  if GoMap.len values = 0 then ("", 0, none)
  else
    match querySetColumns b (GoMap.keys values) with
    | none => ("", 0, some (.ErrBuilder "querySet" "" (.errorsNew "invalid field/column to set")))
    | some columns =>
      let numColumn := columns.length
      if numColumn = 0 then ("", 0, none)
      else
        let columns := sortStrings columns
        (sliceFrom (querySetAssign columns 1 "") 1, numColumn, none)

/-- One rendered condition of `queryFilters` with its leading ` AND `
(builder_internal.go:369-396). -/
def filterCondition (b : Builder) (filters : Filters) (name : String) (fieldColumn : String)
    (valueNum : Int) : String :=
  let op := (filters.at name).Op
  let fieldColumn :=
    if b.flagsOf name &&& FieldFlagNotString > 0 ∧ (op = OpLike ∨ op = OpMatch) then
      "CAST(" ++ quoted fieldColumn ++ " AS TEXT)"
    else quoted fieldColumn
  if op = OpLike then " AND " ++ fieldColumn ++ " LIKE $" ++ fmtInt valueNum
  else if op = OpMatch then " AND " ++ fieldColumn ++ " ~ $" ++ fmtInt valueNum
  else if op = OpNotEqual then " AND " ++ fieldColumn ++ "!=$" ++ fmtInt valueNum
  else if op = OpGreater then " AND " ++ fieldColumn ++ ">$" ++ fmtInt valueNum
  else if op = OpLower then " AND " ++ fieldColumn ++ "<$" ++ fmtInt valueNum
  else if op = OpGreaterOrEqual then " AND " ++ fieldColumn ++ ">=$" ++ fmtInt valueNum
  else if op = OpLowerOrEqual then " AND " ++ fieldColumn ++ "<=$" ++ fmtInt valueNum
  else if op = OpBit then " AND " ++ fieldColumn ++ "&$" ++ fmtInt valueNum ++ ">0"
  else " AND " ++ fieldColumn ++ "=$" ++ fmtInt valueNum

/-- The error of `queryFilters` for an unknown filter key. -/
def errInvalidFilter : GoError :=
  .ErrBuilder "queryFilters" "" (.errorsNew "invalid field/column to filter")

/-- The error of `queryFilters` for an unknown reference in the raw template. -/
def errInvalidRaw : GoError :=
  .ErrBuilder "queryFilters" "" (.errorsNew "invalid field/column to filter in _raw")

/-- Loop over the sorted names in `queryFilters` (builder_internal.go:355-397), carrying
`queryWhere` and `valueNum`; the error side is the early `return "", err`. -/
def queryFiltersLoop (b : Builder) (filters : Filters) :
    List String → String → Int → Except GoError (String × Int)
  | [], queryWhere, valueNum => .ok (queryWhere, valueNum)
  | name :: rest, queryWhere, valueNum =>
    if name = Raw then queryFiltersLoop b filters rest queryWhere valueNum
    else
      match GoMap.get? b.fieldColumnName name with
      | none => .error errInvalidFilter
      | some fieldColumn =>
        queryFiltersLoop b filters rest
          (queryWhere ++ filterCondition b filters name fieldColumn valueNum)
          (wrapInt64 (valueNum + 1))

/-- Loop over the references found in the raw template (builder_internal.go:429-446),
carrying the set `alreadyReplaced` and `rawQuery`. -/
def queryFiltersFields (b : Builder) :
    List String → List String → String → Except GoError String
  | [], _, rawQuery => .ok rawQuery
  | fieldInRaw :: rest, alreadyReplaced, rawQuery =>
    if fieldInRaw ∈ alreadyReplaced then queryFiltersFields b rest alreadyReplaced rawQuery
    else
      let fieldName := replaceFirst fieldInRaw "." ""
      match GoMap.get? b.fieldColumnName fieldName with
      | none => .error errInvalidRaw
      | some fieldColumn =>
        queryFiltersFields b rest (fieldInRaw :: alreadyReplaced)
          (replaceAll rawQuery fieldInRaw (quoted fieldColumn))

/-- Inner loop building the placeholders of a sequence argument
(builder_internal.go:460-469): `k` elements are done, `n` remain. -/
def queryFiltersSeq : Nat → Nat → String → Int → String × Int
  | _, 0, queryVal, valueNum => (queryVal, valueNum)
  | k, n + 1, queryVal, valueNum =>
    if k = 0 then
      queryFiltersSeq (k + 1) n (queryVal ++ "$" ++ fmtInt valueNum) (wrapInt64 (valueNum + 1))
    else
      queryFiltersSeq (k + 1) n (queryVal ++ ",$" ++ fmtInt valueNum) (wrapInt64 (valueNum + 1))

/-- Loop over the raw arguments (builder_internal.go:449-471), carrying `rawQuery` and
`valueNum`. -/
def queryFiltersArgs : List Arg → String → Int → Go (String × Int)
  | [], rawQuery, valueNum => pure (rawQuery, valueNum)
  | arg :: rest, rawQuery, valueNum =>
    match arg.kind? with
    | none => throw .nilDereference
    | some .NotSeq =>
      queryFiltersArgs rest (replaceFirst rawQuery "?" ("$" ++ fmtInt valueNum))
        (wrapInt64 (valueNum + 1))
    | some _ =>
      let r := queryFiltersSeq 0 arg.len "" valueNum
      queryFiltersArgs rest (replaceFirst rawQuery "?" r.1) r.2

/-- The part of `queryFilters` under the comment `// _raw` (builder_internal.go:403-475):
`queryWhere` and `valueNum` are the variables left by the loop over the names. -/
def queryFiltersRaw (b : Builder) (filters : Filters) (queryWhere : String) (valueNum : Int) :
    Go ((String × Option GoError) × Int) :=
  match GoMap.get? filters Raw with
  | none => pure ((queryWhere, none), valueNum)
  | some rawQueryArr => do
    let rawList ← rawQueryArr.Val.asIfaces
    match rawList with
    | [] => pure ((queryWhere, none), valueNum)
    | first :: args => do
      let rawQuery ← first.asString
      if rawQuery = "" then pure ((queryWhere, none), valueNum)
      else
        let queryWhere :=
          if queryWhere ≠ "" then
            let conjunction := rawQueryArr.Op
            if conjunction ≠ OpOR then "(" ++ queryWhere ++ ")" ++ " AND "
            else "(" ++ queryWhere ++ ")" ++ " OR "
          else queryWhere
        let queryWhere := queryWhere ++ "("
        let fieldsInRaw := findAllFields rawQuery
        match queryFiltersFields b fieldsInRaw [] rawQuery with
        | .error err => pure (("", some err), valueNum)
        | .ok rawQuery => do
          let r ← queryFiltersArgs args rawQuery valueNum
          pure ((queryWhere ++ r.1 ++ ")", none), r.2)

/-- The method `queryFilters` (builder_internal.go:341) together with the final value of
its counter `valueNum`, which the source keeps in a local variable. -/
def queryFiltersNum (b : Builder) (filters : Option Filters) (firstValueNum : Int) :
    Go ((String × Option GoError) × Int) :=
  match filters with
  | none => pure (("", none), firstValueNum)
  | some filters =>
    if GoMap.len filters = 0 then pure (("", none), firstValueNum)
    else
      let sortedNames := sortStrings (GoMap.keys filters)
      match queryFiltersLoop b filters sortedNames "" firstValueNum with
      | .error err => pure (("", some err), firstValueNum)
      | .ok (queryWhere, valueNum) =>
        let queryWhere := if queryWhere ≠ "" then sliceFrom queryWhere 5 else queryWhere
        queryFiltersRaw b filters queryWhere valueNum

/-- The method `queryFilters` (builder_internal.go:341). -/
def queryFilters (b : Builder) (filters : Option Filters) (firstValueNum : Int) :
    Go (String × Option GoError) :=
  (queryFiltersNum b filters firstValueNum).map Prod.fst

/-! ## builder.go: the dynamic query methods -/

/-- Wrapping of an inner error: `&ErrBuilder{Op: op, Err: err}`. -/
def wrapErr (op : String) (err : GoError) : GoError := .ErrBuilder op "" err

/-- The method `Select` (builder.go:120). -/
def Select (b : Builder) (order : List String) (limit : Int) (offset : Int)
    (filters : Option Filters) : Go (String × Option GoError) := do
  let query := b.querySelectPrefix
  let rOrder ← queryOrder b order
  match rOrder with
  | (_, some err) => pure ("", some (wrapErr "Select" err))
  | (qOrder, none) =>
    let qLimitOffset := queryLimitOffset limit offset
    let rWhere ← queryFilters b filters 1
    match rWhere with
    | (_, some err) => pure ("", some (wrapErr "Select" err))
    | (qWhere, none) =>
      let query := if qWhere ≠ "" then query ++ " WHERE " ++ qWhere else query
      let query := if qOrder ≠ "" then query ++ " ORDER BY " ++ qOrder else query
      let query := if qLimitOffset ≠ "" then query ++ " " ++ qLimitOffset else query
      pure (query ++ ";", none)

/-- The method `SelectCount` (builder.go:155). -/
def SelectCount (b : Builder) (filters : Option Filters) : Go (String × Option GoError) := do
  let query := b.querySelectCountPrefix
  let rWhere ← queryFilters b filters 1
  match rWhere with
  | (_, some err) => pure ("", some (wrapErr "SelectCount" err))
  | (qWhere, none) =>
    let query := if qWhere ≠ "" then query ++ " WHERE " ++ qWhere else query
    pure (query ++ ";", none)

/-- The method `Delete` (builder.go:175). -/
def Delete (b : Builder) (filters : Option Filters) : Go (String × Option GoError) := do
  let query := b.queryDeletePrefix
  let rWhere ← queryFilters b filters 1
  match rWhere with
  | (_, some err) => pure ("", some (wrapErr "Delete" err))
  | (qWhere, none) =>
    let query := if qWhere ≠ "" then query ++ " WHERE " ++ qWhere else query
    pure (query ++ ";", none)

/-- The method `DeleteReturningId` (builder.go:195); the column is read from the map
under the key `"Id"`, a missing key giving the empty string. -/
def DeleteReturningId (b : Builder) (filters : Option Filters) :
    Go (String × Option GoError) := do
  let query := b.queryDeletePrefix
  let rWhere ← queryFilters b filters 1
  match rWhere with
  | (_, some err) => pure ("", some (wrapErr "Delete" err))
  | (qWhere, none) =>
    let query := if qWhere ≠ "" then query ++ " WHERE " ++ qWhere else query
    let query := query ++ " RETURNING " ++ quoted ((GoMap.get? b.fieldColumnName "Id").getD "")
      ++ ";"
    pure (query, none)

/-- The method `Update` (builder.go:216). -/
def Update (b : Builder) (values : GoMap GoValue) (filters : Option Filters) :
    Go (String × Option GoError) := do
  let query := b.queryUpdatePrefix
  match querySet b values with
  | (_, _, some err) => pure ("", some (wrapErr "Update" err))
  | (qSet, lastVarNumber, none) =>
    let query := query ++ " " ++ qSet
    let rWhere ← queryFilters b filters ((lastVarNumber : Int) + 1)
    match rWhere with
    | (_, some err) => pure ("", some (wrapErr "Update" err))
    | (qWhere, none) =>
      let query := if qWhere ≠ "" then query ++ " WHERE " ++ qWhere else query
      pure (query ++ ";", none)

/-! ## filters.go, funcs.go: the value lists -/

/-- The fourteen type assertions of `Interfaces` (filters.go:65-161): the element types
whose slices are expanded. -/
def ElemType.expanded : ElemType → Bool
  | .int8 | .int16 | .int32 | .int64 | .int => true
  | .uint8 | .uint16 | .uint32 | .uint64 | .uint => true
  | .float32 | .float64 | .bool | .string => true
  | .iface | .other _ => false

/-- What one raw argument of sequence kind appends in `Interfaces`: the elements of a
slice of an expanded element type, nothing for every other sequence. -/
def interfacesOfSeq : Arg → List GoValue
  | .slice t xs => if t.expanded then xs.map (fun x => GoValue.item (.scalar x)) else []
  | _ => []

/-- Loop of `Interfaces` over the raw arguments (filters.go:56-162). -/
def interfacesArgs : List Arg → List GoValue → Go (List GoValue)
  | [], interfaces => pure interfaces
  | arg :: rest, interfaces =>
    match arg.kind? with
    | none => throw .nilDereference
    | some .NotSeq => interfacesArgs rest (interfaces ++ [GoValue.item arg])
    | some _ => interfacesArgs rest (interfaces ++ interfacesOfSeq arg)

/-- The function `Interfaces` (filters.go:19). -/
def Interfaces (filters : Option Filters) : Go (List GoValue) :=
  match filters with
  | none => pure []
  | some filters =>
    if GoMap.len filters = 0 then pure []
    else
      let sorted := sortStrings ((GoMap.keys filters).filter (fun k => decide (k ≠ Raw)))
      let interfaces := sorted.map (fun filter => (filters.at filter).Val)
      match GoMap.get? filters Raw with
      | none => pure interfaces
      | some rawFilters =>
        match rawFilters.Val.kind? with
        | none => throw .nilDereference
        | some .NotSeq => pure interfaces
        | some _ =>
          if rawFilters.Val.len < 2 then pure interfaces
          else do
            let rawList ← rawFilters.Val.asIfaces
            interfacesArgs (rawList.drop 1) interfaces

/-- The function `MapInterface` (funcs.go:158): a missing key cannot occur, the keys
being those of the map. -/
def MapInterface (mapObj : GoMap GoValue) : List GoValue :=
  (sortStrings (GoMap.keys mapObj)).map
    (fun val => (GoMap.get? mapObj val).getD (.item .nil))

/-! ## funcs.go and builder_internal.go: reflection of the struct -/

/-- The kinds of `reflect.Kind`. -/
inductive ReflectKind where
  | Invalid | Bool | Int | Int8 | Int16 | Int32 | Int64
  | Uint | Uint8 | Uint16 | Uint32 | Uint64 | Uintptr
  | Float32 | Float64 | Complex64 | Complex128
  | Array | Chan | Func | Interface | Map | Pointer | Slice | String | Struct | UnsafePointer
  deriving DecidableEq, Repr

/-- The function `IsFieldKindSupported` (funcs.go:15). -/
def IsFieldKindSupported : ReflectKind → Bool
  | .Int | .Int8 | .Int16 | .Int32 | .Int64 => true
  | .Uint | .Uint8 | .Uint16 | .Uint32 | .Uint64 => true
  | .String | .Bool => true
  | .Float32 | .Float64 => true
  | _ => false

/-- What the package reads of a `reflect.StructField`: its name, `Type.Kind()`,
`Type.String()` and its tag as key-value pairs. -/
structure StructField where
  Name : String
  Kind : ReflectKind
  TypeString : String
  Tag : GoMap String := []
  deriving DecidableEq, Repr

/-- The method `Tag.Get`: the empty string for a missing key. -/
def StructField.tagGet (f : StructField) (key : String) : String :=
  (GoMap.get? f.Tag key).getD ""

/-- What the package reads of the struct type of `obj`: `Name()` and the fields in
declaration order. -/
structure StructType where
  Name : String
  Fields : List StructField
  deriving DecidableEq, Repr

/-- The struct `Options` (options.go). -/
structure Options where
  TableNamePrefix : String := ""
  StructName : String := ""
  TagName : String := ""
  deriving DecidableEq, Repr

/-- Worker of `splitOn`. -/
def splitOnChars (sep : Char) : List Char → List (List Char)
  | [] => [[]]
  | c :: cs =>
    if c = sep then [] :: splitOnChars sep cs
    else
      match splitOnChars sep cs with
      | [] => [[c]]
      | h :: t => (c :: h) :: t

/-- The call `strings.Split(s, sep)` for a separator of one character. -/
def splitOn (s : String) (sep : Char) : List String :=
  (splitOnChars sep s.data).map String.mk

/-- The call `strings.ToUpper`, on ASCII letters.  The only outcomes the package tests
are ASCII words without `I` and `S`, the two letters some non-ASCII letter is mapped
to by Unicode upper-casing, so the tests decide alike. -/
def toUpper (s : String) : String := ⟨s.data.map Char.toUpper⟩

/-- The tail `\([0-9]+\)$` of the type expression. -/
def isParenDigits (cs : List Char) : Bool :=
  match cs with
  | '(' :: rest =>
    match rest.reverse with
    | ')' :: revDigits => !revDigits.isEmpty && revDigits.all Char.isDigit
    | _ => false
  | _ => false

/-- The call `regexp.MatchString` with the expression
`^(VARCHAR|CHARACTER VARYING|BPCHAR|CHAR|CHARACTER)\([0-9]+\)$` (builder_internal.go:192). -/
def matchesSizedType (s : String) : Bool :=
  ["VARCHAR", "CHARACTER VARYING", "BPCHAR", "CHAR", "CHARACTER"].any
    (fun name => name.data.isPrefixOf s.data && isParenDigits (s.data.drop name.data.length))

/-- The method `setFieldFromTagOptWithoutVal` (builder_internal.go:171). -/
def setFieldFromTagOptWithoutVal (b : Builder) (opt : String) (fieldName : String) : Builder :=
  if opt = "uniq" ∧ b.flagsOf fieldName &&& FieldFlagUnique = 0 then
    { b with fieldFlags := GoMap.set b.fieldFlags fieldName (b.flagsOf fieldName + FieldFlagUnique) }
  else if opt = "pass" ∧ b.flagsOf fieldName &&& FieldFlagPassword = 0 then
    { b with fieldFlags := GoMap.set b.fieldFlags fieldName (b.flagsOf fieldName + FieldFlagPassword) }
  else if ¬ ("type:".data.isPrefixOf opt.data) then b
  else
    let typeArr := splitOn opt ':'
    let typeUpperCase := toUpper (typeArr.getD 1 "")
    if typeUpperCase = "TEXT" ∨ typeUpperCase = "BPCHAR" then
      { b with fieldColumnType := GoMap.set b.fieldColumnType fieldName typeUpperCase }
    else if matchesSizedType typeUpperCase then
      { b with fieldColumnType := GoMap.set b.fieldColumnType fieldName typeUpperCase }
    else b

/-- The method `setFieldFromTag` (builder_internal.go:164). -/
def setFieldFromTag (b : Builder) (tag : String) (fieldName : String) : Builder :=
  (splitOn tag ' ').foldl (fun b opt => setFieldFromTagOptWithoutVal b opt fieldName) b

/-- The method `initMaps` (builder_internal.go:12). -/
def initMaps (b : Builder) : Builder :=
  { b with fieldColumnName := [], columnFieldName := [], fieldFlags := [],
           fieldColumnType := [], fieldDefault := [], columnDefinitions := [],
           columnNames := [] }

/-- Loop of `reflectFieldTags` (builder_internal.go:34-57). -/
def reflectFieldTagsLoop : List StructField → Builder → Builder
  | [], b => b
  | field :: rest, b =>
    if ¬ IsFieldKindSupported field.Kind then reflectFieldTagsLoop rest b
    else
      let tagValue := field.tagGet b.tagName
      let valTagValue := field.tagGet (b.tagName ++ "_val")
      let b := setFieldFromTag b tagValue field.Name
      if b.reflectError ≠ none then b
      else
        let b := if valTagValue ≠ "" then
            { b with fieldDefault := GoMap.set b.fieldDefault field.Name valTagValue }
          else b
        reflectFieldTagsLoop rest b

/-- The method `reflectFieldTags` (builder_internal.go:27), for `obj` a struct or a
pointer to a struct of type `obj`. -/
def reflectFieldTags (b : Builder) (obj : StructType) : Builder :=
  reflectFieldTagsLoop obj.Fields (initMaps b)

/-- The method `columnDefinitionFromField` (builder_internal.go:200). -/
def columnDefinitionFromField (b : Builder) (fieldName : String) (fieldType : String)
    (isUnique : Bool) : String :=
  if fieldName = "Id" then "SERIAL PRIMARY KEY"
  else if fieldName = "Flags" then "BIGINT NOT NULL DEFAULT 0"
  else
    match GoMap.get? b.fieldColumnType fieldName with
    | some fieldColumnType =>
      if fieldColumnType ≠ "" then
        let definition := fieldColumnType ++ " NOT NULL DEFAULT ''"
        if isUnique then definition ++ " UNIQUE" else definition
      else columnDefinitionDefault fieldType isUnique
    | none => columnDefinitionDefault fieldType isUnique
where
  /-- The `switch fieldType` with what follows it (builder_internal.go:221-256). -/
  columnDefinitionDefault (fieldType : String) (isUnique : Bool) : String :=
    let definition :=
      if fieldType = "string" then "VARCHAR(255) NOT NULL DEFAULT ''"
      else if fieldType = "bool" then "BOOLEAN NOT NULL DEFAULT false"
      else if fieldType = "int64" then "BIGINT NOT NULL DEFAULT 0"
      else if fieldType = "int32" then "INTEGER NOT NULL DEFAULT 0"
      else if fieldType = "int16" then "SMALLINT NOT NULL DEFAULT 0"
      else if fieldType = "int8" then "SMALLINT NOT NULL DEFAULT 0"
      else if fieldType = "int" then "BIGINT NOT NULL DEFAULT 0"
      else if fieldType = "uint64" then "BIGINT NOT NULL DEFAULT 0"
      else if fieldType = "uint32" then "INTEGER NOT NULL DEFAULT 0"
      else if fieldType = "uint16" then "SMALLINT NOT NULL DEFAULT 0"
      else if fieldType = "uint8" then "SMALLINT NOT NULL DEFAULT 0"
      else if fieldType = "uint" then "BIGINT NOT NULL DEFAULT 0"
      else "VARCHAR(255) NOT NULL DEFAULT ''"
    if isUnique then definition ++ " UNIQUE" else definition

/-- The method `isFieldModification` (builder_internal.go:259). -/
def isFieldModification (name : String) (typeKind : ReflectKind) : Bool :=
  (name = "CreatedAt" ∨ name = "CreatedBy" ∨ name = "ModifiedAt" ∨ name = "ModifiedBy")
    ∧ typeKind = .Int64

/-- Loop over the fields in `reflectBuildQueries` (builder_internal.go:88-120), carrying
the builder and the counter `modificationFields`.  The helper `CamelCaseToSnakeCase` is
called by the source but defined in none of its files; it is a parameter. -/
def reflectColumnsLoop (CamelCaseToSnakeCase : String → String) :
    List StructField → Builder → Nat → Builder × Nat
  | [], b, modificationFields => (b, modificationFields)
  | field :: rest, b, modificationFields =>
    let fieldTypeKind := field.Kind
    if ¬ IsFieldKindSupported fieldTypeKind then
      reflectColumnsLoop CamelCaseToSnakeCase rest b modificationFields
    else
      let b :=
        if fieldTypeKind ≠ .String ∧ b.flagsOf field.Name &&& FieldFlagNotString = 0 then
          { b with fieldFlags :=
              GoMap.set b.fieldFlags field.Name (b.flagsOf field.Name + FieldFlagNotString) }
        else b
      let columnName := CamelCaseToSnakeCase field.Name
      let b := { b with fieldColumnName := GoMap.set b.fieldColumnName field.Name columnName,
                        columnFieldName := GoMap.set b.columnFieldName columnName field.Name }
      let unique : Bool := b.flagsOf field.Name &&& FieldFlagUnique > 0
      let columnDefinition := columnDefinitionFromField b field.Name field.TypeString unique
      let b := { b with
        columnDefinitions := b.columnDefinitions ++ [quoted columnName ++ " " ++ columnDefinition],
        columnNames := b.columnNames ++ [quoted columnName] }
      let modificationFields :=
        if isFieldModification field.Name fieldTypeKind then modificationFields + 1
        else modificationFields
      reflectColumnsLoop CamelCaseToSnakeCase rest b modificationFields

/-- The numbering loop of `reflectBuildQueries` (builder_internal.go:135-141): `n` rounds
remain, `i` is the loop counter; the triple is `columnNamesWithValues`, `valuesWithoutId`,
`columnNamesWithValuesAgain`. -/
def numberLoop (numColumn : Nat) : Nat → Nat → String × String × String →
    String × String × String
  | 0, _, acc => acc
  | n + 1, i, (columnNamesWithValues, valuesWithoutId, columnNamesWithValuesAgain) =>
    let d := "$" ++ fmtInt i
    numberLoop numColumn n (i + 1)
      (replaceFirst columnNamesWithValues "?" d,
       replaceFirst valuesWithoutId "?" d,
       if i > numColumn then replaceFirst columnNamesWithValuesAgain "?" d
       else columnNamesWithValuesAgain)

/-- The method `reflectBuildQueries` (builder_internal.go:60), for `obj` a struct or a
pointer to a struct (the branch for a `reflect.Value` argument is left out).  Slicing
`columnNames[1:]` of an empty list and `strings.Repeat` with a negative count panic. -/
def reflectBuildQueries (CamelCaseToSnakeCase : String → String) (b : Builder)
    (obj : StructType) (tableNamePrefix : String) : Go Builder :=
  let objTypeName := obj.Name
  let objTypeName :=
    if objTypeName.data.contains '_' then (splitOn objTypeName '_').getD 0 "" else objTypeName
  let b := { b with tableName := quoted (tableNamePrefix ++ CamelCaseToSnakeCase objTypeName) }
  let r := reflectColumnsLoop CamelCaseToSnakeCase obj.Fields b 0
  let b := r.1
  let modificationFields := r.2
  let b :=
    if modificationFields = 4 ∧ b.flags &&& FlagHasModificationFields = 0 then
      { b with flags := b.flags + FlagHasModificationFields }
    else b
  let numColumn := b.columnNames.length
  if numColumn < 1 then throw .sliceBounds
  else if numColumn < 2 then throw .negativeRepeat
  else
    let columnNamesWithoutId := ",".intercalate (b.columnNames.drop 1)
    let columnNames := ",".intercalate b.columnNames
    let valuesWithoutId := "?" ++ String.join (List.replicate (numColumn - 2) ",?")
    let columnNamesWithValues := "=?,".intercalate (b.columnNames.drop 1) ++ "=?"
    let columnNamesWithValuesAgain := columnNamesWithValues
    let n := numberLoop numColumn (numColumn * 2) 1
      (columnNamesWithValues, valuesWithoutId, columnNamesWithValuesAgain)
    let columnNamesWithValues := n.1
    let valuesWithoutId := n.2.1
    let columnNamesWithValuesAgain := n.2.2
    let values := valuesWithoutId ++ ",$" ++ fmtInt numColumn
    let idColumn := "\"id\""
    pure { b with
      queryDropTable := "DROP TABLE IF EXISTS " ++ b.tableName
      queryCreateTable := "CREATE TABLE IF NOT EXISTS " ++ b.tableName ++ " ("
        ++ ",".intercalate b.columnDefinitions ++ ")"
      queryDeleteById := "DELETE FROM " ++ b.tableName ++ " WHERE " ++ idColumn ++ " = $1"
      queryDeletePrefix := "DELETE FROM " ++ b.tableName
      queryUpdateById := "UPDATE " ++ b.tableName ++ " SET " ++ columnNamesWithValues
        ++ " WHERE " ++ idColumn ++ " = $" ++ fmtInt numColumn
      queryUpdatePrefix := "UPDATE " ++ b.tableName ++ " SET"
      queryInsert := "INSERT INTO " ++ b.tableName ++ "(" ++ columnNamesWithoutId
        ++ ") VALUES (" ++ valuesWithoutId ++ ") RETURNING " ++ idColumn
      queryInsertOnConflictUpdate := "INSERT INTO " ++ b.tableName ++ "(" ++ columnNames
        ++ ") VALUES (" ++ values ++ ") ON CONFLICT (" ++ idColumn ++ ") DO UPDATE SET "
        ++ columnNamesWithValuesAgain ++ " RETURNING " ++ idColumn
      querySelectById := "SELECT " ++ columnNames ++ " FROM " ++ b.tableName ++ " WHERE "
        ++ idColumn ++ " = $1"
      querySelectPrefix := "SELECT " ++ columnNames ++ " FROM " ++ b.tableName
      querySelectCountPrefix := "SELECT COUNT(*) AS cnt FROM " ++ b.tableName }

/-- The method `reflect` (builder_internal.go:22). -/
def Builder.reflect (CamelCaseToSnakeCase : String → String) (b : Builder) (obj : StructType)
    (tableNamePrefix : String) : Go Builder :=
  reflectBuildQueries CamelCaseToSnakeCase (reflectFieldTags b obj) obj tableNamePrefix

/-- The function `New` (builder.go:60). -/
def New (CamelCaseToSnakeCase : String → String) (obj : StructType) (options : Options) :
    Go Builder :=
  let builder : Builder := {}
  let builder := { builder with tagName := "sql" }
  let builder := if options.TagName ≠ "" then { builder with tagName := options.TagName }
    else builder
  builder.reflect CamelCaseToSnakeCase obj options.TableNamePrefix

/-- The method `Err` (builder.go:73). -/
def Builder.Err (b : Builder) : Option GoError := b.reflectError

/-- The method `DropTable` (builder.go:83). -/
def Builder.DropTable (b : Builder) : String := b.queryDropTable ++ ";"

/-- The method `CreateTable` (builder.go:88). -/
def Builder.CreateTable (b : Builder) : String := b.queryCreateTable ++ ";"

/-- The method `Insert` (builder.go:93). -/
def Builder.Insert (b : Builder) : String := b.queryInsert ++ ";"

/-- The method `UpdateById` (builder.go:98). -/
def Builder.UpdateById (b : Builder) : String := b.queryUpdateById ++ ";"

/-- The method `InsertOnConflictUpdate` (builder.go:103). -/
def Builder.InsertOnConflictUpdate (b : Builder) : String := b.queryInsertOnConflictUpdate ++ ";"

/-- The method `SelectById` (builder.go:108). -/
def Builder.SelectById (b : Builder) : String := b.querySelectById ++ ";"

/-- The method `DeleteById` (builder.go:113). -/
def Builder.DeleteById (b : Builder) : String := b.queryDeleteById ++ ";"

/-- Loop of `FieldToColumn` (funcs.go:109-129): `first` tells whether the index is 0,
`prev` and `o` are the variables of the source.  Letter case is decided on ASCII letters. -/
def fieldToColumnLoop : List Char → Bool → Char → String → String
  | [], _, _, o => o
  | ch :: rest, first, prev, o =>
    if first then fieldToColumnLoop rest false ch (o ++ String.singleton ch.toLower)
    else if ch.isUpper then
      if prev = 'I' ∧ ch = 'D' then
        fieldToColumnLoop rest false prev (o ++ String.singleton ch.toLower)
      else fieldToColumnLoop rest false ch (o ++ "_" ++ String.singleton ch.toLower)
    else fieldToColumnLoop rest false ch (o ++ String.singleton ch)

/-- The function `FieldToColumn` (funcs.go:101). -/
def FieldToColumn (s : String) : String :=
  if s = "ID" then "id" else fieldToColumnLoop s.data true (Char.ofNat 0) ""

/-- The struct `TestStruct` of builder_test.go:7. -/
def testStruct : StructType :=
  { Name := "TestStruct"
    Fields := [
      { Name := "ID", Kind := .Int64, TypeString := "int64", Tag := [("json", "id")] },
      { Name := "Flags", Kind := .Int64, TypeString := "int64", Tag := [("json", "flags")] },
      { Name := "PrimaryEmail", Kind := .String, TypeString := "string", Tag := [("json", "email")] },
      { Name := "EmailSecondary", Kind := .String, TypeString := "string", Tag := [("json", "email2")] },
      { Name := "FirstName", Kind := .String, TypeString := "string", Tag := [("json", "first_name")] },
      { Name := "LastName", Kind := .String, TypeString := "string", Tag := [("json", "last_name")] },
      { Name := "Age", Kind := .Int, TypeString := "int", Tag := [("json", "age")] },
      { Name := "Price", Kind := .Int, TypeString := "int", Tag := [("json", "price")] },
      { Name := "PostCode", Kind := .String, TypeString := "string", Tag := [("json", "post_code")] },
      { Name := "PostCode2", Kind := .String, TypeString := "string", Tag := [("json", "post_code2")] },
      { Name := "Password", Kind := .String, TypeString := "string", Tag := [("json", "password")] },
      { Name := "CreatedBy", Kind := .Int64, TypeString := "int64", Tag := [("json", "created_by")] },
      { Name := "Key", Kind := .String, TypeString := "string",
        Tag := [("json", "key"), ("sql", "uniq type:varchar(2000)")] } ] }


/-! ## Specification-side definitions -/

/-- The rendered column of a condition: the cast for a non-text field under `Like` or
`Match`, the double-quoted column otherwise. -/
def conditionColumn (b : Builder) (filters : Filters) (name : String) : String :=
  let op := (filters.at name).Op
  let fieldColumn := (GoMap.get? b.fieldColumnName name).getD ""
  if b.flagsOf name &&& FieldFlagNotString > 0 ∧ (op = OpLike ∨ op = OpMatch) then
    "CAST(" ++ quoted fieldColumn ++ " AS TEXT)"
  else quoted fieldColumn

/-- The operator text that stands between the column and the placeholder. -/
def conditionOperator (filters : Filters) (name : String) : String :=
  let op := (filters.at name).Op
  if op = OpLike then " LIKE "
  else if op = OpMatch then " ~ "
  else if op = OpNotEqual then "!="
  else if op = OpGreater then ">"
  else if op = OpLower then "<"
  else if op = OpGreaterOrEqual then ">="
  else if op = OpLowerOrEqual then "<="
  else if op = OpBit then "&"
  else "="

/-- The text that follows the placeholder: `>0` for `Bit`, nothing otherwise. -/
def conditionSuffix (filters : Filters) (name : String) : String :=
  let op := (filters.at name).Op
  if op = OpLike ∨ op = OpMatch ∨ op = OpNotEqual ∨ op = OpGreater ∨ op = OpLower
      ∨ op = OpGreaterOrEqual ∨ op = OpLowerOrEqual then ""
  else if op = OpBit then ">0"
  else ""

/-- One condition with placeholder number `n`: column, operator, `$n`, suffix. -/
def conditionText (b : Builder) (filters : Filters) (name : String) (n : Int) : String :=
  conditionColumn b filters name ++ conditionOperator filters name ++ "$" ++ fmtInt n
    ++ conditionSuffix filters name

/-- The conditions of `names` in the given order, the one at position `k` (from 0)
holding placeholder `s + k` in 64-bit arithmetic. -/
def conditionsOf (b : Builder) (filters : Filters) (names : List String) (s : Int) :
    List String :=
  names.enum.map (fun p => conditionText b filters p.2 (wrapInt64 (s + p.1)))

/-- Completion of a statement prefix with an optional WHERE clause and the final `;`. -/
def withWhere (queryPrefix : String) (qWhere : String) : String :=
  (if qWhere ≠ "" then queryPrefix ++ " WHERE " ++ qWhere else queryPrefix) ++ ";"


/-- Completion of the SELECT prefix: optional WHERE, ORDER BY and limit parts, then `;`. -/
def selectText (queryPrefix qWhere qOrder qLimitOffset : String) : String :=
  let query := if qWhere ≠ "" then queryPrefix ++ " WHERE " ++ qWhere else queryPrefix
  let query := if qOrder ≠ "" then query ++ " ORDER BY " ++ qOrder else query
  let query := if qLimitOffset ≠ "" then query ++ " " ++ qLimitOffset else query
  query ++ ";"

/-- The ordinary filter names in the order of the loop: the keys other than the raw
key, ascending. -/
def ordinaryNames (filters : Filters) : List String :=
  sortStrings ((GoMap.keys filters).filter (fun k => decide (k ≠ Raw)))

/-- Number of placeholders an argument takes: one for a scalar, the length for a
sequence. -/
def argWidth (a : Arg) : Nat :=
  match a.kind? with
  | some .NotSeq => 1
  | _ => a.len

/-- The numbers of the placeholders of an argument whose first number is `n`:
`n, n+1, ...` in 64-bit arithmetic. -/
def argNumbers (a : Arg) (n : Int) : List Int :=
  (List.range (argWidth a)).map (fun (j : Nat) => wrapInt64 (n + (j : Int)))

/-- A comma-joined run of placeholders. -/
def placeholderRun (nums : List Int) : String :=
  ",".intercalate (nums.map (fun v => "$" ++ fmtInt v))

/-- The numbers of the placeholders of successive arguments, the first argument
starting at `n`, every next one where the previous stopped. -/
def argsNumbers : List Arg → Int → List (List Int)
  | [], _ => []
  | a :: rest, n => argNumbers a n :: argsNumbers rest (wrapInt64 (n + argWidth a))

/-- One pass from the left over a text: the i-th `?` is replaced by the i-th
replacement; every other character, and every `?` beyond the replacements, is kept. -/
def fillMarks : List Char → List String → List Char
  | [], _ => []
  | c :: cs, [] => c :: cs
  | c :: cs, r :: rs =>
    if c = '?' then r.data ++ fillMarks cs rs else c :: fillMarks cs (r :: rs)

/-- The raw block: the template with its `?` filled by the runs of the arguments. -/
def rawBlock (template : String) (args : List Arg) (n : Int) : String :=
  ⟨fillMarks template.data ((argsNumbers args n).map placeholderRun)⟩

/-- Total number of placeholders of the arguments. -/
def argsWidth (args : List Arg) : Nat := (args.map argWidth).sum

/-- The ordinary block and the raw block put together: both in parentheses with ` OR `
for `OpOR` and ` AND ` otherwise when there are ordinary conditions, the raw block
alone in parentheses when there are none. -/
def joinBlocks (ordinary : String) (op : Int) (raw : String) : String :=
  if ordinary ≠ "" then
    "(" ++ ordinary ++ ")" ++ (if op = OpOR then " OR " else " AND ") ++ "(" ++ raw ++ ")"
  else "(" ++ raw ++ ")"

/-- The ordinary conditions of a filter set joined by ` AND `, numbered from `s`. -/
def ordinaryClause (b : Builder) (filters : Filters) (s : Int) : String :=
  " AND ".intercalate (conditionsOf b filters (ordinaryNames filters) s)

/-- Some key of the filter set other than the raw key is not a field. -/
def unknownFilterKey (b : Builder) (filters : Filters) : Prop :=
  ∃ name ∈ GoMap.keys filters, name ≠ Raw ∧ GoMap.get? b.fieldColumnName name = none

/-- The raw entry holds a list starting with a non-empty template, and some dotted
reference of the template is not a field. -/
def unknownRawReference (b : Builder) (filters : Filters) : Prop :=
  ∃ r t args, GoMap.get? filters Raw = some r ∧ r.Val = .ifaces (.scalar (.str t) :: args)
    ∧ t ≠ "" ∧ ∃ ref ∈ findAllFields t,
        GoMap.get? b.fieldColumnName (replaceFirst ref "." "") = none

/-- The filter set names an unknown field, as a key or in the raw template. -/
def filterError (b : Builder) : Option Filters → Prop
  | none => False
  | some filters => unknownFilterKey b filters ∨ unknownRawReference b filters

/-- The call returned a non-nil error. -/
def returnsError (res : Go (String × Option GoError)) : Prop :=
  ∃ txt e, res = .ok (txt, some e)

/-- The call returned a non-nil error together with the empty text. -/
def returnsErrorOnly (res : Go (String × Option GoError)) : Prop :=
  ∃ e, res = .ok ("", some e)

/-- The raw entry, if there is one, holds a `[]interface{}` list that is empty or starts
with a string followed by non-nil arguments. -/
def rawWellShaped : Option Filters → Bool
  | none => true
  | some filters =>
    match GoMap.get? filters Raw with
    | none => true
    | some r =>
      match r.Val with
      | .ifaces [] => true
      | .ifaces (.scalar (.str _) :: args) => args.all (fun a => decide (a ≠ Arg.nil))
      | _ => false

/-- The flat order list of (field, direction) pairs. -/
def flatOrder (pairs : List (String × String)) : List String :=
  (pairs.map (fun p => [p.1, p.2])).flatten

/-- The arguments that follow the template in the raw entry; none without raw entry. -/
def rawArguments (filters : Filters) : List Arg :=
  match GoMap.get? filters Raw with
  | none => []
  | some r =>
    match r.Val with
    | .ifaces (_ :: args) => args
    | _ => []

/-- An argument `Interfaces` takes over in full: a scalar, or a slice of one of the
fourteen element types it expands. -/
def argExpanded : Arg → Bool
  | .scalar _ => true
  | .slice t _ => t.expanded
  | _ => false

/-- The raw entry, if there is one, holds an empty list, or a non-empty template whose
references are all fields followed by arguments that `Interfaces` takes over in full. -/
def rawExpanded (b : Builder) (filters : Filters) : Bool :=
  match GoMap.get? filters Raw with
  | none => true
  | some r =>
    match r.Val with
    | .ifaces [] => true
    | .ifaces (.scalar (.str t) :: args) =>
      decide (t ≠ "") && (queryFiltersFields b (findAllFields t) [] t).toBool
        && args.all argExpanded
    | _ => false

/-- The values an argument stands for, in the order of its placeholders: the scalar
itself, or the elements of the slice. -/
def argValues : Arg → List GoValue
  | .scalar x => [.item (.scalar x)]
  | .slice _ xs => xs.map (fun x => GoValue.item (.scalar x))
  | _ => []

/-- The values of the ordinary filters in ascending order of field name, followed by
the values of the raw arguments in their order. -/
def expectedValues (filters : Filters) : List GoValue :=
  (ordinaryNames filters).map (fun name => (filters.at name).Val)
    ++ ((rawArguments filters).map argValues).flatten

/-! ## builder.go, funcs.go: further functions of the package -/

/-- The method `HasModificationFields` (builder.go:250). -/
def Builder.HasModificationFields (b : Builder) : Bool :=
  decide (b.flags &&& FlagHasModificationFields > 0)

/-- Loop of `ColumnToField` (funcs.go:139-145) over the parts, `result` being the
variable of the source.  Slicing `part[:1]` of the empty string panics.  The source
slices bytes; for a part that starts with an ASCII character the first byte is the
first character, which is what the model takes. -/
def columnToFieldLoop : List String → String → Go String
  | [], result => pure result
  | part :: rest, result =>
    if part = "id" then columnToFieldLoop rest (result ++ "ID")
    else
      match part.data with
      | [] => throw .sliceBounds
      | c :: cs => columnToFieldLoop rest (result ++ toUpper (String.singleton c) ++ ⟨cs⟩)

/-- The function `ColumnToField` (funcs.go:135). -/
def ColumnToField (s : String) : Go String :=
  columnToFieldLoop (splitOn s '_') ""

/-- A value `StructFieldValueFromString` returns as `interface{}`: an `int64`, a
`float64` (a rational number), a `bool` or a `string`. -/
inductive FieldValue where
  | int64 (v : Int)
  | float64 (v : ℚ)
  | bool (b : Bool)
  | string (s : String)
  deriving DecidableEq, Repr

/-- The call `intRegex.MatchString` with the expression `^-?\d+$` (funcs.go:12): an
optional `-`, then one or more ASCII digits, up to the end of the text. -/
def intRegexMatch (value : String) : Bool :=
  match value.data with
  | '-' :: digits => !digits.isEmpty && digits.all Char.isDigit
  | digits => !digits.isEmpty && digits.all Char.isDigit

/-- The call `floatRegex.MatchString` with the expression `^-?\d*\.\d+$` (funcs.go:13). -/
def floatRegexMatch (value : String) : Bool :=
  let body := match value.data with
    | '-' :: rest => rest
    | rest => rest
  match body.dropWhile Char.isDigit with
  | '.' :: fraction => !fraction.isEmpty && fraction.all Char.isDigit
  | _ => false

/-- The number a run of decimal digits stands for. -/
def decimalValue (digits : List Char) : Nat :=
  digits.foldl (fun acc c => acc * 10 + (c.toNat - '0'.toNat)) 0

/-- The number a text of digits with an optional leading `-` stands for. -/
def signedValue (value : String) : Int :=
  match value.data with
  | '-' :: digits => -((decimalValue digits : Nat) : Int)
  | digits => ((decimalValue digits : Nat) : Int)

/-- The call `strconv.ParseInt(value, 10, 64)` on a text that `intRegex` matches: the
number of the text, or `none` (the range error) when it does not fit in 64 bits. -/
def ParseInt (value : String) : Option Int :=
  let v := signedValue value
  if inInt64 v then some v else none

/-- The call `strings.ToLower`, on ASCII letters. -/
def toLower (s : String) : String := ⟨s.data.map Char.toLower⟩

/-- The call `strconv.ParseBool`: `none` stands for its syntax error. -/
def ParseBool (value : String) : Option Bool :=
  if value ∈ ["1", "t", "T", "TRUE", "true", "True"] then some true
  else if value ∈ ["0", "f", "F", "FALSE", "false", "False"] then some false
  else none

/-- Loop of `StructFieldValueFromString` (funcs.go:59-95) over the fields of the record.
The library call `strconv.ParseFloat(value, 64)` is a parameter, `none` standing for
its error. -/
def structFieldValueLoop (ParseFloat : String → Option ℚ) :
    List StructField → String → String → Bool × Option FieldValue
  | [], _, _ => (false, none)
  | field :: rest, name, value =>
    let kind := field.Kind
    if ¬ IsFieldKindSupported kind then structFieldValueLoop ParseFloat rest name value
    else if field.Name = name then
      match kind with
      | .Int | .Int8 | .Int16 | .Int32 | .Int64 =>
        if intRegexMatch value then
          match ParseInt value with
          | some v => (true, some (.int64 v))
          | none => (false, none)
        else (false, none)
      | .Float32 | .Float64 =>
        if floatRegexMatch value ∨ intRegexMatch value then
          match ParseFloat value with
          | some v => (true, some (.float64 v))
          | none => (false, none)
        else (false, none)
      | .Bool =>
        if toLower value = "true" ∨ toLower value = "false" then
          match ParseBool value with
          | some v => (true, some (.bool v))
          | none => (false, none)
        else (false, none)
      | .String => (true, some (.string value))
      | _ => (false, none)
    else structFieldValueLoop ParseFloat rest name value

/-- The function `StructFieldValueFromString` (funcs.go:54), for `obj` a struct or a
pointer to a struct of type `obj`. -/
def StructFieldValueFromString (ParseFloat : String → Option ℚ) (obj : StructType)
    (name : String) (value : String) : Bool × Option FieldValue :=
  structFieldValueLoop ParseFloat obj.Fields name value

/-! ## Concrete inputs -/

/-- The builder `New(testStructObj, Options{})` of the tests, the missing helper
`CamelCaseToSnakeCase` being `FieldToColumn`, which gives the column names the tests
expect; a faulting construction would give the empty builder. -/
def testBuilder : Builder :=
  match New FieldToColumn testStruct {} with
  | .ok b => b
  | .error _ => {}

/-- The filters of builder_test.go:113: `Price` and `PostCode2`, both `OpEqual`. -/
def twoFilters : Filters :=
  [("Price", { Op := OpEqual, Val := .item (.scalar (.int 4444)) }),
   ("PostCode2", { Op := OpEqual, Val := .item (.scalar (.str "11-111")) })]

/-- A filter on `Price` with a raw entry whose `Op` is left unset. -/
def unsetConjunctionFilters : Filters :=
  [("Price", { Op := OpEqual, Val := .item (.scalar (.int 4444)) }),
   (Raw, { Val := .ifaces [.scalar (.str ".Age=?"), .scalar (.int 18)] })]

/-- The filters of builder_test.go:185: `Price` and a raw entry declared `OpAND`. -/
def andRawFilters : Filters :=
  [("Price", { Op := OpEqual, Val := .item (.scalar (.int 4444)) }),
   (Raw, { Op := OpAND, Val := .ifaces [
      .scalar (.str ".Price=? OR .EmailSecondary=? OR .Age IN (?)"),
      .scalar (.int 0), .scalar (.int 0), .slice .int [.int 0, .int 0, .int 0]] })]

/-- The filters of builder_test.go:123: two ordinary filters and a raw entry declared
`OpOR` whose arguments mix scalars and sequences. -/
def orRawFilters : Filters :=
  [("Price", { Op := OpEqual, Val := .item (.scalar (.int 33)) }),
   ("PostCode2", { Op := OpEqual, Val := .item (.scalar (.str "11-111")) }),
   (Raw, { Op := OpOR, Val := .ifaces [
      .scalar (.str (".Price=? OR (.EmailSecondary=? AND .Age IN (?)) OR (.Age IN (?))"
        ++ " OR (.EmailSecondary IN (?))")),
      .scalar (.int 0), .scalar (.int 0),
      .slice .int [.int 0, .int 0, .int 0, .int 0],
      .slice .int [.int 0, .int 0, .int 0],
      .slice .int [.int 0, .int 0]] })]

/-- A raw entry naming `PostCode` before `PostCode2`, two fields of `TestStruct` one of
whose names is a prefix of the other. -/
def prefixRawFilters : Filters :=
  [(Raw, { Op := OpAND, Val := .ifaces [
      .scalar (.str ".PostCode=? OR .PostCode2=?"),
      .scalar (.str "11-111"), .scalar (.str "22-222")] })]

/-- A raw entry whose argument is the array `[2]int{18, 21}`. -/
def arrayRawFilters : Filters :=
  [(Raw, { Op := OpAND, Val := .ifaces [
      .scalar (.str ".Age IN (?)"), .array .int [.int 18, .int 21]] })]

/-- A raw entry whose argument is a slice `[]interface{}{18, 21}`. -/
def ifaceSliceRawFilters : Filters :=
  [(Raw, { Op := OpAND, Val := .ifaces [
      .scalar (.str ".Age IN (?)"), .slice .iface [.int 18, .int 21]] })]

/-- A raw entry with an empty template followed by one argument. -/
def emptyTemplateFilters : Filters :=
  [("Price", { Op := OpEqual, Val := .item (.scalar (.int 4444)) }),
   (Raw, { Op := OpAND, Val := .ifaces [.scalar (.str ""), .scalar (.int 5)] })]

/-- A record type with the fields `ID`, `UserID` and `UserIP`. -/
def userStruct : StructType :=
  { Name := "User"
    Fields := [
      { Name := "ID", Kind := .Int64, TypeString := "int64" },
      { Name := "UserID", Kind := .Int64, TypeString := "int64" },
      { Name := "UserIP", Kind := .String, TypeString := "string" } ] }

/-- The builder of `userStruct`, columns named by `FieldToColumn`. -/
def userBuilder : Builder :=
  match New FieldToColumn userStruct {} with
  | .ok b => b
  | .error _ => {}

/-- New values for `UserID` and `UserIP`. -/
def userValues : GoMap GoValue :=
  [("UserID", .item (.scalar (.int 7))), ("UserIP", .item (.scalar (.str "10.0.0.1")))]

/-- The raw-only filters of builder_test.go:204 and :220, `Op` unset. -/
def rawOnlyFilters : Filters :=
  [(Raw, { Val := .ifaces [
      .scalar (.str ".Price=? OR .EmailSecondary=? OR .Age IN (?)"),
      .scalar (.int 0), .scalar (.int 0), .slice .int [.int 0, .int 0, .int 0]] })]

/-- A raw entry whose value is a string instead of a list. -/
def stringRawFilters : Filters :=
  [(Raw, { Op := OpAND, Val := .item (.scalar (.str ".Age=1")) })]

/-- A raw entry with a nil argument. -/
def nilArgRawFilters : Filters :=
  [(Raw, { Op := OpAND, Val := .ifaces [.scalar (.str ".Age=?"), .nil] })]

/-- The filters of builder_test.go:146: six fields under `OpGreater`, `OpLike`,
`OpLowerOrEqual`, `OpMatch`, `OpGreaterOrEqual` and `OpBit`. -/
def sixOperatorFilters : Filters :=
  [("Price", { Op := OpGreater, Val := .item (.scalar (.int 4443)) }),
   ("PostCode2", { Op := OpLike, Val := .item (.scalar (.str "11%")) }),
   ("Age", { Op := OpLowerOrEqual, Val := .item (.scalar (.int 99)) }),
   ("FirstName", { Op := OpMatch, Val := .item (.scalar (.str "^[A-Z][a-z]+$")) }),
   ("CreatedBy", { Op := OpGreaterOrEqual, Val := .item (.scalar (.int 100)) }),
   ("Flags", { Op := OpBit, Val := .item (.scalar (.int 8)) })]

/-- A record type whose primary key field `Id` is declared after another field:
`type Account struct { Name string; Id int64 }`. -/
def accountStruct : StructType :=
  { Name := "Account"
    Fields := [
      { Name := "Name", Kind := .String, TypeString := "string" },
      { Name := "Id", Kind := .Int64, TypeString := "int64" } ] }

/-! ## Specification-side definitions: order, limit, SET -/

/-- The (field, direction) pairs of a flat order list: elements 0 and 1, 2 and 3, and so
on; a single last element is left out. -/
def orderPairs : List String → List (String × String)
  | field :: direction :: rest => (field, direction) :: orderPairs rest
  | _ => []

/-- The fragment of one order pair: the double-quoted column and `DESC` for the
direction `desc`, `ASC` for every other direction. -/
def orderFragment (b : Builder) (p : String × String) : String :=
  quoted ((GoMap.get? b.fieldColumnName p.1).getD "") ++ " "
    ++ (if p.2 = "desc" then "DESC" else "ASC")

/-- The error of `queryOrder` for an unknown field. -/
def errInvalidOrder : GoError :=
  .ErrBuilder "queryOrder" "" (.errorsNew "invalid order field/column")

/-- The error of `querySet` for an unknown key. -/
def errInvalidSet : GoError :=
  .ErrBuilder "querySet" "" (.errorsNew "invalid field/column to set")

/-! ## Specification-side definitions: the SET text -/

/-- The columns of the keys of `values`, ascending. -/
def setColumns (b : Builder) (values : GoMap GoValue) : List String :=
  sortStrings ((GoMap.keys values).map (fun k => (GoMap.get? b.fieldColumnName k).getD ""))

/-- The SET text of `columns`: the assignment at position `k` (from 1) is
`"column"=$k`, the assignments comma-joined. -/
def setClause (columns : List String) : String :=
  ",".intercalate ((columns.enumFrom 1).map (fun p => quoted p.2 ++ "=$" ++ fmtInt (p.1 : Nat)))

/-! ## Specification-side definitions: the columns of a record type -/

/-- The fields that become columns: those of a supported kind, in declaration order. -/
def columnFields (obj : StructType) : List StructField :=
  obj.Fields.filter (fun f => IsFieldKindSupported f.Kind)

/-- The double-quoted column names in declaration order. -/
def quotedColumns (snake : String → String) (obj : StructType) : List String :=
  (columnFields obj).map (fun f => quoted (snake f.Name))

/-- The type name up to its first underscore. -/
def baseTypeName (name : String) : String :=
  if name.data.contains '_' then (splitOn name '_').getD 0 "" else name

/-- The double-quoted table name of a record type. -/
def tableNameOf (snake : String → String) (obj : StructType) (tableNamePrefix : String) :
    String :=
  quoted (tableNamePrefix ++ snake (baseTypeName obj.Name))

/-- The placeholders `$first,...,$(first+count-1)`, comma-joined. -/
def numberedPlaceholders (first count : Nat) : String :=
  ",".intercalate ((List.range' first count).map (fun k => "$" ++ fmtInt (k : Nat)))

/-- The assignments `column=$k` of `columns` in their order, `k` counting from `first`,
comma-joined. -/
def numberedAssignments (columns : List String) (first : Nat) : String :=
  ",".intercalate ((columns.enumFrom first).map (fun p => p.2 ++ "=$" ++ fmtInt (p.1 : Nat)))

/-- The flag words the tag pass can leave: below 16 with the non-text bit clear. -/
def tagFlags (b : Builder) : Prop :=
  ∀ name, b.flagsOf name < 16 ∧ b.flagsOf name &&& FieldFlagNotString = 0

/-- What one round of the column loop of `reflectBuildQueries` does to the builder for a
field of a supported kind (builder_internal.go:98-114). -/
def columnStep (CamelCaseToSnakeCase : String → String) (field : StructField) (b : Builder) :
    Builder :=
  let b :=
    if field.Kind ≠ .String ∧ b.flagsOf field.Name &&& FieldFlagNotString = 0 then
      { b with fieldFlags :=
          GoMap.set b.fieldFlags field.Name (b.flagsOf field.Name + FieldFlagNotString) }
    else b
  let columnName := CamelCaseToSnakeCase field.Name
  let b := { b with fieldColumnName := GoMap.set b.fieldColumnName field.Name columnName,
                    columnFieldName := GoMap.set b.columnFieldName columnName field.Name }
  let unique : Bool := b.flagsOf field.Name &&& FieldFlagUnique > 0
  let columnDefinition := columnDefinitionFromField b field.Name field.TypeString unique
  { b with
    columnDefinitions := b.columnDefinitions ++ [quoted columnName ++ " " ++ columnDefinition],
    columnNames := b.columnNames ++ [quoted columnName] }

/-- The builder after the column loop of `reflectBuildQueries`: the table name is set,
every field of a supported kind has added its column. -/
def afterColumns (CamelCaseToSnakeCase : String → String) (b : Builder) (obj : StructType)
    (tableNamePrefix : String) : Builder :=
  (reflectColumnsLoop CamelCaseToSnakeCase obj.Fields
    { b with tableName := tableNameOf CamelCaseToSnakeCase obj tableNamePrefix } 0).1

/-! ## Specification-side definitions: the templates -/

/-- The counter `modificationFields` after the column loop of `reflectBuildQueries`. -/
def modificationCount (CamelCaseToSnakeCase : String → String) (b : Builder)
    (obj : StructType) (tableNamePrefix : String) : Nat :=
  (reflectColumnsLoop CamelCaseToSnakeCase obj.Fields
    { b with tableName := tableNameOf CamelCaseToSnakeCase obj tableNamePrefix } 0).2

/-- The entry of a field in the column list of CREATE TABLE: the double-quoted column, a
space and the definition `columnDefinitionFromField` gives for the field, unique when
the field has the unique flag in `b`. -/
def definitionEntry (CamelCaseToSnakeCase : String → String) (b : Builder)
    (f : StructField) : String :=
  quoted (CamelCaseToSnakeCase f.Name) ++ " "
    ++ columnDefinitionFromField b f.Name f.TypeString
        (decide (b.flagsOf f.Name &&& FieldFlagUnique > 0))

/-- The builder `New` starts from: every field at its zero value, the tag name `sql` or
the one of the options. -/
def initialBuilder (options : Options) : Builder :=
  let builder : Builder := {}
  let builder := { builder with tagName := "sql" }
  if options.TagName ≠ "" then { builder with tagName := options.TagName } else builder

/-- The builder after the tag pass of `New`. -/
def tagPass (obj : StructType) (options : Options) : Builder :=
  reflectFieldTags (initialBuilder options) obj

/-- The fields that count as modification fields: supported kind, one of the four
names, kind `Int64`. -/
def modificationFieldsOf (obj : StructType) : List StructField :=
  obj.Fields.filter (fun f => IsFieldKindSupported f.Kind && isFieldModification f.Name f.Kind)

/-- The builder `b` with another map of default values. -/
def withDefault (b : Builder) (d : GoMap String) : Builder :=
  { b with fieldDefault := d }

/-- Two field lists that agree, field by field, on name, kind, type text and the tag
`tagName`; the value of the default-value tag is left free. -/
def sameFields (tagName : String) : List StructField → List StructField → Bool
  | [], [] => true
  | f :: fs, g :: gs =>
    decide (f.Name = g.Name ∧ f.Kind = g.Kind ∧ f.TypeString = g.TypeString
      ∧ f.tagGet tagName = g.tagGet tagName) && sameFields tagName fs gs
  | _, _ => false

/-- Two record descriptions that differ at most in the default-value tags of their
fields. -/
def sameButDefaults (tagName : String) (obj obj2 : StructType) : Bool :=
  decide (obj.Name = obj2.Name) && sameFields tagName obj.Fields obj2.Fields

/-! ## Concrete inputs: record types -/

/-- A record type with a field of an unsupported kind:
`type Product struct { Id int64; Name string; Tags []string; Price int }`. -/
def productStruct : StructType :=
  { Name := "Product"
    Fields := [
      { Name := "Id", Kind := .Int64, TypeString := "int64" },
      { Name := "Name", Kind := .String, TypeString := "string" },
      { Name := "Tags", Kind := .Slice, TypeString := "[]string" },
      { Name := "Price", Kind := .Int, TypeString := "int" } ] }

/-- A record type with one field of a supported kind:
`type Single struct { Id int64; Tags []string }`. -/
def singleStruct : StructType :=
  { Name := "Single"
    Fields := [
      { Name := "Id", Kind := .Int64, TypeString := "int64" },
      { Name := "Tags", Kind := .Slice, TypeString := "[]string" } ] }

/-- A record type without a field of a supported kind:
`type Empty struct { Tags []string }`. -/
def emptyStruct : StructType :=
  { Name := "Empty"
    Fields := [ { Name := "Tags", Kind := .Slice, TypeString := "[]string" } ] }

/-- The builder of `productStruct`, columns named by `FieldToColumn`. -/
def productBuilder : Builder :=
  match New FieldToColumn productStruct {} with
  | .ok b => b
  | .error _ => {}

/-- A record type with the four modification fields, each an `int64`. -/
def auditedStruct : StructType :=
  { Name := "Audited"
    Fields := [
      { Name := "Id", Kind := .Int64, TypeString := "int64" },
      { Name := "Name", Kind := .String, TypeString := "string" },
      { Name := "CreatedAt", Kind := .Int64, TypeString := "int64" },
      { Name := "CreatedBy", Kind := .Int64, TypeString := "int64" },
      { Name := "ModifiedAt", Kind := .Int64, TypeString := "int64" },
      { Name := "ModifiedBy", Kind := .Int64, TypeString := "int64" } ] }

/-- The builder of `auditedStruct`. -/
def auditedBuilder : Builder :=
  match New FieldToColumn auditedStruct {} with
  | .ok b => b
  | .error _ => {}

/-- The record type `auditedStruct` with `CreatedAt` declared as a `string`. -/
def stampedStruct : StructType :=
  { Name := "Stamped"
    Fields := [
      { Name := "Id", Kind := .Int64, TypeString := "int64" },
      { Name := "Name", Kind := .String, TypeString := "string" },
      { Name := "CreatedAt", Kind := .String, TypeString := "string" },
      { Name := "CreatedBy", Kind := .Int64, TypeString := "int64" },
      { Name := "ModifiedAt", Kind := .Int64, TypeString := "int64" },
      { Name := "ModifiedBy", Kind := .Int64, TypeString := "int64" } ] }

/-- A record type with default-value tags:
`Name string` tagged `sql:"uniq" sql_val:"guest"`, `Level int` tagged `sql_val:"1"`. -/
def guestStruct : StructType :=
  { Name := "Guest"
    Fields := [
      { Name := "Id", Kind := .Int64, TypeString := "int64" },
      { Name := "Name", Kind := .String, TypeString := "string",
        Tag := [("sql", "uniq"), ("sql_val", "guest")] },
      { Name := "Level", Kind := .Int, TypeString := "int", Tag := [("sql_val", "1")] } ] }

/-- The record type `guestStruct` with other default-value tags: none on `Name`, a text
with a quote on `Level`. -/
def guestStruct2 : StructType :=
  { Name := "Guest"
    Fields := [
      { Name := "Id", Kind := .Int64, TypeString := "int64" },
      { Name := "Name", Kind := .String, TypeString := "string", Tag := [("sql", "uniq")] },
      { Name := "Level", Kind := .Int, TypeString := "int",
        Tag := [("sql_val", "1'); DROP TABLE guest; --")] } ] }

/-- A record type with type overrides in its tags: `Code` tagged `sql:"type:varchar(0)"`,
`Pad` tagged `sql:"type:bpchar(5)"`, `Note` tagged `sql:"type:text:x"`, `Plain` tagged
`sql:"type:integer"`. -/
def overrideStruct : StructType :=
  { Name := "Override"
    Fields := [
      { Name := "Id", Kind := .Int64, TypeString := "int64" },
      { Name := "Code", Kind := .String, TypeString := "string",
        Tag := [("sql", "type:varchar(0)")] },
      { Name := "Pad", Kind := .String, TypeString := "string",
        Tag := [("sql", "type:bpchar(5)")] },
      { Name := "Note", Kind := .String, TypeString := "string",
        Tag := [("sql", "type:text:x")] },
      { Name := "Plain", Kind := .String, TypeString := "string",
        Tag := [("sql", "type:integer")] } ] }

/-- A record type with a field of a named integer type:
`type Level int64` and `type Ticket struct { Id int64; Level Level }`. -/
def ticketStruct : StructType :=
  { Name := "Ticket"
    Fields := [
      { Name := "Id", Kind := .Int64, TypeString := "int64" },
      { Name := "Level", Kind := .Int64, TypeString := "main.Level" } ] }

/-! ## Concrete inputs: raw arguments of `Interfaces` -/

/-- A filter on `Price` and a raw entry whose arguments are the array `[3]int{18, 21, 30}`
and the string `Jane`. -/
def arrayAndScalarFilters : Filters :=
  [("Price", { Op := OpEqual, Val := .item (.scalar (.int 4444)) }),
   (Raw, { Op := OpAND, Val := .ifaces [
      .scalar (.str ".Age IN (?) AND .FirstName=?"),
      .array .int [.int 18, .int 21, .int 30], .scalar (.str "Jane")] })]

/-! ## Specification-side definitions: field values and names -/

/-- The field `StructFieldValueFromString` decides on: the first field of a supported
kind with the given name. -/
def fieldNamed (obj : StructType) (name : String) : Option StructField :=
  obj.Fields.find? (fun g => IsFieldKindSupported g.Kind && decide (g.Name = name))

/-- The number of a decimal digit character. -/
def digitValue (c : Char) : Nat := c.toNat - '0'.toNat

/-- The record of funcs_test.go:5: `type structFieldValueFromString struct
{ Int64Field int64 }`. -/
def int64FieldStruct : StructType :=
  { Name := "structFieldValueFromString"
    Fields := [ { Name := "Int64Field", Kind := .Int64, TypeString := "int64" } ] }

/-! ## Specification-side definitions: well-formed column names -/

/-- A part of a well-formed column name: a lowercase ASCII letter followed by lowercase
ASCII letters and digits. -/
def isLowerPart (p : List Char) : Bool :=
  match p with
  | [] => false
  | c :: cs => c.isLower && cs.all (fun x => x.isLower || x.isDigit)

/-- Parts of a well-formed column name: every part is a lowercase part, and no part `i`
or `id` is directly followed by a part that starts with `d`. -/
def wellFormedParts : List (List Char) → Bool
  | [] => true
  | [p] => isLowerPart p
  | p :: q :: rest =>
    isLowerPart p
      && !((decide (p = ['i']) || decide (p = ['i', 'd'])) && decide (q.head? = some 'd'))
      && wellFormedParts (q :: rest)

/-- A well-formed column name: its parts between underscores are well-formed. -/
def wellFormedColumn (c : String) : Bool :=
  wellFormedParts (splitOnChars '_' c.data)

/-- What `ColumnToField` makes of a part: `ID` of `id`, the first character in upper
case otherwise. -/
def capitalised (p : List Char) : List Char :=
  if p = ['i', 'd'] then ['I', 'D']
  else
    match p with
    | [] => []
    | c :: cs => c.toUpper :: cs

/-- The characters the loop of `FieldToColumn` appends, without its accumulator. -/
def fieldToColumnChars : List Char → Bool → Char → List Char
  | [], _, _ => []
  | ch :: rest, first, prev =>
    if first then ch.toLower :: fieldToColumnChars rest false ch
    else if ch.isUpper then
      if prev = 'I' ∧ ch = 'D' then ch.toLower :: fieldToColumnChars rest false prev
      else '_' :: ch.toLower :: fieldToColumnChars rest false ch
    else ch :: fieldToColumnChars rest false ch

/-- The value of `prev` in the loop of `FieldToColumn` after a capitalised part. -/
def prevAfter (p : List Char) : Char :=
  if p = ['i', 'd'] then 'I'
  else
    match p with
    | [] => 'I'
    | c :: cs => cs.getLast?.getD c.toUpper

/-! ## Test data: a record with fields of unsigned integer kinds -/

/-- The record `type Counter struct { Id int64; Hits uint32; Total uint64; Step uint8 }`. -/
def counterStruct : StructType :=
  { Name := "Counter"
    Fields := [ { Name := "Id", Kind := .Int64, TypeString := "int64" },
                { Name := "Hits", Kind := .Uint32, TypeString := "uint32" },
                { Name := "Total", Kind := .Uint64, TypeString := "uint64" },
                { Name := "Step", Kind := .Uint8, TypeString := "uint8" } ] }

/-! ## Specification-side definitions: placeholders and the values bound to them -/

/-- The ordinary filters in ascending order of name, each with the number of its
placeholder and the value bound to it: position `k` (from 0) has number `s + k` in
64-bit arithmetic. -/
def ordinaryBindings (filters : Filters) (s : Int) : List (String × Int × GoValue) :=
  (ordinaryNames filters).enum.map
    (fun p => (p.2, wrapInt64 (s + p.1), (filters.at p.2).Val))

/-- The placeholder numbers of a raw argument, the first being `n`, each with the value
bound to it: the scalar itself, or the elements of the slice in their order. -/
def argBindings (a : Arg) (n : Int) : List (Int × GoValue) :=
  (argNumbers a n).zip (argValues a)

/-- The bindings of successive raw arguments, the first argument starting at `n`, every
next one where the previous stopped. -/
def argsBindings : List Arg → Int → List (List (Int × GoValue))
  | [], _ => []
  | a :: rest, n => argBindings a n :: argsBindings rest (wrapInt64 (n + argWidth a))

/-- All placeholder numbers of a filter set with the values bound to them, in the order
of the clause: the ordinary filters, then the raw arguments. -/
def bindings (filters : Filters) (s : Int) : List (Int × GoValue) :=
  (ordinaryBindings filters s).map (fun x => x.2)
    ++ (argsBindings (rawArguments filters)
          (wrapInt64 (s + ((ordinaryNames filters).length : Nat)))).flatten

/-- A template cut at its `?` marks into `pieces`, put together again with the i-th run
after the i-th piece; the pieces beyond the runs keep their `?`. -/
def filledTemplate (pieces : List (List Char)) (runs : List String) : List Char :=
  (List.zipWith (fun p r => p ++ r.data) pieces runs).flatten
    ++ ['?'].intercalate (pieces.drop runs.length)

/-- The template of the raw entry, its references replaced by columns, holds at least
one `?` per argument; true without raw entry and for an empty list. -/
def rawMarksSuffice (b : Builder) (filters : Filters) : Bool :=
  match GoMap.get? filters Raw with
  | none => true
  | some r =>
    match r.Val with
    | .ifaces (.scalar (.str t) :: args) =>
      match queryFiltersFields b (findAllFields t) [] t with
      | .ok t' => decide (args.length ≤ t'.data.count '?')
      | .error _ => false
    | _ => true

/-- The clause written from the bindings: one condition per ordinary filter with the
number bound to it, joined by ` AND `; and, for a raw entry with a template, the
template with its references replaced by columns, the run of the numbers of the i-th
argument standing in place of the i-th `?`. -/
def boundClause (b : Builder) (filters : Filters) (s : Int) : String :=
  let ordinary := " AND ".intercalate
    ((ordinaryBindings filters s).map (fun x => conditionText b filters x.1 x.2.1))
  match GoMap.get? filters Raw with
  | none => ordinary
  | some r =>
    match r.Val with
    | .ifaces (.scalar (.str t) :: args) =>
      match queryFiltersFields b (findAllFields t) [] t with
      | .ok t' =>
        joinBlocks ordinary r.Op
          ⟨filledTemplate (splitOnChars '?' t'.data)
            ((argsBindings args (wrapInt64 (s + ((ordinaryNames filters).length : Nat)))).map
              (fun bs => placeholderRun (bs.map Prod.fst)))⟩
      | .error _ => ordinary
    | _ => ordinary

/-- A raw entry whose template holds one `?` for two arguments. -/
def fewMarksFilters : Filters :=
  [(Raw, { Op := OpAND, Val := .ifaces [
      .scalar (.str ".Age=?"), .scalar (.int 18), .scalar (.int 21)] })]

/-- A filter on `Price` and a raw entry with the slice `[]int{18, 21, 30}` and the
string `Jane` as arguments. -/
def sliceAndScalarFilters : Filters :=
  [("Price", { Op := OpEqual, Val := .item (.scalar (.int 4444)) }),
   (Raw, { Op := OpAND, Val := .ifaces [
      .scalar (.str ".Age IN (?) AND .FirstName=?"),
      .slice .int [.int 18, .int 21, .int 30], .scalar (.str "Jane")] })]
/-! ## Shared lemmas -/

theorem strLE_iff (a b : String) : strLE a b ↔ a ≤ b := by
  unfold strLE
  have h : b < a ↔ b.data < a.data := String.lt_iff_toList_lt
  rw [← h]
  exact not_lt

instance : IsTotal String strLE := ⟨fun a b => by
  simp only [strLE_iff]
  exact le_total a b⟩

instance : IsTrans String strLE := ⟨fun a b c => by
  simp only [strLE_iff]
  exact le_trans⟩

theorem sortStrings_perm (l : List String) : (sortStrings l).Perm l :=
  List.perm_insertionSort strLE l

theorem mem_sortStrings {a : String} {l : List String} : a ∈ sortStrings l ↔ a ∈ l :=
  (sortStrings_perm l).mem_iff

theorem length_sortStrings (l : List String) : (sortStrings l).length = l.length :=
  (sortStrings_perm l).length_eq

theorem sortStrings_sorted (l : List String) :
    (sortStrings l).Sorted (fun a b => a ≤ b) := by
  have h := List.sorted_insertionSort strLE l
  exact h.imp (fun {a b} hab => (strLE_iff a b).1 hab)

theorem sortStrings_strict (l : List String) (h : l.Nodup) :
    (sortStrings l).Sorted (fun a b => a < b) :=
  (sortStrings_sorted l).lt_of_le ((sortStrings_perm l).nodup_iff.2 h)

theorem GoMap.get?_eq_some_iff {β : Type} (m : GoMap β) (k : String) :
    (∃ v, GoMap.get? m k = some v) ↔ k ∈ GoMap.keys m := by
  unfold GoMap.get? GoMap.keys
  rw [List.mem_dedup, List.mem_map]
  constructor
  · rintro ⟨v, hv⟩
    rw [Option.map_eq_some'] at hv
    obtain ⟨e, he, _⟩ := hv
    have hmem := List.mem_of_find?_eq_some he
    have hp := List.find?_some he
    exact ⟨e, hmem, by simpa using hp⟩
  · rintro ⟨e, he, rfl⟩
    cases hf : m.find? (fun e' => decide (e'.1 = e.1)) with
    | none =>
      rw [List.find?_eq_none] at hf
      exact absurd (by simp) (hf e he)
    | some e' => exact ⟨e'.2, by simp⟩

theorem GoMap.get?_eq_none_iff {β : Type} (m : GoMap β) (k : String) :
    GoMap.get? m k = none ↔ k ∉ GoMap.keys m := by
  rw [← GoMap.get?_eq_some_iff]
  cases GoMap.get? m k <;> simp

theorem wrapInt64_of_inInt64 {x : Int} (h : inInt64 x) : wrapInt64 x = x := by
  unfold inInt64 at h
  unfold wrapInt64
  omega

theorem inInt64_wrapInt64 (x : Int) : inInt64 (wrapInt64 x) := by
  unfold inInt64 wrapInt64
  omega

theorem wrapInt64_succ (s : Int) (k : Nat) :
    wrapInt64 (wrapInt64 (s + k) + 1) = wrapInt64 (s + (k + 1 : Nat)) := by
  unfold wrapInt64
  push_cast
  omega

theorem join_foldl (acc : String) (l : List String) :
    List.foldl (fun r s => r ++ s) acc l = acc ++ String.join l := by
  unfold String.join
  induction l generalizing acc with
  | nil => simp
  | cons a l ih =>
    simp only [List.foldl_cons]
    rw [ih (acc ++ a), ih ("" ++ a)]
    simp [String.append_assoc]

theorem join_cons (a : String) (l : List String) :
    String.join (a :: l) = a ++ String.join l := by
  show List.foldl (fun r s => r ++ s) ("" ++ a) l = a ++ String.join l
  rw [join_foldl]
  simp

theorem intercalate_go (acc sep : String) (l : List String) :
    String.intercalate.go acc sep l = acc ++ String.join (l.map (fun x => sep ++ x)) := by
  induction l generalizing acc with
  | nil => simp [String.intercalate.go, String.join]
  | cons a l ih =>
    simp only [String.intercalate.go, List.map_cons]
    rw [ih, join_cons]
    simp [String.append_assoc]

theorem sliceFrom_sep_join (c : String) (l : List String) :
    sliceFrom (String.join ((c :: l).map (fun x => " AND " ++ x))) 5
      = " AND ".intercalate (c :: l) := by
  simp only [List.map_cons, join_cons, String.intercalate, intercalate_go]
  rw [String.append_assoc]
  apply String.ext
  show (" AND ".data ++ (c ++ String.join (l.map (fun x => " AND " ++ x))).data).drop 5 = _
  rfl

theorem filterCondition_eq (b : Builder) (filters : Filters) (name fieldColumn : String)
    (n : Int) (h : GoMap.get? b.fieldColumnName name = some fieldColumn) :
    filterCondition b filters name fieldColumn n = " AND " ++ conditionText b filters name n := by
  unfold filterCondition conditionText conditionColumn conditionOperator conditionSuffix
  simp only [h, Option.getD_some]
  have e1 : OpLike = 2 := rfl
  have e2 : OpMatch = 3 := rfl
  have e3 : OpNotEqual = 1 := rfl
  have e4 : OpGreater = 4 := rfl
  have e5 : OpLower = 5 := rfl
  have e6 : OpGreaterOrEqual = 6 := rfl
  have e7 : OpLowerOrEqual = 7 := rfl
  have e8 : OpBit = 8 := rfl
  simp only [e1, e2, e3, e4, e5, e6, e7, e8]
  generalize (filters.at name).Op = op
  generalize (if b.flagsOf name &&& FieldFlagNotString > 0 ∧ (op = 2 ∨ op = 3) then
      "CAST(" ++ quoted fieldColumn ++ " AS TEXT)" else quoted fieldColumn) = col
  apply String.ext
  by_cases h2 : op = 2
  · subst h2; simp [String.data_append]
  by_cases h3 : op = 3
  · subst h3; simp [String.data_append]
  by_cases h1 : op = 1
  · subst h1; simp [String.data_append]
  by_cases h4 : op = 4
  · subst h4; simp [String.data_append]
  by_cases h5 : op = 5
  · subst h5; simp [String.data_append]
  by_cases h6 : op = 6
  · subst h6; simp [String.data_append]
  by_cases h7 : op = 7
  · subst h7; simp [String.data_append]
  by_cases h8 : op = 8
  · subst h8; simp [String.data_append]
  simp [h1, h2, h3, h4, h5, h6, h7, h8, String.data_append]


theorem queryFiltersLoop_ok (b : Builder) (filters : Filters) (s : Int) :
    ∀ (names : List String) (k : Nat) (q : String),
      Raw ∉ names →
      (∀ name ∈ names, ∃ c, GoMap.get? b.fieldColumnName name = some c) →
      queryFiltersLoop b filters names q (wrapInt64 (s + k))
        = .ok (q ++ String.join ((names.enumFrom k).map
              (fun p => " AND " ++ conditionText b filters p.2 (wrapInt64 (s + p.1)))),
            wrapInt64 (s + (k + names.length : Nat))) := by
  intro names
  induction names with
  | nil =>
    intro k q _ _
    simp [queryFiltersLoop, String.join]
  | cons name rest ih =>
    intro k q hraw hknown
    have hne : name ≠ Raw := fun h => hraw (by simp [h])
    obtain ⟨c, hc⟩ := hknown name (by simp)
    have hrest : Raw ∉ rest := fun h => hraw (List.mem_cons_of_mem _ h)
    have hk : ∀ n ∈ rest, ∃ c, GoMap.get? b.fieldColumnName n = some c :=
      fun n hn => hknown n (List.mem_cons_of_mem _ hn)
    simp only [queryFiltersLoop, hne, if_false, hc]
    rw [wrapInt64_succ, ih (k + 1) _ hrest hk, filterCondition_eq b filters name c _ hc]
    simp only [List.enumFrom_cons, List.map_cons, join_cons, String.append_assoc,
      List.length_cons]
    congr 3
    omega

theorem conditions_slice (l : List String) :
    (if String.join (l.map (fun x => " AND " ++ x)) ≠ "" then
        sliceFrom (String.join (l.map (fun x => " AND " ++ x))) 5
      else String.join (l.map (fun x => " AND " ++ x)))
      = " AND ".intercalate l := by
  cases l with
  | nil => simp [String.join, String.intercalate]
  | cons c l =>
    have hne : String.join ((c :: l).map (fun x => " AND " ++ x)) ≠ "" := by
      simp only [List.map_cons, join_cons, String.append_assoc]
      intro h
      have := congrArg String.length h
      simp only [String.length_append] at this
      have h5 : " AND ".length = 5 := rfl
      have h0 : "".length = 0 := rfl
      omega
    rw [if_pos hne, sliceFrom_sep_join]

/-- The clause of a filter set without raw entry, all of whose keys are fields. -/
theorem queryFiltersNum_ordinary (b : Builder) (filters : Filters) (s : Int)
    (hs : inInt64 s)
    (hraw : GoMap.get? filters Raw = none)
    (hknown : ∀ name ∈ GoMap.keys filters, ∃ c, GoMap.get? b.fieldColumnName name = some c) :
    queryFiltersNum b (some filters) s
      = .ok ((" AND ".intercalate
          (conditionsOf b filters (sortStrings (GoMap.keys filters)) s), none),
          wrapInt64 (s + (GoMap.len filters : Nat))) := by
  have hrawk : Raw ∉ sortStrings (GoMap.keys filters) := by
    rw [mem_sortStrings]
    exact (GoMap.get?_eq_none_iff filters Raw).1 hraw
  have hk : ∀ name ∈ sortStrings (GoMap.keys filters),
      ∃ c, GoMap.get? b.fieldColumnName name = some c :=
    fun n hn => hknown n (mem_sortStrings.1 hn)
  have hloop := queryFiltersLoop_ok b filters s (sortStrings (GoMap.keys filters)) 0 "" hrawk hk
  simp only [Nat.cast_zero, add_zero, wrapInt64_of_inInt64 hs, zero_add,
    length_sortStrings] at hloop
  unfold queryFiltersNum
  by_cases hlen : GoMap.len filters = 0
  · have hnil : GoMap.keys filters = [] := List.length_eq_zero.1 hlen
    simp [hlen, hnil, conditionsOf, sortStrings, String.intercalate, wrapInt64_of_inInt64 hs]
    rfl
  · simp only [hlen, if_false, hloop, queryFiltersRaw, hraw]
    have hmap : (List.enumFrom 0 (sortStrings (GoMap.keys filters))).map
          (fun p => " AND " ++ conditionText b filters p.2 (wrapInt64 (s + p.1)))
        = (conditionsOf b filters (sortStrings (GoMap.keys filters)) s).map
            (fun x => " AND " ++ x) := by
      simp [conditionsOf, List.enum]
    have e : ("" : String) ++ String.join ((List.enumFrom 0 (sortStrings (GoMap.keys filters))).map
          (fun p => " AND " ++ conditionText b filters p.2 (wrapInt64 (s + p.1))))
        = String.join ((conditionsOf b filters (sortStrings (GoMap.keys filters)) s).map
            (fun x => " AND " ++ x)) := by
      rw [hmap]; simp
    simp only [e, conditions_slice]
    rfl

/-! ### The loop over all sorted names -/

instance : IsAntisymm String strLE := ⟨fun a b hab hba => by
  rw [strLE_iff] at hab hba
  exact le_antisymm hab hba⟩

theorem sortStrings_filter (p : String → Bool) (l : List String) :
    (sortStrings l).filter p = sortStrings (l.filter p) := by
  apply List.eq_of_perm_of_sorted (r := strLE)
  · exact ((sortStrings_perm l).filter p).trans (sortStrings_perm (l.filter p)).symm
  · exact List.Pairwise.filter p (List.sorted_insertionSort strLE l)
  · exact List.sorted_insertionSort strLE (l.filter p)

theorem queryFiltersLoop_filter (b : Builder) (filters : Filters) :
    ∀ (names : List String) (q : String) (v : Int),
      queryFiltersLoop b filters names q v
        = queryFiltersLoop b filters (names.filter (fun k => decide (k ≠ Raw))) q v := by
  intro names
  induction names with
  | nil => intro q v; rfl
  | cons name rest ih =>
    intro q v
    by_cases h : name = Raw
    · simp only [h, queryFiltersLoop, if_true]
      rw [ih]
      simp
    · have hf : (name :: rest).filter (fun k => decide (k ≠ Raw))
          = name :: rest.filter (fun k => decide (k ≠ Raw)) := by simp [h]
      rw [hf]
      simp only [queryFiltersLoop, h, if_false]
      cases GoMap.get? b.fieldColumnName name with
      | none => rfl
      | some c => exact ih _ _

theorem mem_ordinaryNames {filters : Filters} {name : String} :
    name ∈ ordinaryNames filters ↔ name ∈ GoMap.keys filters ∧ name ≠ Raw := by
  simp [ordinaryNames, mem_sortStrings]

theorem queryFiltersLoop_sorted (b : Builder) (filters : Filters) (s : Int) (hs : inInt64 s)
    (hknown : ∀ name ∈ ordinaryNames filters, ∃ c, GoMap.get? b.fieldColumnName name = some c) :
    queryFiltersLoop b filters (sortStrings (GoMap.keys filters)) "" s
      = .ok (String.join ((conditionsOf b filters (ordinaryNames filters) s).map
              (fun x => " AND " ++ x)),
            wrapInt64 (s + ((ordinaryNames filters).length : Nat))) := by
  rw [queryFiltersLoop_filter, sortStrings_filter]
  have hraw : Raw ∉ ordinaryNames filters := fun h => (mem_ordinaryNames.1 h).2 rfl
  have h := queryFiltersLoop_ok b filters s (ordinaryNames filters) 0 "" hraw hknown
  simp only [Nat.cast_zero, add_zero, wrapInt64_of_inInt64 hs, zero_add] at h
  unfold ordinaryNames at h ⊢
  rw [h]
  simp [conditionsOf, List.enum]
  rfl

theorem queryFiltersLoop_error (b : Builder) (filters : Filters) :
    ∀ (names : List String) (q : String) (v : Int),
      (∃ name ∈ names, name ≠ Raw ∧ GoMap.get? b.fieldColumnName name = none) →
      queryFiltersLoop b filters names q v = .error errInvalidFilter := by
  intro names
  induction names with
  | nil => intro q v h; simp at h
  | cons name rest ih =>
    intro q v h
    by_cases hr : name = Raw
    · simp only [hr, queryFiltersLoop, if_true]
      apply ih
      obtain ⟨n, hn, hne, hnone⟩ := h
      rcases List.mem_cons.1 hn with rfl | hn'
      · exact absurd hr hne
      · exact ⟨n, hn', hne, hnone⟩
    · simp only [queryFiltersLoop, hr, if_false]
      cases hc : GoMap.get? b.fieldColumnName name with
      | none => rfl
      | some c =>
        apply ih
        obtain ⟨n, hn, hne, hnone⟩ := h
        rcases List.mem_cons.1 hn with rfl | hn'
        · rw [hc] at hnone; exact absurd hnone (by simp)
        · exact ⟨n, hn', hne, hnone⟩

/-! ### Decimal digits hold no question mark -/

theorem digitChar_ne_mark (d : Nat) (h : d < 10) : Nat.digitChar d ≠ '?' := by
  interval_cases d <;> decide

theorem toDigitsCore_no_mark (fuel : Nat) : ∀ (n : Nat) (ds : List Char),
    (∀ c ∈ ds, c ≠ '?') → ∀ c ∈ Nat.toDigitsCore 10 fuel n ds, c ≠ '?' := by
  induction fuel with
  | zero => intro n ds h; simpa [Nat.toDigitsCore] using h
  | succ fuel ih =>
    intro n ds h
    have hd : ∀ c ∈ Nat.digitChar (n % 10) :: ds, c ≠ '?' := by
      intro c hc
      rcases List.mem_cons.1 hc with rfl | hc'
      · exact digitChar_ne_mark _ (Nat.mod_lt _ (by decide))
      · exact h c hc'
    simp only [Nat.toDigitsCore]
    split
    · exact hd
    · exact ih _ _ hd

theorem fmtInt_no_mark (v : Int) : ∀ c ∈ (fmtInt v).data, c ≠ '?' := by
  have hnat : ∀ m : Nat, ∀ c ∈ (Nat.repr m).data, c ≠ '?' := by
    intro m c hc
    exact toDigitsCore_no_mark _ _ [] (by simp) c (by simpa [Nat.repr, Nat.toDigits] using hc)
  intro c hc
  unfold fmtInt at hc
  cases v with
  | ofNat m => exact hnat m c hc
  | negSucc m =>
    have : c ∈ ("-" ++ Nat.repr (m + 1)).data := hc
    rw [String.data_append, List.mem_append] at this
    rcases this with h | h
    · have : c = '-' := by simpa using h
      rw [this]; decide
    · exact hnat _ c h

/-! ### Filling the question marks -/

theorem fillMarks_no_reps (cs : List Char) : fillMarks cs [] = cs := by
  cases cs <;> rfl

theorem fillMarks_append_clean (p : List Char) (hp : ∀ c ∈ p, c ≠ '?') (cs : List Char)
    (rs : List String) : fillMarks (p ++ cs) rs = p ++ fillMarks cs rs := by
  induction p with
  | nil => rfl
  | cons c p ih =>
    have hc : c ≠ '?' := hp c (by simp)
    have ih' := ih (fun x hx => hp x (List.mem_cons_of_mem _ hx))
    cases rs with
    | nil => simp [fillMarks_no_reps]
    | cons r rs =>
      show fillMarks (c :: (p ++ cs)) (r :: rs) = c :: (p ++ fillMarks cs (r :: rs))
      rw [fillMarks, if_neg hc, ih']

theorem fillMarks_replaceFirst (r : String) (hr : ∀ c ∈ r.data, c ≠ '?') (rs : List String) :
    ∀ cs : List Char,
      fillMarks (replaceFirstChars ['?'] r.data cs) rs = fillMarks cs (r :: rs) := by
  intro cs
  induction cs with
  | nil => simp [replaceFirstChars, fillMarks]
  | cons c cs ih =>
    by_cases hc : c = '?'
    · subst hc
      simp only [replaceFirstChars, fillMarks, if_true]
      have : (['?'] : List Char).isPrefixOf ('?' :: cs) = true := by simp [List.isPrefixOf]
      simp only [this, if_true, List.length_singleton, List.drop_succ_cons, List.drop_zero]
      exact fillMarks_append_clean _ hr _ _
    · have hne : (['?'] : List Char).isPrefixOf (c :: cs) = false := by
        simp [List.isPrefixOf]
        exact fun h => hc h.symm
      simp only [replaceFirstChars, hne, fillMarks, hc, if_false]
      cases rs with
      | nil =>
        rw [fillMarks_no_reps, ← ih, fillMarks_no_reps]
        simp
      | cons r' rs' =>
        simp only [fillMarks, hc, if_false]
        rw [ih]

theorem mem_join_data {c : Char} : ∀ {l : List String},
    c ∈ (String.join l).data → ∃ x ∈ l, c ∈ x.data := by
  intro l
  induction l with
  | nil => intro h; simp [String.join] at h
  | cons a l ih =>
    intro h
    rw [join_cons, String.data_append, List.mem_append] at h
    rcases h with h | h
    · exact ⟨a, by simp, h⟩
    · obtain ⟨x, hx, hc⟩ := ih h
      exact ⟨x, List.mem_cons_of_mem _ hx, hc⟩

theorem placeholder_no_mark (v : Int) : ∀ c ∈ ("$" ++ fmtInt v).data, c ≠ '?' := by
  intro c hc
  rw [String.data_append, List.mem_append] at hc
  rcases hc with h | h
  · have : c = '$' := by simpa using h
    rw [this]; decide
  · exact fmtInt_no_mark v c h

theorem placeholderRun_no_mark (nums : List Int) :
    ∀ c ∈ (placeholderRun nums).data, c ≠ '?' := by
  intro c hc
  unfold placeholderRun at hc
  cases nums with
  | nil => simp [String.intercalate] at hc
  | cons v vs =>
    simp only [List.map_cons, String.intercalate, intercalate_go] at hc
    rw [String.data_append, List.mem_append] at hc
    rcases hc with h | h
    · exact placeholder_no_mark v c h
    · obtain ⟨x, hx, hcx⟩ := mem_join_data h
      simp only [List.map_map, List.mem_map, Function.comp] at hx
      obtain ⟨w, _, rfl⟩ := hx
      rw [String.data_append, List.mem_append] at hcx
      rcases hcx with h' | h'
      · have : c = ',' := by simpa using h'
        rw [this]; decide
      · exact placeholder_no_mark w c h'

/-! ### The loops over the raw arguments -/

theorem queryFiltersSeq_tail (v : Int) : ∀ (m k : Nat) (acc : String), 0 < k →
    queryFiltersSeq k m acc (wrapInt64 (v + k))
      = (acc ++ String.join ((List.range' k m).map
            (fun (j : Nat) => "," ++ ("$" ++ fmtInt (wrapInt64 (v + (j : Int)))))),
          wrapInt64 (v + (k + m : Nat))) := by
  intro m
  induction m with
  | zero => intro k acc _; simp [queryFiltersSeq, String.join]
  | succ m ih =>
    intro k acc hk
    have hk0 : k ≠ 0 := Nat.pos_iff_ne_zero.1 hk
    simp only [queryFiltersSeq, hk0, if_false]
    rw [wrapInt64_succ, ih (k + 1) _ (Nat.succ_pos k)]
    have e : k + 1 + m = k + (m + 1) := by omega
    rw [e]
    simp only [List.range'_succ, List.map_cons, join_cons, String.append_assoc]
    rfl

theorem queryFiltersSeq_eq (v : Int) (hv : inInt64 v) (m : Nat) :
    queryFiltersSeq 0 m "" v
      = (placeholderRun ((List.range m).map (fun (j : Nat) => wrapInt64 (v + (j : Int)))),
          wrapInt64 (v + (m : Int))) := by
  cases m with
  | zero =>
    simp [queryFiltersSeq, placeholderRun, String.intercalate, wrapInt64_of_inInt64 hv]
  | succ m =>
    have h1 : wrapInt64 (v + 1) = wrapInt64 (v + ((1 : Nat) : Int)) := by simp
    simp only [queryFiltersSeq, if_true]
    rw [h1, queryFiltersSeq_tail v m 1 _ Nat.one_pos]
    simp only [placeholderRun, List.range_eq_range', List.range'_succ, List.map_cons,
      String.intercalate, intercalate_go, Nat.cast_zero, add_zero, wrapInt64_of_inInt64 hv]
    congr 1
    · simp [List.map_map, Function.comp]
      rfl
    · congr 1
      push_cast
      omega

theorem wrapInt64_wrap_add (a b : Int) : wrapInt64 (wrapInt64 a + b) = wrapInt64 (a + b) := by
  unfold wrapInt64
  omega

theorem fillMarks_step (q rep : String) (hrep : ∀ c ∈ rep.data, c ≠ '?') (rs : List String) :
    (⟨fillMarks (replaceFirst q "?" rep).data rs⟩ : String) = ⟨fillMarks q.data (rep :: rs)⟩ := by
  congr 1
  exact fillMarks_replaceFirst rep hrep rs q.data

theorem argsWidth_cons (a : Arg) (rest : List Arg) :
    argsWidth (a :: rest) = argWidth a + argsWidth rest := by
  simp [argsWidth]

theorem queryFiltersArgs_step (a : Arg) (rest : List Arg) (q : String) (v : Int)
    (hv : inInt64 v) (ha : a ≠ Arg.nil) :
    queryFiltersArgs (a :: rest) q v
      = queryFiltersArgs rest (replaceFirst q "?" (placeholderRun (argNumbers a v)))
          (wrapInt64 (v + (argWidth a : Nat))) := by
  cases a with
  | nil => exact absurd rfl ha
  | scalar x =>
    have h1 : argNumbers (Arg.scalar x) v = [wrapInt64 (v + ((0 : Nat) : Int))] := rfl
    have h2 : ∀ y : Int, placeholderRun [y] = "$" ++ fmtInt y := fun _ => rfl
    have h3 : argWidth (Arg.scalar x) = 1 := rfl
    rw [h1, h2, h3]
    simp only [Nat.cast_zero, add_zero, wrapInt64_of_inInt64 hv, Nat.cast_one]
    rfl
  | slice t xs =>
    simp only [queryFiltersArgs, Arg.kind?, Arg.len, queryFiltersSeq_eq v hv]
    rfl
  | array t xs =>
    simp only [queryFiltersArgs, Arg.kind?, Arg.len, queryFiltersSeq_eq v hv]
    rfl

theorem queryFiltersArgs_ok : ∀ (args : List Arg) (q : String) (v : Int), inInt64 v →
    (∀ a ∈ args, a ≠ Arg.nil) →
    queryFiltersArgs args q v
      = .ok (⟨fillMarks q.data ((argsNumbers args v).map placeholderRun)⟩,
          wrapInt64 (v + (argsWidth args : Nat))) := by
  intro args
  induction args with
  | nil =>
    intro q v hv _
    simp [queryFiltersArgs, argsNumbers, fillMarks_no_reps, argsWidth, wrapInt64_of_inInt64 hv]
    rfl
  | cons a rest ih =>
    intro q v hv hnil
    have hrest : ∀ x ∈ rest, x ≠ Arg.nil := fun x hx => hnil x (List.mem_cons_of_mem _ hx)
    rw [queryFiltersArgs_step a rest q v hv (hnil a (by simp)),
      ih _ _ (inInt64_wrapInt64 _) hrest, fillMarks_step _ _ (placeholderRun_no_mark _),
      wrapInt64_wrap_add, argsWidth_cons]
    simp only [argsNumbers, List.map_cons]
    congr 3
    push_cast
    omega

theorem keys_ne_nil_of_get? {β : Type} (m : GoMap β) (k : String) (v : β)
    (h : GoMap.get? m k = some v) : GoMap.len m ≠ 0 := by
  have hk : k ∈ GoMap.keys m := (GoMap.get?_eq_some_iff m k).1 ⟨v, h⟩
  unfold GoMap.len
  intro h0
  rw [List.length_eq_zero] at h0
  rw [h0] at hk
  simp at hk

/-- The clause of a filter set with a raw entry whose template is not empty, all
ordinary keys and all references being fields and no argument being nil. -/
theorem queryFiltersNum_raw (b : Builder) (filters : Filters) (s : Int) (r : OpVal)
    (t t' : String) (args : List Arg)
    (hs : inInt64 s)
    (hknown : ∀ name ∈ ordinaryNames filters, ∃ c, GoMap.get? b.fieldColumnName name = some c)
    (hraw : GoMap.get? filters Raw = some r)
    (hval : r.Val = .ifaces (.scalar (.str t) :: args))
    (ht : t ≠ "")
    (hrefs : queryFiltersFields b (findAllFields t) [] t = .ok t')
    (hargs : ∀ a ∈ args, a ≠ Arg.nil) :
    queryFiltersNum b (some filters) s
      = .ok ((joinBlocks (ordinaryClause b filters s) r.Op
              (rawBlock t' args (wrapInt64 (s + ((ordinaryNames filters).length : Nat)))), none),
          wrapInt64 (s + (((ordinaryNames filters).length + argsWidth args : Nat) : Int))) := by
  have hlen : GoMap.len filters ≠ 0 := keys_ne_nil_of_get? filters Raw r hraw
  unfold queryFiltersNum
  simp only [hlen, if_false, queryFiltersLoop_sorted b filters s hs hknown, conditions_slice,
    queryFiltersRaw, hraw, hval, GoValue.asIfaces]
  simp only [pure, Except.pure, bind, Except.bind, Arg.asString, List.length_cons,
    Nat.succ_ne_zero, if_false, ht]
  rw [hrefs]
  simp only [queryFiltersArgs_ok args t' _ (inInt64_wrapInt64 _) hargs, wrapInt64_wrap_add]
  have hnum : wrapInt64 (s + ((ordinaryNames filters).length : Nat) + (argsWidth args : Nat))
      = wrapInt64 (s + (((ordinaryNames filters).length + argsWidth args : Nat) : Int)) := by
    push_cast
    congr 1
    omega
  rw [hnum]
  unfold joinBlocks ordinaryClause rawBlock
  congr 1
  · congr 1
    by_cases hW : " AND ".intercalate (conditionsOf b filters (ordinaryNames filters) s) = ""
    · simp [hW]
    · by_cases hop : r.Op = OpOR
      · simp [hW, hop, String.append_assoc]
      · simp [hW, hop, String.append_assoc]

theorem conditionText_ne_empty (b : Builder) (filters : Filters) (name : String) (n : Int) :
    conditionText b filters name n ≠ "" := by
  intro h
  have := congrArg String.length h
  unfold conditionText at this
  simp only [String.length_append] at this
  have h1 : ("$" : String).length = 1 := rfl
  have h0 : ("" : String).length = 0 := rfl
  omega

theorem ordinaryClause_ne_empty (b : Builder) (filters : Filters) (s : Int)
    (h : ordinaryNames filters ≠ []) : ordinaryClause b filters s ≠ "" := by
  unfold ordinaryClause conditionsOf
  cases hn : ordinaryNames filters with
  | nil => exact absurd hn h
  | cons name rest =>
    simp only [List.enum, List.enumFrom_cons, List.map_cons, String.intercalate, intercalate_go]
    intro hc
    have hlen := congrArg String.length hc
    have hne := conditionText_ne_empty b filters name (wrapInt64 (s + ((0 : Nat) : Int)))
    have hpos : 0 < (conditionText b filters name (wrapInt64 (s + ((0 : Nat) : Int)))).length := by
      rcases Nat.eq_zero_or_pos
        (conditionText b filters name (wrapInt64 (s + ((0 : Nat) : Int)))).length with h0 | h0
      · exact absurd (String.ext (List.length_eq_zero.1 h0)) hne
      · exact h0
    simp only [String.length_append] at hlen
    have h0 : ("" : String).length = 0 := rfl
    omega

theorem argsNumbers_join : ∀ (args : List Arg) (v : Int),
    (argsNumbers args v).flatten
      = (List.range (argsWidth args)).map (fun (k : Nat) => wrapInt64 (v + (k : Int))) := by
  intro args
  induction args with
  | nil => intro v; simp [argsNumbers, argsWidth]
  | cons a rest ih =>
    intro v
    simp only [argsNumbers, List.flatten_cons, ih, argsWidth_cons, List.range_add, List.map_append,
      List.map_map, argNumbers]
    congr 1
    apply List.map_congr_left
    intro k _
    simp only [Function.comp]
    rw [wrapInt64_wrap_add]
    push_cast
    congr 1
    omega

theorem numbers_contiguous (s : Int) (n : Nat) (args : List Arg) :
    (List.range n).map (fun (k : Nat) => wrapInt64 (s + (k : Int)))
        ++ (argsNumbers args (wrapInt64 (s + (n : Int)))).flatten
      = (List.range (n + argsWidth args)).map (fun (k : Nat) => wrapInt64 (s + (k : Int))) := by
  rw [argsNumbers_join, List.range_add, List.map_append, List.map_map]
  congr 1
  apply List.map_congr_left
  intro k _
  simp only [Function.comp]
  rw [wrapInt64_wrap_add]
  push_cast
  congr 1
  omega

theorem numbers_increasing (s : Int) (N : Nat) (hs : inInt64 s)
    (hN : s + (N : Int) ≤ 9223372036854775808) :
    ((List.range N).map (fun (k : Nat) => wrapInt64 (s + (k : Int)))).Sorted
      (fun x y => x < y) := by
  unfold List.Sorted
  rw [List.pairwise_map]
  refine List.Pairwise.imp_of_mem ?_ (List.pairwise_lt_range N)
  intro a c ha hc hac
  have ha' := List.mem_range.1 ha
  have hc' := List.mem_range.1 hc
  have h1 : inInt64 (s + (a : Int)) := by unfold inInt64 at hs ⊢; omega
  have h2 : inInt64 (s + (c : Int)) := by unfold inInt64 at hs ⊢; omega
  rw [wrapInt64_of_inInt64 h1, wrapInt64_of_inInt64 h2]
  omega

/-! ### Errors of `queryFilters` -/

theorem queryFiltersLoop_exists (b : Builder) (filters : Filters) :
    ∀ (names : List String) (q : String) (v : Int),
      (∀ name ∈ names, name ≠ Raw → ∃ c, GoMap.get? b.fieldColumnName name = some c) →
      ∃ r, queryFiltersLoop b filters names q v = .ok r := by
  intro names
  induction names with
  | nil => intro q v _; exact ⟨_, rfl⟩
  | cons name rest ih =>
    intro q v h
    have hrest : ∀ n ∈ rest, n ≠ Raw → ∃ c, GoMap.get? b.fieldColumnName n = some c :=
      fun n hn => h n (List.mem_cons_of_mem _ hn)
    by_cases hr : name = Raw
    · simp only [hr, queryFiltersLoop, if_true]
      exact ih _ _ hrest
    · obtain ⟨c, hc⟩ := h name (by simp) hr
      simp only [queryFiltersLoop, hr, if_false, hc]
      exact ih _ _ hrest

theorem queryFiltersFields_error (b : Builder) :
    ∀ (fields done : List String) (raw : String),
      (∀ d ∈ done, ∃ c, GoMap.get? b.fieldColumnName (replaceFirst d "." "") = some c) →
      (∃ ref ∈ fields, GoMap.get? b.fieldColumnName (replaceFirst ref "." "") = none) →
      queryFiltersFields b fields done raw = .error errInvalidRaw := by
  intro fields
  induction fields with
  | nil => intro done raw _ h; simp at h
  | cons f rest ih =>
    intro done raw hdone h
    have hrest : (∃ ref ∈ rest, GoMap.get? b.fieldColumnName (replaceFirst ref "." "") = none)
        ∨ GoMap.get? b.fieldColumnName (replaceFirst f "." "") = none := by
      obtain ⟨ref, hmem, hnone⟩ := h
      rcases List.mem_cons.1 hmem with rfl | hm
      · right; exact hnone
      · left; exact ⟨ref, hm, hnone⟩
    by_cases hin : f ∈ done
    · simp only [queryFiltersFields, hin, if_true]
      rcases hrest with h' | h'
      · exact ih _ _ hdone h'
      · obtain ⟨c, hc⟩ := hdone f hin
        rw [hc] at h'
        exact absurd h' (by simp)
    · simp only [queryFiltersFields, hin, if_false]
      cases hc : GoMap.get? b.fieldColumnName (replaceFirst f "." "") with
      | none => rfl
      | some c =>
        rcases hrest with h' | h'
        · apply ih _ _ _ h'
          intro d hd
          rcases List.mem_cons.1 hd with rfl | hd'
          · exact ⟨c, hc⟩
          · exact hdone d hd'
        · rw [hc] at h'
          exact absurd h' (by simp)

theorem queryFiltersFields_exists (b : Builder) :
    ∀ (fields done : List String) (raw : String),
      (∀ ref ∈ fields, ∃ c, GoMap.get? b.fieldColumnName (replaceFirst ref "." "") = some c) →
      ∃ raw', queryFiltersFields b fields done raw = .ok raw' := by
  intro fields
  induction fields with
  | nil => intro done raw _; exact ⟨_, rfl⟩
  | cons f rest ih =>
    intro done raw h
    have hrest : ∀ ref ∈ rest,
        ∃ c, GoMap.get? b.fieldColumnName (replaceFirst ref "." "") = some c :=
      fun r hr => h r (List.mem_cons_of_mem _ hr)
    obtain ⟨c, hc⟩ := h f (by simp)
    by_cases hin : f ∈ done
    · simp only [queryFiltersFields, hin, if_true]
      exact ih _ _ hrest
    · simp only [queryFiltersFields, hin, if_false, hc]
      exact ih _ _ hrest

theorem queryFiltersRaw_error (b : Builder) (filters : Filters) (q : String) (v : Int)
    (h : unknownRawReference b filters) :
    queryFiltersRaw b filters q v = .ok (("", some errInvalidRaw), v) := by
  obtain ⟨r, t, args, hraw, hval, ht, href⟩ := h
  unfold queryFiltersRaw
  simp only [hraw, hval, GoValue.asIfaces, pure, Except.pure, bind, Except.bind, Arg.asString,
    ht, if_false]
  rw [queryFiltersFields_error b _ [] t (by simp) href]

theorem queryFiltersRaw_no_error (b : Builder) (filters : Filters) (q : String) (v : Int)
    (h : ¬ unknownRawReference b filters) (txt : String) (e : GoError) (n : Int) :
    queryFiltersRaw b filters q v ≠ .ok ((txt, some e), n) := by
  unfold queryFiltersRaw
  cases hraw : GoMap.get? filters Raw with
  | none => simp [pure, Except.pure]
  | some r =>
    simp only []
    cases hval : r.Val with
    | item a => simp [GoValue.asIfaces, bind, Except.bind, throw, throwThe, MonadExceptOf.throw]
    | ifaces xs =>
      cases xs with
      | nil => simp [GoValue.asIfaces, bind, Except.bind, pure, Except.pure]
      | cons first args =>
        simp only [GoValue.asIfaces, pure, Except.pure, bind, Except.bind]
        cases hfirst : first.asString with
        | error p => simp
        | ok t =>
          have hfirst' : first = .scalar (.str t) := by
            cases first with
            | nil => simp [Arg.asString, throw, throwThe, MonadExceptOf.throw] at hfirst
            | slice _ _ => simp [Arg.asString, throw, throwThe, MonadExceptOf.throw] at hfirst
            | array _ _ => simp [Arg.asString, throw, throwThe, MonadExceptOf.throw] at hfirst
            | scalar x =>
              cases x with
              | int _ => simp [Arg.asString, throw, throwThe, MonadExceptOf.throw] at hfirst
              | bool _ => simp [Arg.asString, throw, throwThe, MonadExceptOf.throw] at hfirst
              | other _ _ => simp [Arg.asString, throw, throwThe, MonadExceptOf.throw] at hfirst
              | str t' =>
                simp only [Arg.asString, pure, Except.pure, Except.ok.injEq] at hfirst
                rw [hfirst]
          subst hfirst'
          simp only []
          by_cases ht : t = ""
          · simp [ht]
          · simp only [ht, if_false]
            have hall : ∀ ref ∈ findAllFields t,
                ∃ c, GoMap.get? b.fieldColumnName (replaceFirst ref "." "") = some c := by
              intro ref href
              cases hc : GoMap.get? b.fieldColumnName (replaceFirst ref "." "") with
              | some c => exact ⟨c, rfl⟩
              | none => exact absurd ⟨r, t, args, hraw, hval, ht, ref, href, hc⟩ h
            obtain ⟨t', ht'⟩ := queryFiltersFields_exists b _ [] t hall
            rw [ht']
            simp only []
            cases hq : queryFiltersArgs args t' v with
            | error p => simp
            | ok res => simp

theorem mem_keys_of_unknownFilterKey {b : Builder} {filters : Filters}
    (h : unknownFilterKey b filters) : GoMap.len filters ≠ 0 := by
  obtain ⟨name, hmem, _, _⟩ := h
  unfold GoMap.len
  intro h0
  rw [List.length_eq_zero] at h0
  rw [h0] at hmem
  simp at hmem

/-- The three cases of `queryFilters` on a non-nil filter set. -/
theorem queryFilters_error_cases (b : Builder) (filters : Filters) (s : Int) :
    (unknownFilterKey b filters →
        queryFilters b (some filters) s = .ok ("", some errInvalidFilter))
    ∧ (¬ unknownFilterKey b filters → unknownRawReference b filters →
        queryFilters b (some filters) s = .ok ("", some errInvalidRaw))
    ∧ (¬ unknownFilterKey b filters → ¬ unknownRawReference b filters →
        ∀ txt e, queryFilters b (some filters) s ≠ .ok (txt, some e)) := by
  refine ⟨?_, ?_, ?_⟩
  · intro h
    have hlen := mem_keys_of_unknownFilterKey h
    obtain ⟨name, hmem, hne, hnone⟩ := h
    have hloop := queryFiltersLoop_error b filters (sortStrings (GoMap.keys filters)) "" s
      ⟨name, mem_sortStrings.2 hmem, hne, hnone⟩
    simp only [queryFilters, queryFiltersNum, hlen, if_false, hloop]
    rfl
  · intro hk hr
    have hlen : GoMap.len filters ≠ 0 := by
      obtain ⟨r, _, _, hraw, _⟩ := hr
      exact keys_ne_nil_of_get? filters Raw r hraw
    have hall : ∀ name ∈ sortStrings (GoMap.keys filters), name ≠ Raw →
        ∃ c, GoMap.get? b.fieldColumnName name = some c := by
      intro name hn hne
      cases hc : GoMap.get? b.fieldColumnName name with
      | some c => exact ⟨c, rfl⟩
      | none => exact absurd ⟨name, mem_sortStrings.1 hn, hne, hc⟩ hk
    obtain ⟨⟨q, v⟩, hloop⟩ := queryFiltersLoop_exists b filters _ "" s hall
    simp only [queryFilters, queryFiltersNum, hlen, if_false, hloop, queryFiltersRaw_error b filters _ _ hr]
    rfl
  · intro hk hr txt e
    by_cases hlen : GoMap.len filters = 0
    · simp [queryFilters, queryFiltersNum, hlen, pure, Except.pure, Except.map]
    · have hall : ∀ name ∈ sortStrings (GoMap.keys filters), name ≠ Raw →
          ∃ c, GoMap.get? b.fieldColumnName name = some c := by
        intro name hn hne
        cases hc : GoMap.get? b.fieldColumnName name with
        | some c => exact ⟨c, rfl⟩
        | none => exact absurd ⟨name, mem_sortStrings.1 hn, hne, hc⟩ hk
      obtain ⟨⟨q, v⟩, hloop⟩ := queryFiltersLoop_exists b filters _ "" s hall
      simp only [queryFilters, queryFiltersNum, hlen, if_false, hloop]
      intro hcontra
      cases hres : queryFiltersRaw b filters (if q ≠ "" then sliceFrom q 5 else q) v with
      | error p => rw [hres] at hcontra; simp [Except.map] at hcontra
      | ok res =>
        rw [hres] at hcontra
        simp only [Except.map, Except.ok.injEq] at hcontra
        obtain ⟨⟨txt', oe⟩, n⟩ := res
        simp only [Prod.mk.injEq] at hcontra
        obtain ⟨rfl, rfl⟩ := hcontra
        exact queryFiltersRaw_no_error b filters _ v hr txt' e n hres

theorem queryFilters_returnsError_iff (b : Builder) (filters : Option Filters) (s : Int) :
    returnsError (queryFilters b filters s) ↔ filterError b filters := by
  cases filters with
  | none =>
    simp [returnsError, filterError, queryFilters, queryFiltersNum, pure, Except.pure, Except.map]
  | some f =>
    obtain ⟨h1, h2, h3⟩ := queryFilters_error_cases b f s
    unfold returnsError filterError
    constructor
    · rintro ⟨txt, e, he⟩
      by_cases hk : unknownFilterKey b f
      · exact Or.inl hk
      · by_cases hr : unknownRawReference b f
        · exact Or.inr hr
        · exact absurd he (h3 hk hr txt e)
    · intro h
      by_cases hk : unknownFilterKey b f
      · exact ⟨_, _, h1 hk⟩
      · rcases h with h | h
        · exact absurd h hk
        · exact ⟨_, _, h2 hk h⟩

theorem queryFilters_error_text (b : Builder) (filters : Option Filters) (s : Int)
    (txt : String) (e : GoError) (h : queryFilters b filters s = .ok (txt, some e)) :
    txt = "" := by
  cases filters with
  | none => simp [queryFilters, queryFiltersNum, pure, Except.pure, Except.map] at h
  | some f =>
    obtain ⟨h1, h2, h3⟩ := queryFilters_error_cases b f s
    by_cases hk : unknownFilterKey b f
    · rw [h1 hk] at h
      simp only [Except.ok.injEq, Prod.mk.injEq] at h
      exact h.1.symm
    · by_cases hr : unknownRawReference b f
      · rw [h2 hk hr] at h
        simp only [Except.ok.injEq, Prod.mk.injEq] at h
        exact h.1.symm
      · exact absurd h (h3 hk hr txt e)

/-! ### Errors of the public query methods -/

theorem selectCount_cases (b : Builder) (filters : Option Filters) :
    (returnsError (SelectCount b filters) ↔ returnsError (queryFilters b filters 1))
    ∧ ∀ txt e, SelectCount b filters = .ok (txt, some e) → txt = "" := by
  unfold SelectCount returnsError
  cases h : queryFilters b filters 1 with
  | error p => simp [bind, Except.bind]
  | ok r =>
    obtain ⟨q, oe⟩ := r
    cases oe with
    | none => simp [bind, Except.bind, pure, Except.pure]
    | some err =>
      simp only [bind, Except.bind, pure, Except.pure, Except.ok.injEq, Prod.mk.injEq]
      refine ⟨⟨fun _ => ⟨_, _, rfl, rfl⟩, fun _ => ⟨_, _, rfl, rfl⟩⟩, ?_⟩
      intro txt e he
      exact he.1.symm

theorem delete_cases (b : Builder) (filters : Option Filters) :
    (returnsError (Delete b filters) ↔ returnsError (queryFilters b filters 1))
    ∧ ∀ txt e, Delete b filters = .ok (txt, some e) → txt = "" := by
  unfold Delete returnsError
  cases h : queryFilters b filters 1 with
  | error p => simp [bind, Except.bind]
  | ok r =>
    obtain ⟨q, oe⟩ := r
    cases oe with
    | none => simp [bind, Except.bind, pure, Except.pure]
    | some err =>
      simp only [bind, Except.bind, pure, Except.pure, Except.ok.injEq, Prod.mk.injEq]
      refine ⟨⟨fun _ => ⟨_, _, rfl, rfl⟩, fun _ => ⟨_, _, rfl, rfl⟩⟩, ?_⟩
      intro txt e he
      exact he.1.symm

theorem deleteReturningId_cases (b : Builder) (filters : Option Filters) :
    (returnsError (DeleteReturningId b filters) ↔ returnsError (queryFilters b filters 1))
    ∧ ∀ txt e, DeleteReturningId b filters = .ok (txt, some e) → txt = "" := by
  unfold DeleteReturningId returnsError
  cases h : queryFilters b filters 1 with
  | error p => simp [bind, Except.bind]
  | ok r =>
    obtain ⟨q, oe⟩ := r
    cases oe with
    | none => simp [bind, Except.bind, pure, Except.pure]
    | some err =>
      simp only [bind, Except.bind, pure, Except.pure, Except.ok.injEq, Prod.mk.injEq]
      refine ⟨⟨fun _ => ⟨_, _, rfl, rfl⟩, fun _ => ⟨_, _, rfl, rfl⟩⟩, ?_⟩
      intro txt e he
      exact he.1.symm

theorem select_cases (b : Builder) (order : List String) (limit offset : Int)
    (filters : Option Filters) :
    (∀ qOrder oerr, queryOrder b order = .ok (qOrder, oerr) →
      (returnsError (Select b order limit offset filters)
        ↔ oerr.isSome = true ∨ returnsError (queryFilters b filters 1)))
    ∧ ∀ txt e, Select b order limit offset filters = .ok (txt, some e) → txt = "" := by
  unfold Select returnsError
  cases ho : queryOrder b order with
  | error p => simp [bind, Except.bind]
  | ok ro =>
    obtain ⟨qo, oerr⟩ := ro
    cases oerr with
    | some oe =>
      simp only [bind, Except.bind, pure, Except.pure, Except.ok.injEq, Prod.mk.injEq]
      refine ⟨?_, ?_⟩
      · rintro qOrder oerr ⟨rfl, rfl⟩
        simp
      · intro txt e he
        exact he.1.symm
    | none =>
      cases h : queryFilters b filters 1 with
      | error p => simp [bind, Except.bind]
      | ok r =>
        obtain ⟨q, oe⟩ := r
        cases oe with
        | none => simp [bind, Except.bind, pure, Except.pure]
        | some err =>
          simp only [bind, Except.bind, pure, Except.pure, Except.ok.injEq, Prod.mk.injEq]
          refine ⟨?_, ?_⟩
          · rintro qOrder oerr ⟨rfl, rfl⟩
            simp
          · intro txt e he
            exact he.1.symm

theorem update_cases (b : Builder) (values : GoMap GoValue) (filters : Option Filters) :
    (returnsError (Update b values filters)
        ↔ (querySet b values).2.2.isSome = true
          ∨ returnsError (queryFilters b filters (((querySet b values).2.1 : Nat) + 1)))
    ∧ ∀ txt e, Update b values filters = .ok (txt, some e) → txt = "" := by
  unfold Update returnsError
  cases hq : querySet b values with
  | mk qSet rest =>
  obtain ⟨n, serr⟩ := rest
  cases serr with
  | some se =>
    simp only [bind, Except.bind, pure, Except.pure, Except.ok.injEq, Prod.mk.injEq]
    refine ⟨by simp, ?_⟩
    intro txt e he
    exact he.1.symm
  | none =>
    simp only []
    cases h : queryFilters b filters ((n : Int) + 1) with
    | error p => simp [bind, Except.bind]
    | ok r =>
      obtain ⟨q, oe⟩ := r
      cases oe with
      | none => simp [bind, Except.bind, pure, Except.pure]
      | some err =>
        simp only [bind, Except.bind, pure, Except.pure, Except.ok.injEq, Prod.mk.injEq]
        refine ⟨by simp, ?_⟩
        intro txt e he
        exact he.1.symm

/-! ### Faults -/

theorem queryFiltersArgs_exists : ∀ (args : List Arg) (q : String) (v : Int),
    (∀ a ∈ args, a ≠ Arg.nil) → ∃ r, queryFiltersArgs args q v = .ok r := by
  intro args
  induction args with
  | nil => intro q v _; exact ⟨_, rfl⟩
  | cons a rest ih =>
    intro q v h
    have hrest : ∀ x ∈ rest, x ≠ Arg.nil := fun x hx => h x (List.mem_cons_of_mem _ hx)
    cases a with
    | nil => exact absurd rfl (h Arg.nil (by simp))
    | scalar x => simp only [queryFiltersArgs, Arg.kind?]; exact ih _ _ hrest
    | slice t xs => simp only [queryFiltersArgs, Arg.kind?]; exact ih _ _ hrest
    | array t xs => simp only [queryFiltersArgs, Arg.kind?]; exact ih _ _ hrest

theorem queryFiltersRaw_exists (b : Builder) (filters : Filters) (q : String) (v : Int)
    (h : rawWellShaped (some filters) = true) : ∃ r, queryFiltersRaw b filters q v = .ok r := by
  unfold rawWellShaped at h
  unfold queryFiltersRaw
  cases hraw : GoMap.get? filters Raw with
  | none => exact ⟨_, rfl⟩
  | some r =>
    simp only [hraw] at h
    simp only []
    cases hval : r.Val with
    | item a => simp [hval] at h
    | ifaces xs =>
      simp only [hval] at h
      cases xs with
      | nil => exact ⟨_, rfl⟩
      | cons first args =>
        cases first with
        | nil => simp at h
        | slice _ _ => simp at h
        | array _ _ => simp at h
        | scalar x =>
          cases x with
          | int _ => simp at h
          | bool _ => simp at h
          | other _ _ => simp at h
          | str t =>
            simp only [List.all_eq_true, decide_eq_true_eq] at h
            simp only [GoValue.asIfaces, Arg.asString, pure, Except.pure, bind, Except.bind]
            by_cases ht : t = ""
            · exact ⟨((q, none), v), by simp [ht]⟩
            · simp only [ht, if_false]
              cases queryFiltersFields b (findAllFields t) [] t with
              | error err => exact ⟨_, rfl⟩
              | ok t' =>
                obtain ⟨res, hres⟩ := queryFiltersArgs_exists args t' v h
                simp only [hres]
                exact ⟨_, rfl⟩

theorem queryFilters_exists (b : Builder) (filters : Option Filters) (s : Int)
    (h : rawWellShaped filters = true) : ∃ r, queryFilters b filters s = .ok r := by
  cases filters with
  | none => exact ⟨_, rfl⟩
  | some f =>
    unfold queryFilters queryFiltersNum
    by_cases hlen : GoMap.len f = 0
    · simp only [hlen, if_true]
      exact ⟨_, rfl⟩
    · simp only [hlen, if_false]
      cases queryFiltersLoop b f (sortStrings (GoMap.keys f)) "" s with
      | error err => exact ⟨_, rfl⟩
      | ok r =>
        obtain ⟨q, v⟩ := r
        obtain ⟨res, hres⟩ := queryFiltersRaw_exists b f (if q ≠ "" then sliceFrom q 5 else q) v h
        simp only [hres]
        exact ⟨_, rfl⟩

theorem queryOrderLoop_even (b : Builder) : ∀ (n : Nat) (order : List String) (q : String),
    order.length = 2 * n → ∃ r, queryOrderLoop b order q = .ok r := by
  intro n
  induction n with
  | zero =>
    intro order q h
    have : order = [] := List.length_eq_zero.1 (by simpa using h)
    subst this
    exact ⟨_, rfl⟩
  | succ n ih =>
    intro order q h
    match order, h with
    | field :: direction :: rest, h =>
      have hrest : rest.length = 2 * n := by
        simp only [List.length_cons] at h
        omega
      simp only [queryOrderLoop]
      cases GoMap.get? b.fieldColumnName field with
      | none => exact ⟨_, rfl⟩
      | some c => exact ih rest _ hrest
    | [], h => simp at h
    | [_], h => simp only [List.length_singleton] at h; omega

theorem queryOrder_even (b : Builder) (order : List String) (h : order.length % 2 = 0) :
    ∃ r, queryOrder b order = .ok r := by
  unfold queryOrder
  by_cases h0 : order.length = 0
  · simp only [h0, if_true]
    exact ⟨_, rfl⟩
  · simp only [h0, if_false]
    obtain ⟨r, hr⟩ := queryOrderLoop_even b (order.length / 2) order "" (by omega)
    simp only [hr, bind, Except.bind]
    obtain ⟨q, oe⟩ := r
    cases oe with
    | some e => exact ⟨_, rfl⟩
    | none =>
      simp only []
      by_cases hq : q = ""
      · simp only [hq, if_true]; exact ⟨_, rfl⟩
      · simp only [hq, if_false]; exact ⟨_, rfl⟩

theorem queryOrderLoop_odd (b : Builder) : ∀ (pairs : List (String × String)) (last q : String),
    (∀ p ∈ pairs, ∃ c, GoMap.get? b.fieldColumnName p.1 = some c) →
    queryOrderLoop b (flatOrder pairs ++ [last]) q = .error .indexOutOfRange := by
  intro pairs
  induction pairs with
  | nil => intro last q _; rfl
  | cons p rest ih =>
    intro last q h
    obtain ⟨c, hc⟩ := h p (by simp)
    have hrest : ∀ x ∈ rest, ∃ c, GoMap.get? b.fieldColumnName x.1 = some c :=
      fun x hx => h x (List.mem_cons_of_mem _ hx)
    have hshape : flatOrder (p :: rest) ++ [last] = p.1 :: p.2 :: (flatOrder rest ++ [last]) := by
      simp [flatOrder]
    rw [hshape]
    simp only [queryOrderLoop, hc]
    exact ih last _ hrest

theorem select_odd_order (b : Builder) (pairs : List (String × String)) (last : String)
    (limit offset : Int) (filters : Option Filters)
    (h : ∀ p ∈ pairs, ∃ c, GoMap.get? b.fieldColumnName p.1 = some c) :
    Select b (flatOrder pairs ++ [last]) limit offset filters = .error .indexOutOfRange := by
  have hlen : (flatOrder pairs ++ [last]).length ≠ 0 := by simp
  simp only [Select, queryOrder, hlen, if_false, queryOrderLoop_odd b pairs last "" h, bind,
    Except.bind]

/-! ### The values of `Interfaces` -/

theorem argExpanded_ne_nil {a : Arg} (h : argExpanded a = true) : a ≠ Arg.nil := by
  intro hn
  subst hn
  simp [argExpanded] at h

theorem length_argValues {a : Arg} (h : argExpanded a = true) :
    (argValues a).length = argWidth a := by
  cases a with
  | nil => simp [argExpanded] at h
  | array t xs => simp [argExpanded] at h
  | scalar x => rfl
  | slice t xs => simp [argValues, argWidth, Arg.kind?, Arg.len]

theorem length_flatten_argValues : ∀ (args : List Arg), (∀ a ∈ args, argExpanded a = true) →
    ((args.map argValues).flatten).length = argsWidth args := by
  intro args
  induction args with
  | nil => intro _; rfl
  | cons a rest ih =>
    intro h
    rw [List.map_cons, List.flatten_cons, List.length_append, argsWidth_cons,
      length_argValues (h a (by simp)), ih (fun x hx => h x (List.mem_cons_of_mem _ hx))]

theorem interfacesArgs_ok : ∀ (args : List Arg) (acc : List GoValue),
    (∀ a ∈ args, argExpanded a = true) →
    interfacesArgs args acc = .ok (acc ++ (args.map argValues).flatten) := by
  intro args
  induction args with
  | nil => intro acc _; simp [interfacesArgs]; rfl
  | cons a rest ih =>
    intro acc h
    have hrest : ∀ x ∈ rest, argExpanded x = true := fun x hx => h x (List.mem_cons_of_mem _ hx)
    have ha := h a (by simp)
    cases a with
    | nil => simp [argExpanded] at ha
    | array t xs => simp [argExpanded] at ha
    | scalar x =>
      simp only [interfacesArgs, Arg.kind?]
      rw [ih _ hrest]
      simp [argValues]
    | slice t xs =>
      simp only [argExpanded] at ha
      simp only [interfacesArgs, Arg.kind?]
      rw [ih _ hrest]
      simp [argValues, interfacesOfSeq, ha]

/-- The clause of a filter set whose raw entry is absent or holds the empty list. -/
theorem queryFiltersNum_no_template (b : Builder) (filters : Filters) (s : Int)
    (hs : inInt64 s)
    (hknown : ∀ name ∈ ordinaryNames filters, ∃ c, GoMap.get? b.fieldColumnName name = some c)
    (hraw : GoMap.get? filters Raw = none
      ∨ ∃ r, GoMap.get? filters Raw = some r ∧ r.Val = .ifaces []) :
    queryFiltersNum b (some filters) s
      = .ok ((ordinaryClause b filters s, none),
          wrapInt64 (s + ((ordinaryNames filters).length : Nat))) := by
  unfold queryFiltersNum
  by_cases hlen : GoMap.len filters = 0
  · have hnil : GoMap.keys filters = [] := List.length_eq_zero.1 hlen
    simp [hlen, ordinaryClause, ordinaryNames, hnil, conditionsOf, sortStrings,
      String.intercalate, wrapInt64_of_inInt64 hs]
    rfl
  · simp only [hlen, if_false, queryFiltersLoop_sorted b filters s hs hknown, conditions_slice,
      queryFiltersRaw]
    rcases hraw with h | ⟨r, h, hval⟩
    · simp only [h]
      rfl
    · simp only [h, hval, GoValue.asIfaces, pure, Except.pure, bind, Except.bind]
      rfl

/-- The values of `Interfaces` for a raw entry that is absent or holds the empty list. -/
theorem interfaces_no_template (filters : Filters)
    (hraw : GoMap.get? filters Raw = none
      ∨ ∃ r, GoMap.get? filters Raw = some r ∧ r.Val = .ifaces []) :
    Interfaces (some filters) = .ok (expectedValues filters) := by
  have hargs : rawArguments filters = [] := by
    unfold rawArguments
    rcases hraw with h | ⟨r, h, hval⟩
    · simp [h]
    · simp [h, hval]
  unfold Interfaces expectedValues
  rw [hargs]
  by_cases hlen : GoMap.len filters = 0
  · have hnil : GoMap.keys filters = [] := List.length_eq_zero.1 hlen
    simp only [hlen, if_true]
    simp [ordinaryNames, hnil, sortStrings]
    rfl
  · simp only [hlen, if_false]
    rcases hraw with h | ⟨r, h, hval⟩
    · simp only [h]
      simp [ordinaryNames]
      rfl
    · simp only [h, hval, GoValue.kind?, GoValue.len, List.length_nil, Nat.zero_lt_two, if_true]
      simp [ordinaryNames]
      rfl

/-- The values of `Interfaces` for a raw entry with a template and expanded arguments. -/
theorem interfaces_template (filters : Filters) (r : OpVal) (first : Arg) (args : List Arg)
    (hraw : GoMap.get? filters Raw = some r)
    (hval : r.Val = .ifaces (first :: args))
    (hargs : ∀ a ∈ args, argExpanded a = true) :
    Interfaces (some filters) = .ok (expectedValues filters) := by
  have hlen : GoMap.len filters ≠ 0 := keys_ne_nil_of_get? filters Raw r hraw
  have hra : rawArguments filters = args := by simp [rawArguments, hraw, hval]
  unfold Interfaces expectedValues
  rw [hra]
  simp only [hlen, if_false, hraw, hval, GoValue.kind?, GoValue.len, List.length_cons]
  cases args with
  | nil =>
    simp only [List.length_nil, zero_add, Nat.one_lt_two, if_true]
    simp [ordinaryNames]
    rfl
  | cons a rest =>
    have h2 : ¬ ((a :: rest).length + 1 < 2) := by simp
    simp only [List.length_cons] at h2
    simp only [h2, if_false, GoValue.asIfaces, pure, Except.pure, bind, Except.bind,
      List.drop_succ_cons, List.drop_zero]
    rw [interfacesArgs_ok (a :: rest) _ hargs]
    rfl

theorem length_expectedValues (filters : Filters)
    (h : ∀ a ∈ rawArguments filters, argExpanded a = true) :
    (expectedValues filters).length
      = (ordinaryNames filters).length + argsWidth (rawArguments filters) := by
  unfold expectedValues
  rw [List.length_append, List.length_map, length_flatten_argValues _ h]

/-! ### The order clause -/

theorem flatOrder_orderPairs : ∀ (order : List String), order.length % 2 = 0 →
    flatOrder (orderPairs order) = order
  | [], _ => rfl
  | [_], h => by simp at h
  | field :: direction :: rest, h => by
    have hrest : rest.length % 2 = 0 := by
      simp only [List.length_cons] at h
      omega
    have ih := flatOrder_orderPairs rest hrest
    simp only [orderPairs, flatOrder, List.map_cons, List.flatten_cons] at ih ⊢
    rw [ih]
    rfl

theorem queryOrderLoop_pairs (b : Builder) : ∀ (order : List String) (q : String),
    order.length % 2 = 0 →
    (∀ p ∈ orderPairs order, ∃ c, GoMap.get? b.fieldColumnName p.1 = some c) →
    queryOrderLoop b order q
      = .ok (q ++ String.join ((orderPairs order).map (fun p => "," ++ orderFragment b p)), none)
  | [], q, _, _ => by simp [queryOrderLoop, orderPairs, String.join]; rfl
  | [_], _, h, _ => by simp at h
  | field :: direction :: rest, q, h, hk => by
    have hrest : rest.length % 2 = 0 := by
      simp only [List.length_cons] at h
      omega
    obtain ⟨c, hc⟩ := hk (field, direction) (by simp [orderPairs])
    have hk' : ∀ p ∈ orderPairs rest, ∃ c, GoMap.get? b.fieldColumnName p.1 = some c :=
      fun p hp => hk p (by simp [orderPairs, hp])
    simp only [queryOrderLoop, hc]
    rw [queryOrderLoop_pairs b rest _ hrest hk']
    simp only [orderPairs, List.map_cons, join_cons, orderFragment, hc, Option.getD_some,
      String.append_assoc]

theorem fragments_slice (l : List String) :
    (if String.join (l.map (fun x => "," ++ x)) = "" then
        String.join (l.map (fun x => "," ++ x))
      else sliceFrom (String.join (l.map (fun x => "," ++ x))) 1)
      = ",".intercalate l := by
  cases l with
  | nil => simp [String.join, String.intercalate]
  | cons c l =>
    have hne : String.join ((c :: l).map (fun x => "," ++ x)) ≠ "" := by
      simp only [List.map_cons, join_cons, String.append_assoc]
      intro h
      have := congrArg String.length h
      simp only [String.length_append] at this
      have h1 : ",".length = 1 := rfl
      have h0 : "".length = 0 := rfl
      omega
    rw [if_neg hne]
    simp only [List.map_cons, join_cons, String.intercalate, intercalate_go]
    rw [String.append_assoc]
    apply String.ext
    show (",".data ++ (c ++ String.join (l.map (fun x => "," ++ x))).data).drop 1 = _
    rfl

/-- The order text of an even-length list whose fields are all known. -/
theorem queryOrder_pairs (b : Builder) (order : List String) (h : order.length % 2 = 0)
    (hk : ∀ p ∈ orderPairs order, ∃ c, GoMap.get? b.fieldColumnName p.1 = some c) :
    queryOrder b order = .ok (",".intercalate ((orderPairs order).map (orderFragment b)), none) := by
  unfold queryOrder
  by_cases h0 : order.length = 0
  · have hnil : order = [] := List.length_eq_zero.1 h0
    subst hnil
    rfl
  · simp only [h0, if_false, queryOrderLoop_pairs b order "" h hk, bind, Except.bind]
    have e : ("" : String) ++ String.join ((orderPairs order).map (fun p => "," ++ orderFragment b p))
        = String.join (((orderPairs order).map (orderFragment b)).map (fun x => "," ++ x)) := by
      simp [List.map_map, Function.comp]
      rfl
    rw [e]
    simp only [pure, Except.pure]
    have hs := fragments_slice ((orderPairs order).map (orderFragment b))
    by_cases hq : String.join (((orderPairs order).map (orderFragment b)).map
        (fun x => "," ++ x)) = ""
    · rw [if_pos hq] at hs
      rw [if_pos hq, hs]
    · rw [if_neg hq] at hs
      rw [if_neg hq, hs]

theorem queryOrderLoop_unknown (b : Builder) : ∀ (order : List String) (q : String) (j : Nat)
    (field : String), order.get? (2 * j) = some field →
    GoMap.get? b.fieldColumnName field = none → 2 * j + 1 < order.length →
    queryOrderLoop b order q = .ok ("", some errInvalidOrder)
  | [], _, _, _, _, _, hlen => by simp at hlen
  | [_], _, j, _, _, _, hlen => by simp only [List.length_singleton] at hlen; omega
  | f :: d :: rest, q, j, field, hget, hnone, hlen => by
    cases hc : GoMap.get? b.fieldColumnName f with
    | none => simp only [queryOrderLoop, hc]; rfl
    | some c =>
      simp only [queryOrderLoop, hc]
      cases j with
      | zero =>
        simp only [Nat.mul_zero, List.get?_cons_zero, Option.some.injEq] at hget
        rw [hget, hnone] at hc
        exact absurd hc (by simp)
      | succ j =>
        have hget' : rest.get? (2 * j) = some field := by
          have e : 2 * (j + 1) = (2 * j + 1) + 1 := by omega
          rw [e] at hget
          simpa using hget
        have hlen' : 2 * j + 1 < rest.length := by
          simp only [List.length_cons] at hlen
          omega
        exact queryOrderLoop_unknown b rest _ j field hget' hnone hlen'

/-- The result of `Select` for an unknown field in a complete order pair. -/
theorem select_unknown_order (b : Builder) (order : List String) (limit offset : Int)
    (filters : Option Filters) (j : Nat) (field : String)
    (hget : order.get? (2 * j) = some field)
    (hnone : GoMap.get? b.fieldColumnName field = none) (hlen : 2 * j + 1 < order.length) :
    Select b order limit offset filters = .ok ("", some (wrapErr "Select" errInvalidOrder)) := by
  have h0 : order.length ≠ 0 := by omega
  simp only [Select, queryOrder, h0, if_false,
    queryOrderLoop_unknown b order "" j field hget hnone hlen, bind, Except.bind]
  rfl

/-! ### The shape of the clause -/

/-- The clause of a filter set whose raw entry holds an empty template. -/
theorem queryFiltersNum_empty_template (b : Builder) (filters : Filters) (s : Int) (r : OpVal)
    (args : List Arg)
    (hs : inInt64 s)
    (hknown : ∀ name ∈ ordinaryNames filters, ∃ c, GoMap.get? b.fieldColumnName name = some c)
    (hraw : GoMap.get? filters Raw = some r)
    (hval : r.Val = .ifaces (.scalar (.str "") :: args)) :
    queryFiltersNum b (some filters) s
      = .ok ((ordinaryClause b filters s, none),
          wrapInt64 (s + ((ordinaryNames filters).length : Nat))) := by
  have hlen : GoMap.len filters ≠ 0 := keys_ne_nil_of_get? filters Raw r hraw
  unfold queryFiltersNum
  simp only [hlen, if_false, queryFiltersLoop_sorted b filters s hs hknown, conditions_slice,
    queryFiltersRaw, hraw, hval, GoValue.asIfaces, pure, Except.pure, bind, Except.bind,
    Arg.asString, if_true]
  rfl

theorem emptyString_append (x : String) : ("" : String) ++ x = x := by
  apply String.ext
  simp [String.data_append]

theorem head?_append (a c : String) (x : Char) (h : a.data.head? = some x) :
    (a ++ c).data.head? = some x := by
  rw [String.data_append]
  cases hd : a.data with
  | nil => rw [hd] at h; simp at h
  | cons y ys => rw [hd] at h; simpa using h

theorem conditionColumn_head (b : Builder) (filters : Filters) (name : String) :
    (conditionColumn b filters name).data.head? = some '"'
    ∨ (conditionColumn b filters name).data.head? = some 'C' := by
  unfold conditionColumn
  simp only []
  split
  · right
    rw [String.append_assoc]
    exact head?_append _ _ _ rfl
  · left
    unfold quoted
    rw [String.append_assoc]
    exact head?_append _ _ _ rfl

theorem ordinaryClause_head (b : Builder) (filters : Filters) (s : Int) :
    ordinaryClause b filters s = ""
    ∨ (ordinaryClause b filters s).data.head? = some '"'
    ∨ (ordinaryClause b filters s).data.head? = some 'C' := by
  unfold ordinaryClause conditionsOf
  cases hn : ordinaryNames filters with
  | nil => left; rfl
  | cons name rest =>
    right
    simp only [List.enum, List.enumFrom_cons, List.map_cons, String.intercalate, intercalate_go,
      conditionText, String.append_assoc]
    rcases conditionColumn_head b filters name with h | h
    · left; exact head?_append _ _ _ h
    · right; exact head?_append _ _ _ h

theorem queryFiltersRaw_text (b : Builder) (filters : Filters) (q : String) (v : Int)
    (txt : String) (e : Option GoError) (n : Int)
    (h : queryFiltersRaw b filters q v = .ok ((txt, e), n)) :
    txt = q ∨ txt = "" ∨ txt.data.head? = some '(' := by
  unfold queryFiltersRaw at h
  cases hraw : GoMap.get? filters Raw with
  | none =>
    simp only [hraw, pure, Except.pure, Except.ok.injEq, Prod.mk.injEq] at h
    exact Or.inl h.1.1.symm
  | some r =>
    simp only [hraw] at h
    cases hval : r.Val with
    | item a =>
      simp [hval, GoValue.asIfaces, bind, Except.bind, throw, throwThe, MonadExceptOf.throw] at h
    | ifaces xs =>
      simp only [hval, GoValue.asIfaces, pure, Except.pure, bind, Except.bind] at h
      cases xs with
      | nil =>
        simp only [Except.ok.injEq, Prod.mk.injEq] at h
        exact Or.inl h.1.1.symm
      | cons first args =>
        simp only [] at h
        cases hfirst : first.asString with
        | error p => simp [hfirst] at h
        | ok t =>
          simp only [hfirst] at h
          by_cases ht : t = ""
          · simp only [ht, if_true, Except.ok.injEq, Prod.mk.injEq] at h
            exact Or.inl h.1.1.symm
          · simp only [ht, if_false] at h
            cases hf : queryFiltersFields b (findAllFields t) [] t with
            | error err =>
              simp only [hf, Except.ok.injEq, Prod.mk.injEq] at h
              exact Or.inr (Or.inl h.1.1.symm)
            | ok t' =>
              simp only [hf] at h
              cases hq : queryFiltersArgs args t' v with
              | error p => simp [hq] at h
              | ok res =>
                simp only [hq, Except.ok.injEq, Prod.mk.injEq] at h
                right; right
                rw [← h.1.1]
                by_cases hqe : q = ""
                · simp only [hqe, ne_eq, not_true_eq_false, if_false, String.append_assoc,
                    emptyString_append]
                  exact head?_append _ _ _ rfl
                · by_cases hop : r.Op = OpOR
                  · simp only [hqe, hop, ne_eq, not_false_eq_true, not_true_eq_false, if_true,
                      if_false, String.append_assoc]
                    exact head?_append _ _ _ rfl
                  · simp only [hqe, hop, ne_eq, not_false_eq_true, if_true, String.append_assoc]
                    exact head?_append _ _ _ rfl

/-- The first character of every text `queryFilters` returns. -/
theorem queryFilters_head (b : Builder) (filters : Option Filters) (s : Int) (hs : inInt64 s)
    (txt : String) (e : Option GoError) (h : queryFilters b filters s = .ok (txt, e)) :
    txt = "" ∨ txt.data.head? = some '"' ∨ txt.data.head? = some 'C'
      ∨ txt.data.head? = some '(' := by
  cases filters with
  | none =>
    simp only [queryFilters, queryFiltersNum, pure, Except.pure, Except.map, Except.ok.injEq,
      Prod.mk.injEq] at h
    exact Or.inl h.1.symm
  | some f =>
    by_cases hk : unknownFilterKey b f
    · rw [(queryFilters_error_cases b f s).1 hk] at h
      simp only [Except.ok.injEq, Prod.mk.injEq] at h
      exact Or.inl h.1.symm
    · have hall : ∀ name ∈ ordinaryNames f, ∃ c, GoMap.get? b.fieldColumnName name = some c := by
        intro name hn
        obtain ⟨hmem, hne⟩ := mem_ordinaryNames.1 hn
        cases hc : GoMap.get? b.fieldColumnName name with
        | some c => exact ⟨c, rfl⟩
        | none => exact absurd ⟨name, hmem, hne, hc⟩ hk
      unfold queryFilters queryFiltersNum at h
      by_cases hlen : GoMap.len f = 0
      · simp only [hlen, if_true, pure, Except.pure, Except.map, Except.ok.injEq,
          Prod.mk.injEq] at h
        exact Or.inl h.1.symm
      · simp only [hlen, if_false, queryFiltersLoop_sorted b f s hs hall, conditions_slice] at h
        cases hres : queryFiltersRaw b f
            (" AND ".intercalate (conditionsOf b f (ordinaryNames f) s))
            (wrapInt64 (s + ((ordinaryNames f).length : Nat))) with
        | error p => simp [hres, Except.map] at h
        | ok res =>
          obtain ⟨⟨txt', e'⟩, n⟩ := res
          simp only [hres, Except.map, Except.ok.injEq, Prod.mk.injEq] at h
          obtain ⟨rfl, rfl⟩ := h
          rcases queryFiltersRaw_text b f _ _ txt' e' n hres with h1 | h1 | h1
          · rcases ordinaryClause_head b f s with h2 | h2 | h2
            · left; rw [h1]; exact h2
            · right; left; rw [h1]; exact h2
            · right; right; left; rw [h1]; exact h2
          · exact Or.inl h1
          · exact Or.inr (Or.inr (Or.inr h1))

theorem not_prefix_of_head (w txt : String) (x y : Char) (hw : w.data.head? = some x)
    (ht : txt = "" ∨ txt.data.head? = some y) (hxy : x ≠ y) (hwne : w ≠ "") :
    ¬ w.data <+: txt.data := by
  rintro ⟨rest, hrest⟩
  cases hwd : w.data with
  | nil => exact hwne (String.ext hwd)
  | cons c cs =>
    rw [hwd] at hw hrest
    simp only [List.head?_cons, Option.some.injEq] at hw
    rcases ht with ht | ht
    · rw [ht] at hrest
      simp at hrest
    · rw [← hrest] at ht
      simp only [List.cons_append, List.head?_cons, Option.some.injEq] at ht
      exact hxy (hw ▸ ht)

/-! ## A filter set of one ordinary filter -/

theorem queryFilters_single (b : Builder) (name col : String) (ov : OpVal) (s : Int)
    (hs : inInt64 s) (hname : name ≠ Raw)
    (hcol : GoMap.get? b.fieldColumnName name = some col) :
    queryFilters b (some [(name, ov)]) s
      = .ok (conditionText b [(name, ov)] name s, none) := by
  have hraw : GoMap.get? [(name, ov)] Raw = none := by
    simp [GoMap.get?, List.find?, hname]
  have hkeys : GoMap.keys [(name, ov)] = [name] := by
    simp [GoMap.keys]
  have hk : ∀ n ∈ GoMap.keys [(name, ov)], ∃ c, GoMap.get? b.fieldColumnName n = some c := by
    intro n hn
    rw [hkeys] at hn
    simp only [List.mem_singleton] at hn
    exact ⟨col, hn ▸ hcol⟩
  unfold queryFilters
  rw [queryFiltersNum_ordinary b [(name, ov)] s hs hraw hk, hkeys]
  simp [sortStrings, conditionsOf, List.enum, List.enumFrom, String.intercalate,
    String.intercalate.go, wrapInt64_of_inInt64 hs, Except.map]

theorem at_single (name : String) (ov : OpVal) : Filters.at [(name, ov)] name = ov := by
  simp [Filters.at, GoMap.get?, List.find?]

/-! ## The SET text of `querySet` -/

theorem querySetColumns_known (b : Builder) (keys : List String)
    (hk : ∀ k ∈ keys, ∃ c, GoMap.get? b.fieldColumnName k = some c) :
    querySetColumns b keys
      = some (keys.map (fun k => (GoMap.get? b.fieldColumnName k).getD "")) := by
  induction keys with
  | nil => rfl
  | cons k rest ih =>
    obtain ⟨c, hc⟩ := hk k (List.mem_cons_self _ _)
    simp only [querySetColumns, hc, List.map_cons, Option.getD_some]
    rw [ih (fun x hx => hk x (List.mem_cons_of_mem _ hx))]
    rfl

theorem querySetColumns_unknown (b : Builder) (keys : List String) (k : String)
    (hk : k ∈ keys) (hnone : GoMap.get? b.fieldColumnName k = none) :
    querySetColumns b keys = none := by
  induction keys with
  | nil => cases hk
  | cons x rest ih =>
    simp only [querySetColumns]
    cases hx : GoMap.get? b.fieldColumnName x with
    | none => rfl
    | some c =>
      simp only []
      rcases List.mem_cons.1 hk with h | h
      · rw [h, hx] at hnone; cases hnone
      · rw [ih h]; rfl

theorem querySetAssign_eq (columns : List String) (i : Nat) (acc : String) :
    querySetAssign columns i acc
      = acc ++ String.join ((columns.enumFrom i).map
          (fun p => "," ++ (quoted p.2 ++ "=$" ++ fmtInt (p.1 : Nat)))) := by
  induction columns generalizing i acc with
  | nil => simp [querySetAssign, String.join]
  | cons c rest ih =>
    simp only [querySetAssign, List.enumFrom_cons, List.map_cons, join_cons]
    rw [ih]
    simp [String.append_assoc]

theorem sliceFrom_comma_join (c : String) (l : List String) :
    sliceFrom (String.join ((c :: l).map (fun x => "," ++ x))) 1
      = ",".intercalate (c :: l) := by
  simp only [List.map_cons, join_cons, String.intercalate, intercalate_go]
  rw [String.append_assoc]
  apply String.ext
  show (",".data ++ (c ++ String.join (l.map (fun x => "," ++ x))).data).drop 1 = _
  rfl

theorem querySet_known (b : Builder) (values : GoMap GoValue)
    (hlen : 1 ≤ GoMap.len values)
    (hk : ∀ k ∈ GoMap.keys values, ∃ c, GoMap.get? b.fieldColumnName k = some c) :
    querySet b values = (setClause (setColumns b values), GoMap.len values, none) := by
  have h0 : GoMap.len values ≠ 0 := by omega
  unfold querySet
  rw [if_neg h0, querySetColumns_known b _ hk]
  simp only [List.length_map]
  have hl : (GoMap.keys values).length = GoMap.len values := rfl
  rw [hl, if_neg h0, querySetAssign_eq]
  have hne : sortStrings ((GoMap.keys values).map
      (fun k => (GoMap.get? b.fieldColumnName k).getD "")) ≠ [] := by
    intro h
    have := congrArg List.length h
    rw [length_sortStrings, List.length_map, hl] at this
    exact h0 this
  unfold setClause setColumns
  generalize sortStrings ((GoMap.keys values).map
      (fun k => (GoMap.get? b.fieldColumnName k).getD "")) = cols at hne
  cases cols with
  | nil => exact absurd rfl hne
  | cons c rest =>
    have e : "" ++ String.join (((c :: rest).enumFrom 1).map
          (fun p => "," ++ (quoted p.2 ++ "=$" ++ fmtInt (p.1 : Nat))))
        = String.join ((((c :: rest).enumFrom 1).map
            (fun p => quoted p.2 ++ "=$" ++ fmtInt (p.1 : Nat))).map (fun x => "," ++ x)) := by
      simp [List.map_map, Function.comp_def]
    rw [e]
    simp only [List.enumFrom_cons, List.map_cons]
    have hs := sliceFrom_comma_join (quoted c ++ "=$" ++ fmtInt ((1 : Nat) : Int))
      (List.map (fun p => quoted p.2 ++ "=$" ++ fmtInt (p.1 : Nat)) (List.enumFrom (1 + 1) rest))
    simp only [List.map_cons] at hs
    rw [hs]

theorem querySet_unknown (b : Builder) (values : GoMap GoValue) (k : String)
    (hk : k ∈ GoMap.keys values) (hnone : GoMap.get? b.fieldColumnName k = none) :
    querySet b values = ("", 0, some errInvalidSet) := by
  have h0 : GoMap.len values ≠ 0 := by
    intro h
    have : (GoMap.keys values).length = 0 := h
    rw [List.length_eq_zero] at this
    rw [this] at hk
    cases hk
  unfold querySet
  rw [if_neg h0, querySetColumns_unknown b _ k hk hnone]
  rfl

/-! ## Reflection: what the two passes over the fields leave in the builder -/

theorem GoMap.get?_set {β : Type} (m : GoMap β) (k k2 : String) (v : β) :
    GoMap.get? (GoMap.set m k v) k2 = if k = k2 then some v else GoMap.get? m k2 := by
  by_cases h : k = k2
  · simp [GoMap.get?, GoMap.set, List.find?, h]
  · simp [GoMap.get?, GoMap.set, List.find?, h]

theorem flags_add_unique : ∀ x, x < 16 → x &&& 4 = 0 → x &&& 2 = 0 →
    x + 2 < 16 ∧ (x + 2) &&& 4 = 0 := by decide

theorem flags_add_password : ∀ x, x < 16 → x &&& 4 = 0 → x &&& 8 = 0 →
    x + 8 < 16 ∧ (x + 8) &&& 4 = 0 := by decide

theorem flags_add_notString : ∀ x, x < 16 → x &&& 4 = 0 →
    x + 4 < 16 ∧ (x + 4) &&& 4 > 0 := by decide

theorem setFieldFromTagOptWithoutVal_keeps (b : Builder) (opt fieldName : String) :
    (setFieldFromTagOptWithoutVal b opt fieldName).columnNames = b.columnNames
    ∧ (setFieldFromTagOptWithoutVal b opt fieldName).tagName = b.tagName
    ∧ (setFieldFromTagOptWithoutVal b opt fieldName).reflectError = b.reflectError
    ∧ (setFieldFromTagOptWithoutVal b opt fieldName).flags = b.flags
    ∧ (tagFlags b → tagFlags (setFieldFromTagOptWithoutVal b opt fieldName)) := by
  unfold setFieldFromTagOptWithoutVal
  split_ifs with h1 h2 h3
  · refine ⟨rfl, rfl, rfl, rfl, ?_⟩
    intro ht name
    have hx := ht fieldName
    have hn := ht name
    simp only [Builder.flagsOf, GoMap.get?_set] at *
    by_cases hk : fieldName = name
    · rw [if_pos hk]
      exact flags_add_unique _ hx.1 hx.2 h1.2
    · rw [if_neg hk]
      exact hn
  · refine ⟨rfl, rfl, rfl, rfl, ?_⟩
    intro ht name
    have hx := ht fieldName
    have hn := ht name
    simp only [Builder.flagsOf, GoMap.get?_set] at *
    by_cases hk : fieldName = name
    · rw [if_pos hk]
      exact flags_add_password _ hx.1 hx.2 h2.2
    · rw [if_neg hk]
      exact hn
  · dsimp only
    split_ifs <;> exact ⟨rfl, rfl, rfl, rfl, id⟩
  · exact ⟨rfl, rfl, rfl, rfl, id⟩

theorem setFieldFromTag_keeps (b : Builder) (tag fieldName : String) :
    (setFieldFromTag b tag fieldName).columnNames = b.columnNames
    ∧ (setFieldFromTag b tag fieldName).tagName = b.tagName
    ∧ (setFieldFromTag b tag fieldName).reflectError = b.reflectError
    ∧ (setFieldFromTag b tag fieldName).flags = b.flags
    ∧ (tagFlags b → tagFlags (setFieldFromTag b tag fieldName)) := by
  unfold setFieldFromTag
  generalize splitOn tag ' ' = opts
  induction opts generalizing b with
  | nil => exact ⟨rfl, rfl, rfl, rfl, id⟩
  | cons o rest ih =>
    simp only [List.foldl_cons]
    have h1 := setFieldFromTagOptWithoutVal_keeps b o fieldName
    have h2 := ih (setFieldFromTagOptWithoutVal b o fieldName)
    exact ⟨h2.1.trans h1.1, h2.2.1.trans h1.2.1, h2.2.2.1.trans h1.2.2.1,
      h2.2.2.2.1.trans h1.2.2.2.1, fun ht => h2.2.2.2.2 (h1.2.2.2.2 ht)⟩

theorem reflectFieldTagsLoop_keeps (fields : List StructField) (b : Builder) :
    (reflectFieldTagsLoop fields b).columnNames = b.columnNames
    ∧ (reflectFieldTagsLoop fields b).flags = b.flags
    ∧ (tagFlags b → tagFlags (reflectFieldTagsLoop fields b)) := by
  induction fields generalizing b with
  | nil => exact ⟨rfl, rfl, id⟩
  | cons f rest ih =>
    unfold reflectFieldTagsLoop
    have hs := setFieldFromTag_keeps b (f.tagGet b.tagName) f.Name
    dsimp only
    by_cases hsup : IsFieldKindSupported f.Kind = true
    · rw [if_neg (not_not.2 hsup)]
      by_cases herr : (setFieldFromTag b (f.tagGet b.tagName) f.Name).reflectError ≠ none
      · rw [if_pos herr]
        exact ⟨hs.1, hs.2.2.2.1, hs.2.2.2.2⟩
      · rw [if_neg herr]
        by_cases hval : f.tagGet (b.tagName ++ "_val") ≠ ""
        · rw [if_pos hval]
          have h := ih { setFieldFromTag b (f.tagGet b.tagName) f.Name with
            fieldDefault := GoMap.set (setFieldFromTag b (f.tagGet b.tagName) f.Name).fieldDefault
              f.Name (f.tagGet (b.tagName ++ "_val")) }
          exact ⟨h.1.trans hs.1, h.2.1.trans hs.2.2.2.1, fun ht => h.2.2 (hs.2.2.2.2 ht)⟩
        · rw [if_neg hval]
          have h := ih (setFieldFromTag b (f.tagGet b.tagName) f.Name)
          exact ⟨h.1.trans hs.1, h.2.1.trans hs.2.2.2.1, fun ht => h.2.2 (hs.2.2.2.2 ht)⟩
    · rw [if_pos hsup]
      exact ih b

theorem reflectFieldTags_keeps (b : Builder) (obj : StructType) :
    (reflectFieldTags b obj).columnNames = []
    ∧ (reflectFieldTags b obj).flags = b.flags
    ∧ tagFlags (reflectFieldTags b obj) := by
  unfold reflectFieldTags
  have h := reflectFieldTagsLoop_keeps obj.Fields (initMaps b)
  refine ⟨h.1, h.2.1, h.2.2 ?_⟩
  intro name
  simp [initMaps, Builder.flagsOf, GoMap.get?, FieldFlagNotString]

theorem reflectColumnsLoop_cons_supported (snake : String → String) (f : StructField)
    (rest : List StructField) (b : Builder) (m : Nat)
    (h : IsFieldKindSupported f.Kind = true) :
    (reflectColumnsLoop snake (f :: rest) b m).1
      = (reflectColumnsLoop snake rest (columnStep snake f b)
          (if isFieldModification f.Name f.Kind then m + 1 else m)).1 := by
  rw [reflectColumnsLoop]
  dsimp only
  rw [if_neg (not_not.2 h)]
  rfl

theorem reflectColumnsLoop_cons_unsupported (snake : String → String) (f : StructField)
    (rest : List StructField) (b : Builder) (m : Nat)
    (h : ¬ IsFieldKindSupported f.Kind = true) :
    reflectColumnsLoop snake (f :: rest) b m = reflectColumnsLoop snake rest b m := by
  rw [reflectColumnsLoop]
  dsimp only
  rw [if_pos h]

theorem columnStep_facts (snake : String → String) (f : StructField) (b : Builder) :
    (columnStep snake f b).columnNames = b.columnNames ++ [quoted (snake f.Name)]
    ∧ (columnStep snake f b).tableName = b.tableName
    ∧ (columnStep snake f b).flags = b.flags
    ∧ (∀ n, GoMap.get? (columnStep snake f b).fieldColumnName n
        = if f.Name = n then some (snake f.Name) else GoMap.get? b.fieldColumnName n)
    ∧ ((∀ n, b.flagsOf n < 16) → ∀ n, (columnStep snake f b).flagsOf n < 16
        ∧ ((columnStep snake f b).flagsOf n &&& FieldFlagNotString > 0
            ↔ (b.flagsOf n &&& FieldFlagNotString > 0 ∨ (f.Name = n ∧ f.Kind ≠ .String)))) := by
  unfold columnStep
  dsimp only
  by_cases hc : f.Kind ≠ .String ∧ b.flagsOf f.Name &&& FieldFlagNotString = 0
  · rw [if_pos hc]
    refine ⟨rfl, rfl, rfl, fun n => GoMap.get?_set _ _ _ _, ?_⟩
    intro hb n
    simp only [Builder.flagsOf, GoMap.get?_set]
    by_cases hk : f.Name = n
    · rw [if_pos hk]
      have := flags_add_notString _ (hb f.Name) hc.2
      simp only [Option.getD_some]
      exact ⟨this.1, fun _ => Or.inr ⟨hk, hc.1⟩, fun _ => this.2⟩
    · rw [if_neg hk]
      exact ⟨hb n, fun h => Or.inl h, fun h => h.elim id (fun h2 => absurd h2.1 hk)⟩
  · rw [if_neg hc]
    refine ⟨rfl, rfl, rfl, fun n => GoMap.get?_set _ _ _ _, ?_⟩
    intro hb n
    refine ⟨hb n, fun h => Or.inl h, fun h => h.elim id (fun h2 => ?_)⟩
    rw [← h2.1]
    by_contra hz
    exact hc ⟨h2.2, Nat.eq_zero_of_not_pos hz⟩

theorem reflectColumnsLoop_facts (snake : String → String) (fields : List StructField) :
    ∀ (b : Builder) (m : Nat),
    (reflectColumnsLoop snake fields b m).1.columnNames
        = b.columnNames
          ++ (fields.filter (fun f => IsFieldKindSupported f.Kind)).map
              (fun f => quoted (snake f.Name))
    ∧ (reflectColumnsLoop snake fields b m).1.tableName = b.tableName
    ∧ (reflectColumnsLoop snake fields b m).1.flags = b.flags
    ∧ (∀ n, GoMap.get? (reflectColumnsLoop snake fields b m).1.fieldColumnName n
        = if ∃ g ∈ fields, IsFieldKindSupported g.Kind = true ∧ g.Name = n then some (snake n)
          else GoMap.get? b.fieldColumnName n)
    ∧ ((∀ n, b.flagsOf n < 16) → ∀ n,
        (reflectColumnsLoop snake fields b m).1.flagsOf n < 16
        ∧ ((reflectColumnsLoop snake fields b m).1.flagsOf n &&& FieldFlagNotString > 0
            ↔ (b.flagsOf n &&& FieldFlagNotString > 0
                ∨ ∃ g ∈ fields, IsFieldKindSupported g.Kind = true ∧ g.Name = n
                    ∧ g.Kind ≠ .String))) := by
  induction fields with
  | nil =>
    intro b m
    simp [reflectColumnsLoop]
  | cons f rest ih =>
    intro b m
    by_cases hsup : IsFieldKindSupported f.Kind = true
    · rw [reflectColumnsLoop_cons_supported snake f rest b m hsup]
      have hi := ih (columnStep snake f b) (if isFieldModification f.Name f.Kind then m + 1 else m)
      have hs := columnStep_facts snake f b
      refine ⟨?_, hi.2.1.trans hs.2.1, hi.2.2.1.trans hs.2.2.1, ?_, ?_⟩
      · rw [hi.1, hs.1]
        simp [List.filter_cons, hsup]
      · intro n
        rw [hi.2.2.2.1 n, hs.2.2.2.1 n]
        by_cases h1 : ∃ g ∈ rest, IsFieldKindSupported g.Kind = true ∧ g.Name = n
        · have h2 : ∃ g ∈ f :: rest, IsFieldKindSupported g.Kind = true ∧ g.Name = n := by
            obtain ⟨g, hg, hgg⟩ := h1
            exact ⟨g, List.mem_cons_of_mem _ hg, hgg⟩
          rw [if_pos h1, if_pos h2]
        · rw [if_neg h1]
          by_cases hk : f.Name = n
          · have h2 : ∃ g ∈ f :: rest, IsFieldKindSupported g.Kind = true ∧ g.Name = n :=
              ⟨f, List.mem_cons_self _ _, hsup, hk⟩
            rw [if_pos hk, if_pos h2, hk]
          · have h2 : ¬ ∃ g ∈ f :: rest, IsFieldKindSupported g.Kind = true ∧ g.Name = n := by
              rintro ⟨g, hg, hgs, hgn⟩
              rcases List.mem_cons.1 hg with h | h
              · exact hk (h ▸ hgn)
              · exact h1 ⟨g, h, hgs, hgn⟩
            rw [if_neg hk, if_neg h2]
      · intro hb n
        have hsn := hs.2.2.2.2 hb
        have hin := hi.2.2.2.2 (fun x => (hsn x).1) n
        refine ⟨hin.1, ?_⟩
        rw [hin.2, (hsn n).2]
        constructor
        · rintro ((h | ⟨hk, hkind⟩) | ⟨g, hg, hgg⟩)
          · exact Or.inl h
          · exact Or.inr ⟨f, List.mem_cons_self _ _, hsup, hk, hkind⟩
          · exact Or.inr ⟨g, List.mem_cons_of_mem _ hg, hgg⟩
        · rintro (h | ⟨g, hg, hgs, hgn, hgk⟩)
          · exact Or.inl (Or.inl h)
          · rcases List.mem_cons.1 hg with h | h
            · subst h
              exact Or.inl (Or.inr ⟨hgn, hgk⟩)
            · exact Or.inr ⟨g, h, hgs, hgn, hgk⟩
    · rw [reflectColumnsLoop_cons_unsupported snake f rest b m hsup]
      have hi := ih b m
      refine ⟨?_, hi.2.1, hi.2.2.1, ?_, ?_⟩
      · rw [hi.1]
        simp [List.filter_cons, hsup]
      · intro n
        rw [hi.2.2.2.1 n]
        have e : (∃ g ∈ f :: rest, IsFieldKindSupported g.Kind = true ∧ g.Name = n)
            ↔ ∃ g ∈ rest, IsFieldKindSupported g.Kind = true ∧ g.Name = n := by
          constructor
          · rintro ⟨g, hg, hgs, hgn⟩
            rcases List.mem_cons.1 hg with h | h
            · subst h; exact absurd hgs hsup
            · exact ⟨g, h, hgs, hgn⟩
          · rintro ⟨g, hg, hgg⟩
            exact ⟨g, List.mem_cons_of_mem _ hg, hgg⟩
        simp only [e]
      · intro hb n
        have hin := hi.2.2.2.2 hb n
        refine ⟨hin.1, ?_⟩
        rw [hin.2]
        constructor
        · rintro (h | ⟨g, hg, hgg⟩)
          · exact Or.inl h
          · exact Or.inr ⟨g, List.mem_cons_of_mem _ hg, hgg⟩
        · rintro (h | ⟨g, hg, hgs, hgn, hgk⟩)
          · exact Or.inl h
          · rcases List.mem_cons.1 hg with h | h
            · subst h; exact absurd hgs hsup
            · exact Or.inr ⟨g, h, hgs, hgn, hgk⟩

/-! ## The numbering loop of `reflectBuildQueries` -/

theorem string_mk_data (s : String) : (⟨s.data⟩ : String) = s := rfl

theorem numberLoop_eq (numColumn : Nat) : ∀ (n i : Nat) (a v g : String),
    numberLoop numColumn n i (a, v, g)
      = (⟨fillMarks a.data ((List.range' i n).map (fun k => "$" ++ fmtInt (k : Nat)))⟩,
         ⟨fillMarks v.data ((List.range' i n).map (fun k => "$" ++ fmtInt (k : Nat)))⟩,
         ⟨fillMarks g.data
            (((List.range' i n).filter (fun k => decide (k > numColumn))).map
              (fun k => "$" ++ fmtInt (k : Nat)))⟩) := by
  intro n
  induction n with
  | zero =>
    intro i a v g
    simp [numberLoop, fillMarks_no_reps]
  | succ n ih =>
    intro i a v g
    rw [numberLoop, ih]
    have hrep : ∀ c ∈ ("$" ++ fmtInt (i : Nat)).data, c ≠ '?' := placeholder_no_mark _
    simp only [List.range'_succ, List.map_cons]
    rw [fillMarks_step a _ hrep, fillMarks_step v _ hrep]
    by_cases hi : i > numColumn
    · rw [if_pos hi]
      have : decide (i > numColumn) = true := decide_eq_true hi
      simp only [List.filter_cons, this, if_true, List.map_cons]
      rw [fillMarks_step g _ hrep]
    · rw [if_neg hi]
      have : decide (i > numColumn) = false := decide_eq_false hi
      simp only [List.filter_cons, this, Bool.false_eq_true, if_false]

theorem filter_rounds (N : Nat) :
    (List.range' 1 (N * 2)).filter (fun k => decide (k > N)) = List.range' (N + 1) N := by
  have h : List.range' 1 (N * 2) = List.range' 1 N ++ List.range' (1 + N) N := by
    rw [List.range'_append_1]
    congr 1
    omega
  rw [h, List.filter_append]
  have h1 : (List.range' 1 N).filter (fun k => decide (k > N)) = [] := by
    rw [List.filter_eq_nil_iff]
    intro a ha
    rw [List.mem_range'_1] at ha
    simp only [gt_iff_lt, decide_eq_true_eq, not_lt]
    omega
  have h2 : (List.range' (1 + N) N).filter (fun k => decide (k > N)) = List.range' (1 + N) N := by
    rw [List.filter_eq_self]
    intro a ha
    rw [List.mem_range'_1] at ha
    simp only [gt_iff_lt, decide_eq_true_eq]
    omega
  rw [h1, h2, List.nil_append, Nat.add_comm]

theorem fillMarks_mark (cs : List Char) (r : String) (rs : List String) :
    fillMarks ('?' :: cs) (r :: rs) = r.data ++ fillMarks cs rs := by
  simp [fillMarks]

theorem fillMarks_marks (k : Nat) : ∀ (i n : Nat), k ≤ n →
    fillMarks (String.join (List.replicate k ",?")).data
        ((List.range' i n).map (fun j => "$" ++ fmtInt (j : Nat)))
      = (String.join ((List.range' i k).map (fun j => "," ++ ("$" ++ fmtInt (j : Nat))))).data := by
  induction k with
  | zero =>
    intro i n _
    simp [String.join, fillMarks]
  | succ k ih =>
    intro i n hn
    obtain ⟨n2, rfl⟩ : ∃ n2, n = n2 + 1 := ⟨n - 1, by omega⟩
    simp only [List.replicate_succ, join_cons, List.range'_succ, List.map_cons,
      String.data_append]
    have e : ∀ X : List Char, [',', '?'] ++ X = [','] ++ ('?' :: X) := fun _ => rfl
    rw [e, fillMarks_append_clean [','] (by simp), fillMarks_mark, ih (i + 1) n2 (by omega)]
    simp [String.data_append]

theorem valuesWithoutId_filled (N : Nat) (hN : 2 ≤ N) :
    (⟨fillMarks ("?" ++ String.join (List.replicate (N - 2) ",?")).data
        ((List.range' 1 (N * 2)).map (fun k => "$" ++ fmtInt (k : Nat)))⟩ : String)
      = numberedPlaceholders 1 (N - 1) := by
  obtain ⟨m, rfl⟩ : ∃ m, N = m + 2 := ⟨N - 2, by omega⟩
  have h2 : (m + 2) * 2 = (m + 3 + m) + 1 := by ring
  have h3 : m + 2 - 2 = m := by omega
  have h4 : m + 2 - 1 = m + 1 := by omega
  rw [h3, h4]
  apply String.ext
  unfold numberedPlaceholders
  rw [h2]
  simp only [List.range'_succ, List.map_cons, String.data_append, String.intercalate,
    intercalate_go]
  rw [List.singleton_append, fillMarks_mark]
  have := fillMarks_marks m (1 + 1) (m + 3 + m) (by omega)
  rw [this]
  simp [List.map_map, Function.comp_def, String.data_append]

theorem join_concat (y : String) (l : List String) :
    String.join (l ++ [y]) = String.join l ++ y := by
  induction l with
  | nil => simp [String.join]
  | cons b r ih => simp only [List.cons_append, join_cons, ih, String.append_assoc]

theorem intercalate_concat (x : String) (l : List String) (h : l ≠ []) :
    ",".intercalate (l ++ [x]) = ",".intercalate l ++ "," ++ x := by
  cases l with
  | nil => exact absurd rfl h
  | cons a rest =>
    simp only [List.cons_append, String.intercalate, intercalate_go, List.map_append,
      List.map_cons, List.map_nil]
    rw [join_concat]
    simp [String.append_assoc]

theorem numberedPlaceholders_succ (k : Nat) (hk : 1 ≤ k) :
    numberedPlaceholders 1 k ++ ",$" ++ fmtInt ((k + 1 : Nat) : Int)
      = numberedPlaceholders 1 (k + 1) := by
  unfold numberedPlaceholders
  have h : List.range' 1 (k + 1) = List.range' 1 k ++ [k + 1] := by
    rw [List.range'_concat]
    simp [Nat.add_comm]
  rw [h, List.map_append, List.map_cons, List.map_nil, intercalate_concat]
  · simp [String.append_assoc]
    rfl
  · intro hnil
    have := congrArg List.length hnil
    simp at this
    omega

/-! ## The assignment list of the conflict statement -/

theorem withValues_text (rest : List String) : ∀ c : String,
    "=?,".intercalate (c :: rest) ++ "=?"
      = c ++ "=?" ++ String.join (rest.map (fun x => "," ++ (x ++ "=?"))) := by
  induction rest with
  | nil =>
    intro c
    simp [String.intercalate, String.intercalate.go, String.join]
  | cons d r ih =>
    intro c
    have h := ih d
    simp only [String.intercalate, intercalate_go, List.map_cons, join_cons] at h ⊢
    apply String.ext
    have hd := congrArg String.data h
    simp only [String.data_append, List.append_assoc] at hd ⊢
    rw [hd]
    rfl

theorem fillMarks_assign (cols : List String) : ∀ (i n : Nat), cols.length ≤ n →
    (∀ c ∈ cols, ∀ ch ∈ c.data, ch ≠ '?') →
    fillMarks (String.join (cols.map (fun x => "," ++ (x ++ "=?")))).data
        ((List.range' i n).map (fun j => "$" ++ fmtInt (j : Nat)))
      = (String.join ((cols.enumFrom i).map
          (fun p => "," ++ (p.2 ++ "=$" ++ fmtInt (p.1 : Nat))))).data := by
  induction cols with
  | nil =>
    intro i n _ _
    simp [String.join, fillMarks]
  | cons c rest ih =>
    intro i n hn hclean
    obtain ⟨n2, rfl⟩ : ∃ n2, n = n2 + 1 := ⟨n - 1, by simp at hn; omega⟩
    have hc : ∀ ch ∈ (',' :: c.data ++ ['=']), ch ≠ '?' := by
      intro ch hch
      simp only [List.cons_append, List.mem_cons, List.mem_append, List.mem_singleton,
        List.not_mem_nil, or_false] at hch
      rcases hch with h | h | h
      · rw [h]; decide
      · exact hclean c (List.mem_cons_self _ _) ch h
      · rw [h]; decide
    have e : (String.join ((c :: rest).map (fun x => "," ++ (x ++ "=?")))).data
        = (',' :: c.data ++ ['=']) ++ ('?' :: (String.join
            (rest.map (fun x => "," ++ (x ++ "=?")))).data) := by
      simp only [List.map_cons, join_cons, String.data_append]
      simp
    rw [e, fillMarks_append_clean _ hc]
    simp only [List.range'_succ, List.map_cons]
    rw [fillMarks_mark, ih (i + 1) n2 (by simp at hn; omega)
      (fun x hx => hclean x (List.mem_cons_of_mem _ hx))]
    simp only [List.enumFrom_cons, List.map_cons, join_cons, String.data_append]
    simp

theorem withValuesAgain_filled (cols : List String) (i n : Nat) (hne : cols ≠ [])
    (hn : cols.length ≤ n) (hclean : ∀ c ∈ cols, ∀ ch ∈ c.data, ch ≠ '?') :
    (⟨fillMarks ("=?,".intercalate cols ++ "=?").data
        ((List.range' i n).map (fun j => "$" ++ fmtInt (j : Nat)))⟩ : String)
      = numberedAssignments cols i := by
  cases cols with
  | nil => exact absurd rfl hne
  | cons c rest =>
    obtain ⟨n2, rfl⟩ : ∃ n2, n = n2 + 1 := ⟨n - 1, by simp at hn; omega⟩
    rw [withValues_text]
    apply String.ext
    have hc : ∀ ch ∈ (c.data ++ ['=']), ch ≠ '?' := by
      intro ch hch
      simp only [List.mem_append, List.mem_singleton] at hch
      rcases hch with h | h
      · exact hclean c (List.mem_cons_self _ _) ch h
      · rw [h]; decide
    have e : (c ++ "=?" ++ String.join (rest.map (fun x => "," ++ (x ++ "=?")))).data
        = (c.data ++ ['=']) ++ ('?' :: (String.join
            (rest.map (fun x => "," ++ (x ++ "=?")))).data) := by
      simp only [String.data_append]
      simp
    show fillMarks _ _ = _
    rw [e, fillMarks_append_clean _ hc]
    simp only [List.range'_succ, List.map_cons]
    rw [fillMarks_mark, fillMarks_assign rest (i + 1) n2 (by simp at hn; omega)
      (fun x hx => hclean x (List.mem_cons_of_mem _ hx))]
    unfold numberedAssignments
    simp only [List.enumFrom_cons, List.map_cons, String.intercalate, intercalate_go,
      String.data_append, List.map_map, Function.comp_def]
    simp

/-! ## The templates of `reflectBuildQueries` -/

theorem reflectBuildQueries_ok (snake : String → String) (b0 : Builder) (obj : StructType)
    (tp : String) (hN : 2 ≤ (afterColumns snake b0 obj tp).columnNames.length) :
    ∃ b, reflectBuildQueries snake b0 obj tp = .ok b
      ∧ b.fieldFlags = (afterColumns snake b0 obj tp).fieldFlags
      ∧ b.fieldColumnName = (afterColumns snake b0 obj tp).fieldColumnName
      ∧ b.columnNames = (afterColumns snake b0 obj tp).columnNames
      ∧ b.tableName = (afterColumns snake b0 obj tp).tableName
      ∧ b.queryInsert = "INSERT INTO " ++ (afterColumns snake b0 obj tp).tableName ++ "("
          ++ ",".intercalate ((afterColumns snake b0 obj tp).columnNames.drop 1)
          ++ ") VALUES ("
          ++ (numberLoop (afterColumns snake b0 obj tp).columnNames.length
                ((afterColumns snake b0 obj tp).columnNames.length * 2) 1
                ("=?,".intercalate ((afterColumns snake b0 obj tp).columnNames.drop 1) ++ "=?",
                 "?" ++ String.join (List.replicate
                    ((afterColumns snake b0 obj tp).columnNames.length - 2) ",?"),
                 "=?,".intercalate ((afterColumns snake b0 obj tp).columnNames.drop 1)
                    ++ "=?")).2.1
          ++ ") RETURNING " ++ "\"id\""
      ∧ b.queryInsertOnConflictUpdate
          = "INSERT INTO " ++ (afterColumns snake b0 obj tp).tableName ++ "("
          ++ ",".intercalate (afterColumns snake b0 obj tp).columnNames
          ++ ") VALUES ("
          ++ ((numberLoop (afterColumns snake b0 obj tp).columnNames.length
                ((afterColumns snake b0 obj tp).columnNames.length * 2) 1
                ("=?,".intercalate ((afterColumns snake b0 obj tp).columnNames.drop 1) ++ "=?",
                 "?" ++ String.join (List.replicate
                    ((afterColumns snake b0 obj tp).columnNames.length - 2) ",?"),
                 "=?,".intercalate ((afterColumns snake b0 obj tp).columnNames.drop 1)
                    ++ "=?")).2.1
              ++ ",$" ++ fmtInt ((afterColumns snake b0 obj tp).columnNames.length : Nat))
          ++ ") ON CONFLICT (" ++ "\"id\"" ++ ") DO UPDATE SET "
          ++ (numberLoop (afterColumns snake b0 obj tp).columnNames.length
                ((afterColumns snake b0 obj tp).columnNames.length * 2) 1
                ("=?,".intercalate ((afterColumns snake b0 obj tp).columnNames.drop 1) ++ "=?",
                 "?" ++ String.join (List.replicate
                    ((afterColumns snake b0 obj tp).columnNames.length - 2) ",?"),
                 "=?,".intercalate ((afterColumns snake b0 obj tp).columnNames.drop 1)
                    ++ "=?")).2.2
          ++ " RETURNING " ++ "\"id\""
      ∧ b.querySelectPrefix = "SELECT "
          ++ ",".intercalate (afterColumns snake b0 obj tp).columnNames
          ++ " FROM " ++ (afterColumns snake b0 obj tp).tableName := by
  have h1 : ¬ (afterColumns snake b0 obj tp).columnNames.length < 1 := by omega
  have h2 : ¬ (afterColumns snake b0 obj tp).columnNames.length < 2 := by omega
  unfold afterColumns at h1 h2 ⊢
  obtain ⟨r, hr⟩ : ∃ r, r = reflectColumnsLoop snake obj.Fields
      { b0 with tableName := tableNameOf snake obj tp } 0 := ⟨_, rfl⟩
  rw [← hr] at h1 h2 ⊢
  unfold tableNameOf baseTypeName at hr
  unfold reflectBuildQueries
  dsimp only at hr ⊢
  rw [← hr]
  by_cases hm : r.2 = 4 ∧ r.1.flags &&& FlagHasModificationFields = 0
  · simp only [hm, and_self, if_true]
    rw [if_neg h1, if_neg h2]
    exact ⟨_, rfl, rfl, rfl, rfl, rfl, rfl, rfl, rfl⟩
  · simp only [hm, if_false]
    rw [if_neg h1, if_neg h2]
    exact ⟨_, rfl, rfl, rfl, rfl, rfl, rfl, rfl, rfl⟩

theorem reflectBuildQueries_few (snake : String → String) (b0 : Builder) (obj : StructType)
    (tp : String) (hN : (afterColumns snake b0 obj tp).columnNames.length < 2) :
    ∃ p, reflectBuildQueries snake b0 obj tp = .error p := by
  unfold afterColumns at hN
  obtain ⟨r, hr⟩ : ∃ r, r = reflectColumnsLoop snake obj.Fields
      { b0 with tableName := tableNameOf snake obj tp } 0 := ⟨_, rfl⟩
  rw [← hr] at hN
  unfold tableNameOf baseTypeName at hr
  unfold reflectBuildQueries
  dsimp only at hr ⊢
  rw [← hr]
  by_cases hm : r.2 = 4 ∧ r.1.flags &&& FlagHasModificationFields = 0
  · simp only [hm, and_self, if_true]
    by_cases h1 : r.1.columnNames.length < 1
    · rw [if_pos h1]; exact ⟨_, rfl⟩
    · rw [if_neg h1, if_pos hN]; exact ⟨_, rfl⟩
  · simp only [hm, if_false]
    by_cases h1 : r.1.columnNames.length < 1
    · rw [if_pos h1]; exact ⟨_, rfl⟩
    · rw [if_neg h1, if_pos hN]; exact ⟨_, rfl⟩

/-! ## The builder that `New` returns -/

theorem quoted_no_mark (x : String) (hx : ∀ ch ∈ x.data, ch ≠ '?') :
    ∀ ch ∈ (quoted x).data, ch ≠ '?' := by
  intro ch hch
  unfold quoted at hch
  simp only [String.data_append, List.mem_append] at hch
  rcases hch with (h | h) | h
  · have : ch = '"' := by simpa using h
    rw [this]; decide
  · exact hx ch h
  · have : ch = '"' := by simpa using h
    rw [this]; decide

theorem afterColumns_facts (snake : String → String) (b0 : Builder) (obj : StructType)
    (tp : String) :
    (afterColumns snake (reflectFieldTags b0 obj) obj tp).columnNames = quotedColumns snake obj
    ∧ (afterColumns snake (reflectFieldTags b0 obj) obj tp).tableName = tableNameOf snake obj tp
    ∧ (∀ g ∈ obj.Fields, IsFieldKindSupported g.Kind = true →
        GoMap.get? (afterColumns snake (reflectFieldTags b0 obj) obj tp).fieldColumnName g.Name
          = some (snake g.Name))
    ∧ (∀ n, (afterColumns snake (reflectFieldTags b0 obj) obj tp).flagsOf n
              &&& FieldFlagNotString > 0
          ↔ ∃ g ∈ obj.Fields, IsFieldKindSupported g.Kind = true ∧ g.Name = n
              ∧ g.Kind ≠ .String) := by
  have ht := reflectFieldTags_keeps b0 obj
  have hl := reflectColumnsLoop_facts snake obj.Fields
    { reflectFieldTags b0 obj with tableName := tableNameOf snake obj tp } 0
  unfold afterColumns
  refine ⟨?_, hl.2.1, ?_, ?_⟩
  · rw [hl.1]
    show (reflectFieldTags b0 obj).columnNames ++ _ = _
    rw [ht.1]
    rfl
  · intro g hg hs
    rw [hl.2.2.2.1 g.Name, if_pos ⟨g, hg, hs, rfl⟩]
  · intro n
    have h16 : ∀ x, Builder.flagsOf
        { reflectFieldTags b0 obj with tableName := tableNameOf snake obj tp } x < 16 :=
      fun x => (ht.2.2 x).1
    rw [(hl.2.2.2.2 h16 n).2]
    have h0 : Builder.flagsOf
        { reflectFieldTags b0 obj with tableName := tableNameOf snake obj tp } n
          &&& FieldFlagNotString = 0 := (ht.2.2 n).2
    constructor
    · rintro (h | h)
      · rw [h0] at h; exact absurd h (by decide)
      · exact h
    · exact Or.inr

theorem New_ok (snake : String → String) (obj : StructType) (options : Options)
    (hN : 2 ≤ (columnFields obj).length) :
    ∃ b, New snake obj options = .ok b
      ∧ b.columnNames = quotedColumns snake obj
      ∧ b.tableName = tableNameOf snake obj options.TableNamePrefix
      ∧ (∀ g ∈ obj.Fields, IsFieldKindSupported g.Kind = true →
          GoMap.get? b.fieldColumnName g.Name = some (snake g.Name))
      ∧ (∀ n, b.flagsOf n &&& FieldFlagNotString > 0
          ↔ ∃ g ∈ obj.Fields, IsFieldKindSupported g.Kind = true ∧ g.Name = n
              ∧ g.Kind ≠ .String)
      ∧ b.queryInsert = "INSERT INTO " ++ tableNameOf snake obj options.TableNamePrefix ++ "("
          ++ ",".intercalate ((quotedColumns snake obj).drop 1) ++ ") VALUES ("
          ++ numberedPlaceholders 1 ((columnFields obj).length - 1) ++ ") RETURNING \"id\""
      ∧ b.querySelectPrefix = "SELECT " ++ ",".intercalate (quotedColumns snake obj)
          ++ " FROM " ++ tableNameOf snake obj options.TableNamePrefix
      ∧ ((∀ f ∈ columnFields obj, ∀ ch ∈ (snake f.Name).data, ch ≠ '?') →
          b.queryInsertOnConflictUpdate
            = "INSERT INTO " ++ tableNameOf snake obj options.TableNamePrefix ++ "("
              ++ ",".intercalate (quotedColumns snake obj) ++ ") VALUES ("
              ++ numberedPlaceholders 1 (columnFields obj).length
              ++ ") ON CONFLICT (\"id\") DO UPDATE SET "
              ++ numberedAssignments ((quotedColumns snake obj).drop 1)
                  ((columnFields obj).length + 1)
              ++ " RETURNING \"id\"") := by
  unfold New Builder.reflect
  dsimp only
  generalize (if options.TagName ≠ "" then _ else _ : Builder) = b0
  have hf := afterColumns_facts snake b0 obj options.TableNamePrefix
  have hlen : (quotedColumns snake obj).length = (columnFields obj).length := by
    simp [quotedColumns]
  have hN2 : 2 ≤ (afterColumns snake (reflectFieldTags b0 obj) obj
      options.TableNamePrefix).columnNames.length := by
    rw [hf.1, hlen]; exact hN
  obtain ⟨b, hb, hflags, hcol, hnames, htable, hins, hconf, hsel⟩ :=
    reflectBuildQueries_ok snake (reflectFieldTags b0 obj) obj options.TableNamePrefix hN2
  rw [hf.1, hf.2.1] at hins hconf hsel
  rw [numberLoop_eq, hlen] at hins hconf
  simp only [] at hins hconf
  refine ⟨b, hb, hnames.trans hf.1, htable.trans hf.2.1, ?_, ?_, ?_, hsel, ?_⟩
  · intro g hg hs
    rw [hcol]
    exact hf.2.2.1 g hg hs
  · intro n
    have := hf.2.2.2 n
    unfold Builder.flagsOf at this ⊢
    rw [hflags]
    exact this
  · rw [hins, valuesWithoutId_filled _ hN]
    simp [String.append_assoc]
  · intro hclean
    rw [hconf, valuesWithoutId_filled _ hN, filter_rounds]
    have hk : 1 ≤ (columnFields obj).length - 1 := by omega
    have hs := numberedPlaceholders_succ ((columnFields obj).length - 1) hk
    have e : (columnFields obj).length - 1 + 1 = (columnFields obj).length := by omega
    rw [e] at hs
    rw [hs]
    have hne : (quotedColumns snake obj).drop 1 ≠ [] := by
      intro h
      have := congrArg List.length h
      simp [hlen] at this
      omega
    have hcl : ∀ c ∈ (quotedColumns snake obj).drop 1, ∀ ch ∈ c.data, ch ≠ '?' := by
      intro c hc
      have hc2 := List.mem_of_mem_drop hc
      unfold quotedColumns at hc2
      obtain ⟨f, hf1, rfl⟩ := List.mem_map.1 hc2
      exact quoted_no_mark _ (hclean f hf1)
    rw [withValuesAgain_filled _ _ _ hne (by simp [hlen]) hcl]
    simp [String.append_assoc]

theorem New_few (snake : String → String) (obj : StructType) (options : Options)
    (hN : (columnFields obj).length < 2) :
    ∃ p, New snake obj options = .error p := by
  unfold New Builder.reflect
  dsimp only
  generalize (if options.TagName ≠ "" then _ else _ : Builder) = b0
  have hf := afterColumns_facts snake b0 obj options.TableNamePrefix
  have hlen : (quotedColumns snake obj).length = (columnFields obj).length := by
    simp [quotedColumns]
  exact reflectBuildQueries_few snake (reflectFieldTags b0 obj) obj options.TableNamePrefix
    (by rw [hf.1, hlen]; exact hN)

theorem New_columns (snake : String → String) (obj : StructType) (options : Options)
    (b : Builder) (h : New snake obj options = .ok b) : 2 ≤ (columnFields obj).length := by
  by_contra hlt
  obtain ⟨p, hp⟩ := New_few snake obj options (by omega)
  rw [hp] at h
  cases h

theorem selectText_eq (p qWhere qOrder qLimitOffset : String) :
    selectText p qWhere qOrder qLimitOffset
      = p ++ (if qWhere ≠ "" then " WHERE " ++ qWhere else "")
          ++ (if qOrder ≠ "" then " ORDER BY " ++ qOrder else "")
          ++ (if qLimitOffset ≠ "" then " " ++ qLimitOffset else "") ++ ";" := by
  unfold selectText
  dsimp only
  by_cases h1 : qWhere ≠ "" <;> by_cases h2 : qOrder ≠ "" <;> by_cases h3 : qLimitOffset ≠ ""
  · simp only [if_pos h1, if_pos h2, if_pos h3, String.append_assoc]
  · simp only [if_pos h1, if_pos h2, if_neg h3, String.append_assoc, String.empty_append]
  · simp only [if_pos h1, if_neg h2, if_pos h3, String.append_assoc, String.empty_append]
  · simp only [if_pos h1, if_neg h2, if_neg h3, String.append_assoc, String.empty_append]
  · simp only [if_neg h1, if_pos h2, if_pos h3, String.append_assoc, String.empty_append]
  · simp only [if_neg h1, if_pos h2, if_neg h3, String.append_assoc, String.empty_append]
  · simp only [if_neg h1, if_neg h2, if_pos h3, String.append_assoc, String.empty_append]
  · simp only [if_neg h1, if_neg h2, if_neg h3, String.append_assoc, String.empty_append]

theorem select_ok (b : Builder) (order : List String) (limit offset : Int)
    (filters : Option Filters) (txt : String)
    (hok : Select b order limit offset filters = .ok (txt, none)) :
    ∃ qOrder qWhere, queryOrder b order = .ok (qOrder, none)
      ∧ queryFilters b filters 1 = .ok (qWhere, none)
      ∧ txt = selectText b.querySelectPrefix qWhere qOrder (queryLimitOffset limit offset) := by
  unfold Select at hok
  cases ho : queryOrder b order with
  | error p => rw [ho] at hok; simp [bind, Except.bind] at hok
  | ok ro =>
    obtain ⟨qo, oerr⟩ := ro
    rw [ho] at hok
    cases oerr with
    | some oe => simp [bind, Except.bind, pure, Except.pure] at hok
    | none =>
      simp only [bind, Except.bind] at hok
      cases hf : queryFilters b filters 1 with
      | error p => rw [hf] at hok; simp at hok
      | ok rw =>
        obtain ⟨qw, werr⟩ := rw
        rw [hf] at hok
        cases werr with
        | some we => simp [pure, Except.pure] at hok
        | none =>
          simp only [pure, Except.pure, Except.ok.injEq, Prod.mk.injEq, and_true] at hok
          exact ⟨qo, qw, rfl, rfl, hok.symm⟩

/-! ## Reflection: column definitions, the modification counter, the other templates -/

theorem flags_unique_kept : ∀ x, x < 16 → x &&& 4 = 0 →
    ((x + 4) &&& 2 > 0 ↔ x &&& 2 > 0) := by decide

theorem columnDefinitionFromField_congr (b b2 : Builder) (fieldName fieldType : String)
    (isUnique : Bool) (h : b.fieldColumnType = b2.fieldColumnType) :
    columnDefinitionFromField b fieldName fieldType isUnique
      = columnDefinitionFromField b2 fieldName fieldType isUnique := by
  unfold columnDefinitionFromField
  rw [h]

theorem flagsOf_set (b : Builder) (k n : String) (v : Nat) :
    Builder.flagsOf { b with fieldFlags := GoMap.set b.fieldFlags k v } n
      = if k = n then v else b.flagsOf n := by
  simp only [Builder.flagsOf, GoMap.get?_set]
  by_cases h : k = n
  · simp [h]
  · simp [h]

theorem columnStep_definitions (snake : String → String) (f : StructField) (b : Builder)
    (hb : ∀ n, b.flagsOf n < 16) :
    (columnStep snake f b).columnDefinitions = b.columnDefinitions ++ [definitionEntry snake b f]
    ∧ (columnStep snake f b).fieldColumnType = b.fieldColumnType
    ∧ (columnStep snake f b).fieldDefault = b.fieldDefault
    ∧ (columnStep snake f b).reflectError = b.reflectError
    ∧ (∀ n, ((columnStep snake f b).flagsOf n &&& FieldFlagUnique > 0
          ↔ b.flagsOf n &&& FieldFlagUnique > 0)) := by
  unfold columnStep definitionEntry
  dsimp only
  by_cases hc : f.Kind ≠ .String ∧ b.flagsOf f.Name &&& FieldFlagNotString = 0
  · rw [if_pos hc]
    have e : decide ((b.flagsOf f.Name + FieldFlagNotString) &&& FieldFlagUnique > 0)
        = decide (b.flagsOf f.Name &&& FieldFlagUnique > 0) :=
      decide_eq_decide.2 (flags_unique_kept _ (hb _) hc.2)
    refine ⟨?_, rfl, rfl, rfl, ?_⟩
    · simp only [Builder.flagsOf, GoMap.get?_set, if_true, Option.getD_some] at e ⊢
      rw [e]
      congr 3
    · intro n
      show Builder.flagsOf { b with fieldFlags := GoMap.set b.fieldFlags f.Name (b.flagsOf f.Name + FieldFlagNotString) } n &&& FieldFlagUnique > 0 ↔ _
      rw [flagsOf_set]
      by_cases hk : f.Name = n
      · rw [if_pos hk, ← hk]
        exact flags_unique_kept _ (hb f.Name) hc.2
      · rw [if_neg hk]
  · rw [if_neg hc]
    exact ⟨rfl, rfl, rfl, rfl, fun _ => Iff.rfl⟩

theorem definitionEntry_congr (snake : String → String) (b b2 : Builder) (f : StructField)
    (ht : b.fieldColumnType = b2.fieldColumnType)
    (hu : ∀ n, (b.flagsOf n &&& FieldFlagUnique > 0 ↔ b2.flagsOf n &&& FieldFlagUnique > 0)) :
    definitionEntry snake b f = definitionEntry snake b2 f := by
  unfold definitionEntry
  rw [decide_eq_decide.2 (hu f.Name), columnDefinitionFromField_congr b b2 _ _ _ ht]

theorem reflectColumnsLoop_count (snake : String → String) (fields : List StructField) :
    ∀ (b : Builder) (m : Nat),
    (reflectColumnsLoop snake fields b m).2
      = m + (fields.filter (fun f => IsFieldKindSupported f.Kind
              && isFieldModification f.Name f.Kind)).length := by
  induction fields with
  | nil => intro b m; simp [reflectColumnsLoop]
  | cons f rest ih =>
    intro b m
    rw [reflectColumnsLoop]
    dsimp only
    by_cases hsup : IsFieldKindSupported f.Kind = true
    · rw [if_neg (not_not.2 hsup), ih]
      by_cases hm : isFieldModification f.Name f.Kind = true
      · simp [List.filter_cons, hsup, hm]
        omega
      · simp [List.filter_cons, hsup, hm]
    · rw [if_pos hsup, ih]
      simp [List.filter_cons, hsup]

theorem reflectColumnsLoop_definitions (snake : String → String) (fields : List StructField) :
    ∀ (b : Builder) (m : Nat), (∀ n, b.flagsOf n < 16) →
    (reflectColumnsLoop snake fields b m).1.columnDefinitions
        = b.columnDefinitions
          ++ (fields.filter (fun f => IsFieldKindSupported f.Kind)).map (definitionEntry snake b)
    ∧ (reflectColumnsLoop snake fields b m).1.fieldColumnType = b.fieldColumnType
    ∧ (reflectColumnsLoop snake fields b m).1.fieldDefault = b.fieldDefault
    ∧ (reflectColumnsLoop snake fields b m).1.reflectError = b.reflectError
    ∧ (∀ n, ((reflectColumnsLoop snake fields b m).1.flagsOf n &&& FieldFlagUnique > 0
          ↔ b.flagsOf n &&& FieldFlagUnique > 0)) := by
  induction fields with
  | nil =>
    intro b m _
    simp [reflectColumnsLoop]
  | cons f rest ih =>
    intro b m hb
    by_cases hsup : IsFieldKindSupported f.Kind = true
    · rw [reflectColumnsLoop_cons_supported snake f rest b m hsup]
      have hs := columnStep_definitions snake f b hb
      have h16 : ∀ n, (columnStep snake f b).flagsOf n < 16 :=
        fun n => ((columnStep_facts snake f b).2.2.2.2 hb n).1
      have hi := ih (columnStep snake f b)
        (if isFieldModification f.Name f.Kind then m + 1 else m) h16
      refine ⟨?_, hi.2.1.trans hs.2.1, hi.2.2.1.trans hs.2.2.1,
        hi.2.2.2.1.trans hs.2.2.2.1, fun n => (hi.2.2.2.2 n).trans (hs.2.2.2.2 n)⟩
      rw [hi.1, hs.1]
      simp only [List.filter_cons, hsup, if_true, List.map_cons, List.append_assoc,
        List.singleton_append]
      congr 2
      apply List.map_congr_left
      intro g _
      exact definitionEntry_congr snake _ _ g hs.2.1 hs.2.2.2.2
    · rw [reflectColumnsLoop_cons_unsupported snake f rest b m hsup]
      have hi := ih b m hb
      refine ⟨?_, hi.2.1, hi.2.2.1, hi.2.2.2.1, hi.2.2.2.2⟩
      rw [hi.1]
      simp [List.filter_cons, hsup]

theorem reflectBuildQueries_templates (snake : String → String) (b0 : Builder)
    (obj : StructType) (tp : String)
    (hN : 2 ≤ (afterColumns snake b0 obj tp).columnNames.length) :
    ∃ b, reflectBuildQueries snake b0 obj tp = .ok b
      ∧ b.columnDefinitions = (afterColumns snake b0 obj tp).columnDefinitions
      ∧ b.fieldColumnType = (afterColumns snake b0 obj tp).fieldColumnType
      ∧ b.fieldFlags = (afterColumns snake b0 obj tp).fieldFlags
      ∧ b.fieldDefault = (afterColumns snake b0 obj tp).fieldDefault
      ∧ b.reflectError = (afterColumns snake b0 obj tp).reflectError
      ∧ b.flags
          = (if modificationCount snake b0 obj tp = 4
                ∧ (afterColumns snake b0 obj tp).flags &&& FlagHasModificationFields = 0 then
              (afterColumns snake b0 obj tp).flags + FlagHasModificationFields
             else (afterColumns snake b0 obj tp).flags)
      ∧ b.queryCreateTable = "CREATE TABLE IF NOT EXISTS "
          ++ (afterColumns snake b0 obj tp).tableName ++ " ("
          ++ ",".intercalate (afterColumns snake b0 obj tp).columnDefinitions ++ ")"
      ∧ b.queryDropTable = "DROP TABLE IF EXISTS " ++ (afterColumns snake b0 obj tp).tableName := by
  have h1 : ¬ (afterColumns snake b0 obj tp).columnNames.length < 1 := by omega
  have h2 : ¬ (afterColumns snake b0 obj tp).columnNames.length < 2 := by omega
  unfold afterColumns at h1 h2 ⊢
  unfold modificationCount
  obtain ⟨r, hr⟩ : ∃ r, r = reflectColumnsLoop snake obj.Fields
      { b0 with tableName := tableNameOf snake obj tp } 0 := ⟨_, rfl⟩
  rw [← hr] at h1 h2 ⊢
  unfold tableNameOf baseTypeName at hr
  unfold reflectBuildQueries
  dsimp only at hr ⊢
  rw [← hr]
  by_cases hm : r.2 = 4 ∧ r.1.flags &&& FlagHasModificationFields = 0
  · simp only [hm, and_self, if_true]
    rw [if_neg h1, if_neg h2]
    exact ⟨_, rfl, rfl, rfl, rfl, rfl, rfl, rfl, rfl, rfl⟩
  · simp only [hm, if_false]
    rw [if_neg h1, if_neg h2]
    exact ⟨_, rfl, rfl, rfl, rfl, rfl, rfl, rfl, rfl, rfl⟩

theorem reflectBuildQueries_panics (snake : String → String) (b0 : Builder)
    (obj : StructType) (tp : String) :
    ((afterColumns snake b0 obj tp).columnNames.length = 0 →
        reflectBuildQueries snake b0 obj tp = .error .sliceBounds)
    ∧ ((afterColumns snake b0 obj tp).columnNames.length = 1 →
        reflectBuildQueries snake b0 obj tp = .error .negativeRepeat) := by
  unfold afterColumns
  obtain ⟨r, hr⟩ : ∃ r, r = reflectColumnsLoop snake obj.Fields
      { b0 with tableName := tableNameOf snake obj tp } 0 := ⟨_, rfl⟩
  rw [← hr]
  unfold tableNameOf baseTypeName at hr
  unfold reflectBuildQueries
  dsimp only at hr ⊢
  rw [← hr]
  by_cases hm : r.2 = 4 ∧ r.1.flags &&& FlagHasModificationFields = 0
  · simp only [hm, and_self, if_true]
    refine ⟨fun h0 => ?_, fun h1 => ?_⟩
    · rw [if_pos (by omega)]; rfl
    · rw [if_neg (by omega), if_pos (by omega)]; rfl
  · simp only [hm, if_false]
    refine ⟨fun h0 => ?_, fun h1 => ?_⟩
    · rw [if_pos (by omega)]; rfl
    · rw [if_neg (by omega), if_pos (by omega)]; rfl

/-! ## The builder that `New` returns: definitions, flags, error -/

theorem New_eq (snake : String → String) (obj : StructType) (options : Options) :
    New snake obj options
      = reflectBuildQueries snake (tagPass obj options) obj options.TableNamePrefix := rfl

theorem initialBuilder_facts (options : Options) :
    (initialBuilder options).flags = 0
    ∧ (initialBuilder options).reflectError = none
    ∧ (initialBuilder options).tagName
        = (if options.TagName ≠ "" then options.TagName else "sql") := by
  unfold initialBuilder
  dsimp only
  by_cases h : options.TagName ≠ ""
  · rw [if_pos h, if_pos h]; exact ⟨rfl, rfl, rfl⟩
  · rw [if_neg h, if_neg h]; exact ⟨rfl, rfl, rfl⟩

theorem reflectFieldTagsLoop_error (fields : List StructField) (b : Builder) :
    (reflectFieldTagsLoop fields b).reflectError = b.reflectError
    ∧ (reflectFieldTagsLoop fields b).tagName = b.tagName := by
  induction fields generalizing b with
  | nil => exact ⟨rfl, rfl⟩
  | cons f rest ih =>
    unfold reflectFieldTagsLoop
    have hs := setFieldFromTag_keeps b (f.tagGet b.tagName) f.Name
    dsimp only
    by_cases hsup : IsFieldKindSupported f.Kind = true
    · rw [if_neg (not_not.2 hsup)]
      by_cases herr : (setFieldFromTag b (f.tagGet b.tagName) f.Name).reflectError ≠ none
      · rw [if_pos herr]
        exact ⟨hs.2.2.1, hs.2.1⟩
      · rw [if_neg herr]
        by_cases hval : f.tagGet (b.tagName ++ "_val") ≠ ""
        · rw [if_pos hval]
          have h := ih { setFieldFromTag b (f.tagGet b.tagName) f.Name with
            fieldDefault := GoMap.set (setFieldFromTag b (f.tagGet b.tagName) f.Name).fieldDefault
              f.Name (f.tagGet (b.tagName ++ "_val")) }
          exact ⟨h.1.trans hs.2.2.1, h.2.trans hs.2.1⟩
        · rw [if_neg hval]
          have h := ih (setFieldFromTag b (f.tagGet b.tagName) f.Name)
          exact ⟨h.1.trans hs.2.2.1, h.2.trans hs.2.1⟩
    · rw [if_pos hsup]
      exact ih b

theorem setFieldFromTagOptWithoutVal_shape (b : Builder) (opt fieldName : String) :
    ∃ fl ct, setFieldFromTagOptWithoutVal b opt fieldName
      = { b with fieldFlags := fl, fieldColumnType := ct } := by
  unfold setFieldFromTagOptWithoutVal
  by_cases h1 : opt = "uniq" ∧ b.flagsOf fieldName &&& FieldFlagUnique = 0
  · rw [if_pos h1]; exact ⟨_, _, rfl⟩
  · rw [if_neg h1]
    by_cases h2 : opt = "pass" ∧ b.flagsOf fieldName &&& FieldFlagPassword = 0
    · rw [if_pos h2]; exact ⟨_, _, rfl⟩
    · rw [if_neg h2]
      by_cases h3 : ¬ ("type:".data.isPrefixOf opt.data) = true
      · rw [if_pos h3]; exact ⟨_, _, rfl⟩
      · rw [if_neg h3]
        dsimp only
        by_cases h4 : toUpper ((splitOn opt ':').getD 1 "") = "TEXT"
            ∨ toUpper ((splitOn opt ':').getD 1 "") = "BPCHAR"
        · rw [if_pos h4]; exact ⟨_, _, rfl⟩
        · rw [if_neg h4]
          by_cases h5 : matchesSizedType (toUpper ((splitOn opt ':').getD 1 "")) = true
          · rw [if_pos h5]; exact ⟨_, _, rfl⟩
          · rw [if_neg h5]; exact ⟨_, _, rfl⟩

theorem setFieldFromTag_shape (b : Builder) (tag fieldName : String) :
    ∃ fl ct, setFieldFromTag b tag fieldName
      = { b with fieldFlags := fl, fieldColumnType := ct } := by
  unfold setFieldFromTag
  generalize splitOn tag ' ' = opts
  induction opts generalizing b with
  | nil => exact ⟨_, _, rfl⟩
  | cons o rest ih =>
    simp only [List.foldl_cons]
    obtain ⟨fl, ct, h⟩ := setFieldFromTagOptWithoutVal_shape b o fieldName
    obtain ⟨fl2, ct2, h2⟩ := ih (setFieldFromTagOptWithoutVal b o fieldName)
    rw [h2, h]
    exact ⟨_, _, rfl⟩

theorem reflectFieldTagsLoop_shape (fields : List StructField) (b : Builder) :
    ∃ fl ct fd, reflectFieldTagsLoop fields b
      = { b with fieldFlags := fl, fieldColumnType := ct, fieldDefault := fd } := by
  induction fields generalizing b with
  | nil => exact ⟨_, _, _, rfl⟩
  | cons f rest ih =>
    unfold reflectFieldTagsLoop
    obtain ⟨fl, ct, hs⟩ := setFieldFromTag_shape b (f.tagGet b.tagName) f.Name
    dsimp only
    by_cases hsup : IsFieldKindSupported f.Kind = true
    · rw [if_neg (not_not.2 hsup)]
      by_cases herr : (setFieldFromTag b (f.tagGet b.tagName) f.Name).reflectError ≠ none
      · rw [if_pos herr, hs]
        exact ⟨_, _, _, rfl⟩
      · rw [if_neg herr]
        by_cases hval : f.tagGet (b.tagName ++ "_val") ≠ ""
        · rw [if_pos hval]
          obtain ⟨fl2, ct2, fd2, h⟩ := ih { setFieldFromTag b (f.tagGet b.tagName) f.Name with
            fieldDefault := GoMap.set (setFieldFromTag b (f.tagGet b.tagName) f.Name).fieldDefault
              f.Name (f.tagGet (b.tagName ++ "_val")) }
          rw [h, hs]
          exact ⟨_, _, _, rfl⟩
        · rw [if_neg hval]
          obtain ⟨fl2, ct2, fd2, h⟩ := ih (setFieldFromTag b (f.tagGet b.tagName) f.Name)
          rw [h, hs]
          exact ⟨_, _, _, rfl⟩
    · rw [if_pos hsup]
      exact ih b

theorem tagPass_facts (obj : StructType) (options : Options) :
    (tagPass obj options).columnNames = []
    ∧ (tagPass obj options).columnDefinitions = []
    ∧ (tagPass obj options).flags = 0
    ∧ (tagPass obj options).reflectError = none
    ∧ tagFlags (tagPass obj options) := by
  have hk := reflectFieldTags_keeps (initialBuilder options) obj
  have hi := initialBuilder_facts options
  obtain ⟨fl, ct, fd, hsh⟩ := reflectFieldTagsLoop_shape obj.Fields (initMaps (initialBuilder options))
  refine ⟨hk.1, ?_, hk.2.1.trans hi.1, ?_, hk.2.2⟩
  · unfold tagPass reflectFieldTags
    rw [hsh]
    rfl
  · unfold tagPass reflectFieldTags
    rw [hsh]
    exact hi.2.1

theorem New_templates (snake : String → String) (obj : StructType) (options : Options)
    (hN : 2 ≤ (columnFields obj).length) :
    ∃ b, New snake obj options = .ok b
      ∧ b.columnDefinitions = (columnFields obj).map (definitionEntry snake b)
      ∧ b.queryCreateTable = "CREATE TABLE IF NOT EXISTS "
          ++ tableNameOf snake obj options.TableNamePrefix ++ " ("
          ++ ",".intercalate ((columnFields obj).map (definitionEntry snake b)) ++ ")"
      ∧ b.queryDropTable = "DROP TABLE IF EXISTS "
          ++ tableNameOf snake obj options.TableNamePrefix
      ∧ b.reflectError = none
      ∧ b.flags = (if (modificationFieldsOf obj).length = 4 then FlagHasModificationFields
                   else 0)
      ∧ b.fieldColumnType = (tagPass obj options).fieldColumnType
      ∧ (∀ n, (b.flagsOf n &&& FieldFlagUnique > 0
            ↔ (tagPass obj options).flagsOf n &&& FieldFlagUnique > 0))
      ∧ b.fieldDefault = (tagPass obj options).fieldDefault := by
  rw [New_eq]
  have ht := tagPass_facts obj options
  have hf := afterColumns_facts snake (initialBuilder options) obj options.TableNamePrefix
  have hlen : (quotedColumns snake obj).length = (columnFields obj).length := by
    simp [quotedColumns]
  have hN2 : 2 ≤ (afterColumns snake (tagPass obj options) obj
      options.TableNamePrefix).columnNames.length := by
    show 2 ≤ (afterColumns snake (reflectFieldTags (initialBuilder options) obj) obj
      options.TableNamePrefix).columnNames.length
    rw [hf.1, hlen]; exact hN
  obtain ⟨b, hb, hdefs, htype, hflags, hdefault, herr, hfl, hcreate, hdrop⟩ :=
    reflectBuildQueries_templates snake (tagPass obj options) obj options.TableNamePrefix hN2
  have h16 : ∀ n, Builder.flagsOf { tagPass obj options with
      tableName := tableNameOf snake obj options.TableNamePrefix } n < 16 :=
    fun n => (ht.2.2.2.2 n).1
  have hl := reflectColumnsLoop_definitions snake obj.Fields
    { tagPass obj options with tableName := tableNameOf snake obj options.TableNamePrefix } 0 h16
  have hcnt := reflectColumnsLoop_count snake obj.Fields
    { tagPass obj options with tableName := tableNameOf snake obj options.TableNamePrefix } 0
  have hfacts := reflectColumnsLoop_facts snake obj.Fields
    { tagPass obj options with tableName := tableNameOf snake obj options.TableNamePrefix } 0
  have hAtype : b.fieldColumnType = (tagPass obj options).fieldColumnType := htype.trans hl.2.1
  have hAuniq : ∀ n, (b.flagsOf n &&& FieldFlagUnique > 0
      ↔ (tagPass obj options).flagsOf n &&& FieldFlagUnique > 0) := by
    intro n
    have := hl.2.2.2.2 n
    unfold Builder.flagsOf at this ⊢
    rw [hflags]
    exact this
  have hentries : (afterColumns snake (tagPass obj options) obj
        options.TableNamePrefix).columnDefinitions
      = (columnFields obj).map (definitionEntry snake b) := by
    unfold afterColumns
    rw [hl.1]
    show (tagPass obj options).columnDefinitions ++ _ = _
    rw [ht.2.1, List.nil_append]
    unfold columnFields
    apply List.map_congr_left
    intro g _
    exact definitionEntry_congr snake _ _ g hAtype.symm (fun n => (hAuniq n).symm)
  have htable : (afterColumns snake (tagPass obj options) obj
      options.TableNamePrefix).tableName = tableNameOf snake obj options.TableNamePrefix :=
    hf.2.1
  refine ⟨b, hb, hdefs.trans hentries, ?_, ?_, ?_, ?_, hAtype, hAuniq, hdefault.trans hl.2.2.1⟩
  · rw [hcreate, htable, hentries]
  · rw [hdrop, htable]
  · rw [herr]
    exact hl.2.2.2.1.trans ht.2.2.2.1
  · rw [hfl]
    have hA0 : (afterColumns snake (tagPass obj options) obj options.TableNamePrefix).flags
        = 0 := hfacts.2.2.1.trans ht.2.2.1
    have hc : modificationCount snake (tagPass obj options) obj options.TableNamePrefix
        = (modificationFieldsOf obj).length := by
      unfold modificationCount modificationFieldsOf
      rw [hcnt, Nat.zero_add]
    rw [hA0, hc]
    by_cases h4 : (modificationFieldsOf obj).length = 4
    · rw [if_pos h4, if_pos ⟨h4, by decide⟩, Nat.zero_add]
    · rw [if_neg h4, if_neg (fun h => h4 h.1)]

/-! ## The modification fields -/

theorem modification_names_subset (obj : StructType) :
    (modificationFieldsOf obj).map (fun f => f.Name)
      ⊆ ["CreatedAt", "CreatedBy", "ModifiedAt", "ModifiedBy"] := by
  intro n hn
  obtain ⟨f, hf, rfl⟩ := List.mem_map.1 hn
  unfold modificationFieldsOf at hf
  rw [List.mem_filter] at hf
  have h := hf.2
  simp only [isFieldModification, Bool.and_eq_true, decide_eq_true_eq] at h
  rcases h.2.1 with h1 | h1 | h1 | h1 <;> simp [h1]

theorem mem_modificationFieldsOf (obj : StructType) (f : StructField) :
    f ∈ modificationFieldsOf obj
      ↔ f ∈ obj.Fields ∧ f.Kind = .Int64
        ∧ f.Name ∈ ["CreatedAt", "CreatedBy", "ModifiedAt", "ModifiedBy"] := by
  unfold modificationFieldsOf
  rw [List.mem_filter]
  simp only [isFieldModification, Bool.and_eq_true, decide_eq_true_eq, List.mem_cons,
    List.mem_singleton, List.not_mem_nil, or_false]
  constructor
  · rintro ⟨hf, -, hn, hk⟩
    exact ⟨hf, hk, by tauto⟩
  · rintro ⟨hf, hk, hn⟩
    refine ⟨hf, by rw [hk]; rfl, by tauto, hk⟩

theorem modification_count_four (obj : StructType)
    (hd : ((modificationFieldsOf obj).map (fun f => f.Name)).Nodup) :
    (modificationFieldsOf obj).length = 4
      ↔ ∀ n ∈ ["CreatedAt", "CreatedBy", "ModifiedAt", "ModifiedBy"],
          ∃ f ∈ obj.Fields, f.Name = n ∧ f.Kind = .Int64 := by
  have hsub := modification_names_subset obj
  have hfour : (["CreatedAt", "CreatedBy", "ModifiedAt", "ModifiedBy"] : List String).Nodup := by
    decide
  constructor
  · intro h4 n hn
    have hperm := (hd.subperm hsub).perm_of_length_le (by simp [h4])
    have hmem := hperm.symm.subset hn
    obtain ⟨f, hf, rfl⟩ := List.mem_map.1 hmem
    have := (mem_modificationFieldsOf obj f).1 hf
    exact ⟨f, this.1, rfl, this.2.1⟩
  · intro hall
    have hsup : ["CreatedAt", "CreatedBy", "ModifiedAt", "ModifiedBy"]
        ⊆ (modificationFieldsOf obj).map (fun f => f.Name) := by
      intro n hn
      obtain ⟨f, hf, hname, hk⟩ := hall n hn
      exact List.mem_map.2 ⟨f, (mem_modificationFieldsOf obj f).2 ⟨hf, hk, hname ▸ hn⟩, hname⟩
    have hperm := (hd.subperm hsub).antisymm (hfour.subperm hsup)
    have := hperm.length_eq
    simpa using this

/-! ## The default-value tag does not reach the templates -/

theorem setFieldFromTagOptWithoutVal_withDefault (b : Builder) (d : GoMap String)
    (opt fieldName : String) :
    setFieldFromTagOptWithoutVal (withDefault b d) opt fieldName
      = withDefault (setFieldFromTagOptWithoutVal b opt fieldName) d := by
  unfold setFieldFromTagOptWithoutVal
  have hf : ∀ n, (withDefault b d).flagsOf n = b.flagsOf n := fun _ => rfl
  simp only [hf]
  by_cases h1 : opt = "uniq" ∧ b.flagsOf fieldName &&& FieldFlagUnique = 0
  · rw [if_pos h1, if_pos h1]; rfl
  · rw [if_neg h1, if_neg h1]
    by_cases h2 : opt = "pass" ∧ b.flagsOf fieldName &&& FieldFlagPassword = 0
    · rw [if_pos h2, if_pos h2]; rfl
    · rw [if_neg h2, if_neg h2]
      by_cases h3 : ¬ ("type:".data.isPrefixOf opt.data) = true
      · rw [if_pos h3, if_pos h3]
      · rw [if_neg h3, if_neg h3]
        by_cases h4 : toUpper ((splitOn opt ':').getD 1 "") = "TEXT"
            ∨ toUpper ((splitOn opt ':').getD 1 "") = "BPCHAR"
        · rw [if_pos h4, if_pos h4]; rfl
        · rw [if_neg h4, if_neg h4]
          by_cases h5 : matchesSizedType (toUpper ((splitOn opt ':').getD 1 "")) = true
          · rw [if_pos h5, if_pos h5]; rfl
          · rw [if_neg h5, if_neg h5]

theorem setFieldFromTag_withDefault (b : Builder) (d : GoMap String) (tag fieldName : String) :
    setFieldFromTag (withDefault b d) tag fieldName
      = withDefault (setFieldFromTag b tag fieldName) d := by
  unfold setFieldFromTag
  generalize splitOn tag ' ' = opts
  induction opts generalizing b with
  | nil => rfl
  | cons o rest ih =>
    simp only [List.foldl_cons]
    rw [setFieldFromTagOptWithoutVal_withDefault, ih]

theorem reflectFieldTagsLoop_withDefault (tagName : String) :
    ∀ (fs gs : List StructField) (b : Builder) (d : GoMap String),
    sameFields tagName fs gs = true → b.tagName = tagName →
    ∃ d2, reflectFieldTagsLoop gs (withDefault b d)
      = withDefault (reflectFieldTagsLoop fs b) d2 := by
  intro fs
  induction fs with
  | nil =>
    intro gs b d hs _
    cases gs with
    | nil => exact ⟨d, rfl⟩
    | cons g gs => simp [sameFields] at hs
  | cons f fs ih =>
    intro gs b d hs ht
    cases gs with
    | nil => simp [sameFields] at hs
    | cons g gs =>
      simp only [sameFields, Bool.and_eq_true, decide_eq_true_eq] at hs
      obtain ⟨⟨hname, hkind, -, htag⟩, hrest⟩ := hs
      have htn : (withDefault b d).tagName = b.tagName := rfl
      have hkeep := setFieldFromTag_keeps b (f.tagGet b.tagName) f.Name
      rw [reflectFieldTagsLoop, reflectFieldTagsLoop]
      dsimp only
      rw [htn, ← hkind, ← hname]
      have htag2 : g.tagGet b.tagName = f.tagGet b.tagName := by rw [ht, htag]
      rw [htag2, setFieldFromTag_withDefault]
      obtain ⟨b1, hb1⟩ : ∃ b1, b1 = setFieldFromTag b (f.tagGet b.tagName) f.Name := ⟨_, rfl⟩
      rw [← hb1] at hkeep ⊢
      have ht1 : b1.tagName = tagName := hkeep.2.1.trans ht
      by_cases hsup : IsFieldKindSupported f.Kind = true
      · rw [if_neg (not_not.2 hsup), if_neg (not_not.2 hsup)]
        have herr2 : (withDefault b1 d).reflectError = b1.reflectError := rfl
        rw [herr2]
        by_cases herr : b1.reflectError ≠ none
        · rw [if_pos herr, if_pos herr]
          exact ⟨d, rfl⟩
        · rw [if_neg herr, if_neg herr]
          by_cases hv : f.tagGet (b.tagName ++ "_val") ≠ ""
          · rw [if_pos hv]
            by_cases hv2 : g.tagGet (b.tagName ++ "_val") ≠ ""
            · rw [if_pos hv2]
              exact ih gs
                { b1 with
                  fieldDefault := GoMap.set b1.fieldDefault f.Name (f.tagGet (b.tagName ++ "_val")) }
                (GoMap.set d f.Name (g.tagGet (b.tagName ++ "_val"))) hrest ht1
            · rw [if_neg hv2]
              exact ih gs
                { b1 with
                  fieldDefault := GoMap.set b1.fieldDefault f.Name (f.tagGet (b.tagName ++ "_val")) }
                d hrest ht1
          · rw [if_neg hv]
            by_cases hv2 : g.tagGet (b.tagName ++ "_val") ≠ ""
            · rw [if_pos hv2]
              exact ih gs b1 (GoMap.set d f.Name (g.tagGet (b.tagName ++ "_val"))) hrest ht1
            · rw [if_neg hv2]
              exact ih gs b1 d hrest ht1
      · rw [if_pos hsup, if_pos hsup]
        exact ih gs b d hrest ht

theorem columnStep_withDefault (snake : String → String) (f g : StructField) (b : Builder)
    (d : GoMap String) (hname : f.Name = g.Name) (hkind : f.Kind = g.Kind)
    (htype : f.TypeString = g.TypeString) :
    columnStep snake g (withDefault b d) = withDefault (columnStep snake f b) d := by
  unfold columnStep
  dsimp only
  rw [← hname, ← hkind, ← htype]
  have hf : ∀ n, (withDefault b d).flagsOf n = b.flagsOf n := fun _ => rfl
  rw [hf]
  by_cases hc : f.Kind ≠ .String ∧ b.flagsOf f.Name &&& FieldFlagNotString = 0
  · rw [if_pos hc, if_pos hc]; rfl
  · rw [if_neg hc, if_neg hc]; rfl

theorem reflectColumnsLoop_withDefault (snake : String → String) (tagName : String) :
    ∀ (fs gs : List StructField) (b : Builder) (d : GoMap String) (m : Nat),
    sameFields tagName fs gs = true →
    reflectColumnsLoop snake gs (withDefault b d) m
      = (withDefault (reflectColumnsLoop snake fs b m).1 d, (reflectColumnsLoop snake fs b m).2) := by
  intro fs
  induction fs with
  | nil =>
    intro gs b d m hs
    cases gs with
    | nil => rfl
    | cons g gs => simp [sameFields] at hs
  | cons f fs ih =>
    intro gs b d m hs
    cases gs with
    | nil => simp [sameFields] at hs
    | cons g gs =>
      simp only [sameFields, Bool.and_eq_true, decide_eq_true_eq] at hs
      obtain ⟨⟨hname, hkind, htype, -⟩, hrest⟩ := hs
      have hstep := columnStep_withDefault snake f g b d hname hkind htype
      by_cases hsup : IsFieldKindSupported f.Kind = true
      · have hsup2 : IsFieldKindSupported g.Kind = true := hkind ▸ hsup
        have e1 : reflectColumnsLoop snake (g :: gs) (withDefault b d) m
            = reflectColumnsLoop snake gs (columnStep snake g (withDefault b d))
                (if isFieldModification g.Name g.Kind then m + 1 else m) := by
          rw [reflectColumnsLoop]
          dsimp only
          rw [if_neg (not_not.2 hsup2)]
          rfl
        have e2 : reflectColumnsLoop snake (f :: fs) b m
            = reflectColumnsLoop snake fs (columnStep snake f b)
                (if isFieldModification f.Name f.Kind then m + 1 else m) := by
          rw [reflectColumnsLoop]
          dsimp only
          rw [if_neg (not_not.2 hsup)]
          rfl
        rw [e1, e2, hstep, ← hname, ← hkind]
        exact ih gs _ d _ hrest
      · have hsup2 : ¬ IsFieldKindSupported g.Kind = true := hkind ▸ hsup
        rw [reflectColumnsLoop_cons_unsupported snake g gs _ m hsup2,
          reflectColumnsLoop_cons_unsupported snake f fs b m hsup]
        exact ih gs b d m hrest

theorem reflectBuildQueries_withDefault (snake : String → String) (tagName : String)
    (obj obj2 : StructType) (b : Builder) (d : GoMap String) (tp : String)
    (hs : sameButDefaults tagName obj obj2 = true) :
    reflectBuildQueries snake (withDefault b d) obj2 tp
      = (reflectBuildQueries snake b obj tp).map (fun x => withDefault x d) := by
  simp only [sameButDefaults, Bool.and_eq_true, decide_eq_true_eq] at hs
  obtain ⟨hname, hfields⟩ := hs
  have hl := reflectColumnsLoop_withDefault snake tagName obj.Fields obj2.Fields
    { b with tableName := tableNameOf snake obj tp } d 0 hfields
  obtain ⟨r, hr⟩ : ∃ r, r = reflectColumnsLoop snake obj.Fields
      { b with tableName := tableNameOf snake obj tp } 0 := ⟨_, rfl⟩
  obtain ⟨r2, hr2⟩ : ∃ r2, r2 = reflectColumnsLoop snake obj2.Fields
      (withDefault { b with tableName := tableNameOf snake obj tp } d) 0 := ⟨_, rfl⟩
  rw [← hr] at hl
  rw [← hr2] at hl
  unfold tableNameOf baseTypeName at hr hr2
  unfold reflectBuildQueries
  rw [← hname]
  dsimp only [withDefault] at hr hr2 ⊢
  rw [← hr, ← hr2, hl]
  dsimp only [withDefault]
  by_cases hm : r.2 = 4 ∧ r.1.flags &&& FlagHasModificationFields = 0
  · simp only [hm, and_self, if_true]
    by_cases h1 : r.1.columnNames.length < 1
    · rw [if_pos h1, if_pos h1]; rfl
    · rw [if_neg h1, if_neg h1]
      by_cases h2 : r.1.columnNames.length < 2
      · rw [if_pos h2, if_pos h2]; rfl
      · rw [if_neg h2, if_neg h2]; rfl
  · simp only [hm, if_false]
    by_cases h1 : r.1.columnNames.length < 1
    · rw [if_pos h1, if_pos h1]; rfl
    · rw [if_neg h1, if_neg h1]
      by_cases h2 : r.1.columnNames.length < 2
      · rw [if_pos h2, if_pos h2]; rfl
      · rw [if_neg h2, if_neg h2]; rfl

/-! ## The type override of a tag token -/

theorem isParenDigits_iff (cs : List Char) :
    isParenDigits cs = true
      ↔ ∃ digits : List Char, digits ≠ [] ∧ (∀ c ∈ digits, c.isDigit = true)
          ∧ cs = '(' :: (digits ++ [')']) := by
  constructor
  · intro h
    unfold isParenDigits at h
    cases cs with
    | nil => simp at h
    | cons c rest =>
      by_cases hc : c = '('
      · subst hc
        simp only [] at h
        cases hr : rest.reverse with
        | nil => rw [hr] at h; simp at h
        | cons x rev =>
          rw [hr] at h
          by_cases hx : x = ')'
          · subst hx
            simp only [Bool.and_eq_true, Bool.not_eq_true', List.isEmpty_eq_false,
              List.all_eq_true] at h
            refine ⟨rev.reverse, ?_, ?_, ?_⟩
            · intro hnil
              have : rev = [] := by simpa using hnil
              exact h.1 (by simp [this])
            · intro d hd
              exact h.2 d (List.mem_reverse.1 hd)
            · have : rest = rev.reverse ++ [')'] := by
                have := congrArg List.reverse hr
                simpa using this
              rw [this]
          · exfalso
            revert h
            split <;> simp_all
      · exfalso
        revert h
        split <;> simp_all
  · rintro ⟨digits, hne, hd, rfl⟩
    unfold isParenDigits
    simp only [List.reverse_append, List.reverse_cons, List.reverse_nil, List.nil_append,
      List.singleton_append, Bool.and_eq_true, Bool.not_eq_true', List.all_eq_true,
      List.mem_reverse]
    refine ⟨?_, hd⟩
    cases digits with
    | nil => exact absurd rfl hne
    | cons a l => simp

theorem matchesSizedType_iff (s : String) :
    matchesSizedType s = true
      ↔ ∃ name ∈ ["VARCHAR", "CHARACTER VARYING", "BPCHAR", "CHAR", "CHARACTER"],
          ∃ digits : List Char, digits ≠ [] ∧ (∀ c ∈ digits, c.isDigit = true)
            ∧ s.data = name.data ++ ('(' :: (digits ++ [')'])) := by
  unfold matchesSizedType
  rw [List.any_eq_true]
  constructor
  · rintro ⟨name, hname, h⟩
    rw [Bool.and_eq_true, List.isPrefixOf_iff_prefix] at h
    obtain ⟨⟨t, ht⟩, hp⟩ := h
    rw [← ht, List.drop_left, isParenDigits_iff] at hp
    obtain ⟨digits, hne, hd, rfl⟩ := hp
    exact ⟨name, hname, digits, hne, hd, ht.symm⟩
  · rintro ⟨name, hname, digits, hne, hd, hs⟩
    refine ⟨name, hname, ?_⟩
    rw [Bool.and_eq_true, List.isPrefixOf_iff_prefix, hs]
    refine ⟨⟨_, rfl⟩, ?_⟩
    rw [List.drop_left, isParenDigits_iff]
    exact ⟨digits, hne, hd, rfl⟩

/-! ## The unique flag and the `uniq` option -/

theorem flags_unique_set : ∀ x, x < 16 → x &&& 2 = 0 → (x + 2) &&& 2 > 0 := by decide

theorem flags_unique_kept_password : ∀ x, x < 16 → x &&& 8 = 0 →
    ((x + 8) &&& 2 > 0 ↔ x &&& 2 > 0) := by decide

theorem setFieldFromTagOptWithoutVal_unique (b : Builder) (opt m n : String)
    (ht : tagFlags b) :
    ((setFieldFromTagOptWithoutVal b opt m).flagsOf n &&& FieldFlagUnique > 0
      ↔ b.flagsOf n &&& FieldFlagUnique > 0 ∨ (m = n ∧ opt = "uniq")) := by
  unfold setFieldFromTagOptWithoutVal
  by_cases h1 : opt = "uniq" ∧ b.flagsOf m &&& FieldFlagUnique = 0
  · rw [if_pos h1]
    rw [flagsOf_set]
    by_cases hk : m = n
    · rw [if_pos hk]
      have := flags_unique_set _ (ht m).1 h1.2
      exact ⟨fun _ => Or.inr ⟨hk, h1.1⟩, fun _ => this⟩
    · rw [if_neg hk]
      exact ⟨Or.inl, fun h => h.elim id (fun h2 => absurd h2.1 hk)⟩
  · rw [if_neg h1]
    have hu : opt = "uniq" → b.flagsOf m &&& FieldFlagUnique > 0 := by
      intro ho
      exact Nat.pos_of_ne_zero (fun h0 => h1 ⟨ho, h0⟩)
    by_cases h2 : opt = "pass" ∧ b.flagsOf m &&& FieldFlagPassword = 0
    · rw [if_pos h2]
      rw [flagsOf_set]
      have hne : opt ≠ "uniq" := by rw [h2.1]; decide
      by_cases hk : m = n
      · rw [if_pos hk, ← hk]
        have hp := flags_unique_kept_password _ (ht m).1 h2.2
        exact ⟨fun h => Or.inl (hp.1 h), fun h => h.elim hp.2 (fun h3 => absurd h3.2 hne)⟩
      · rw [if_neg hk]
        exact ⟨Or.inl, fun h => h.elim id (fun h3 => absurd h3.2 hne)⟩
    · rw [if_neg h2]
      have hsame : ∀ x : Builder, x.fieldFlags = b.fieldFlags →
          (x.flagsOf n &&& FieldFlagUnique > 0
            ↔ b.flagsOf n &&& FieldFlagUnique > 0 ∨ (m = n ∧ opt = "uniq")) := by
        intro x hx
        unfold Builder.flagsOf at hu ⊢
        rw [hx]
        refine ⟨Or.inl, fun h => h.elim id (fun h3 => ?_)⟩
        rw [← h3.1]
        exact hu h3.2
      by_cases h3 : ¬ ("type:".data.isPrefixOf opt.data) = true
      · rw [if_pos h3]
        exact hsame b rfl
      · rw [if_neg h3]
        dsimp only
        by_cases h4 : toUpper ((splitOn opt ':').getD 1 "") = "TEXT"
            ∨ toUpper ((splitOn opt ':').getD 1 "") = "BPCHAR"
        · rw [if_pos h4]
          exact hsame _ rfl
        · rw [if_neg h4]
          by_cases h5 : matchesSizedType (toUpper ((splitOn opt ':').getD 1 "")) = true
          · rw [if_pos h5]
            exact hsame _ rfl
          · rw [if_neg h5]
            exact hsame b rfl

theorem setFieldFromTag_unique (b : Builder) (tag m n : String) (ht : tagFlags b) :
    ((setFieldFromTag b tag m).flagsOf n &&& FieldFlagUnique > 0
      ↔ b.flagsOf n &&& FieldFlagUnique > 0 ∨ (m = n ∧ "uniq" ∈ splitOn tag ' ')) := by
  unfold setFieldFromTag
  generalize splitOn tag ' ' = opts
  induction opts generalizing b with
  | nil => simp
  | cons o rest ih =>
    simp only [List.foldl_cons]
    have hk := (setFieldFromTagOptWithoutVal_keeps b o m).2.2.2.2 ht
    rw [ih _ hk, setFieldFromTagOptWithoutVal_unique b o m n ht]
    simp only [List.mem_cons]
    constructor
    · rintro ((h | ⟨h1, h2⟩) | ⟨h1, h2⟩)
      · exact Or.inl h
      · exact Or.inr ⟨h1, Or.inl h2.symm⟩
      · exact Or.inr ⟨h1, Or.inr h2⟩
    · rintro (h | ⟨h1, h2 | h2⟩)
      · exact Or.inl (Or.inl h)
      · exact Or.inl (Or.inr ⟨h1, h2.symm⟩)
      · exact Or.inr ⟨h1, h2⟩

theorem reflectFieldTagsLoop_unique (tagName : String) (n : String) :
    ∀ (fields : List StructField) (b : Builder), tagFlags b → b.reflectError = none →
    b.tagName = tagName →
    ((reflectFieldTagsLoop fields b).flagsOf n &&& FieldFlagUnique > 0
      ↔ b.flagsOf n &&& FieldFlagUnique > 0
        ∨ ∃ g ∈ fields, IsFieldKindSupported g.Kind = true ∧ g.Name = n
            ∧ "uniq" ∈ splitOn (g.tagGet tagName) ' ') := by
  intro fields
  induction fields with
  | nil =>
    intro b _ _ _
    simp [reflectFieldTagsLoop]
  | cons f rest ih =>
    intro b ht herr htn
    rw [reflectFieldTagsLoop]
    dsimp only
    have hkeep := setFieldFromTag_keeps b (f.tagGet b.tagName) f.Name
    have hu := setFieldFromTag_unique b (f.tagGet b.tagName) f.Name n ht
    obtain ⟨b1, hb1⟩ : ∃ b1, b1 = setFieldFromTag b (f.tagGet b.tagName) f.Name := ⟨_, rfl⟩
    rw [← hb1] at hkeep hu ⊢
    rw [htn] at hu
    by_cases hsup : IsFieldKindSupported f.Kind = true
    · rw [if_neg (not_not.2 hsup)]
      have herr1 : ¬ b1.reflectError ≠ none := not_not.2 (hkeep.2.2.1.trans herr)
      rw [if_neg herr1]
      have hstep : ∀ x : Builder, x.fieldFlags = b1.fieldFlags → x.reflectError = b1.reflectError →
          x.tagName = b1.tagName →
          ((reflectFieldTagsLoop rest x).flagsOf n &&& FieldFlagUnique > 0
            ↔ b.flagsOf n &&& FieldFlagUnique > 0
              ∨ ∃ g ∈ f :: rest, IsFieldKindSupported g.Kind = true ∧ g.Name = n
                  ∧ "uniq" ∈ splitOn (g.tagGet tagName) ' ') := by
        intro x hx hxe hxt
        have hxf : ∀ k, x.flagsOf k = b1.flagsOf k := by
          intro k
          unfold Builder.flagsOf
          rw [hx]
        have htx : tagFlags x := by
          intro k
          rw [hxf k]
          exact hkeep.2.2.2.2 ht k
        rw [ih x htx (hxe.trans (hkeep.2.2.1.trans herr)) (hxt.trans (hkeep.2.1.trans htn)),
          hxf n, hu]
        constructor
        · rintro ((h | ⟨h1, h2⟩) | ⟨g, hg, hgg⟩)
          · exact Or.inl h
          · exact Or.inr ⟨f, List.mem_cons_self _ _, hsup, h1, h2⟩
          · exact Or.inr ⟨g, List.mem_cons_of_mem _ hg, hgg⟩
        · rintro (h | ⟨g, hg, hgs, hgn, hgu⟩)
          · exact Or.inl (Or.inl h)
          · rcases List.mem_cons.1 hg with h | h
            · subst h
              exact Or.inl (Or.inr ⟨hgn, hgu⟩)
            · exact Or.inr ⟨g, h, hgs, hgn, hgu⟩
      by_cases hv : f.tagGet (b.tagName ++ "_val") ≠ ""
      · rw [if_pos hv]
        exact hstep _ rfl rfl rfl
      · rw [if_neg hv]
        exact hstep _ rfl rfl rfl
    · rw [if_pos hsup]
      rw [ih b ht herr htn]
      constructor
      · rintro (h | ⟨g, hg, hgg⟩)
        · exact Or.inl h
        · exact Or.inr ⟨g, List.mem_cons_of_mem _ hg, hgg⟩
      · rintro (h | ⟨g, hg, hgs, hgn, hgu⟩)
        · exact Or.inl h
        · rcases List.mem_cons.1 hg with h | h
          · subst h; exact absurd hgs hsup
          · exact Or.inr ⟨g, h, hgs, hgn, hgu⟩

theorem tagPass_unique (obj : StructType) (options : Options) (n : String) :
    ((tagPass obj options).flagsOf n &&& FieldFlagUnique > 0
      ↔ ∃ g ∈ obj.Fields, IsFieldKindSupported g.Kind = true ∧ g.Name = n
          ∧ "uniq" ∈ splitOn
              (g.tagGet (if options.TagName ≠ "" then options.TagName else "sql")) ' ') := by
  have hi := initialBuilder_facts options
  have ht0 : tagFlags (initMaps (initialBuilder options)) := by
    intro k
    simp [initMaps, Builder.flagsOf, GoMap.get?, FieldFlagNotString]
  have h := reflectFieldTagsLoop_unique
    (if options.TagName ≠ "" then options.TagName else "sql") n obj.Fields
    (initMaps (initialBuilder options)) ht0 hi.2.1 hi.2.2
  unfold tagPass reflectFieldTags
  rw [h]
  constructor
  · rintro (h0 | h0)
    · exfalso
      revert h0
      simp [initMaps, Builder.flagsOf, GoMap.get?]
    · exact h0
  · exact Or.inr

/-! ## The table of default column definitions -/

theorem columnDefinitionDefault_table (fieldType : String) (isUnique : Bool) :
    columnDefinitionFromField.columnDefinitionDefault fieldType isUnique
      = (if fieldType = "string" then "VARCHAR(255) NOT NULL DEFAULT ''"
         else if fieldType = "bool" then "BOOLEAN NOT NULL DEFAULT false"
         else if fieldType ∈ ["int64", "int", "uint64", "uint"] then
           "BIGINT NOT NULL DEFAULT 0"
         else if fieldType ∈ ["int32", "uint32"] then "INTEGER NOT NULL DEFAULT 0"
         else if fieldType ∈ ["int16", "int8", "uint16", "uint8"] then
           "SMALLINT NOT NULL DEFAULT 0"
         else "VARCHAR(255) NOT NULL DEFAULT ''")
        ++ (if isUnique then " UNIQUE" else "") := by
  unfold columnDefinitionFromField.columnDefinitionDefault
  dsimp only
  by_cases h1 : fieldType = "string"
  · subst h1; cases isUnique <;> decide
  by_cases h2 : fieldType = "bool"
  · subst h2; cases isUnique <;> decide
  by_cases h3 : fieldType = "int64"
  · subst h3; cases isUnique <;> decide
  by_cases h4 : fieldType = "int32"
  · subst h4; cases isUnique <;> decide
  by_cases h5 : fieldType = "int16"
  · subst h5; cases isUnique <;> decide
  by_cases h6 : fieldType = "int8"
  · subst h6; cases isUnique <;> decide
  by_cases h7 : fieldType = "int"
  · subst h7; cases isUnique <;> decide
  by_cases h8 : fieldType = "uint64"
  · subst h8; cases isUnique <;> decide
  by_cases h9 : fieldType = "uint32"
  · subst h9; cases isUnique <;> decide
  by_cases h10 : fieldType = "uint16"
  · subst h10; cases isUnique <;> decide
  by_cases h11 : fieldType = "uint8"
  · subst h11; cases isUnique <;> decide
  by_cases h12 : fieldType = "uint"
  · subst h12; cases isUnique <;> decide
  have m1 : ¬ fieldType ∈ ["int64", "int", "uint64", "uint"] := by
    intro h
    simp only [List.mem_cons, List.mem_singleton, List.not_mem_nil, or_false] at h
    rcases h with h | h | h | h <;> contradiction
  have m2 : ¬ fieldType ∈ ["int32", "uint32"] := by
    intro h
    simp only [List.mem_cons, List.mem_singleton, List.not_mem_nil, or_false] at h
    rcases h with h | h <;> contradiction
  have m3 : ¬ fieldType ∈ ["int16", "int8", "uint16", "uint8"] := by
    intro h
    simp only [List.mem_cons, List.mem_singleton, List.not_mem_nil, or_false] at h
    rcases h with h | h | h | h <;> contradiction
  rw [if_neg h1, if_neg h2, if_neg h3, if_neg h4, if_neg h5, if_neg h6, if_neg h7, if_neg h8,
    if_neg h9, if_neg h10, if_neg h11, if_neg h12, if_neg h1, if_neg h2, if_neg m1, if_neg m2,
    if_neg m3]
  cases isUnique
  · rw [if_neg (by decide), if_neg (by decide)]
    rfl
  · rw [if_pos rfl, if_pos rfl]

/-! ## `StructFieldValueFromString` on a field of a signed integer kind -/

theorem structFieldValueLoop_none (ParseFloat : String → Option ℚ) (name value : String) :
    ∀ fields : List StructField,
    fields.find? (fun g => IsFieldKindSupported g.Kind && decide (g.Name = name)) = none →
    structFieldValueLoop ParseFloat fields name value = (false, none) := by
  intro fields
  induction fields with
  | nil => intro _; rfl
  | cons g rest ih =>
    intro h
    rw [List.find?_cons] at h
    rw [structFieldValueLoop]
    by_cases hsup : IsFieldKindSupported g.Kind = true
    · rw [if_neg (not_not.2 hsup)]
      by_cases hn : g.Name = name
      · simp [hsup, hn] at h
      · rw [if_neg hn]
        simp only [hsup, hn, decide_False, Bool.and_false] at h
        exact ih h
    · rw [if_pos hsup]
      have : IsFieldKindSupported g.Kind = false := by simpa using hsup
      simp only [this, Bool.false_and] at h
      exact ih h

theorem structFieldValueLoop_signed (ParseFloat : String → Option ℚ) (name value : String)
    (f : StructField)
    (hkind : f.Kind ∈ [ReflectKind.Int, .Int8, .Int16, .Int32, .Int64]) :
    ∀ fields : List StructField,
    fields.find? (fun g => IsFieldKindSupported g.Kind && decide (g.Name = name)) = some f →
    structFieldValueLoop ParseFloat fields name value
      = (if intRegexMatch value then
          match ParseInt value with
          | some v => (true, some (.int64 v))
          | none => (false, none)
         else (false, none)) := by
  intro fields
  induction fields with
  | nil => intro h; simp at h
  | cons g rest ih =>
    intro h
    rw [List.find?_cons] at h
    rw [structFieldValueLoop]
    by_cases hsup : IsFieldKindSupported g.Kind = true
    · rw [if_neg (not_not.2 hsup)]
      by_cases hn : g.Name = name
      · rw [if_pos hn]
        simp only [hsup, hn, decide_True, Bool.and_self, Option.some.injEq] at h
        subst h
        simp only [List.mem_cons, List.mem_singleton, List.not_mem_nil, or_false] at hkind
        revert hkind
        generalize g.Kind = k
        intro hkind
        rcases hkind with hk | hk | hk | hk | hk <;> (subst hk; rfl)
      · rw [if_neg hn]
        simp only [hsup, hn, decide_False, Bool.and_false] at h
        exact ih h
    · rw [if_pos hsup]
      have : IsFieldKindSupported g.Kind = false := by simpa using hsup
      simp only [this, Bool.false_and] at h
      exact ih h

theorem decimalValue_eq_ofDigits (digits : List Char) :
    decimalValue digits = Nat.ofDigits 10 ((digits.map digitValue).reverse) := by
  unfold decimalValue
  rw [Nat.ofDigits_eq_foldr, List.foldr_reverse, List.foldl_map]
  congr 1
  funext acc c
  simp only [digitValue, Nat.cast_id]
  ring

theorem intRegexMatch_digits (digits : List Char) (hne : digits ≠ [])
    (hd : ∀ c ∈ digits, c.isDigit = true) :
    intRegexMatch ⟨digits⟩ = true ∧ intRegexMatch ⟨'-' :: digits⟩ = true := by
  have hall : digits.all Char.isDigit = true := List.all_eq_true.2 hd
  have hemp : digits.isEmpty = false := by
    cases digits with
    | nil => exact absurd rfl hne
    | cons a l => rfl
  constructor
  · unfold intRegexMatch
    cases digits with
    | nil => exact absurd rfl hne
    | cons a l =>
      have ha : a ≠ '-' := by
        intro h
        have := hd a (List.mem_cons_self _ _)
        rw [h] at this
        exact absurd this (by decide)
      simp only []
      split
      · rename_i ds heq
        simp only [List.cons.injEq] at heq
        exact absurd heq.1 ha
      · rw [hall]; rfl
  · unfold intRegexMatch
    simp only [hall, hemp]
    rfl

theorem ParseInt_digits (digits : List Char) (hne : digits ≠ [])
    (hd : ∀ c ∈ digits, c.isDigit = true) :
    ParseInt ⟨digits⟩
        = (if inInt64 ((decimalValue digits : Nat) : Int) then
            some ((decimalValue digits : Nat) : Int) else none)
    ∧ ParseInt ⟨'-' :: digits⟩
        = (if inInt64 (-((decimalValue digits : Nat) : Int)) then
            some (-((decimalValue digits : Nat) : Int)) else none) := by
  constructor
  · cases digits with
    | nil => exact absurd rfl hne
    | cons a l =>
      have ha : a ≠ '-' := by
        intro h
        have := hd a (List.mem_cons_self _ _)
        rw [h] at this
        exact absurd this (by decide)
      have hmatch : signedValue ⟨a :: l⟩ = ((decimalValue (a :: l) : Nat) : Int) := by
        unfold signedValue
        split
        · rename_i x ds heq
          simp only [List.cons.injEq] at heq
          exact absurd heq.1 ha
        · rfl
      unfold ParseInt
      dsimp only
      rw [hmatch]
  · rfl

/-! ## Lowercase letters and digits -/

theorem lower_mem (a : Char) (h : a.isLower = true) :
    a ∈ "abcdefghijklmnopqrstuvwxyz".data := by
  have ha : a = Char.ofNat a.toNat := (Char.ofNat_toNat a).symm
  have hb : 97 ≤ a.toNat ∧ a.toNat ≤ 122 := by
    simp only [Char.isLower, Bool.and_eq_true, decide_eq_true_eq] at h
    exact ⟨h.1, h.2⟩
  obtain ⟨h1, h2⟩ := hb
  generalize a.toNat = n at ha h1 h2
  subst ha
  interval_cases n <;> decide

theorem digit_mem (a : Char) (h : a.isDigit = true) : a ∈ "0123456789".data := by
  have ha : a = Char.ofNat a.toNat := (Char.ofNat_toNat a).symm
  have hb : 48 ≤ a.toNat ∧ a.toNat ≤ 57 := by
    simp only [Char.isDigit, Bool.and_eq_true, decide_eq_true_eq] at h
    exact ⟨h.1, h.2⟩
  obtain ⟨h1, h2⟩ := hb
  generalize a.toNat = n at ha h1 h2
  subst ha
  interval_cases n <;> decide

theorem lower_facts (a : Char) (h : a.isLower = true) :
    a.toUpper.isUpper = true ∧ a.toUpper.toLower = a ∧ (a.toUpper = 'D' → a = 'd')
      ∧ (a.toUpper = 'I' → a = 'i') ∧ a.isUpper = false ∧ a ≠ 'I' ∧ a ≠ '_' := by
  have key : ∀ c ∈ "abcdefghijklmnopqrstuvwxyz".data,
      c.toUpper.isUpper = true ∧ c.toUpper.toLower = c ∧ (c.toUpper = 'D' → c = 'd')
        ∧ (c.toUpper = 'I' → c = 'i') ∧ c.isUpper = false ∧ c ≠ 'I' ∧ c ≠ '_' := by decide
  exact key a (lower_mem a h)

theorem lowerOrDigit_facts (x : Char) (h : (x.isLower || x.isDigit) = true) :
    x.isUpper = false ∧ x ≠ 'I' ∧ x ≠ '_' := by
  have key : ∀ c ∈ "abcdefghijklmnopqrstuvwxyz0123456789".data,
      c.isUpper = false ∧ c ≠ 'I' ∧ c ≠ '_' := by decide
  apply key
  rw [Bool.or_eq_true] at h
  rcases h with h | h
  · have := lower_mem x h
    revert this
    generalize x = y
    intro hy
    have : "abcdefghijklmnopqrstuvwxyz0123456789".data
        = "abcdefghijklmnopqrstuvwxyz".data ++ "0123456789".data := by decide
    rw [this]
    exact List.mem_append_left _ hy
  · have := digit_mem x h
    have e : "abcdefghijklmnopqrstuvwxyz0123456789".data
        = "abcdefghijklmnopqrstuvwxyz".data ++ "0123456789".data := by decide
    rw [e]
    exact List.mem_append_right _ this

/-! ## Lemmas on `FieldToColumn` and `ColumnToField` -/

theorem fieldToColumnLoop_chars (cs : List Char) : ∀ (first : Bool) (prev : Char) (o : String),
    fieldToColumnLoop cs first prev o = o ++ ⟨fieldToColumnChars cs first prev⟩ := by
  induction cs with
  | nil =>
    intro first prev o
    apply String.ext
    simp [fieldToColumnLoop, fieldToColumnChars, String.data_append]
  | cons ch rest ih =>
    intro first prev o
    rw [fieldToColumnLoop, fieldToColumnChars]
    by_cases hf : first = true
    · rw [if_pos hf, if_pos hf, ih]
      apply String.ext
      simp [String.data_append, String.singleton]
    · rw [if_neg hf, if_neg hf]
      by_cases hu : ch.isUpper = true
      · rw [if_pos hu, if_pos hu]
        by_cases hd : prev = 'I' ∧ ch = 'D'
        · rw [if_pos hd, if_pos hd, ih]
          apply String.ext
          simp [String.data_append, String.singleton]
        · rw [if_neg hd, if_neg hd, ih]
          apply String.ext
          simp [String.data_append, String.singleton]
      · rw [if_neg hu, if_neg hu, ih]
        apply String.ext
        simp [String.data_append, String.singleton]

theorem FieldToColumn_chars (s : String) :
    FieldToColumn s = ⟨fieldToColumnChars s.data true (Char.ofNat 0)⟩ := by
  unfold FieldToColumn
  by_cases h : s = "ID"
  · rw [if_pos h, h]
    decide
  · rw [if_neg h, fieldToColumnLoop_chars]
    apply String.ext
    simp [String.data_append]

theorem isLowerPart_cons (p : List Char) (h : isLowerPart p = true) :
    ∃ c cs, p = c :: cs ∧ c.isLower = true
      ∧ ∀ x ∈ cs, (x.isLower || x.isDigit) = true := by
  cases p with
  | nil => simp [isLowerPart] at h
  | cons c cs =>
    simp only [isLowerPart, Bool.and_eq_true, List.all_eq_true] at h
    exact ⟨c, cs, rfl, h.1, h.2⟩

theorem wellFormedParts_all : ∀ (ps : List (List Char)),
    wellFormedParts ps = true → ∀ p ∈ ps, isLowerPart p = true := by
  intro ps
  induction ps with
  | nil => intro _ p hp; cases hp
  | cons p qs ih =>
    intro h x hx
    cases qs with
    | nil =>
      simp only [List.mem_singleton] at hx
      subst hx
      simpa [wellFormedParts] using h
    | cons q rest =>
      simp only [wellFormedParts, Bool.and_eq_true] at h
      rcases List.mem_cons.1 hx with hx | hx
      · subst hx; exact h.1.1
      · exact ih h.2 x hx

theorem columnToFieldLoop_parts : ∀ (ps : List (List Char)) (acc : String),
    (∀ p ∈ ps, p ≠ []) →
    columnToFieldLoop (ps.map String.mk) acc
      = .ok (acc ++ ⟨(ps.map capitalised).flatten⟩) := by
  intro ps
  induction ps with
  | nil =>
    intro acc _
    simp only [List.map_nil, columnToFieldLoop, List.flatten_nil]
    have : acc ++ (⟨[]⟩ : String) = acc := by
      apply String.ext
      simp [String.data_append]
    rw [this]
    rfl
  | cons p qs ih =>
    intro acc hne
    have hp : p ≠ [] := hne p (List.mem_cons_self _ _)
    have hq : ∀ q ∈ qs, q ≠ [] := fun q hq => hne q (List.mem_cons_of_mem _ hq)
    rw [List.map_cons, columnToFieldLoop]
    by_cases hid : p = ['i', 'd']
    · have h1 : String.mk p = "id" := by rw [hid]
      rw [if_pos h1, ih _ hq]
      congr 1
      apply String.ext
      simp [String.data_append, capitalised, hid]
    · have h1 : ¬ String.mk p = "id" := by
        intro h
        apply hid
        have := congrArg String.data h
        exact this
      rw [if_neg h1]
      cases p with
      | nil => exact absurd rfl hp
      | cons c cs =>
        simp only []
        rw [ih _ hq]
        congr 1
        apply String.ext
        simp [String.data_append, capitalised, hid, toUpper, String.singleton]

theorem fieldToColumnChars_run : ∀ (cs rest : List Char) (prev : Char),
    (∀ x ∈ cs, (x.isLower || x.isDigit) = true) →
    fieldToColumnChars (cs ++ rest) false prev
      = cs ++ fieldToColumnChars rest false (cs.getLast?.getD prev) := by
  intro cs
  induction cs with
  | nil => intro rest prev _; rfl
  | cons c cs ih =>
    intro rest prev h
    have hc := lowerOrDigit_facts c (h c (List.mem_cons_self _ _))
    have hcs : ∀ x ∈ cs, (x.isLower || x.isDigit) = true :=
      fun x hx => h x (List.mem_cons_of_mem _ hx)
    rw [List.cons_append, fieldToColumnChars]
    rw [if_neg (by simp), if_neg (by simp [hc.1]), ih rest c hcs]
    congr 2
    cases cs with
    | nil => rfl
    | cons d ds =>
      rw [List.getLast?_cons_cons]
      cases hl : (d :: ds).getLast? with
      | none => exact absurd (List.getLast?_eq_none_iff.1 hl) (List.cons_ne_nil _ _)
      | some x => rfl

theorem fieldToColumnChars_first (p rest : List Char) (prev : Char)
    (hp : isLowerPart p = true) :
    fieldToColumnChars (capitalised p ++ rest) true prev
      = p ++ fieldToColumnChars rest false (prevAfter p) := by
  by_cases hid : p = ['i', 'd']
  · subst hid
    have e1 : capitalised ['i', 'd'] = ['I', 'D'] := by decide
    have e2 : prevAfter ['i', 'd'] = 'I' := by decide
    rw [e1, e2]
    simp [fieldToColumnChars]
  · obtain ⟨c, cs, rfl, hc, hcs⟩ := isLowerPart_cons p hp
    have hf := lower_facts c hc
    have e1 : capitalised (c :: cs) = c.toUpper :: cs := by
      unfold capitalised
      rw [if_neg hid]
    have e2 : prevAfter (c :: cs) = cs.getLast?.getD c.toUpper := by
      unfold prevAfter
      rw [if_neg hid]
    rw [e1, e2, List.cons_append, fieldToColumnChars, if_pos rfl, hf.2.1,
      fieldToColumnChars_run cs rest _ hcs]
    rfl

theorem fieldToColumnChars_next (p rest : List Char) (prev : Char)
    (hp : isLowerPart p = true) (hprev : prev = 'I' → p.head? ≠ some 'd') :
    fieldToColumnChars (capitalised p ++ rest) false prev
      = '_' :: p ++ fieldToColumnChars rest false (prevAfter p) := by
  by_cases hid : p = ['i', 'd']
  · subst hid
    have e1 : capitalised ['i', 'd'] = ['I', 'D'] := by decide
    have e2 : prevAfter ['i', 'd'] = 'I' := by decide
    rw [e1, e2]
    have hI : 'I'.isUpper = true := by decide
    have hD : 'D'.isUpper = true := by decide
    have hne : ¬ (prev = 'I' ∧ 'I' = 'D') := by
      intro h
      exact absurd h.2 (by decide)
    rw [List.cons_append, fieldToColumnChars, if_neg (by simp), if_pos hI, if_neg hne,
      List.cons_append, fieldToColumnChars, if_neg (by simp), if_pos hD,
      if_pos ⟨rfl, rfl⟩]
    rfl
  · obtain ⟨c, cs, rfl, hc, hcs⟩ := isLowerPart_cons p hp
    have hf := lower_facts c hc
    have e1 : capitalised (c :: cs) = c.toUpper :: cs := by
      unfold capitalised
      rw [if_neg hid]
    have e2 : prevAfter (c :: cs) = cs.getLast?.getD c.toUpper := by
      unfold prevAfter
      rw [if_neg hid]
    have hne : ¬ (prev = 'I' ∧ c.toUpper = 'D') := by
      rintro ⟨h1, h2⟩
      apply hprev h1
      rw [hf.2.2.1 h2]
      rfl
    rw [e1, e2, List.cons_append, fieldToColumnChars, if_neg (by simp), if_pos hf.1,
      if_neg hne, hf.2.1, fieldToColumnChars_run cs rest _ hcs]
    rfl

theorem prevAfter_I (p : List Char) (hp : isLowerPart p = true) (h : prevAfter p = 'I') :
    p = ['i'] ∨ p = ['i', 'd'] := by
  by_cases hid : p = ['i', 'd']
  · exact Or.inr hid
  · left
    obtain ⟨c, cs, rfl, hc, hcs⟩ := isLowerPart_cons p hp
    have hf := lower_facts c hc
    unfold prevAfter at h
    rw [if_neg hid] at h
    simp only [] at h
    rcases List.eq_nil_or_concat cs with hnil | ⟨l, b, hl⟩
    · subst hnil
      simp only [List.getLast?_nil, Option.getD_none] at h
      rw [hf.2.2.2.1 h]
    · subst hl
      rw [List.concat_eq_append, List.getLast?_append] at h
      simp at h
      have := lowerOrDigit_facts b (hcs b (by simp))
      exact absurd h this.2.1

theorem fieldToColumnChars_parts : ∀ (qs : List (List Char)) (p : List Char),
    wellFormedParts (p :: qs) = true →
    fieldToColumnChars ((qs.map capitalised).flatten) false (prevAfter p)
      = (qs.map (fun q => '_' :: q)).flatten := by
  intro qs
  induction qs with
  | nil => intro p _; rfl
  | cons q rest ih =>
    intro p h
    have hall := wellFormedParts_all _ h
    have hp : isLowerPart p = true := hall p (List.mem_cons_self _ _)
    have hq : isLowerPart q = true :=
      hall q (List.mem_cons_of_mem _ (List.mem_cons_self _ _))
    simp only [wellFormedParts, Bool.and_eq_true, Bool.not_eq_true', Bool.and_eq_false_iff,
      Bool.or_eq_false_iff, decide_eq_false_iff_not, decide_eq_true_eq] at h
    have hprev : prevAfter p = 'I' → q.head? ≠ some 'd' := by
      intro hI hd
      rcases prevAfter_I p hp hI with h1 | h1
      · rcases h.1.2 with h2 | h2
        · exact h2.1 h1
        · exact h2 hd
      · rcases h.1.2 with h2 | h2
        · exact h2.2 h1
        · exact h2 hd
    rw [List.map_cons, List.flatten_cons, fieldToColumnChars_next q _ _ hq hprev,
      ih q h.2]
    simp

theorem splitOnChars_join (sep : Char) : ∀ (cs : List Char),
    ∃ p qs, splitOnChars sep cs = p :: qs
      ∧ p ++ (qs.map (fun q => sep :: q)).flatten = cs := by
  intro cs
  induction cs with
  | nil => exact ⟨[], [], rfl, rfl⟩
  | cons c cs ih =>
    obtain ⟨p, qs, h1, h2⟩ := ih
    rw [splitOnChars]
    by_cases hc : c = sep
    · rw [if_pos hc, h1]
      refine ⟨[], p :: qs, rfl, ?_⟩
      rw [List.map_cons, List.flatten_cons, List.nil_append, List.cons_append, h2, hc]
    · rw [if_neg hc, h1]
      exact ⟨c :: p, qs, rfl, by rw [List.cons_append, h2]⟩

/-- On a well-formed column name `ColumnToField` completes, and `FieldToColumn` maps its
result back to the column name. -/
theorem roundTrip_wellFormed (c : String) (h : wellFormedColumn c = true) :
    ∃ f, ColumnToField c = .ok f ∧ FieldToColumn f = c := by
  unfold wellFormedColumn at h
  obtain ⟨p, qs, hs, hj⟩ := splitOnChars_join '_' c.data
  rw [hs] at h
  have hall := wellFormedParts_all _ h
  have hne : ∀ x ∈ p :: qs, x ≠ [] := by
    intro x hx hnil
    have := hall x hx
    rw [hnil] at this
    exact absurd this (by decide)
  refine ⟨⟨((p :: qs).map capitalised).flatten⟩, ?_, ?_⟩
  · unfold ColumnToField splitOn
    rw [hs, columnToFieldLoop_parts _ _ hne]
    congr 1
  · rw [FieldToColumn_chars]
    apply String.ext
    show fieldToColumnChars (((p :: qs).map capitalised).flatten) true (Char.ofNat 0) = c.data
    rw [List.map_cons, List.flatten_cons,
      fieldToColumnChars_first p _ _ (hall p (List.mem_cons_self _ _)),
      fieldToColumnChars_parts qs p h, hj]

/-! ## `StructFieldValueFromString` on a field of an unsigned integer kind -/

theorem structFieldValueLoop_unsigned (ParseFloat : String → Option ℚ) (name value : String)
    (f : StructField)
    (hkind : f.Kind ∈ [ReflectKind.Uint, .Uint8, .Uint16, .Uint32, .Uint64]) :
    ∀ fields : List StructField,
    fields.find? (fun g => IsFieldKindSupported g.Kind && decide (g.Name = name)) = some f →
    structFieldValueLoop ParseFloat fields name value = (false, none) := by
  intro fields
  induction fields with
  | nil => intro h; simp at h
  | cons g rest ih =>
    intro h
    rw [List.find?_cons] at h
    rw [structFieldValueLoop]
    by_cases hsup : IsFieldKindSupported g.Kind = true
    · rw [if_neg (not_not.2 hsup)]
      by_cases hn : g.Name = name
      · rw [if_pos hn]
        simp only [hsup, hn, decide_True, Bool.and_self, Option.some.injEq] at h
        subst h
        simp only [List.mem_cons, List.mem_singleton, List.not_mem_nil, or_false] at hkind
        revert hkind
        generalize g.Kind = k
        intro hkind
        rcases hkind with hk | hk | hk | hk | hk <;> (subst hk; rfl)
      · rw [if_neg hn]
        simp only [hsup, hn, decide_False, Bool.and_false] at h
        exact ih h
    · rw [if_pos hsup]
      have : IsFieldKindSupported g.Kind = false := by simpa using hsup
      simp only [this, Bool.false_and] at h
      exact ih h

theorem find?_of_distinct_names (name : String) (f : StructField) :
    ∀ fields : List StructField, f ∈ fields → (fields.map (fun g => g.Name)).Nodup →
    f.Name = name → IsFieldKindSupported f.Kind = true →
    fields.find? (fun g => IsFieldKindSupported g.Kind && decide (g.Name = name)) = some f := by
  intro fields
  induction fields with
  | nil => intro h; cases h
  | cons g rest ih =>
    intro hmem hnd hname hsup
    rw [List.map_cons, List.nodup_cons] at hnd
    rw [List.find?_cons]
    rcases List.mem_cons.1 hmem with hfg | hrest
    · subst hfg
      simp [hsup, hname]
    · have hne : g.Name ≠ name := by
        intro hg
        apply hnd.1
        rw [hg, ← hname]
        exact List.mem_map_of_mem _ hrest
      simp only [hne, decide_False, Bool.and_false]
      exact ih hrest hnd.2 hname hsup

/-! ## Lemmas on the bindings of placeholders and values -/

theorem splitOnChars_ne_nil (sep : Char) (cs : List Char) : splitOnChars sep cs ≠ [] := by
  obtain ⟨p, qs, h, _⟩ := splitOnChars_join sep cs
  rw [h]
  exact List.cons_ne_nil _ _

theorem splitOnChars_length (sep : Char) : ∀ cs : List Char,
    (splitOnChars sep cs).length = cs.count sep + 1 := by
  intro cs
  induction cs with
  | nil => rfl
  | cons c cs ih =>
    rw [splitOnChars]
    by_cases hc : c = sep
    · rw [if_pos hc, List.length_cons, ih, hc, List.count_cons_self]
    · rw [if_neg hc, List.count_cons_of_ne (Ne.symm hc)]
      obtain ⟨p, qs, h, _⟩ := splitOnChars_join sep cs
      rw [h] at ih ⊢
      exact ih

theorem splitOnChars_no_sep (sep : Char) : ∀ cs : List Char,
    ∀ p ∈ splitOnChars sep cs, sep ∉ p := by
  intro cs
  induction cs with
  | nil =>
    intro p hp
    simp only [splitOnChars, List.mem_singleton] at hp
    subst hp
    exact List.not_mem_nil _
  | cons c cs ih =>
    intro p hp
    rw [splitOnChars] at hp
    by_cases hc : c = sep
    · rw [if_pos hc] at hp
      rcases List.mem_cons.1 hp with h | h
      · subst h
        exact List.not_mem_nil _
      · exact ih p h
    · rw [if_neg hc] at hp
      obtain ⟨q, qs, h, _⟩ := splitOnChars_join sep cs
      rw [h] at hp ih
      rcases List.mem_cons.1 hp with h1 | h1
      · subst h1
        intro hmem
        rcases List.mem_cons.1 hmem with h2 | h2
        · exact hc h2.symm
        · exact ih q (List.mem_cons_self _ _) h2
      · exact ih p (List.mem_cons_of_mem _ h1)

theorem intercalate_cons_eq (sep : Char) (p : List Char) : ∀ qs : List (List Char),
    [sep].intercalate (p :: qs) = p ++ (qs.map (fun q => sep :: q)).flatten := by
  intro qs
  induction qs generalizing p with
  | nil => simp [List.intercalate]
  | cons q rest ih =>
    have h := ih q
    simp only [List.intercalate, List.intersperse_cons_cons, List.flatten_cons,
      List.map_cons] at h ⊢
    rw [h]
    simp

theorem intercalate_splitOnChars (sep : Char) (cs : List Char) :
    [sep].intercalate (splitOnChars sep cs) = cs := by
  obtain ⟨p, qs, h, hj⟩ := splitOnChars_join sep cs
  rw [h, intercalate_cons_eq, hj]

theorem fillMarks_filled : ∀ (cs : List Char) (rs : List String),
    rs.length < (splitOnChars '?' cs).length →
    fillMarks cs rs = filledTemplate (splitOnChars '?' cs) rs := by
  intro cs
  induction cs with
  | nil =>
    intro rs h
    cases rs with
    | nil => rfl
    | cons r rs => simp [splitOnChars] at h
  | cons c cs ih =>
    intro rs h
    cases rs with
    | nil =>
      have h1 : fillMarks (c :: cs) [] = c :: cs := rfl
      rw [h1]
      unfold filledTemplate
      simp only [List.zipWith_nil_right, List.flatten_nil, List.length_nil, List.drop_zero,
        List.nil_append]
      exact (intercalate_splitOnChars '?' (c :: cs)).symm
    | cons r rs =>
      rw [fillMarks]
      rw [splitOnChars] at h ⊢
      by_cases hc : c = '?'
      · rw [if_pos hc] at h ⊢
        rw [if_pos hc]
        simp only [List.length_cons, Nat.add_lt_add_iff_right] at h
        rw [ih rs h]
        unfold filledTemplate
        simp
      · rw [if_neg hc] at h ⊢
        rw [if_neg hc]
        obtain ⟨q, qs, hq, _⟩ := splitOnChars_join '?' cs
        rw [hq] at h ih ⊢
        rw [ih (r :: rs) h]
        unfold filledTemplate
        simp

theorem length_argNumbers (a : Arg) (n : Int) : (argNumbers a n).length = argWidth a := by
  simp [argNumbers]

theorem argBindings_fst {a : Arg} (h : argExpanded a = true) (n : Int) :
    (argBindings a n).map Prod.fst = argNumbers a n := by
  unfold argBindings
  apply List.map_fst_zip
  rw [length_argNumbers, length_argValues h]

theorem argBindings_snd {a : Arg} (h : argExpanded a = true) (n : Int) :
    (argBindings a n).map Prod.snd = argValues a := by
  unfold argBindings
  apply List.map_snd_zip
  rw [length_argNumbers, length_argValues h]

theorem argsBindings_length : ∀ (args : List Arg) (n : Int),
    (argsBindings args n).length = args.length := by
  intro args
  induction args with
  | nil => intro n; rfl
  | cons a rest ih => intro n; simp [argsBindings, ih]

theorem argsBindings_fst : ∀ (args : List Arg) (n : Int),
    (∀ a ∈ args, argExpanded a = true) →
    (argsBindings args n).map (fun bs => bs.map Prod.fst) = argsNumbers args n := by
  intro args
  induction args with
  | nil => intro n _; rfl
  | cons a rest ih =>
    intro n h
    rw [argsBindings, argsNumbers, List.map_cons, argBindings_fst (h a (by simp)),
      ih _ (fun x hx => h x (List.mem_cons_of_mem _ hx))]

theorem argsBindings_snd : ∀ (args : List Arg) (n : Int),
    (∀ a ∈ args, argExpanded a = true) →
    (argsBindings args n).flatten.map Prod.snd = (args.map argValues).flatten := by
  intro args
  induction args with
  | nil => intro n _; rfl
  | cons a rest ih =>
    intro n h
    rw [argsBindings, List.flatten_cons, List.map_append, argBindings_snd (h a (by simp)),
      ih _ (fun x hx => h x (List.mem_cons_of_mem _ hx)), List.map_cons, List.flatten_cons]

theorem argsBindings_runs (args : List Arg) (n : Int)
    (h : ∀ a ∈ args, argExpanded a = true) :
    (argsBindings args n).map (fun bs => placeholderRun (bs.map Prod.fst))
      = (argsNumbers args n).map placeholderRun := by
  rw [← argsBindings_fst args n h, List.map_map]
  rfl

theorem argsBindings_flatten_fst (args : List Arg) (n : Int)
    (h : ∀ a ∈ args, argExpanded a = true) :
    (argsBindings args n).flatten.map Prod.fst = (argsNumbers args n).flatten := by
  rw [← argsBindings_fst args n h, List.map_flatten]

theorem ordinaryBindings_conditions (b : Builder) (filters : Filters) (s : Int) :
    (ordinaryBindings filters s).map (fun x => conditionText b filters x.1 x.2.1)
      = conditionsOf b filters (ordinaryNames filters) s := by
  unfold ordinaryBindings conditionsOf
  rw [List.map_map]
  rfl

theorem ordinaryBindings_values (filters : Filters) (s : Int) :
    ((ordinaryBindings filters s).map (fun x => x.2)).map Prod.snd
      = (ordinaryNames filters).map (fun name => (filters.at name).Val) := by
  unfold ordinaryBindings
  rw [List.map_map, List.map_map]
  have : ((Prod.snd ∘ fun (x : String × Int × GoValue) => x.2) ∘
      fun (p : Nat × String) => (p.2, wrapInt64 (s + p.1), (filters.at p.2).Val))
      = (fun name => (filters.at name).Val) ∘ Prod.snd := rfl
  rw [this, ← List.map_map, List.enum_map_snd]

theorem ordinaryBindings_numbers (filters : Filters) (s : Int) :
    ((ordinaryBindings filters s).map (fun x => x.2)).map Prod.fst
      = (List.range (ordinaryNames filters).length).map
          (fun (k : Nat) => wrapInt64 (s + (k : Int))) := by
  unfold ordinaryBindings
  rw [List.map_map, List.map_map]
  have : ((Prod.fst ∘ fun (x : String × Int × GoValue) => x.2) ∘
      fun (p : Nat × String) => (p.2, wrapInt64 (s + p.1), (filters.at p.2).Val))
      = (fun (k : Nat) => wrapInt64 (s + (k : Int))) ∘ Prod.fst := rfl
  rw [this, ← List.map_map, List.enum_map_fst]

theorem bindings_values (filters : Filters) (s : Int)
    (h : ∀ a ∈ rawArguments filters, argExpanded a = true) :
    (bindings filters s).map Prod.snd = expectedValues filters := by
  unfold bindings expectedValues
  rw [List.map_append, ordinaryBindings_values, argsBindings_snd _ _ h]

theorem bindings_numbers (filters : Filters) (s : Int)
    (h : ∀ a ∈ rawArguments filters, argExpanded a = true) :
    (bindings filters s).map Prod.fst
      = (List.range (bindings filters s).length).map
          (fun (k : Nat) => wrapInt64 (s + (k : Int))) := by
  have hlen : (bindings filters s).length
      = (ordinaryNames filters).length + argsWidth (rawArguments filters) := by
    rw [← List.length_map (bindings filters s) Prod.snd, bindings_values filters s h,
      length_expectedValues filters h]
  rw [hlen]
  unfold bindings
  rw [List.map_append, ordinaryBindings_numbers, argsBindings_flatten_fst _ _ h]
  exact numbers_contiguous s _ _

/-! ## C1: ordinary filters are visited in ascending order of field name -/

/-- C1: for a filter set without raw entry whose keys are all fields, and a starting
number `s` of type `int`, `queryFilters` returns the conditions of the filters joined
by ` AND `, one per key, the keys taken in strictly ascending lexicographic order; the
condition at position `k` (from 0) holds placeholder `s + k`.  `SelectCount`, `Delete`
and `Select` put the clause numbered from 1 behind ` WHERE `. -/
theorem queryFilters_conditions_in_field_order (b : Builder) (filters : Filters) (s : Int)
    (order : List String) (limit offset : Int) (qOrder : String)
    (hs : inInt64 s)
    (hraw : GoMap.get? filters Raw = none)
    (hknown : ∀ name ∈ GoMap.keys filters, (GoMap.get? b.fieldColumnName name).isSome = true)
    (hord : queryOrder b order = .ok (qOrder, none)) :
    (sortStrings (GoMap.keys filters)).Sorted (fun x y => x < y)
    ∧ (∀ name, name ∈ sortStrings (GoMap.keys filters) ↔ ∃ v, GoMap.get? filters name = some v)
    ∧ (conditionsOf b filters (sortStrings (GoMap.keys filters)) s).length = GoMap.len filters
    ∧ (∀ k name, (sortStrings (GoMap.keys filters)).get? k = some name →
        (conditionsOf b filters (sortStrings (GoMap.keys filters)) s).get? k
          = some (conditionColumn b filters name ++ conditionOperator filters name
              ++ "$" ++ fmtInt (wrapInt64 (s + k)) ++ conditionSuffix filters name))
    ∧ queryFilters b (some filters) s
        = .ok (" AND ".intercalate
            (conditionsOf b filters (sortStrings (GoMap.keys filters)) s), none)
    ∧ SelectCount b (some filters)
        = .ok (withWhere b.querySelectCountPrefix (" AND ".intercalate
            (conditionsOf b filters (sortStrings (GoMap.keys filters)) 1)), none)
    ∧ Delete b (some filters)
        = .ok (withWhere b.queryDeletePrefix (" AND ".intercalate
            (conditionsOf b filters (sortStrings (GoMap.keys filters)) 1)), none)
    ∧ Select b order limit offset (some filters)
        = .ok (selectText b.querySelectPrefix (" AND ".intercalate
            (conditionsOf b filters (sortStrings (GoMap.keys filters)) 1)) qOrder
            (queryLimitOffset limit offset), none) := by
  have hk : ∀ name ∈ GoMap.keys filters, ∃ c, GoMap.get? b.fieldColumnName name = some c :=
    fun n hn => Option.isSome_iff_exists.1 (hknown n hn)
  have h1 : inInt64 1 := by decide
  have hq : ∀ s', inInt64 s' → queryFilters b (some filters) s'
      = .ok (" AND ".intercalate
          (conditionsOf b filters (sortStrings (GoMap.keys filters)) s'), none) := by
    intro s' hs'
    unfold queryFilters
    rw [queryFiltersNum_ordinary b filters s' hs' hraw hk]
    rfl
  refine ⟨sortStrings_strict _ (List.nodup_dedup _), ?_, ?_, ?_, hq s hs, ?_, ?_, ?_⟩
  · intro name
    rw [mem_sortStrings, GoMap.get?_eq_some_iff]
  · simp [conditionsOf, length_sortStrings, GoMap.len]
  · intro k name hkn
    simp only [conditionsOf, List.get?_eq_getElem?, List.getElem?_map, List.getElem?_enum] at hkn ⊢
    simp [hkn, conditionText]
  · simp only [SelectCount, hq 1 h1]
    rfl
  · simp only [Delete, hq 1 h1]
    rfl
  · simp only [Select, hord, hq 1 h1]
    rfl

/-- Witness of C1 on the test builder: the filters `Price`, `PostCode2` of the test, read
as `PostCode2` then `Price`. -/
theorem queryFilters_conditions_in_field_order_witness :
    queryFilters testBuilder (some twoFilters) 1
        = .ok ("\"post_code2\"=$1 AND \"price\"=$2", none)
    ∧ queryFilters testBuilder (some twoFilters) 1
        = .ok (" AND ".intercalate
            (conditionsOf testBuilder twoFilters (sortStrings (GoMap.keys twoFilters)) 1), none) :=
  ⟨by decide,
   (queryFilters_conditions_in_field_order testBuilder twoFilters 1
      ["EmailSecondary", "desc", "Age", "asc"] 67 13 "\"email_secondary\" DESC,\"age\" ASC"
      (by decide) (by decide) (by decide) (by decide)).2.2.2.2.1⟩

/-! ## C2: the conjunction between the ordinary block and the raw block -/

/-- C2, counterexample: with a filter on `Price` and a raw entry whose `Op` is left
unset, the two blocks are joined with ` OR `, not with ` AND `. -/
theorem raw_unset_conjunction_joins_with_or :
    queryFilters testBuilder (some unsetConjunctionFilters) 1
        = .ok ("(\"price\"=$1) OR (\"age\"=$2)", none)
    ∧ queryFilters testBuilder (some unsetConjunctionFilters) 1
        ≠ .ok ("(\"price\"=$1) AND (\"age\"=$2)", none) := by
  decide

/-- C2, amended: with at least one ordinary filter and a raw entry whose template is not
empty, the parenthesized ordinary block and the parenthesized raw block are joined with
` OR ` exactly when the `Op` of the raw entry equals `OpOR`, and with ` AND ` for every
other value; `OpOR` is 0, the value an `Op` left unset holds. -/
theorem queryFilters_conjunction (b : Builder) (filters : Filters) (s : Int) (r : OpVal)
    (t t' : String) (args : List Arg)
    (hs : inInt64 s)
    (hknown : ∀ name ∈ ordinaryNames filters, (GoMap.get? b.fieldColumnName name).isSome = true)
    (hsome : ordinaryNames filters ≠ [])
    (hraw : GoMap.get? filters Raw = some r)
    (hval : r.Val = .ifaces (.scalar (.str t) :: args))
    (ht : t ≠ "")
    (hrefs : queryFiltersFields b (findAllFields t) [] t = .ok t')
    (hargs : ∀ a ∈ args, a ≠ Arg.nil) :
    queryFilters b (some filters) s
        = .ok ("(" ++ ordinaryClause b filters s ++ ")"
            ++ (if r.Op = OpOR then " OR " else " AND ")
            ++ "(" ++ rawBlock t' args (wrapInt64 (s + ((ordinaryNames filters).length : Nat)))
            ++ ")", none)
    ∧ OpOR = 0
    ∧ ∀ v : GoValue, ({ Val := v } : OpVal).Op = OpOR := by
  have hk : ∀ name ∈ ordinaryNames filters, ∃ c, GoMap.get? b.fieldColumnName name = some c :=
    fun n hn => Option.isSome_iff_exists.1 (hknown n hn)
  refine ⟨?_, rfl, fun _ => rfl⟩
  unfold queryFilters
  rw [queryFiltersNum_raw b filters s r t t' args hs hk hraw hval ht hrefs hargs]
  simp only [joinBlocks, ordinaryClause_ne_empty b filters s hsome, ne_eq, not_false_eq_true,
    if_true]
  rfl

/-- Witness of the amended C2: the filters of the test with a raw entry declared `OpAND`;
the blocks are joined with ` AND `. -/
theorem queryFilters_conjunction_witness :
    queryFilters testBuilder (some andRawFilters) 1
        = .ok ("(\"price\"=$1) AND (\"price\"=$2 OR \"email_secondary\"=$3 OR "
            ++ "\"age\" IN ($4,$5,$6))", none)
    ∧ queryFilters testBuilder (some andRawFilters) 1
        = .ok ("(" ++ ordinaryClause testBuilder andRawFilters 1 ++ ")"
            ++ (if OpAND = OpOR then " OR " else " AND ")
            ++ "(" ++ rawBlock "\"price\"=? OR \"email_secondary\"=? OR \"age\" IN (?)"
                [.scalar (.int 0), .scalar (.int 0), .slice .int [.int 0, .int 0, .int 0]]
                (wrapInt64 (1 + ((ordinaryNames andRawFilters).length : Nat)))
            ++ ")", none) :=
  ⟨by decide,
   (queryFilters_conjunction testBuilder andRawFilters 1
      { Op := OpAND, Val := .ifaces [
          .scalar (.str ".Price=? OR .EmailSecondary=? OR .Age IN (?)"),
          .scalar (.int 0), .scalar (.int 0), .slice .int [.int 0, .int 0, .int 0]] }
      ".Price=? OR .EmailSecondary=? OR .Age IN (?)"
      "\"price\"=? OR \"email_secondary\"=? OR \"age\" IN (?)"
      [.scalar (.int 0), .scalar (.int 0), .slice .int [.int 0, .int 0, .int 0]]
      (by decide) (by decide) (by decide) (by decide) rfl (by decide) (by decide)
      (by decide)).1⟩

/-! ## C3: references in the raw template -/

/-- C3, evaluation at the failing input: the template `.PostCode=? OR .PostCode2=?` on
the test builder.  The column of `PostCode` is also put into the reference `.PostCode2`,
whose own column `post_code2` never appears. -/
theorem raw_reference_prefix_is_replaced_inside_longer_reference :
    findAllFields ".PostCode=? OR .PostCode2=?" = [".PostCode", ".PostCode2"]
    ∧ GoMap.get? testBuilder.fieldColumnName "PostCode" = some "post_code"
    ∧ GoMap.get? testBuilder.fieldColumnName "PostCode2" = some "post_code2"
    ∧ queryFiltersFields testBuilder (findAllFields ".PostCode=? OR .PostCode2=?") []
        ".PostCode=? OR .PostCode2=?" = .ok "\"post_code\"=? OR \"post_code\"2=?"
    ∧ queryFilters testBuilder (some prefixRawFilters) 1
        = .ok ("(\"post_code\"=$1 OR \"post_code\"2=$2)", none) := by
  decide

/-! ## C4: the question marks of the raw template -/

/-- C4: for a raw entry with a non-empty template whose references are all fields and
whose arguments are scalars or sequences, `queryFilters` fills the i-th `?` of the
template (after reference substitution) with the run of the i-th argument, a scalar
giving one placeholder and a sequence of length m giving m comma-joined placeholders.
The first raw placeholder is `s` plus the number of ordinary filters; the numbers of the
whole clause, read from the left, are `s, s+1, ...` in 64-bit arithmetic, and they
increase as long as they stay within `int`. -/
theorem queryFilters_raw_arguments (b : Builder) (filters : Filters) (s : Int) (r : OpVal)
    (t t' : String) (args : List Arg)
    (hs : inInt64 s)
    (hknown : ∀ name ∈ ordinaryNames filters, (GoMap.get? b.fieldColumnName name).isSome = true)
    (hraw : GoMap.get? filters Raw = some r)
    (hval : r.Val = .ifaces (.scalar (.str t) :: args))
    (ht : t ≠ "")
    (hrefs : queryFiltersFields b (findAllFields t) [] t = .ok t')
    (hargs : ∀ a ∈ args, a ≠ Arg.nil) :
    queryFilters b (some filters) s
        = .ok (joinBlocks (ordinaryClause b filters s) r.Op
            ⟨fillMarks t'.data
              ((argsNumbers args (wrapInt64 (s + ((ordinaryNames filters).length : Nat)))).map
                placeholderRun)⟩, none)
    ∧ (∀ x n, placeholderRun (argNumbers (.scalar x) n) = "$" ++ fmtInt (wrapInt64 n))
    ∧ (∀ a n, a.kind? ≠ some .NotSeq →
        placeholderRun (argNumbers a n)
          = ",".intercalate ((List.range a.len).map
              (fun (j : Nat) => "$" ++ fmtInt (wrapInt64 (n + (j : Int))))))
    ∧ (List.range (ordinaryNames filters).length).map
          (fun (k : Nat) => wrapInt64 (s + (k : Int)))
        ++ (argsNumbers args (wrapInt64 (s + ((ordinaryNames filters).length : Nat)))).flatten
        = (List.range ((ordinaryNames filters).length + argsWidth args)).map
            (fun (k : Nat) => wrapInt64 (s + (k : Int)))
    ∧ (s + (((ordinaryNames filters).length + argsWidth args : Nat) : Int)
          ≤ 9223372036854775808 →
        ((List.range ((ordinaryNames filters).length + argsWidth args)).map
            (fun (k : Nat) => wrapInt64 (s + (k : Int)))).Sorted (fun x y => x < y)) := by
  have hk : ∀ name ∈ ordinaryNames filters, ∃ c, GoMap.get? b.fieldColumnName name = some c :=
    fun n hn => Option.isSome_iff_exists.1 (hknown n hn)
  refine ⟨?_, ?_, ?_, numbers_contiguous s _ args, numbers_increasing s _ hs⟩
  · unfold queryFilters
    rw [queryFiltersNum_raw b filters s r t t' args hs hk hraw hval ht hrefs hargs]
    rfl
  · intro x n
    have h1 : argNumbers (Arg.scalar x) n = [wrapInt64 (n + ((0 : Nat) : Int))] := rfl
    rw [h1]
    simp [placeholderRun, String.intercalate, String.intercalate.go]
  · intro a n ha
    have hw : argWidth a = a.len := by
      unfold argWidth
      cases hk' : a.kind? with
      | none => rfl
      | some k =>
        cases k with
        | NotSeq => exact absurd hk' ha
        | Slice => rfl
        | Array => rfl
    simp [placeholderRun, argNumbers, hw, List.map_map, Function.comp]
    rfl

set_option maxRecDepth 100000 in
/-- Witness of C4: the raw entry of the test (builder_test.go:123), two scalars and
sequences of 4, 3 and 2 elements after two ordinary filters. -/
theorem queryFilters_raw_arguments_witness :
    queryFilters testBuilder (some orRawFilters) 1
        = .ok ("(\"post_code2\"=$1 AND \"price\"=$2) OR (\"price\"=$3 OR "
            ++ "(\"email_secondary\"=$4 AND \"age\" IN ($5,$6,$7,$8)) OR "
            ++ "(\"age\" IN ($9,$10,$11)) OR (\"email_secondary\" IN ($12,$13)))", none)
    ∧ queryFilters testBuilder (some orRawFilters) 1
        = .ok (joinBlocks (ordinaryClause testBuilder orRawFilters 1) OpOR
            ⟨fillMarks ("\"price\"=? OR (\"email_secondary\"=? AND \"age\" IN (?)) OR "
                ++ "(\"age\" IN (?)) OR (\"email_secondary\" IN (?))").data
              ((argsNumbers [.scalar (.int 0), .scalar (.int 0),
                  .slice .int [.int 0, .int 0, .int 0, .int 0],
                  .slice .int [.int 0, .int 0, .int 0],
                  .slice .int [.int 0, .int 0]]
                (wrapInt64 (1 + ((ordinaryNames orRawFilters).length : Nat)))).map
                placeholderRun)⟩, none) :=
  ⟨by decide,
   (queryFilters_raw_arguments testBuilder orRawFilters 1
      { Op := OpOR, Val := .ifaces [
          .scalar (.str (".Price=? OR (.EmailSecondary=? AND .Age IN (?)) OR (.Age IN (?))"
            ++ " OR (.EmailSecondary IN (?))")),
          .scalar (.int 0), .scalar (.int 0),
          .slice .int [.int 0, .int 0, .int 0, .int 0],
          .slice .int [.int 0, .int 0, .int 0],
          .slice .int [.int 0, .int 0]] }
      (".Price=? OR (.EmailSecondary=? AND .Age IN (?)) OR (.Age IN (?))"
        ++ " OR (.EmailSecondary IN (?))")
      ("\"price\"=? OR (\"email_secondary\"=? AND \"age\" IN (?)) OR "
        ++ "(\"age\" IN (?)) OR (\"email_secondary\" IN (?))")
      [.scalar (.int 0), .scalar (.int 0),
        .slice .int [.int 0, .int 0, .int 0, .int 0],
        .slice .int [.int 0, .int 0, .int 0],
        .slice .int [.int 0, .int 0]]
      (by decide) (by decide) (by decide) rfl (by decide) (by decide) (by decide)).1⟩

/-! ## C5: the values of `Interfaces` against the placeholders of `queryFilters` -/

set_option maxRecDepth 100000 in
/-- C5, counterexample.  For an array argument and for a slice of
`interface{}`, `queryFilters` numbers two placeholders (its counter goes from 1 to 3)
while `Interfaces` returns no value; for an empty template followed by an argument,
`queryFilters` numbers one placeholder (the ordinary filter) while `Interfaces` returns
two values; and for a template with one `?` followed by two scalars, arguments that
`Interfaces` takes over in full, the clause of `queryFilters` holds the one placeholder
`$1` while `Interfaces` returns two values. -/
theorem interfaces_out_of_step_with_placeholders :
    queryFiltersNum testBuilder (some arrayRawFilters) 1
        = .ok (("(\"age\" IN ($1,$2))", none), 3)
    ∧ Interfaces (some arrayRawFilters) = .ok []
    ∧ queryFiltersNum testBuilder (some ifaceSliceRawFilters) 1
        = .ok (("(\"age\" IN ($1,$2))", none), 3)
    ∧ Interfaces (some ifaceSliceRawFilters) = .ok []
    ∧ queryFiltersNum testBuilder (some emptyTemplateFilters) 1
        = .ok (("\"price\"=$1", none), 2)
    ∧ Interfaces (some emptyTemplateFilters)
        = .ok [.item (.scalar (.int 4444)), .item (.scalar (.int 5))]
    ∧ rawExpanded testBuilder fewMarksFilters = true
    ∧ queryFilters testBuilder (some fewMarksFilters) 1 = .ok ("(\"age\"=$1)", none)
    ∧ Interfaces (some fewMarksFilters)
        = .ok [.item (.scalar (.int 18)), .item (.scalar (.int 21))] := by
  decide!

/-- C5, amended: for a filter set whose ordinary keys are fields and whose raw entry, if
present, holds an empty list or a non-empty template with known references followed by
scalars and slices of the fourteen element types `Interfaces` expands, the template
holding, after its references are replaced by columns, at least one `?` per argument:
`queryFilters` returns without error the clause written from the bindings, in which
every ordinary filter has the number bound to it and the i-th `?` of the template is
replaced by the run of the numbers of the i-th argument; `Interfaces` returns the
values of the bindings in their order; and the numbers of the bindings are
`s, s+1, ...` in 64-bit arithmetic.  So there are as many values as numbered
placeholders, and the k-th value is the one bound to the k-th placeholder.  For a nil
filter set the clause and the values are empty. -/
theorem interfaces_bound_to_placeholders (b : Builder) (filters : Filters) (s : Int)
    (hs : inInt64 s)
    (hknown : ∀ name ∈ ordinaryNames filters, (GoMap.get? b.fieldColumnName name).isSome = true)
    (hraw : rawExpanded b filters = true)
    (hmarks : rawMarksSuffice b filters = true) :
    queryFilters b (some filters) s = .ok (boundClause b filters s, none)
    ∧ Interfaces (some filters) = .ok ((bindings filters s).map Prod.snd)
    ∧ (bindings filters s).map Prod.fst
        = (List.range (bindings filters s).length).map
            (fun (k : Nat) => wrapInt64 (s + (k : Int)))
    ∧ (bindings filters s).length
        = (ordinaryNames filters).length + argsWidth (rawArguments filters)
    ∧ (∀ a ∈ rawArguments filters, ∀ n : Int,
        (argBindings a n).map Prod.fst = argNumbers a n
        ∧ (argBindings a n).map Prod.snd = argValues a
        ∧ (argBindings a n).length = argWidth a)
    ∧ (∀ (r : OpVal) (t t' : String) (args : List Arg), GoMap.get? filters Raw = some r →
        r.Val = .ifaces (.scalar (.str t) :: args) →
        queryFiltersFields b (findAllFields t) [] t = .ok t' →
        rawArguments filters = args
        ∧ (argsBindings args (wrapInt64 (s + ((ordinaryNames filters).length : Nat)))).length
            = args.length
        ∧ args.length < (splitOnChars '?' t'.data).length
        ∧ (∀ p ∈ splitOnChars '?' t'.data, '?' ∉ p)
        ∧ ['?'].intercalate (splitOnChars '?' t'.data) = t'.data)
    ∧ queryFilters b none s = .ok ("", none)
    ∧ Interfaces none = .ok [] := by
  have hk : ∀ name ∈ ordinaryNames filters, ∃ c, GoMap.get? b.fieldColumnName name = some c :=
    fun n hn => Option.isSome_iff_exists.1 (hknown n hn)
  have hord : " AND ".intercalate
      ((ordinaryBindings filters s).map (fun x => conditionText b filters x.1 x.2.1))
      = ordinaryClause b filters s := by
    rw [ordinaryBindings_conditions]
    rfl
  have hexp : ∀ a ∈ rawArguments filters, argExpanded a = true := by
    unfold rawExpanded at hraw
    unfold rawArguments
    cases hget : GoMap.get? filters Raw with
    | none => intro a ha; simp at ha
    | some r =>
      simp only [hget] at hraw ⊢
      cases hval : r.Val with
      | item a => simp [hval] at hraw
      | ifaces xs =>
        simp only [hval] at hraw ⊢
        cases xs with
        | nil => intro a ha; simp at ha
        | cons first args =>
          cases first with
          | nil => simp at hraw
          | slice _ _ => simp at hraw
          | array _ _ => simp at hraw
          | scalar x =>
            cases x with
            | int _ => simp at hraw
            | bool _ => simp at hraw
            | other _ _ => simp at hraw
            | str t =>
              simp only [Bool.and_eq_true, decide_eq_true_eq, List.all_eq_true] at hraw
              exact hraw.2
  have hlen : (bindings filters s).length
      = (ordinaryNames filters).length + argsWidth (rawArguments filters) := by
    rw [← List.length_map (bindings filters s) Prod.snd, bindings_values filters s hexp,
      length_expectedValues filters hexp]
  have hvalues : Interfaces (some filters) = .ok ((bindings filters s).map Prod.snd) := by
    rw [bindings_values filters s hexp]
    cases hget : GoMap.get? filters Raw with
    | none => exact interfaces_no_template filters (Or.inl hget)
    | some r =>
      unfold rawExpanded at hraw
      simp only [hget] at hraw
      cases hval : r.Val with
      | item a => simp [hval] at hraw
      | ifaces xs =>
        cases xs with
        | nil => exact interfaces_no_template filters (Or.inr ⟨r, hget, hval⟩)
        | cons first args =>
          have hra : rawArguments filters = args := by simp [rawArguments, hget, hval]
          exact interfaces_template filters r first args hget hval (hra ▸ hexp)
  have hargsfacts : ∀ a ∈ rawArguments filters, ∀ n : Int,
      (argBindings a n).map Prod.fst = argNumbers a n
      ∧ (argBindings a n).map Prod.snd = argValues a
      ∧ (argBindings a n).length = argWidth a := by
    intro a ha n
    refine ⟨argBindings_fst (hexp a ha) n, argBindings_snd (hexp a ha) n, ?_⟩
    rw [← List.length_map (argBindings a n) Prod.fst, argBindings_fst (hexp a ha) n,
      length_argNumbers]
  have hpieces : ∀ (r : OpVal) (t t' : String) (args : List Arg),
      GoMap.get? filters Raw = some r →
      r.Val = .ifaces (.scalar (.str t) :: args) →
      queryFiltersFields b (findAllFields t) [] t = .ok t' →
      rawArguments filters = args
      ∧ (argsBindings args (wrapInt64 (s + ((ordinaryNames filters).length : Nat)))).length
          = args.length
      ∧ args.length < (splitOnChars '?' t'.data).length
      ∧ (∀ p ∈ splitOnChars '?' t'.data, '?' ∉ p)
      ∧ ['?'].intercalate (splitOnChars '?' t'.data) = t'.data := by
    intro r t t' args hget hval hf
    have hm := hmarks
    unfold rawMarksSuffice at hm
    simp only [hget, hval, hf, decide_eq_true_eq] at hm
    refine ⟨by simp [rawArguments, hget, hval], argsBindings_length _ _, ?_,
      splitOnChars_no_sep '?' t'.data, intercalate_splitOnChars '?' t'.data⟩
    rw [splitOnChars_length]
    omega
  refine ⟨?_, hvalues, bindings_numbers filters s hexp, hlen, hargsfacts, hpieces, rfl, rfl⟩
  unfold rawExpanded at hraw
  cases hget : GoMap.get? filters Raw with
  | none =>
    have hb : boundClause b filters s = ordinaryClause b filters s := by
      unfold boundClause
      rw [hord]
      simp only [hget]
    unfold queryFilters
    rw [queryFiltersNum_no_template b filters s hs hk (Or.inl hget), hb]
    rfl
  | some r =>
    simp only [hget] at hraw
    cases hval : r.Val with
    | item a => simp [hval] at hraw
    | ifaces xs =>
      simp only [hval] at hraw
      cases xs with
      | nil =>
        have hb : boundClause b filters s = ordinaryClause b filters s := by
          unfold boundClause
          rw [hord]
          simp only [hget, hval]
        unfold queryFilters
        rw [queryFiltersNum_no_template b filters s hs hk (Or.inr ⟨r, hget, hval⟩), hb]
        rfl
      | cons first args =>
        cases first with
        | nil => simp at hraw
        | slice _ _ => simp at hraw
        | array _ _ => simp at hraw
        | scalar x =>
          cases x with
          | int _ => simp at hraw
          | bool _ => simp at hraw
          | other _ _ => simp at hraw
          | str t =>
            simp only [Bool.and_eq_true, decide_eq_true_eq, List.all_eq_true] at hraw
            obtain ⟨⟨ht, hfields⟩, hargs⟩ := hraw
            cases hf : queryFiltersFields b (findAllFields t) [] t with
            | error err => simp [hf, Except.toBool] at hfields
            | ok t' =>
              obtain ⟨_, _, hlt, _, _⟩ := hpieces r t t' args hget hval hf
              have hruns : ((argsNumbers args
                  (wrapInt64 (s + ((ordinaryNames filters).length : Nat)))).map
                    placeholderRun).length < (splitOnChars '?' t'.data).length := by
                rw [List.length_map, ← argsBindings_fst args _ hargs, List.length_map,
                  argsBindings_length]
                exact hlt
              have hb : boundClause b filters s
                  = joinBlocks (ordinaryClause b filters s) r.Op
                      (rawBlock t' args
                        (wrapInt64 (s + ((ordinaryNames filters).length : Nat)))) := by
                unfold boundClause rawBlock
                rw [hord]
                simp only [hget, hval, hf]
                rw [argsBindings_runs args _ hargs, fillMarks_filled _ _ hruns]
              unfold queryFilters
              rw [queryFiltersNum_raw b filters s r t t' args hs hk hget hval ht hf
                (fun a ha => argExpanded_ne_nil (hargs a ha)), hb]
              rfl

set_option maxRecDepth 100000 in
/-- Witness of the amended C5: the filters of builder_test.go:123, two ordinary filters,
two scalars and slices of 4, 3 and 2 elements: the clause of the test, thirteen values,
the numbers 1 to 13. -/
theorem interfaces_bound_to_placeholders_witness :
    queryFilters testBuilder (some orRawFilters) 1
        = .ok ("(\"post_code2\"=$1 AND \"price\"=$2) OR (\"price\"=$3 OR "
            ++ "(\"email_secondary\"=$4 AND \"age\" IN ($5,$6,$7,$8)) OR "
            ++ "(\"age\" IN ($9,$10,$11)) OR (\"email_secondary\" IN ($12,$13)))", none)
    ∧ boundClause testBuilder orRawFilters 1
        = "(\"post_code2\"=$1 AND \"price\"=$2) OR (\"price\"=$3 OR "
            ++ "(\"email_secondary\"=$4 AND \"age\" IN ($5,$6,$7,$8)) OR "
            ++ "(\"age\" IN ($9,$10,$11)) OR (\"email_secondary\" IN ($12,$13)))"
    ∧ Interfaces (some orRawFilters) = .ok ((bindings orRawFilters 1).map Prod.snd)
    ∧ (bindings orRawFilters 1).map Prod.fst = [1, 2, 3, 4, 5, 6, 7, 8, 9, 10, 11, 12, 13]
    ∧ bindings orRawFilters 1
        = [(1, .item (.scalar (.str "11-111"))), (2, .item (.scalar (.int 33))),
           (3, .item (.scalar (.int 0))), (4, .item (.scalar (.int 0))),
           (5, .item (.scalar (.int 0))), (6, .item (.scalar (.int 0))),
           (7, .item (.scalar (.int 0))), (8, .item (.scalar (.int 0))),
           (9, .item (.scalar (.int 0))), (10, .item (.scalar (.int 0))),
           (11, .item (.scalar (.int 0))), (12, .item (.scalar (.int 0))),
           (13, .item (.scalar (.int 0)))] := by
  have h := interfaces_bound_to_placeholders testBuilder orRawFilters 1
    (by decide) (by decide!) (by decide!) (by decide!)
  exact ⟨by decide!, by decide!, h.2.1, by decide!, by decide!⟩

/-! ## C6: the order of the assignments of `querySet` -/

set_option maxRecDepth 100000 in
/-- C6, evaluation at the failing input: for the fields `UserID` and `UserIP`, whose
columns are `user_id` and `user_i_p`, `querySet` assigns `$1` to the column of `UserIP`
and `$2` to the column of `UserID` (it sorts the column names), while `MapInterface`
returns the value of `UserID` first (it sorts the field names). -/
theorem querySet_sorts_columns_not_fields :
    GoMap.get? userBuilder.fieldColumnName "UserID" = some "user_id"
    ∧ GoMap.get? userBuilder.fieldColumnName "UserIP" = some "user_i_p"
    ∧ sortStrings (GoMap.keys userValues) = ["UserID", "UserIP"]
    ∧ querySet userBuilder userValues = ("\"user_i_p\"=$1,\"user_id\"=$2", 2, none)
    ∧ MapInterface userValues
        = [.item (.scalar (.int 7)), .item (.scalar (.str "10.0.0.1"))]
    ∧ Update userBuilder userValues none
        = .ok ("UPDATE \"user\" SET \"user_i_p\"=$1,\"user_id\"=$2;", none) := by
  decide!


/-! ## C7: when an error is returned, and with what text -/

/-- C7, counterexample: `Select` and `Update` return an error although the filter set
names no unknown field, `Select` for an unknown order field and `Update` for an unknown
key of the values. -/
theorem select_and_update_error_without_filter_error :
    ¬ filterError testBuilder none
    ∧ queryFilters testBuilder none 1 = .ok ("", none)
    ∧ Select testBuilder ["Bogus", "asc"] 0 0 none
        = .ok ("", some (.ErrBuilder "Select" ""
            (.ErrBuilder "queryOrder" "" (.errorsNew "invalid order field/column"))))
    ∧ Update testBuilder [("Bogus", .item (.scalar (.int 1)))] none
        = .ok ("", some (.ErrBuilder "Update" ""
            (.ErrBuilder "querySet" "" (.errorsNew "invalid field/column to set")))) := by
  refine ⟨fun h => h, by decide, by decide, by decide⟩

/-- C7, amended: `queryFilters`, and with it `SelectCount`, `Delete` and
`DeleteReturningId`, return an error exactly when some ordinary filter key is not a
field or some dotted reference of a non-empty raw template is not a field; `Select`
returns an error exactly when `queryOrder` returned one or that condition holds, `Update`
exactly when `querySet` returned one or that condition holds.  Whenever one of the six
returns an error, the returned text is the empty string. -/
theorem query_errors_exactly_and_empty_text (b : Builder) (filters : Option Filters)
    (s : Int) (order : List String) (limit offset : Int) (values : GoMap GoValue) :
    (returnsError (queryFilters b filters s) ↔ filterError b filters)
    ∧ (returnsError (SelectCount b filters) ↔ filterError b filters)
    ∧ (returnsError (Delete b filters) ↔ filterError b filters)
    ∧ (returnsError (DeleteReturningId b filters) ↔ filterError b filters)
    ∧ (∀ qOrder oerr, queryOrder b order = .ok (qOrder, oerr) →
        (returnsError (Select b order limit offset filters)
          ↔ oerr.isSome = true ∨ filterError b filters))
    ∧ (returnsError (Update b values filters)
        ↔ (querySet b values).2.2.isSome = true ∨ filterError b filters)
    ∧ (∀ txt e, queryFilters b filters s = .ok (txt, some e) → txt = "")
    ∧ (∀ txt e, SelectCount b filters = .ok (txt, some e) → txt = "")
    ∧ (∀ txt e, Delete b filters = .ok (txt, some e) → txt = "")
    ∧ (∀ txt e, DeleteReturningId b filters = .ok (txt, some e) → txt = "")
    ∧ (∀ txt e, Select b order limit offset filters = .ok (txt, some e) → txt = "")
    ∧ (∀ txt e, Update b values filters = .ok (txt, some e) → txt = "") := by
  have hq := fun s' => queryFilters_returnsError_iff b filters s'
  refine ⟨hq s, ?_, ?_, ?_, ?_, ?_, queryFilters_error_text b filters s,
    (selectCount_cases b filters).2, (delete_cases b filters).2,
    (deleteReturningId_cases b filters).2, (select_cases b order limit offset filters).2,
    (update_cases b values filters).2⟩
  · rw [(selectCount_cases b filters).1, hq]
  · rw [(delete_cases b filters).1, hq]
  · rw [(deleteReturningId_cases b filters).1, hq]
  · intro qOrder oerr ho
    rw [(select_cases b order limit offset filters).1 qOrder oerr ho, hq]
  · rw [(update_cases b values filters).1, hq]

/-! ## C8: the column definition of the primary key -/

set_option maxRecDepth 100000 in
/-- C8, evaluation at the failing input: for `TestStruct`, whose first field is named
`ID`, `CreateTable` defines the column as `BIGINT NOT NULL DEFAULT 0`; only the name
`Id` gives `SERIAL PRIMARY KEY`, whatever the type and the tags. -/
theorem createTable_ID_is_not_serial :
    (New FieldToColumn testStruct {}).map Builder.CreateTable
        = .ok ("CREATE TABLE IF NOT EXISTS \"test_struct\" ("
            ++ "\"id\" BIGINT NOT NULL DEFAULT 0,\"flags\" BIGINT NOT NULL DEFAULT 0,"
            ++ "\"primary_email\" VARCHAR(255) NOT NULL DEFAULT '',"
            ++ "\"email_secondary\" VARCHAR(255) NOT NULL DEFAULT '',"
            ++ "\"first_name\" VARCHAR(255) NOT NULL DEFAULT '',"
            ++ "\"last_name\" VARCHAR(255) NOT NULL DEFAULT '',"
            ++ "\"age\" BIGINT NOT NULL DEFAULT 0,\"price\" BIGINT NOT NULL DEFAULT 0,"
            ++ "\"post_code\" VARCHAR(255) NOT NULL DEFAULT '',"
            ++ "\"post_code2\" VARCHAR(255) NOT NULL DEFAULT '',"
            ++ "\"password\" VARCHAR(255) NOT NULL DEFAULT '',"
            ++ "\"created_by\" BIGINT NOT NULL DEFAULT 0,"
            ++ "\"key\" VARCHAR(2000) NOT NULL DEFAULT '' UNIQUE);")
    ∧ (∀ (b : Builder) (isUnique : Bool), GoMap.get? b.fieldColumnType "ID" = none →
        columnDefinitionFromField b "ID" "int64" isUnique
          = if isUnique then "BIGINT NOT NULL DEFAULT 0 UNIQUE" else "BIGINT NOT NULL DEFAULT 0")
    ∧ (∀ (b : Builder) (fieldType : String) (isUnique : Bool),
        columnDefinitionFromField b "Id" fieldType isUnique = "SERIAL PRIMARY KEY") := by
  refine ⟨by decide!, ?_, ?_⟩
  · intro b isUnique h
    have h1 : ("ID" : String) ≠ "Id" := by decide
    have h2 : ("ID" : String) ≠ "Flags" := by decide
    simp only [columnDefinitionFromField, h1, h2, if_false, h]
    cases isUnique <;> decide
  · intro b fieldType isUnique
    simp [columnDefinitionFromField]

/-! ## C9: `DeleteReturningId` against `Delete` -/

set_option maxRecDepth 100000 in
/-- C9, evaluation at the failing input: on the builder of `TestStruct`, whose primary
key field is named `ID`, the map has no entry for `Id`, and `DeleteReturningId` ends in
`RETURNING "";` where the test expects `RETURNING "id";`. -/
theorem deleteReturningId_returns_empty_column :
    GoMap.get? testBuilder.fieldColumnName "Id" = none
    ∧ GoMap.get? testBuilder.fieldColumnName "ID" = some "id"
    ∧ Delete testBuilder (some rawOnlyFilters)
        = .ok ("DELETE FROM \"test_struct\" WHERE (\"price\"=$1 OR \"email_secondary\"=$2 "
            ++ "OR \"age\" IN ($3,$4,$5));", none)
    ∧ DeleteReturningId testBuilder (some rawOnlyFilters)
        = .ok ("DELETE FROM \"test_struct\" WHERE (\"price\"=$1 OR \"email_secondary\"=$2 "
            ++ "OR \"age\" IN ($3,$4,$5)) RETURNING \"\";", none) := by
  decide!

/-! ## C10: faults of `Select` -/

/-- C10, counterexample: `Select` faults with index out of range on the order list
`["Age"]`, with a failed type assertion on a raw entry that holds a string, and with
a nil dereference on a nil raw argument. -/
theorem select_faults_on_odd_order_list :
    Select testBuilder ["Age"] 0 0 none = .error .indexOutOfRange
    ∧ Select testBuilder [] 0 0 (some stringRawFilters) = .error .typeAssertion
    ∧ Select testBuilder [] 0 0 (some nilArgRawFilters) = .error .nilDereference := by
  decide!

/-- C10, amended: for an order list of even length, any limit and offset, and a filter
set that is nil or whose raw entry, if present, holds a list that is empty or starts
with a string template followed by non-nil arguments, `Select` returns query text or an
error with empty text, and no fault.  An order list of odd length whose fields at the
pair positions are all known makes `Select` fault with index out of range. -/
theorem select_returns_on_well_shaped_input (b : Builder) (order : List String)
    (limit offset : Int) (filters : Option Filters)
    (hraw : rawWellShaped filters = true) :
    (order.length % 2 = 0 →
      (∃ txt, Select b order limit offset filters = .ok (txt, none))
      ∨ (∃ e, Select b order limit offset filters = .ok ("", some e)))
    ∧ (∀ (pairs : List (String × String)) (last : String),
        order = flatOrder pairs ++ [last] →
        (∀ p ∈ pairs, (GoMap.get? b.fieldColumnName p.1).isSome = true) →
        Select b order limit offset filters = .error .indexOutOfRange) := by
  refine ⟨?_, ?_⟩
  · intro heven
    obtain ⟨ro, hro⟩ := queryOrder_even b order heven
    obtain ⟨rw, hrw⟩ := queryFilters_exists b filters 1 hraw
    obtain ⟨qo, oe⟩ := ro
    obtain ⟨qw, we⟩ := rw
    cases oe with
    | some e =>
      right
      exact ⟨_, by simp only [Select, hro, bind, Except.bind]; rfl⟩
    | none =>
      cases we with
      | some e =>
        right
        exact ⟨_, by simp only [Select, hro, hrw, bind, Except.bind]; rfl⟩
      | none =>
        left
        exact ⟨_, by simp only [Select, hro, hrw, bind, Except.bind]; rfl⟩
  · intro pairs last hshape hknown
    rw [hshape]
    exact select_odd_order b pairs last limit offset filters
      (fun p hp => Option.isSome_iff_exists.1 (hknown p hp))

set_option maxRecDepth 100000 in
/-- Witness of the amended C10: the call of builder_test.go:122, an order list of four
elements and a raw entry with five arguments. -/
theorem select_returns_on_well_shaped_input_witness :
    rawWellShaped (some orRawFilters) = true
    ∧ ((∃ txt, Select testBuilder ["EmailSecondary", "asc", "Age", "desc"] 1 3
          (some orRawFilters) = .ok (txt, none))
      ∨ (∃ e, Select testBuilder ["EmailSecondary", "asc", "Age", "desc"] 1 3
          (some orRawFilters) = .ok ("", some e))) :=
  ⟨by decide,
   (select_returns_on_well_shaped_input testBuilder ["EmailSecondary", "asc", "Age", "desc"]
      1 3 (some orRawFilters) (by decide)).1 (by decide)⟩

/-! ## C11: the shape of the clause -/

/-- C11: `queryFilters` returns the empty text for a nil or empty filter set; the
ordinary conditions alone, without parentheses, when there is no raw entry or its
list or template is empty; the raw block alone in parentheses when there are no
ordinary filters; and the ordinary block in parentheses, the conjunction and the raw
block in parentheses when both are present.  No returned text starts with ` AND `,
`WHERE` or ` WHERE `: it is empty or starts with `"`, `C` (of `CAST`) or `(`. -/
theorem queryFilters_shape (b : Builder) (filters : Filters) (s : Int)
    (hs : inInt64 s)
    (hknown : ∀ name ∈ ordinaryNames filters, (GoMap.get? b.fieldColumnName name).isSome = true) :
    queryFilters b none s = .ok ("", none)
    ∧ (GoMap.len filters = 0 → queryFilters b (some filters) s = .ok ("", none))
    ∧ (GoMap.get? filters Raw = none →
        queryFilters b (some filters) s = .ok (ordinaryClause b filters s, none))
    ∧ (∀ r args, GoMap.get? filters Raw = some r →
        r.Val = .ifaces [] ∨ r.Val = .ifaces (.scalar (.str "") :: args) →
        queryFilters b (some filters) s = .ok (ordinaryClause b filters s, none))
    ∧ (∀ r t t' args, GoMap.get? filters Raw = some r →
        r.Val = .ifaces (.scalar (.str t) :: args) → t ≠ "" →
        queryFiltersFields b (findAllFields t) [] t = .ok t' → (∀ a ∈ args, a ≠ Arg.nil) →
        (ordinaryNames filters = [] →
          queryFilters b (some filters) s = .ok ("(" ++ rawBlock t' args s ++ ")", none))
        ∧ (ordinaryNames filters ≠ [] →
          queryFilters b (some filters) s
            = .ok ("(" ++ ordinaryClause b filters s ++ ")"
                ++ (if r.Op = OpOR then " OR " else " AND ")
                ++ "(" ++ rawBlock t' args
                    (wrapInt64 (s + ((ordinaryNames filters).length : Nat))) ++ ")", none)))
    ∧ (∀ ordinary : Option Filters, ∀ txt e, queryFilters b ordinary s = .ok (txt, e) →
        ¬ " AND ".data <+: txt.data ∧ ¬ "WHERE".data <+: txt.data
        ∧ ¬ " WHERE ".data <+: txt.data
        ∧ (txt = "" ∨ txt.data.head? = some '"' ∨ txt.data.head? = some 'C'
            ∨ txt.data.head? = some '(')) := by
  have hk : ∀ name ∈ ordinaryNames filters, ∃ c, GoMap.get? b.fieldColumnName name = some c :=
    fun n hn => Option.isSome_iff_exists.1 (hknown n hn)
  refine ⟨rfl, ?_, ?_, ?_, ?_, ?_⟩
  · intro hlen
    simp only [queryFilters, queryFiltersNum, hlen, if_true]
    rfl
  · intro hraw
    unfold queryFilters
    rw [queryFiltersNum_no_template b filters s hs hk (Or.inl hraw)]
    rfl
  · intro r args hraw hval
    unfold queryFilters
    rcases hval with hval | hval
    · rw [queryFiltersNum_no_template b filters s hs hk (Or.inr ⟨r, hraw, hval⟩)]
      rfl
    · rw [queryFiltersNum_empty_template b filters s r args hs hk hraw hval]
      rfl
  · intro r t t' args hraw hval ht hrefs hargs
    have hnum := queryFiltersNum_raw b filters s r t t' args hs hk hraw hval ht hrefs hargs
    refine ⟨?_, ?_⟩
    · intro hnil
      unfold queryFilters
      rw [hnum]
      have hcl : ordinaryClause b filters s = "" := by
        simp [ordinaryClause, conditionsOf, hnil, String.intercalate]
      simp only [hnil, List.length_nil, Nat.cast_zero, add_zero, wrapInt64_of_inInt64 hs,
        joinBlocks, hcl, ne_eq, not_true_eq_false, if_false]
      rfl
    · intro hne
      unfold queryFilters
      rw [hnum]
      simp only [joinBlocks, ordinaryClause_ne_empty b filters s hne, ne_eq, not_false_eq_true,
        if_true]
      rfl
  · intro ordinary txt e h
    have hh := queryFilters_head b ordinary s hs txt e h
    have hmid : txt = "" ∨ txt.data.head? = some '"' ∨ txt.data.head? = some 'C'
        ∨ txt.data.head? = some '(' := hh
    refine ⟨?_, ?_, ?_, hh⟩
    · rcases hmid with h0 | h1 | h2 | h3
      · exact not_prefix_of_head " AND " txt ' ' '"' rfl (Or.inl h0) (by decide) (by decide)
      · exact not_prefix_of_head " AND " txt ' ' '"' rfl (Or.inr h1) (by decide) (by decide)
      · exact not_prefix_of_head " AND " txt ' ' 'C' rfl (Or.inr h2) (by decide) (by decide)
      · exact not_prefix_of_head " AND " txt ' ' '(' rfl (Or.inr h3) (by decide) (by decide)
    · rcases hmid with h0 | h1 | h2 | h3
      · exact not_prefix_of_head "WHERE" txt 'W' '"' rfl (Or.inl h0) (by decide) (by decide)
      · exact not_prefix_of_head "WHERE" txt 'W' '"' rfl (Or.inr h1) (by decide) (by decide)
      · exact not_prefix_of_head "WHERE" txt 'W' 'C' rfl (Or.inr h2) (by decide) (by decide)
      · exact not_prefix_of_head "WHERE" txt 'W' '(' rfl (Or.inr h3) (by decide) (by decide)
    · rcases hmid with h0 | h1 | h2 | h3
      · exact not_prefix_of_head " WHERE " txt ' ' '"' rfl (Or.inl h0) (by decide) (by decide)
      · exact not_prefix_of_head " WHERE " txt ' ' '"' rfl (Or.inr h1) (by decide) (by decide)
      · exact not_prefix_of_head " WHERE " txt ' ' 'C' rfl (Or.inr h2) (by decide) (by decide)
      · exact not_prefix_of_head " WHERE " txt ' ' '(' rfl (Or.inr h3) (by decide) (by decide)

set_option maxRecDepth 100000 in
/-- Witness of C11: the raw-only filters of builder_test.go:204, the raw block alone in
parentheses; and an ordinary filter alone. -/
theorem queryFilters_shape_witness :
    queryFilters testBuilder (some rawOnlyFilters) 1
        = .ok ("(\"price\"=$1 OR \"email_secondary\"=$2 OR \"age\" IN ($3,$4,$5))", none)
    ∧ queryFilters testBuilder (some emptyTemplateFilters) 1 = .ok ("\"price\"=$1", none)
    ∧ (GoMap.get? twoFilters Raw = none →
        queryFilters testBuilder (some twoFilters) 1
          = .ok (ordinaryClause testBuilder twoFilters 1, none)) :=
  ⟨by decide!, by decide!,
   (queryFilters_shape testBuilder twoFilters 1 (by decide) (by decide!)).2.2.1⟩

/-! ## C12: the nine operators -/

/-- C12: for a known field whose rendered column is `c` (the cast to text for a
non-text field under `Like` or `Match`, the double-quoted column otherwise) and
placeholder number `n`, the condition of `queryFilters` is `c=$n` for Equal, `c!=$n`
for NotEqual, `c LIKE $n` for Like, `c ~ $n` for Match, `c>$n`, `c<$n`, `c>=$n`,
`c<=$n` for the four comparisons and `c&$n>0` for Bit: both as the whole clause of a
one-filter set and as the condition appended for that field in any filter set. -/
theorem queryFilters_nine_operators (b : Builder) (name col : String) (n : Int)
    (hn : inInt64 n) (hname : name ≠ Raw)
    (hcol : GoMap.get? b.fieldColumnName name = some col) :
    let c := fun (op : Int) =>
      if b.flagsOf name &&& FieldFlagNotString > 0 ∧ (op = OpLike ∨ op = OpMatch) then
        "CAST(" ++ quoted col ++ " AS TEXT)"
      else quoted col
    let rendering := fun (op : Int) =>
      if op = OpNotEqual then c op ++ "!=$" ++ fmtInt n
      else if op = OpLike then c op ++ " LIKE $" ++ fmtInt n
      else if op = OpMatch then c op ++ " ~ $" ++ fmtInt n
      else if op = OpGreater then c op ++ ">$" ++ fmtInt n
      else if op = OpLower then c op ++ "<$" ++ fmtInt n
      else if op = OpGreaterOrEqual then c op ++ ">=$" ++ fmtInt n
      else if op = OpLowerOrEqual then c op ++ "<=$" ++ fmtInt n
      else if op = OpBit then c op ++ "&$" ++ fmtInt n ++ ">0"
      else c op ++ "=$" ++ fmtInt n
    (∀ v, queryFilters b (some [(name, ⟨OpEqual, v⟩)]) n
        = .ok (quoted col ++ "=$" ++ fmtInt n, none))
    ∧ (∀ v, queryFilters b (some [(name, ⟨OpNotEqual, v⟩)]) n
        = .ok (quoted col ++ "!=$" ++ fmtInt n, none))
    ∧ (∀ v, queryFilters b (some [(name, ⟨OpLike, v⟩)]) n
        = .ok (c OpLike ++ " LIKE $" ++ fmtInt n, none))
    ∧ (∀ v, queryFilters b (some [(name, ⟨OpMatch, v⟩)]) n
        = .ok (c OpMatch ++ " ~ $" ++ fmtInt n, none))
    ∧ (∀ v, queryFilters b (some [(name, ⟨OpGreater, v⟩)]) n
        = .ok (quoted col ++ ">$" ++ fmtInt n, none))
    ∧ (∀ v, queryFilters b (some [(name, ⟨OpLower, v⟩)]) n
        = .ok (quoted col ++ "<$" ++ fmtInt n, none))
    ∧ (∀ v, queryFilters b (some [(name, ⟨OpGreaterOrEqual, v⟩)]) n
        = .ok (quoted col ++ ">=$" ++ fmtInt n, none))
    ∧ (∀ v, queryFilters b (some [(name, ⟨OpLowerOrEqual, v⟩)]) n
        = .ok (quoted col ++ "<=$" ++ fmtInt n, none))
    ∧ (∀ v, queryFilters b (some [(name, ⟨OpBit, v⟩)]) n
        = .ok (quoted col ++ "&$" ++ fmtInt n ++ ">0", none))
    ∧ (∀ filters : Filters, ∀ m : Int,
        filterCondition b filters name col m
          = " AND " ++ conditionText b filters name m)
    ∧ (∀ op v, queryFilters b (some [(name, ⟨op, v⟩)]) n = .ok (rendering op, none)) := by
  intro c rendering
  have key : ∀ op v, queryFilters b (some [(name, ⟨op, v⟩)]) n = .ok (rendering op, none) := by
    intro op v
    rw [queryFilters_single b name col ⟨op, v⟩ n hn hname hcol]
    simp only [conditionText, conditionColumn, conditionOperator, conditionSuffix, at_single,
      hcol, Option.getD_some, rendering, c]
    have e1 : OpLike = 2 := rfl
    have e2 : OpMatch = 3 := rfl
    have e3 : OpNotEqual = 1 := rfl
    have e4 : OpGreater = 4 := rfl
    have e5 : OpLower = 5 := rfl
    have e6 : OpGreaterOrEqual = 6 := rfl
    have e7 : OpLowerOrEqual = 7 := rfl
    have e8 : OpBit = 8 := rfl
    simp only [e1, e2, e3, e4, e5, e6, e7, e8]
    generalize (if b.flagsOf name &&& FieldFlagNotString > 0 ∧ (op = 2 ∨ op = 3) then
        "CAST(" ++ quoted col ++ " AS TEXT)" else quoted col) = cc
    apply congrArg (fun t => Except.ok (t, none))
    apply String.ext
    by_cases h1 : op = 1
    · subst h1; simp [String.data_append]
    by_cases h2 : op = 2
    · subst h2; simp [String.data_append]
    by_cases h3 : op = 3
    · subst h3; simp [String.data_append]
    by_cases h4 : op = 4
    · subst h4; simp [String.data_append]
    by_cases h5 : op = 5
    · subst h5; simp [String.data_append]
    by_cases h6 : op = 6
    · subst h6; simp [String.data_append]
    by_cases h7 : op = 7
    · subst h7; simp [String.data_append]
    by_cases h8 : op = 8
    · subst h8; simp [String.data_append]
    simp [h1, h2, h3, h4, h5, h6, h7, h8, String.data_append]
  have hsimp : ∀ op : Int, op ≠ OpLike → op ≠ OpMatch → c op = quoted col := by
    intro op h2 h3
    simp [c, h2, h3]
  refine ⟨?_, ?_, ?_, ?_, ?_, ?_, ?_, ?_, ?_, ?_, key⟩
  · intro v; rw [key, ← hsimp OpEqual (by decide) (by decide)]; rfl
  · intro v; rw [key, ← hsimp OpNotEqual (by decide) (by decide)]; rfl
  · intro v; rw [key]; rfl
  · intro v; rw [key]; rfl
  · intro v; rw [key, ← hsimp OpGreater (by decide) (by decide)]; rfl
  · intro v; rw [key, ← hsimp OpLower (by decide) (by decide)]; rfl
  · intro v; rw [key, ← hsimp OpGreaterOrEqual (by decide) (by decide)]; rfl
  · intro v; rw [key, ← hsimp OpLowerOrEqual (by decide) (by decide)]; rfl
  · intro v; rw [key, ← hsimp OpBit (by decide) (by decide)]; rfl
  · intro filters m
    exact filterCondition_eq b filters name col m hcol

set_option maxRecDepth 100000 in
/-- Witness of C12: the non-text field `Price` of the test builder under `Like` with
placeholder 1, and the six operators of builder_test.go:146. -/
theorem queryFilters_nine_operators_witness :
    queryFilters testBuilder (some [("Price", ⟨OpLike, .item (.scalar (.str "4%"))⟩)]) 1
        = .ok ("CAST(\"price\" AS TEXT) LIKE $1", none)
    ∧ queryFilters testBuilder (some [("Price", ⟨OpBit, .item (.scalar (.int 8))⟩)]) 1
        = .ok ("\"price\"&$1>0", none)
    ∧ queryFilters testBuilder (some sixOperatorFilters) 1
        = .ok ("\"age\"<=$1 AND \"created_by\">=$2 AND \"first_name\" ~ $3 AND \"flags\"&$4>0"
            ++ " AND \"post_code2\" LIKE $5 AND \"price\">$6", none) := by
  have h := queryFilters_nine_operators testBuilder "Price" "price" 1 (by decide) (by decide)
    (by decide!)
  refine ⟨?_, ?_, by decide!⟩
  · have h3 := h.2.2.1 (.item (.scalar (.str "4%")))
    rw [h3]
    decide!
  · have h9 := h.2.2.2.2.2.2.2.2.1 (.item (.scalar (.int 8)))
    rw [h9]
    decide!

/-! ## C13: the cast to text -/

/-- C13: in a builder that `New` returns, for a field `f` of a supported kind (fields
that share its name sharing its kind), the non-text flag of `f` is set exactly when the
kind of `f` is not `String`, that is an integer, unsigned, float or bool kind; hence the
condition of `queryFilters` for `f` renders the column as `CAST("col" AS TEXT)` exactly
when the kind is not text and the operator is `Like` or `Match`, and as the plain
double-quoted column in every other case. -/
theorem cast_exactly_for_non_text (snake : String → String) (obj : StructType)
    (options : Options) (b : Builder) (f : StructField)
    (hnew : New snake obj options = .ok b)
    (hf : f ∈ obj.Fields) (hsup : IsFieldKindSupported f.Kind = true)
    (hkind : ∀ g ∈ obj.Fields, g.Name = f.Name → g.Kind = f.Kind) :
    GoMap.get? b.fieldColumnName f.Name = some (snake f.Name)
    ∧ (f.Kind ≠ .String ↔ f.Kind ∈ [ReflectKind.Int, .Int8, .Int16, .Int32, .Int64, .Uint,
          .Uint8, .Uint16, .Uint32, .Uint64, .Float32, .Float64, .Bool])
    ∧ (b.flagsOf f.Name &&& FieldFlagNotString > 0 ↔ f.Kind ≠ .String)
    ∧ (∀ (filters : Filters) (n : Int),
        filterCondition b filters f.Name (snake f.Name) n
          = " AND "
            ++ ((if f.Kind ≠ .String
                  ∧ ((filters.at f.Name).Op = OpLike ∨ (filters.at f.Name).Op = OpMatch) then
                  "CAST(" ++ quoted (snake f.Name) ++ " AS TEXT)"
                else quoted (snake f.Name))
              ++ conditionOperator filters f.Name ++ "$" ++ fmtInt n
              ++ conditionSuffix filters f.Name))
    ∧ (∀ (op : Int) (v : GoValue) (n : Int), inInt64 n → f.Name ≠ Raw →
        queryFilters b (some [(f.Name, ⟨op, v⟩)]) n
          = .ok ((if f.Kind ≠ .String ∧ (op = OpLike ∨ op = OpMatch) then
                    "CAST(" ++ quoted (snake f.Name) ++ " AS TEXT)"
                  else quoted (snake f.Name))
                ++ conditionOperator [(f.Name, ⟨op, v⟩)] f.Name ++ "$" ++ fmtInt n
                ++ conditionSuffix [(f.Name, ⟨op, v⟩)] f.Name, none)) := by
  have hN := New_columns snake obj options b hnew
  obtain ⟨b2, hb2, -, -, hcol, hflag, -⟩ := New_ok snake obj options hN
  rw [hnew] at hb2
  cases hb2
  have hc := hcol f hf hsup
  have hfl : b.flagsOf f.Name &&& FieldFlagNotString > 0 ↔ f.Kind ≠ .String := by
    rw [hflag f.Name]
    constructor
    · rintro ⟨g, hg, -, hgn, hgk⟩
      rw [← hkind g hg hgn]
      exact hgk
    · intro h
      exact ⟨f, hf, hsup, rfl, h⟩
  refine ⟨hc, ?_, hfl, ?_, ?_⟩
  · revert hsup
    cases f.Kind <;> simp [IsFieldKindSupported]
  · intro filters n
    rw [filterCondition_eq b filters f.Name (snake f.Name) n hc]
    unfold conditionText conditionColumn
    simp only [hc, Option.getD_some, hfl]
  · intro op v n hn hraw
    rw [queryFilters_single b f.Name (snake f.Name) ⟨op, v⟩ n hn hraw hc]
    unfold conditionText conditionColumn
    simp only [hc, Option.getD_some, hfl, at_single]

set_option maxRecDepth 100000 in
/-- Witness of C13: the integer field `Price` and the text field `PostCode2` of the test
record under `Like`. -/
theorem cast_exactly_for_non_text_witness :
    queryFilters testBuilder (some [("Price", ⟨OpLike, .item (.scalar (.str "4%"))⟩)]) 1
        = .ok ("CAST(\"price\" AS TEXT) LIKE $1", none)
    ∧ queryFilters testBuilder (some [("PostCode2", ⟨OpLike, .item (.scalar (.str "4%"))⟩)]) 1
        = .ok ("\"post_code2\" LIKE $1", none)
    ∧ (testBuilder.flagsOf "Price" &&& FieldFlagNotString > 0 ↔ ReflectKind.Int ≠ .String) := by
  have hnew : New FieldToColumn testStruct {} = .ok testBuilder := by decide!
  have h := cast_exactly_for_non_text FieldToColumn testStruct {} testBuilder
    { Name := "Price", Kind := .Int, TypeString := "int", Tag := [("json", "price")] }
    hnew (by decide!) (by decide) (by decide!)
  exact ⟨by decide!, by decide!, h.2.2.1⟩

/-! ## C14: the text of `Update` -/

/-- C14: when `Update(values, filters)` succeeds with `k = len(values) >= 1`, every key
of `values` is a field, the SET text has `k` assignments numbered `$1..$k`, the filter
clause is the one `queryFilters` gives with first placeholder number `k+1`, and the
result is the update prefix, a space, the SET text, then ` WHERE ` and the filter
clause if that clause is non-empty, then `;`.  For ordinary filters the clause is the
conditions numbered from `k+1`. -/
theorem update_text (b : Builder) (values : GoMap GoValue) (filters : Option Filters)
    (txt : String) (hlen : 1 ≤ GoMap.len values)
    (hok : Update b values filters = .ok (txt, none)) :
    (∀ k ∈ GoMap.keys values, (GoMap.get? b.fieldColumnName k).isSome = true)
    ∧ (setColumns b values).length = GoMap.len values
    ∧ setClause (setColumns b values)
        = ",".intercalate (((setColumns b values).enumFrom 1).map
            (fun p => quoted p.2 ++ "=$" ++ fmtInt (p.1 : Nat)))
    ∧ (∃ qWhere, queryFilters b filters ((GoMap.len values : Nat) + 1) = .ok (qWhere, none)
        ∧ txt = (if qWhere ≠ "" then
                  b.queryUpdatePrefix ++ " " ++ setClause (setColumns b values)
                    ++ " WHERE " ++ qWhere
                else b.queryUpdatePrefix ++ " " ++ setClause (setColumns b values)) ++ ";")
    ∧ (∀ f, filters = some f → GoMap.get? f Raw = none →
        inInt64 ((GoMap.len values : Nat) + 1) →
        (∀ name ∈ ordinaryNames f, (GoMap.get? b.fieldColumnName name).isSome = true) →
        ordinaryNames f ≠ [] →
        txt = b.queryUpdatePrefix ++ " " ++ setClause (setColumns b values) ++ " WHERE "
              ++ " AND ".intercalate
                  (conditionsOf b f (ordinaryNames f) ((GoMap.len values : Nat) + 1))
              ++ ";") := by
  have hknown : ∀ k ∈ GoMap.keys values, ∃ c, GoMap.get? b.fieldColumnName k = some c := by
    intro k hk
    cases hc : GoMap.get? b.fieldColumnName k with
    | some c => exact ⟨c, rfl⟩
    | none =>
      exfalso
      have hq := querySet_unknown b values k hk hc
      unfold Update at hok
      rw [hq] at hok
      simp [bind, Except.bind, pure, Except.pure] at hok
  have hq := querySet_known b values hlen hknown
  have hmain : ∃ qWhere, queryFilters b filters ((GoMap.len values : Nat) + 1)
        = .ok (qWhere, none)
      ∧ txt = (if qWhere ≠ "" then
                  b.queryUpdatePrefix ++ " " ++ setClause (setColumns b values)
                    ++ " WHERE " ++ qWhere
                else b.queryUpdatePrefix ++ " " ++ setClause (setColumns b values)) ++ ";" := by
    unfold Update at hok
    rw [hq] at hok
    simp only [] at hok
    cases h : queryFilters b filters ((GoMap.len values : Nat) + 1) with
    | error p =>
      rw [h] at hok
      simp [bind, Except.bind] at hok
    | ok r =>
      obtain ⟨q, oe⟩ := r
      rw [h] at hok
      cases oe with
      | some err => simp [bind, Except.bind, pure, Except.pure] at hok
      | none =>
        simp only [bind, Except.bind, pure, Except.pure, Except.ok.injEq, Prod.mk.injEq,
          and_true] at hok
        exact ⟨q, rfl, hok.symm⟩
  refine ⟨fun k hk => Option.isSome_iff_exists.2 (hknown k hk), ?_, rfl, hmain, ?_⟩
  · unfold setColumns
    rw [length_sortStrings, List.length_map]
    rfl
  · intro f hf hraw hin hk hne
    obtain ⟨qWhere, hqf, htxt⟩ := hmain
    have hk2 : ∀ name ∈ ordinaryNames f, ∃ c, GoMap.get? b.fieldColumnName name = some c :=
      fun n hn => Option.isSome_iff_exists.1 (hk n hn)
    have hnum := queryFiltersNum_no_template b f _ hin hk2 (Or.inl hraw)
    rw [hf] at hqf
    unfold queryFilters at hqf
    rw [hnum] at hqf
    simp only [Except.map, Except.ok.injEq, Prod.mk.injEq, and_true] at hqf
    have hcl := ordinaryClause_ne_empty b f ((GoMap.len values : Nat) + 1) hne
    rw [htxt, ← hqf, if_pos hcl]
    rfl

set_option maxRecDepth 100000 in
/-- Witness of C14: the first update of builder_test.go:239, `Price` and `PostCode2` set
under a filter on `PrimaryEmail`. -/
theorem update_text_witness :
    Update testBuilder
        [("Price", .item (.scalar (.int 1234))), ("PostCode2", .item (.scalar (.str "12-345")))]
        (some [("PrimaryEmail", ⟨OpEqual, .item (.scalar (.str "primary@example.com"))⟩)])
      = .ok ("UPDATE \"test_struct\" SET \"post_code2\"=$1,\"price\"=$2"
              ++ " WHERE \"primary_email\"=$3;", none)
    ∧ setColumns testBuilder
        [("Price", .item (.scalar (.int 1234))), ("PostCode2", .item (.scalar (.str "12-345")))]
      = ["post_code2", "price"]
    ∧ (setColumns testBuilder
        [("Price", .item (.scalar (.int 1234))),
         ("PostCode2", .item (.scalar (.str "12-345")))]).length = 2 := by
  have hu : Update testBuilder
        [("Price", .item (.scalar (.int 1234))), ("PostCode2", .item (.scalar (.str "12-345")))]
        (some [("PrimaryEmail", ⟨OpEqual, .item (.scalar (.str "primary@example.com"))⟩)])
      = .ok ("UPDATE \"test_struct\" SET \"post_code2\"=$1,\"price\"=$2"
              ++ " WHERE \"primary_email\"=$3;", none) := by decide!
  exact ⟨hu, by decide!,
    (update_text testBuilder _ _ _ (by decide) hu).2.1⟩

/-! ## C15: an unknown order field -/

/-- C15, counterexample: the unknown field `Bogus` stands at a field position, as the
single last element of the order list, and `Select` faults with index out of range
instead of returning an error. -/
theorem select_faults_on_unpaired_unknown_field :
    GoMap.get? testBuilder.fieldColumnName "Bogus" = none
    ∧ ["Age", "asc", "Bogus"].get? 2 = some "Bogus"
    ∧ Select testBuilder ["Age", "asc", "Bogus"] 5 0 none = .error .indexOutOfRange
    ∧ Select testBuilder ["Bogus"] 5 0 none = .error .indexOutOfRange := by
  decide!

/-- C15, amended: when the order list names an unknown field at a field position (an
even index) that is followed by a direction, `Select` returns the error of `queryOrder`
and the empty string as query text, whatever the limit, offset and filters are.  When
the fields of all complete pairs are known and a single element is left over, `Select`
faults with index out of range, whether that element is a known field or not. -/
theorem select_unknown_order_field (b : Builder) (order : List String) (limit offset : Int)
    (filters : Option Filters) (j : Nat) (field : String)
    (hget : order.get? (2 * j) = some field)
    (hnone : GoMap.get? b.fieldColumnName field = none)
    (hpair : 2 * j + 1 < order.length) :
    Select b order limit offset filters = .ok ("", some (wrapErr "Select" errInvalidOrder))
    ∧ (∀ (pairs : List (String × String)) (last : String),
        (∀ p ∈ pairs, (GoMap.get? b.fieldColumnName p.1).isSome = true) →
        Select b (flatOrder pairs ++ [last]) limit offset filters = .error .indexOutOfRange) :=
  ⟨select_unknown_order b order limit offset filters j field hget hnone hpair,
   fun pairs last hk => select_odd_order b pairs last limit offset filters
     (fun p hp => Option.isSome_iff_exists.1 (hk p hp))⟩

set_option maxRecDepth 100000 in
/-- Witness of the amended C15: the unknown field `Bogus` in the second pair. -/
theorem select_unknown_order_field_witness :
    Select testBuilder ["EmailSecondary", "desc", "Bogus", "asc"] 67 13 (some twoFilters)
      = .ok ("", some (.ErrBuilder "Select" ""
          (.ErrBuilder "queryOrder" "" (.errorsNew "invalid order field/column")))) :=
  (select_unknown_order_field testBuilder ["EmailSecondary", "desc", "Bogus", "asc"] 67 13
    (some twoFilters) 1 "Bogus" (by decide) (by decide!) (by decide)).1

/-! ## C16: the order text -/

/-- C16: for an order list of even length whose fields are all known, `queryOrder`
returns the fragments of the (field, direction) pairs joined by commas in input order,
each fragment being the double-quoted column, a space, and `DESC` when the direction is
exactly `desc`, `ASC` for every other string, such as `DESC` and `Desc`; the empty
order list gives the empty text. -/
theorem queryOrder_fragments_in_input_order (b : Builder) (order : List String)
    (heven : order.length % 2 = 0)
    (hknown : ∀ p ∈ orderPairs order, (GoMap.get? b.fieldColumnName p.1).isSome = true) :
    queryOrder b order = .ok (",".intercalate ((orderPairs order).map (orderFragment b)), none)
    ∧ flatOrder (orderPairs order) = order
    ∧ (∀ field direction col, GoMap.get? b.fieldColumnName field = some col →
        orderFragment b (field, direction)
          = "\"" ++ col ++ "\"" ++ " " ++ (if direction = "desc" then "DESC" else "ASC"))
    ∧ (∀ field col, GoMap.get? b.fieldColumnName field = some col →
        orderFragment b (field, "desc") = "\"" ++ col ++ "\"" ++ " " ++ "DESC"
        ∧ orderFragment b (field, "DESC") = "\"" ++ col ++ "\"" ++ " " ++ "ASC"
        ∧ orderFragment b (field, "Desc") = "\"" ++ col ++ "\"" ++ " " ++ "ASC"
        ∧ orderFragment b (field, "asc") = "\"" ++ col ++ "\"" ++ " " ++ "ASC")
    ∧ queryOrder b [] = .ok ("", none) := by
  refine ⟨queryOrder_pairs b order heven
      (fun p hp => Option.isSome_iff_exists.1 (hknown p hp)),
    flatOrder_orderPairs order heven, ?_, ?_, rfl⟩
  · intro field direction col hc
    simp [orderFragment, hc, quoted]
  · intro field col hc
    simp [orderFragment, hc, quoted]

set_option maxRecDepth 100000 in
/-- Witness of C16: the order list of builder_test.go:113. -/
theorem queryOrder_fragments_in_input_order_witness :
    queryOrder testBuilder ["EmailSecondary", "desc", "Age", "asc"]
      = .ok ("\"email_secondary\" DESC,\"age\" ASC", none)
    ∧ queryOrder testBuilder ["EmailSecondary", "desc", "Age", "asc"]
      = .ok (",".intercalate ((orderPairs ["EmailSecondary", "desc", "Age", "asc"]).map
          (orderFragment testBuilder)), none) :=
  ⟨by decide!,
   (queryOrder_fragments_in_input_order testBuilder ["EmailSecondary", "desc", "Age", "asc"]
      (by decide) (by decide!)).1⟩

/-! ## C18: limit and offset -/

set_option maxRecDepth 100000 in
/-- C18: `queryLimitOffset` returns the empty text for limit 0, `LIMIT L OFFSET O` for a
positive limit with a positive offset, and `LIMIT L` alone for a positive limit with an
offset that is zero or negative; the numbers are written in decimal. -/
theorem queryLimitOffset_three_cases (limit offset : Int) :
    (limit = 0 → queryLimitOffset limit offset = "")
    ∧ (0 < limit → 0 < offset →
        queryLimitOffset limit offset = "LIMIT " ++ fmtInt limit ++ " OFFSET " ++ fmtInt offset)
    ∧ (0 < limit → offset ≤ 0 → queryLimitOffset limit offset = "LIMIT " ++ fmtInt limit)
    ∧ queryLimitOffset 67 13 = "LIMIT 67 OFFSET 13"
    ∧ queryLimitOffset 5 0 = "LIMIT 5"
    ∧ queryLimitOffset 5 (-3) = "LIMIT 5"
    ∧ queryLimitOffset 0 13 = ""
    ∧ Select testBuilder [] 67 13 none
        = .ok (testBuilder.querySelectPrefix ++ " LIMIT 67 OFFSET 13;", none) := by
  refine ⟨?_, ?_, ?_, by decide, by decide, by decide, by decide, by decide!⟩
  · intro h
    simp [queryLimitOffset, h]
  · intro hl ho
    have hl0 : limit ≠ 0 := by omega
    simp [queryLimitOffset, hl0, ho]
  · intro hl ho
    have hl0 : limit ≠ 0 := by omega
    have ho' : ¬ offset > 0 := by omega
    simp [queryLimitOffset, hl0, ho']

/-! ## C17: the text of `Select` -/

/-- C17: when `Select` succeeds, its result is the select prefix, then ` WHERE ` and the
filter clause if the clause is non-empty, then ` ORDER BY ` and the order text if
non-empty, then a space and the limit/offset text if non-empty, then one final `;`;
and in a builder that `New` returns the select prefix is `SELECT`, the double-quoted
columns in declaration order, comma-joined, ` FROM ` and the table name. -/
theorem select_text (b : Builder) (order : List String) (limit offset : Int)
    (filters : Option Filters) (txt : String)
    (hok : Select b order limit offset filters = .ok (txt, none)) :
    (∃ qOrder qWhere, queryOrder b order = .ok (qOrder, none)
      ∧ queryFilters b filters 1 = .ok (qWhere, none)
      ∧ txt = b.querySelectPrefix
          ++ (if qWhere ≠ "" then " WHERE " ++ qWhere else "")
          ++ (if qOrder ≠ "" then " ORDER BY " ++ qOrder else "")
          ++ (if queryLimitOffset limit offset ≠ "" then " " ++ queryLimitOffset limit offset
              else "")
          ++ ";")
    ∧ (∀ (snake : String → String) (obj : StructType) (options : Options),
        New snake obj options = .ok b →
        b.querySelectPrefix
          = "SELECT " ++ ",".intercalate (quotedColumns snake obj) ++ " FROM "
            ++ tableNameOf snake obj options.TableNamePrefix) := by
  refine ⟨?_, ?_⟩
  · obtain ⟨qo, qw, ho, hw, ht⟩ := select_ok b order limit offset filters txt hok
    refine ⟨qo, qw, ho, hw, ?_⟩
    rw [ht, selectText_eq]
  · intro snake obj options hnew
    have hN := New_columns snake obj options b hnew
    obtain ⟨b2, hb2, -, -, -, -, -, hsel, -⟩ := New_ok snake obj options hN
    rw [hnew] at hb2
    cases hb2
    exact hsel

set_option maxRecDepth 100000 in
/-- Witness of C17: order `[Age, desc]`, limit 5, offset 0 and a filter `Price` under
`Equal` on the test builder. -/
theorem select_text_witness :
    Select testBuilder ["Age", "desc"] 5 0
        (some [("Price", ⟨OpEqual, .item (.scalar (.int 10))⟩)])
      = .ok ("SELECT \"id\",\"flags\",\"primary_email\",\"email_secondary\",\"first_name\","
          ++ "\"last_name\",\"age\",\"price\",\"post_code\",\"post_code2\",\"password\","
          ++ "\"created_by\",\"key\" FROM \"test_struct\""
          ++ " WHERE \"price\"=$1 ORDER BY \"age\" DESC LIMIT 5;", none)
    ∧ testBuilder.querySelectPrefix
      = "SELECT " ++ ",".intercalate (quotedColumns FieldToColumn testStruct) ++ " FROM "
          ++ tableNameOf FieldToColumn testStruct "" := by
  have hsel : Select testBuilder ["Age", "desc"] 5 0
        (some [("Price", ⟨OpEqual, .item (.scalar (.int 10))⟩)])
      = .ok ("SELECT \"id\",\"flags\",\"primary_email\",\"email_secondary\",\"first_name\","
          ++ "\"last_name\",\"age\",\"price\",\"post_code\",\"post_code2\",\"password\","
          ++ "\"created_by\",\"key\" FROM \"test_struct\""
          ++ " WHERE \"price\"=$1 ORDER BY \"age\" DESC LIMIT 5;", none) := by decide!
  exact ⟨hsel, (select_text testBuilder _ _ _ _ _ hsel).2 FieldToColumn testStruct {}
    (by decide!)⟩

/-! ## C19: the INSERT statement -/

set_option maxRecDepth 100000 in
/-- C19, counterexample: for `type Account struct { Name string; Id int64 }` the table
is created with `"id" SERIAL PRIMARY KEY` as its second column, and `Insert()` lists the
primary key `"id"` and leaves out the column `"name"`. -/
theorem insert_lists_primary_key_declared_second :
    (New FieldToColumn accountStruct {}).map Builder.CreateTable
        = .ok ("CREATE TABLE IF NOT EXISTS \"account\" "
            ++ "(\"name\" VARCHAR(255) NOT NULL DEFAULT '',\"id\" SERIAL PRIMARY KEY);")
    ∧ (New FieldToColumn accountStruct {}).map Builder.Insert
        = .ok "INSERT INTO \"account\"(\"id\") VALUES ($1) RETURNING \"id\";" := by
  decide!

/-- C19, amended: for every record type with `N >= 2` columns `New` returns a builder
whose `Insert()` is `INSERT INTO <table>(`, every column except the first one in
declaration order, comma-joined, `) VALUES ($1,...,$(N-1)) RETURNING "id";`: `N-1`
columns and `N-1` placeholders numbered from 1. -/
theorem insert_lists_all_but_first_column (snake : String → String) (obj : StructType)
    (options : Options) (hN : 2 ≤ (columnFields obj).length) :
    ∃ b, New snake obj options = .ok b
      ∧ b.Insert = "INSERT INTO " ++ tableNameOf snake obj options.TableNamePrefix ++ "("
          ++ ",".intercalate ((quotedColumns snake obj).drop 1) ++ ") VALUES ("
          ++ ",".intercalate ((List.range' 1 ((columnFields obj).length - 1)).map
              (fun k => "$" ++ fmtInt (k : Nat)))
          ++ ") RETURNING \"id\";"
      ∧ ((quotedColumns snake obj).drop 1).length = (columnFields obj).length - 1
      ∧ (List.range' 1 ((columnFields obj).length - 1)).length
          = (columnFields obj).length - 1 := by
  obtain ⟨b, hb, -, -, -, -, hins, -⟩ := New_ok snake obj options hN
  refine ⟨b, hb, ?_, ?_, ?_⟩
  · unfold Builder.Insert
    rw [hins]
    unfold numberedPlaceholders
    simp only [String.append_assoc]
    rfl
  · simp [quotedColumns]
  · simp

set_option maxRecDepth 100000 in
/-- Witness of C19: the record of the tests, thirteen columns, `Insert()` as expected
at builder_test.go:50. -/
theorem insert_lists_all_but_first_column_witness :
    ∃ b, New FieldToColumn testStruct {} = .ok b
      ∧ b.Insert = "INSERT INTO \"test_struct\"(\"flags\",\"primary_email\","
          ++ "\"email_secondary\",\"first_name\",\"last_name\",\"age\",\"price\","
          ++ "\"post_code\",\"post_code2\",\"password\",\"created_by\",\"key\") "
          ++ "VALUES ($1,$2,$3,$4,$5,$6,$7,$8,$9,$10,$11,$12) RETURNING \"id\";" := by
  obtain ⟨b, hb, hins, -⟩ :=
    insert_lists_all_but_first_column FieldToColumn testStruct {} (by decide)
  refine ⟨b, hb, ?_⟩
  rw [hins]
  decide!

/-! ## C20: the INSERT ... ON CONFLICT statement -/

set_option maxRecDepth 100000 in
/-- C20, counterexample: for `type Account struct { Name string; Id int64 }`
`InsertOnConflictUpdate()` assigns the primary key column `"id"` in its SET list and
leaves out the non-key column `"name"`. -/
theorem insertOnConflictUpdate_assigns_primary_key_declared_second :
    (New FieldToColumn accountStruct {}).map Builder.InsertOnConflictUpdate
      = .ok ("INSERT INTO \"account\"(\"name\",\"id\") VALUES ($1,$2) "
          ++ "ON CONFLICT (\"id\") DO UPDATE SET \"id\"=$3 RETURNING \"id\";") := by
  decide!

/-- C20, amended: for every record type with `N >= 2` columns, none of whose column
names holds a question mark, `New` returns a builder whose `InsertOnConflictUpdate()`
lists all `N` columns in declaration order with values `$1..$N`, has the fixed column
`"id"` as conflict target, then assigns the `N-1` columns after the first one in
declaration order with placeholders `$(N+1)..$(2N-1)`, followed by `RETURNING "id"` and
`;`. -/
theorem insertOnConflictUpdate_assigns_all_but_first_column (snake : String → String)
    (obj : StructType) (options : Options) (hN : 2 ≤ (columnFields obj).length)
    (hclean : ∀ f ∈ columnFields obj, ∀ ch ∈ (snake f.Name).data, ch ≠ '?') :
    ∃ b, New snake obj options = .ok b
      ∧ b.InsertOnConflictUpdate
          = "INSERT INTO " ++ tableNameOf snake obj options.TableNamePrefix ++ "("
            ++ ",".intercalate (quotedColumns snake obj) ++ ") VALUES ("
            ++ ",".intercalate ((List.range' 1 (columnFields obj).length).map
                (fun k => "$" ++ fmtInt (k : Nat)))
            ++ ") ON CONFLICT (\"id\") DO UPDATE SET "
            ++ ",".intercalate ((((quotedColumns snake obj).drop 1).enumFrom
                  ((columnFields obj).length + 1)).map
                (fun p => p.2 ++ "=$" ++ fmtInt (p.1 : Nat)))
            ++ " RETURNING \"id\";"
      ∧ (quotedColumns snake obj).length = (columnFields obj).length
      ∧ ((quotedColumns snake obj).drop 1).length = (columnFields obj).length - 1 := by
  obtain ⟨b, hb, -, -, -, -, -, -, hconf⟩ := New_ok snake obj options hN
  refine ⟨b, hb, ?_, ?_, ?_⟩
  · unfold Builder.InsertOnConflictUpdate
    rw [hconf hclean]
    unfold numberedPlaceholders numberedAssignments
    simp only [String.append_assoc]
    rfl
  · simp [quotedColumns]
  · simp [quotedColumns]

set_option maxRecDepth 100000 in
/-- Witness of C20: the record of the tests, thirteen columns, the statement as
expected at builder_test.go:73. -/
theorem insertOnConflictUpdate_assigns_all_but_first_column_witness :
    ∃ b, New FieldToColumn testStruct {} = .ok b
      ∧ b.InsertOnConflictUpdate = "INSERT INTO \"test_struct\"(\"id\",\"flags\","
          ++ "\"primary_email\",\"email_secondary\",\"first_name\",\"last_name\",\"age\","
          ++ "\"price\",\"post_code\",\"post_code2\",\"password\",\"created_by\",\"key\") "
          ++ "VALUES ($1,$2,$3,$4,$5,$6,$7,$8,$9,$10,$11,$12,$13) "
          ++ "ON CONFLICT (\"id\") DO UPDATE SET "
          ++ "\"flags\"=$14,\"primary_email\"=$15,\"email_secondary\"=$16,\"first_name\"=$17,"
          ++ "\"last_name\"=$18,\"age\"=$19,\"price\"=$20,\"post_code\"=$21,"
          ++ "\"post_code2\"=$22,\"password\"=$23,\"created_by\"=$24,\"key\"=$25 "
          ++ "RETURNING \"id\";" := by
  obtain ⟨b, hb, hconf, -⟩ :=
    insertOnConflictUpdate_assigns_all_but_first_column FieldToColumn testStruct {}
      (by decide) (by decide!)
  refine ⟨b, hb, ?_⟩
  rw [hconf]
  decide!

/-! ## C21: the CREATE TABLE statement -/

/-- C21: for a record type with at least two fields of supported kinds `New` returns a
builder whose `CreateTable()` is `CREATE TABLE IF NOT EXISTS <table> (`, the
comma-joined entries `"column" definition`, `);`, with exactly one entry per field of a
supported kind in declaration order, the definition being the one
`columnDefinitionFromField` gives for the field; fields of unsupported kinds have no
entry; the column list of SELECT holds the columns of the same fields in the same
order. -/
theorem createTable_entries_in_declaration_order (snake : String → String)
    (obj : StructType) (options : Options) (hN : 2 ≤ (columnFields obj).length) :
    ∃ b, New snake obj options = .ok b
      ∧ b.CreateTable = "CREATE TABLE IF NOT EXISTS "
          ++ tableNameOf snake obj options.TableNamePrefix ++ " ("
          ++ ",".intercalate ((columnFields obj).map (fun f =>
                quoted (snake f.Name) ++ " "
                  ++ columnDefinitionFromField b f.Name f.TypeString
                      (decide (b.flagsOf f.Name &&& FieldFlagUnique > 0))))
          ++ ");"
      ∧ b.querySelectPrefix = "SELECT "
          ++ ",".intercalate ((columnFields obj).map (fun f => quoted (snake f.Name)))
          ++ " FROM " ++ tableNameOf snake obj options.TableNamePrefix
      ∧ columnFields obj = obj.Fields.filter (fun f => IsFieldKindSupported f.Kind)
      ∧ (columnFields obj).Sublist obj.Fields
      ∧ (∀ f ∈ obj.Fields, (f ∈ columnFields obj ↔ IsFieldKindSupported f.Kind = true)) := by
  obtain ⟨b, hb, -, hcreate, -⟩ := New_templates snake obj options hN
  obtain ⟨b2, hb2, -, -, -, -, -, hsel, -⟩ := New_ok snake obj options hN
  rw [hb] at hb2
  cases hb2
  refine ⟨b, hb, ?_, hsel, rfl, List.filter_sublist _, ?_⟩
  · unfold Builder.CreateTable
    have hde : definitionEntry snake b = fun f =>
        quoted (snake f.Name) ++ " "
          ++ columnDefinitionFromField b f.Name f.TypeString
              (decide (b.flagsOf f.Name &&& FieldFlagUnique > 0)) := by
      funext f
      rfl
    rw [hcreate, hde]
    simp only [String.append_assoc]
    rfl
  · intro f hf
    simp [columnFields, hf]

set_option maxRecDepth 100000 in
/-- Witness of C21: `type Product struct { Id int64; Name string; Tags []string;
Price int }`, the slice field has no entry. -/
theorem createTable_entries_in_declaration_order_witness :
    ∃ b, New FieldToColumn productStruct {} = .ok b
      ∧ b.CreateTable = "CREATE TABLE IF NOT EXISTS \"product\" (\"id\" SERIAL PRIMARY KEY,"
          ++ "\"name\" VARCHAR(255) NOT NULL DEFAULT '',\"price\" BIGINT NOT NULL DEFAULT 0);"
      ∧ b.querySelectPrefix = "SELECT \"id\",\"name\",\"price\" FROM \"product\"" := by
  obtain ⟨b, hb, hcreate, hsel, -⟩ :=
    createTable_entries_in_declaration_order FieldToColumn productStruct {} (by decide)
  have hb2 : New FieldToColumn productStruct {} = .ok productBuilder := by decide!
  have hbb : b = productBuilder := Except.ok.inj (hb.symm.trans hb2)
  subst hbb
  refine ⟨productBuilder, hb, ?_, ?_⟩
  · rw [hcreate]
    decide!
  · rw [hsel]
    decide!

/-! ## C29: construction of the templates with fewer than two columns -/

set_option maxRecDepth 100000 in
/-- C29: `reflectBuildQueries`, run on a builder with an empty column list (as `reflect`
does after `reflectFieldTags`), completes without fault if and only if the record type
has at least two fields of supported kinds; with exactly one it faults with a negative
repeat count, with none it faults with slice bounds out of range.  So `New` returns a
builder exactly for at least two columns and faults otherwise, and no error value of
`Err()` is involved: when a builder is returned its `Err()` is nil. -/
theorem reflectBuildQueries_completes_iff_two_columns (snake : String → String)
    (obj : StructType) (options : Options) :
    (∀ (b0 : Builder) (tp : String), b0.columnNames = [] →
        ((∃ b, reflectBuildQueries snake b0 obj tp = .ok b) ↔ 2 ≤ (columnFields obj).length)
        ∧ ((columnFields obj).length = 1 →
            reflectBuildQueries snake b0 obj tp = .error .negativeRepeat)
        ∧ ((columnFields obj).length = 0 →
            reflectBuildQueries snake b0 obj tp = .error .sliceBounds))
    ∧ ((∃ b, New snake obj options = .ok b) ↔ 2 ≤ (columnFields obj).length)
    ∧ ((columnFields obj).length = 1 → New snake obj options = .error .negativeRepeat)
    ∧ ((columnFields obj).length = 0 → New snake obj options = .error .sliceBounds)
    ∧ (∀ b, New snake obj options = .ok b → b.Err = none)
    ∧ New FieldToColumn singleStruct {} = .error .negativeRepeat
    ∧ New FieldToColumn emptyStruct {} = .error .sliceBounds
    ∧ (New FieldToColumn productStruct {}).toBool = true := by
  have key : ∀ (b0 : Builder) (tp : String), b0.columnNames = [] →
      ((∃ b, reflectBuildQueries snake b0 obj tp = .ok b) ↔ 2 ≤ (columnFields obj).length)
      ∧ ((columnFields obj).length = 1 →
          reflectBuildQueries snake b0 obj tp = .error .negativeRepeat)
      ∧ ((columnFields obj).length = 0 →
          reflectBuildQueries snake b0 obj tp = .error .sliceBounds) := by
    intro b0 tp h0
    have hl := (reflectColumnsLoop_facts snake obj.Fields
      { b0 with tableName := tableNameOf snake obj tp } 0).1
    have hlen : (afterColumns snake b0 obj tp).columnNames.length = (columnFields obj).length := by
      unfold afterColumns
      rw [hl]
      show (b0.columnNames ++ _).length = _
      rw [h0]
      simp [columnFields]
    have hp := reflectBuildQueries_panics snake b0 obj tp
    rw [hlen] at hp
    refine ⟨⟨?_, ?_⟩, hp.2, hp.1⟩
    · rintro ⟨b, hb⟩
      by_contra hlt
      obtain ⟨p, hq⟩ := reflectBuildQueries_few snake b0 obj tp (by rw [hlen]; omega)
      rw [hq] at hb
      cases hb
    · intro h2
      obtain ⟨b, hb, -⟩ := reflectBuildQueries_ok snake b0 obj tp (by rw [hlen]; exact h2)
      exact ⟨b, hb⟩
  have hnew := key (tagPass obj options) options.TableNamePrefix (tagPass_facts obj options).1
  rw [← New_eq] at hnew
  refine ⟨key, hnew.1, hnew.2.1, hnew.2.2, ?_, by decide!, by decide!, by decide!⟩
  intro b hb
  have hN := New_columns snake obj options b hb
  obtain ⟨b2, hb2, -, -, -, herr, -⟩ := New_templates snake obj options hN
  rw [hb] at hb2
  cases hb2
  exact herr

/-! ## C26: the modification fields flag -/

/-- C26: in a builder that `New` returns for a record type (whose modification fields
have distinct names, as the fields of a struct have), `HasModificationFields()` is true
if and only if the record type has each of the four fields `CreatedAt`, `CreatedBy`,
`ModifiedAt` and `ModifiedBy` with kind `Int64`; so with one of them missing or of
another kind it is false. -/
theorem hasModificationFields_iff_all_four (snake : String → String) (obj : StructType)
    (options : Options) (b : Builder)
    (hnew : New snake obj options = .ok b)
    (hdistinct : ((modificationFieldsOf obj).map (fun f => f.Name)).Nodup) :
    (b.HasModificationFields = true
      ↔ ∀ n ∈ ["CreatedAt", "CreatedBy", "ModifiedAt", "ModifiedBy"],
          ∃ f ∈ obj.Fields, f.Name = n ∧ f.Kind = .Int64)
    ∧ (∀ n ∈ ["CreatedAt", "CreatedBy", "ModifiedAt", "ModifiedBy"],
        (¬ ∃ f ∈ obj.Fields, f.Name = n ∧ f.Kind = .Int64) →
        b.HasModificationFields = false) := by
  have hN := New_columns snake obj options b hnew
  obtain ⟨b2, hb2, -, -, -, -, hflags, -⟩ := New_templates snake obj options hN
  rw [hnew] at hb2
  cases hb2
  have hiff : b.HasModificationFields = true ↔ (modificationFieldsOf obj).length = 4 := by
    unfold Builder.HasModificationFields
    rw [hflags]
    by_cases h4 : (modificationFieldsOf obj).length = 4
    · rw [if_pos h4]
      simp [h4, FlagHasModificationFields]
    · rw [if_neg h4]
      simp [h4, FlagHasModificationFields]
  have hmain := hiff.trans (modification_count_four obj hdistinct)
  refine ⟨hmain, ?_⟩
  intro n hn hnot
  cases hv : b.HasModificationFields with
  | false => rfl
  | true => exact absurd (hmain.1 hv n hn) hnot

set_option maxRecDepth 100000 in
/-- Witness of C26: a record type with the four `int64` fields has the flag; the record
of the tests, with `CreatedBy` alone, and a record whose `CreatedAt` is a `string` have
it not. -/
theorem hasModificationFields_iff_all_four_witness :
    auditedBuilder.HasModificationFields = true
    ∧ testBuilder.HasModificationFields = false
    ∧ (New FieldToColumn stampedStruct {}).map Builder.HasModificationFields = .ok false := by
  have hnew : New FieldToColumn auditedStruct {} = .ok auditedBuilder := by decide!
  have h := hasModificationFields_iff_all_four FieldToColumn auditedStruct {} auditedBuilder
    hnew (by decide)
  refine ⟨h.1.2 (by decide), ?_, by decide!⟩
  have hnew2 : New FieldToColumn testStruct {} = .ok testBuilder := by decide!
  exact (hasModificationFields_iff_all_four FieldToColumn testStruct {} testBuilder
    hnew2 (by decide)).2 "CreatedAt" (by decide) (by decide)

/-! ## C30: the default-value tag -/

/-- C30: two record descriptions that agree, field by field, on name, kind, type text
and the tag that holds the options, and so differ at most in their default-value tags,
give through `New` the same fault or two builders that differ at most in the map of
default values; `CreateTable()` and every other template are identical, and
`columnDefinitionFromField` does not read the map of default values. -/
theorem default_value_tag_has_no_effect (snake : String → String) (obj obj2 : StructType)
    (options : Options)
    (hsame : sameButDefaults (if options.TagName ≠ "" then options.TagName else "sql")
      obj obj2 = true) :
    (∃ d, New snake obj2 options = (New snake obj options).map (fun b => withDefault b d))
    ∧ (New snake obj2 options).map Builder.CreateTable
        = (New snake obj options).map Builder.CreateTable
    ∧ (New snake obj2 options).map Builder.DropTable
        = (New snake obj options).map Builder.DropTable
    ∧ (New snake obj2 options).map Builder.Insert
        = (New snake obj options).map Builder.Insert
    ∧ (New snake obj2 options).map Builder.UpdateById
        = (New snake obj options).map Builder.UpdateById
    ∧ (New snake obj2 options).map Builder.InsertOnConflictUpdate
        = (New snake obj options).map Builder.InsertOnConflictUpdate
    ∧ (New snake obj2 options).map Builder.SelectById
        = (New snake obj options).map Builder.SelectById
    ∧ (New snake obj2 options).map Builder.DeleteById
        = (New snake obj options).map Builder.DeleteById
    ∧ (New snake obj2 options).map (fun b => (b.querySelectPrefix, b.querySelectCountPrefix,
          b.queryDeletePrefix, b.queryUpdatePrefix))
        = (New snake obj options).map (fun b => (b.querySelectPrefix,
          b.querySelectCountPrefix, b.queryDeletePrefix, b.queryUpdatePrefix))
    ∧ (∀ (b : Builder) (d : GoMap String) (fieldName fieldType : String) (isUnique : Bool),
        columnDefinitionFromField (withDefault b d) fieldName fieldType isUnique
          = columnDefinitionFromField b fieldName fieldType isUnique) := by
  have hi := initialBuilder_facts options
  have htn : (initMaps (initialBuilder options)).tagName
      = (if options.TagName ≠ "" then options.TagName else "sql") := hi.2.2
  have hs2 := hsame
  simp only [sameButDefaults, Bool.and_eq_true, decide_eq_true_eq] at hs2
  obtain ⟨d, hd⟩ := reflectFieldTagsLoop_withDefault _ obj.Fields obj2.Fields
    (initMaps (initialBuilder options)) [] hs2.2 htn
  have htag : tagPass obj2 options = withDefault (tagPass obj options) d := hd
  have hmain : New snake obj2 options
      = (New snake obj options).map (fun b => withDefault b d) := by
    rw [New_eq, New_eq, htag]
    exact reflectBuildQueries_withDefault snake _ obj obj2 _ d _ hsame
  refine ⟨⟨d, hmain⟩, ?_, ?_, ?_, ?_, ?_, ?_, ?_, ?_, fun _ _ _ _ _ => rfl⟩
  all_goals
    rw [hmain]
    cases New snake obj options <;> rfl

set_option maxRecDepth 100000 in
/-- Witness of C30: two descriptions of `Guest` whose default-value tags differ. -/
theorem default_value_tag_has_no_effect_witness :
    (New FieldToColumn guestStruct2 {}).map Builder.CreateTable
        = (New FieldToColumn guestStruct {}).map Builder.CreateTable
    ∧ (New FieldToColumn guestStruct {}).map Builder.CreateTable
        = .ok ("CREATE TABLE IF NOT EXISTS \"guest\" (\"id\" SERIAL PRIMARY KEY,"
            ++ "\"name\" VARCHAR(255) NOT NULL DEFAULT '' UNIQUE,"
            ++ "\"level\" BIGINT NOT NULL DEFAULT 0);") :=
  ⟨(default_value_tag_has_no_effect FieldToColumn guestStruct guestStruct2 {}
      (by decide)).2.1, by decide!⟩

/-! ## C23: the type override of a tag token -/

set_option maxRecDepth 100000 in
/-- C23, counterexample: the token `type:varchar(0)`, whose `n` is not positive, the
token `type:bpchar(5)`, `BPCHAR` with a size, and the token `type:text:x`, whose value
is not `TEXT`, each record an override, as `CreateTable()` shows. -/
theorem type_override_recorded_outside_the_list :
    GoMap.get? (setFieldFromTagOptWithoutVal {} "type:varchar(0)" "Code").fieldColumnType "Code"
        = some "VARCHAR(0)"
    ∧ GoMap.get? (setFieldFromTagOptWithoutVal {} "type:bpchar(5)" "Pad").fieldColumnType "Pad"
        = some "BPCHAR(5)"
    ∧ GoMap.get? (setFieldFromTagOptWithoutVal {} "type:text:x" "Note").fieldColumnType "Note"
        = some "TEXT"
    ∧ (New FieldToColumn overrideStruct {}).map Builder.CreateTable
        = .ok ("CREATE TABLE IF NOT EXISTS \"override\" (\"id\" SERIAL PRIMARY KEY,"
            ++ "\"code\" VARCHAR(0) NOT NULL DEFAULT '',\"pad\" BPCHAR(5) NOT NULL DEFAULT '',"
            ++ "\"note\" TEXT NOT NULL DEFAULT '',\"plain\" VARCHAR(255) NOT NULL DEFAULT '');") := by
  decide!

/-- C23, amended: for a tag token `opt` that starts with `type:`, let `v` be its text
between the first colon and the next colon or the end.  The token records the
upper-cased `v` as the type override of the field exactly when the upper-cased `v` is
`TEXT`, `BPCHAR`, or one of `VARCHAR`, `CHARACTER VARYING`, `BPCHAR`, `CHAR`,
`CHARACTER` followed by `(`, one or more decimal digits and `)`; for every other value
the builder is left as it was; in both cases `Err()` stays what it was. -/
theorem type_override_recorded_iff_in_list (b : Builder) (opt fieldName : String)
    (hopt : "type:".data.isPrefixOf opt.data = true) :
    ((toUpper ((splitOn opt ':').getD 1 "") = "TEXT"
        ∨ toUpper ((splitOn opt ':').getD 1 "") = "BPCHAR"
        ∨ ∃ name ∈ ["VARCHAR", "CHARACTER VARYING", "BPCHAR", "CHAR", "CHARACTER"],
            ∃ digits : List Char, digits ≠ [] ∧ (∀ c ∈ digits, c.isDigit = true)
              ∧ (toUpper ((splitOn opt ':').getD 1 "")).data
                  = name.data ++ ('(' :: (digits ++ [')']))) →
      setFieldFromTagOptWithoutVal b opt fieldName
        = { b with
            fieldColumnType :=
              GoMap.set b.fieldColumnType fieldName (toUpper ((splitOn opt ':').getD 1 "")) })
    ∧ (¬ (toUpper ((splitOn opt ':').getD 1 "") = "TEXT"
        ∨ toUpper ((splitOn opt ':').getD 1 "") = "BPCHAR"
        ∨ ∃ name ∈ ["VARCHAR", "CHARACTER VARYING", "BPCHAR", "CHAR", "CHARACTER"],
            ∃ digits : List Char, digits ≠ [] ∧ (∀ c ∈ digits, c.isDigit = true)
              ∧ (toUpper ((splitOn opt ':').getD 1 "")).data
                  = name.data ++ ('(' :: (digits ++ [')']))) →
      setFieldFromTagOptWithoutVal b opt fieldName = b)
    ∧ (setFieldFromTagOptWithoutVal b opt fieldName).Err = b.Err
    ∧ (∀ value, GoMap.get? (GoMap.set b.fieldColumnType fieldName value) fieldName
        = some value) := by
  have h1 : ¬ (opt = "uniq" ∧ b.flagsOf fieldName &&& FieldFlagUnique = 0) := by
    rintro ⟨rfl, -⟩
    exact absurd hopt (by decide)
  have h2 : ¬ (opt = "pass" ∧ b.flagsOf fieldName &&& FieldFlagPassword = 0) := by
    rintro ⟨rfl, -⟩
    exact absurd hopt (by decide)
  have h3 : ¬ ¬ ("type:".data.isPrefixOf opt.data) = true := not_not.2 hopt
  have hm := matchesSizedType_iff (toUpper ((splitOn opt ':').getD 1 ""))
  refine ⟨?_, ?_, (setFieldFromTagOptWithoutVal_keeps b opt fieldName).2.2.1, ?_⟩
  · intro hacc
    unfold setFieldFromTagOptWithoutVal
    rw [if_neg h1, if_neg h2, if_neg h3]
    dsimp only
    by_cases h4 : toUpper ((splitOn opt ':').getD 1 "") = "TEXT"
        ∨ toUpper ((splitOn opt ':').getD 1 "") = "BPCHAR"
    · rw [if_pos h4]
    · rw [if_neg h4]
      have h5 : matchesSizedType (toUpper ((splitOn opt ':').getD 1 "")) = true := by
        rcases hacc with h | h | h
        · exact absurd (Or.inl h) h4
        · exact absurd (Or.inr h) h4
        · exact hm.2 h
      rw [if_pos h5]
  · intro hrej
    unfold setFieldFromTagOptWithoutVal
    rw [if_neg h1, if_neg h2, if_neg h3]
    dsimp only
    have h4 : ¬ (toUpper ((splitOn opt ':').getD 1 "") = "TEXT"
        ∨ toUpper ((splitOn opt ':').getD 1 "") = "BPCHAR") := by
      rintro (h | h)
      · exact hrej (Or.inl h)
      · exact hrej (Or.inr (Or.inl h))
    have h5 : ¬ matchesSizedType (toUpper ((splitOn opt ':').getD 1 "")) = true :=
      fun h => hrej (Or.inr (Or.inr (hm.1 h)))
    rw [if_neg h4, if_neg h5]
  · intro value
    simp [GoMap.get?_set]

set_option maxRecDepth 100000 in
/-- Witness of the amended C23: the token `type:varchar(2000)` of the tests records
`VARCHAR(2000)`, the token `type:integer` records nothing. -/
theorem type_override_recorded_iff_in_list_witness :
    setFieldFromTagOptWithoutVal {} "type:varchar(2000)" "Key"
        = { ({} : Builder) with fieldColumnType := [("Key", "VARCHAR(2000)")] }
    ∧ setFieldFromTagOptWithoutVal {} "type:integer" "Key" = {} := by
  have h := type_override_recorded_iff_in_list {} "type:varchar(2000)" "Key" (by decide)
  have h2 := type_override_recorded_iff_in_list {} "type:integer" "Key" (by decide)
  refine ⟨?_, h2.2.1 ?_⟩
  swap
  · rintro (h | h | h)
    · exact absurd h (by decide!)
    · exact absurd h (by decide!)
    · exact absurd ((matchesSizedType_iff _).2 h) (by decide!)
  rw [h.1 (Or.inr (Or.inr ⟨"VARCHAR", by decide, "2000".data, by decide, by decide,
    by decide!⟩))]
  decide!

/-! ## C22: the column definition of a field -/

set_option maxRecDepth 100000 in
/-- C22, counterexample: for `type Level int64` and the record
`type Ticket struct { Id int64; Level Level }` the field `Level` has kind `Int64`, a
supported kind, and the type text `main.Level`; its column is defined as
`VARCHAR(255) NOT NULL DEFAULT ''`, not as `BIGINT NOT NULL DEFAULT 0`. -/
theorem columnDefinition_follows_type_text_not_kind :
    ticketStruct.Fields.map (fun f => (f.Name, f.Kind, IsFieldKindSupported f.Kind))
        = [("Id", .Int64, true), ("Level", .Int64, true)]
    ∧ columnDefinitionFromField {} "Level" "main.Level" false
        = "VARCHAR(255) NOT NULL DEFAULT ''"
    ∧ columnDefinitionFromField {} "Level" "int64" false = "BIGINT NOT NULL DEFAULT 0"
    ∧ (New FieldToColumn ticketStruct {}).map Builder.CreateTable
        = .ok ("CREATE TABLE IF NOT EXISTS \"ticket\" (\"id\" SERIAL PRIMARY KEY,"
            ++ "\"level\" VARCHAR(255) NOT NULL DEFAULT '');") := by
  decide!

/-- C22, amended: for every field not named `Id` or `Flags`, `columnDefinitionFromField`
returns, with a non-empty type override `T` recorded for the field,
`T NOT NULL DEFAULT ''`; otherwise by the text of the field's type: `string` gives
`VARCHAR(255) NOT NULL DEFAULT ''`, `bool` gives `BOOLEAN NOT NULL DEFAULT false`,
`int64`, `int`, `uint64`, `uint` give `BIGINT NOT NULL DEFAULT 0`, `int32`, `uint32` give
`INTEGER NOT NULL DEFAULT 0`, `int16`, `int8`, `uint16`, `uint8` give
`SMALLINT NOT NULL DEFAULT 0`, every other type text gives
`VARCHAR(255) NOT NULL DEFAULT ''`; ` UNIQUE` is appended exactly when the function is
called for a unique field, and in a builder that `New` returns the fields so called are
those with the option `uniq` in the tag of a field of that name. -/
theorem columnDefinitionFromField_by_type_text (b : Builder) (fieldName fieldType : String)
    (isUnique : Bool) (hId : fieldName ≠ "Id") (hFlags : fieldName ≠ "Flags") :
    (∀ T, GoMap.get? b.fieldColumnType fieldName = some T → T ≠ "" →
        columnDefinitionFromField b fieldName fieldType isUnique
          = T ++ " NOT NULL DEFAULT ''" ++ (if isUnique then " UNIQUE" else ""))
    ∧ ((GoMap.get? b.fieldColumnType fieldName = none
          ∨ GoMap.get? b.fieldColumnType fieldName = some "") →
        columnDefinitionFromField b fieldName fieldType isUnique
          = (if fieldType = "string" then "VARCHAR(255) NOT NULL DEFAULT ''"
             else if fieldType = "bool" then "BOOLEAN NOT NULL DEFAULT false"
             else if fieldType ∈ ["int64", "int", "uint64", "uint"] then
               "BIGINT NOT NULL DEFAULT 0"
             else if fieldType ∈ ["int32", "uint32"] then "INTEGER NOT NULL DEFAULT 0"
             else if fieldType ∈ ["int16", "int8", "uint16", "uint8"] then
               "SMALLINT NOT NULL DEFAULT 0"
             else "VARCHAR(255) NOT NULL DEFAULT ''")
            ++ (if isUnique then " UNIQUE" else ""))
    ∧ (∀ (snake : String → String) (obj : StructType) (options : Options) (bb : Builder),
        New snake obj options = .ok bb →
        bb.columnDefinitions
            = (columnFields obj).map (fun f => quoted (snake f.Name) ++ " "
                ++ columnDefinitionFromField bb f.Name f.TypeString
                    (decide (bb.flagsOf f.Name &&& FieldFlagUnique > 0)))
        ∧ ∀ n, (bb.flagsOf n &&& FieldFlagUnique > 0
            ↔ ∃ g ∈ obj.Fields, IsFieldKindSupported g.Kind = true ∧ g.Name = n
                ∧ "uniq" ∈ splitOn
                    (g.tagGet (if options.TagName ≠ "" then options.TagName else "sql")) ' ')) := by
  refine ⟨?_, ?_, ?_⟩
  · intro T hT hne
    unfold columnDefinitionFromField
    rw [if_neg hId, if_neg hFlags, hT]
    dsimp only
    rw [if_pos hne]
    cases isUnique <;> simp
  · intro hnone
    have hdef : columnDefinitionFromField b fieldName fieldType isUnique
        = columnDefinitionFromField.columnDefinitionDefault fieldType isUnique := by
      unfold columnDefinitionFromField
      rw [if_neg hId, if_neg hFlags]
      rcases hnone with h | h
      · rw [h]
      · rw [h]
        simp
    rw [hdef, columnDefinitionDefault_table]
  · intro snake obj options bb hnew
    have hN := New_columns snake obj options bb hnew
    obtain ⟨b2, hb2, hdefs, -, -, -, -, -, huniq, -⟩ := New_templates snake obj options hN
    rw [hnew] at hb2
    cases hb2
    refine ⟨hdefs, fun n => ?_⟩
    rw [huniq n, tagPass_unique]

set_option maxRecDepth 100000 in
/-- Witness of the amended C22: the field `Key` of the tests, tagged
`uniq type:varchar(2000)`, and the field `Price` of type `int`. -/
theorem columnDefinitionFromField_by_type_text_witness :
    columnDefinitionFromField testBuilder "Key" "string" true
        = "VARCHAR(2000) NOT NULL DEFAULT '' UNIQUE"
    ∧ columnDefinitionFromField testBuilder "Price" "int" false = "BIGINT NOT NULL DEFAULT 0"
    ∧ (testBuilder.flagsOf "Key" &&& FieldFlagUnique > 0) := by
  have h := columnDefinitionFromField_by_type_text testBuilder "Key" "string" true
    (by decide) (by decide)
  have h2 := columnDefinitionFromField_by_type_text testBuilder "Price" "int" false
    (by decide) (by decide)
  refine ⟨?_, ?_, ?_⟩
  · rw [h.1 "VARCHAR(2000)" (by decide!) (by decide)]
    decide
  · rw [h2.2.1 (Or.inl (by decide!))]
    decide
  · have hnew : New FieldToColumn testStruct {} = .ok testBuilder := by decide!
    exact ((h.2.2 FieldToColumn testStruct {} testBuilder hnew).2 "Key").2
      ⟨{ Name := "Key", Kind := .String, TypeString := "string",
          Tag := [("json", "key"), ("sql", "uniq type:varchar(2000)")] },
        by decide, by decide, by decide, by decide⟩

/-! ## C27: the values of `Interfaces` -/

set_option maxRecDepth 100000 in
/-- C27, evaluation at the failing input: for a filter on `Price` and a raw entry with
the array `[3]int{18, 21, 30}` and the string `Jane` as arguments, `queryFilters` numbers
one placeholder per element of the array (`$2,$3,$4`) and `$5` for `Jane`, while
`Interfaces` returns the value of `Price` and `Jane` alone: the three elements of the
array, which its kind test admits as a sequence, are left out.  With the slice
`[]int{18, 21, 30}` in place of the array the clause is the same and `Interfaces`
returns all five values. -/
theorem interfaces_leaves_out_array_elements :
    Interfaces (some arrayAndScalarFilters)
        = .ok [.item (.scalar (.int 4444)), .item (.scalar (.str "Jane"))]
    ∧ Interfaces (some arrayAndScalarFilters)
        ≠ .ok [.item (.scalar (.int 4444)), .item (.scalar (.int 18)),
            .item (.scalar (.int 21)), .item (.scalar (.int 30)),
            .item (.scalar (.str "Jane"))]
    ∧ queryFilters testBuilder (some arrayAndScalarFilters) 1
        = .ok ("(\"price\"=$1) AND (\"age\" IN ($2,$3,$4) AND \"first_name\"=$5)", none)
    ∧ (Arg.array .int [.int 18, .int 21, .int 30]).kind? = some .Array
    ∧ queryFilters testBuilder (some sliceAndScalarFilters) 1
        = .ok ("(\"price\"=$1) AND (\"age\" IN ($2,$3,$4) AND \"first_name\"=$5)", none)
    ∧ Interfaces (some sliceAndScalarFilters)
        = .ok [.item (.scalar (.int 4444)), .item (.scalar (.int 18)),
            .item (.scalar (.int 21)), .item (.scalar (.int 30)),
            .item (.scalar (.str "Jane"))] := by
  decide!

/-! ## C28: `StructFieldValueFromString` on signed integers -/

/-- C28: when the field that `StructFieldValueFromString` finds for the name (the first
field of a supported kind with that name) has a signed integer kind, then for every
text of one or more decimal digits, with or without a leading `-`, whose number fits in
64 bits the result is `true` with that number as `int64`, the number of the digits being
their decimal value; and for a name that no field of a supported kind has, the result
is `false` with nil, whatever the text. -/
theorem structFieldValueFromString_signed (ParseFloat : String → Option ℚ)
    (obj : StructType) (name : String) (f : StructField)
    (hfield : fieldNamed obj name = some f)
    (hkind : f.Kind ∈ [ReflectKind.Int, .Int8, .Int16, .Int32, .Int64]) :
    (∀ digits : List Char, digits ≠ [] → (∀ c ∈ digits, c.isDigit = true) →
        (inInt64 ((decimalValue digits : Nat) : Int) →
          StructFieldValueFromString ParseFloat obj name ⟨digits⟩
            = (true, some (.int64 ((decimalValue digits : Nat) : Int))))
        ∧ (inInt64 (-((decimalValue digits : Nat) : Int)) →
          StructFieldValueFromString ParseFloat obj name ⟨'-' :: digits⟩
            = (true, some (.int64 (-((decimalValue digits : Nat) : Int)))))
        ∧ decimalValue digits = Nat.ofDigits 10 ((digits.map digitValue).reverse))
    ∧ (∀ other value : String, fieldNamed obj other = none →
        StructFieldValueFromString ParseFloat obj other value = (false, none))
    ∧ (∀ other : String, fieldNamed obj other = none
        ↔ ∀ g ∈ obj.Fields, IsFieldKindSupported g.Kind = true → g.Name ≠ other) := by
  refine ⟨?_, ?_, ?_⟩
  · intro digits hne hd
    have hm := intRegexMatch_digits digits hne hd
    have hp := ParseInt_digits digits hne hd
    refine ⟨fun hin => ?_, fun hin => ?_, decimalValue_eq_ofDigits digits⟩
    · unfold StructFieldValueFromString
      rw [structFieldValueLoop_signed ParseFloat name _ f hkind obj.Fields hfield,
        if_pos hm.1, hp.1, if_pos hin]
    · unfold StructFieldValueFromString
      rw [structFieldValueLoop_signed ParseFloat name _ f hkind obj.Fields hfield,
        if_pos hm.2, hp.2, if_pos hin]
  · intro other value hnone
    exact structFieldValueLoop_none ParseFloat other value obj.Fields hnone
  · intro other
    unfold fieldNamed
    rw [List.find?_eq_none]
    constructor
    · intro h g hg hsup hn
      exact h g hg (by simp [hsup, hn])
    · intro h g hg hc
      simp only [Bool.and_eq_true, decide_eq_true_eq] at hc
      exact h g hg hc.1 hc.2

set_option maxRecDepth 100000 in
/-- Witness of C28: the record and the text `0` of funcs_test.go:12, and some more
texts. -/
theorem structFieldValueFromString_signed_witness :
    StructFieldValueFromString (fun _ => none) int64FieldStruct "Int64Field" "0"
        = (true, some (.int64 0))
    ∧ StructFieldValueFromString (fun _ => none) int64FieldStruct "Int64Field" "-42"
        = (true, some (.int64 (-42)))
    ∧ StructFieldValueFromString (fun _ => none) int64FieldStruct "Int64Field" "007"
        = (true, some (.int64 7))
    ∧ StructFieldValueFromString (fun _ => none) int64FieldStruct "Int64Field"
        "9223372036854775808" = (false, none)
    ∧ StructFieldValueFromString (fun _ => none) int64FieldStruct "Missing" "0"
        = (false, none) := by
  have h := structFieldValueFromString_signed (fun _ => none) int64FieldStruct "Int64Field"
    { Name := "Int64Field", Kind := .Int64, TypeString := "int64" } (by decide) (by decide)
  refine ⟨?_, by decide, by decide, by decide, h.2.1 "Missing" "0" (by decide)⟩
  have h0 := (h.1 ['0'] (by decide) (by decide)).1 (by decide)
  exact h0

/-! ## C24, C25: round trips of `FieldToColumn` and `ColumnToField` -/

/-- C24 (counterexample): the field name `UserIDDate`, which `ColumnToField` produces
from the column name `user_id_date`, is not restored: `FieldToColumn` writes both `D`
after the `I` without an underscore and gives `user_iddate`, of which `ColumnToField`
makes `UserIddate`. -/
theorem columnToField_fieldToColumn_loses_ID_before_D :
    ColumnToField "user_id_date" = .ok "UserIDDate"
      ∧ FieldToColumn "UserIDDate" = "user_iddate"
      ∧ ColumnToField (FieldToColumn "UserIDDate") = .ok "UserIddate"
      ∧ ColumnToField (FieldToColumn "UserIDDate") ≠ .ok "UserIDDate" := by
  decide

/-- C24 (amended): for a well-formed column name `c` (every part between underscores a
lowercase ASCII letter followed by lowercase ASCII letters and digits, no part `i` or
`id` directly followed by a part that starts with `d`), `ColumnToField c` completes with
a field name `f`, and `ColumnToField (FieldToColumn f)` completes with `f` again; and
`FieldToColumn "ID"` is `id`, `ColumnToField "id"` is `ID`. -/
theorem columnToField_fieldToColumn_wellFormed (c : String)
    (h : wellFormedColumn c = true) :
    (∃ f, ColumnToField c = .ok f ∧ ColumnToField (FieldToColumn f) = .ok f)
      ∧ FieldToColumn "ID" = "id" ∧ ColumnToField "id" = .ok "ID" := by
  obtain ⟨f, h1, h2⟩ := roundTrip_wellFormed c h
  refine ⟨⟨f, h1, ?_⟩, by decide, by decide⟩
  rw [h2, h1]

/-- C24 (witness): the column name `user_id` is well-formed, its field name is `UserID`,
and `UserID` is restored. -/
theorem columnToField_fieldToColumn_wellFormed_witness :
    wellFormedColumn "user_id" = true
      ∧ ((∃ f, ColumnToField "user_id" = .ok f ∧ ColumnToField (FieldToColumn f) = .ok f)
        ∧ FieldToColumn "ID" = "id" ∧ ColumnToField "id" = .ok "ID")
      ∧ ColumnToField "user_id" = .ok "UserID"
      ∧ ColumnToField (FieldToColumn "UserID") = .ok "UserID"
      ∧ wellFormedColumn "id" = true ∧ wellFormedColumn "post_code2" = true
      ∧ ColumnToField (FieldToColumn "PostCode2") = .ok "PostCode2" :=
  ⟨by decide, columnToField_fieldToColumn_wellFormed "user_id" (by decide), by decide,
    by decide, by decide, by decide, by decide⟩

/-- C25 (counterexample): the column name `user_id_date`, which `FieldToColumn` produces
from the field name `UserIdDate`, is not restored: `ColumnToField` gives `UserIDDate`,
of which `FieldToColumn` makes `user_iddate`; and on the column name `created__at`,
which `FieldToColumn` produces from the field name `Created_At`, `ColumnToField` faults
on the empty part. -/
theorem fieldToColumn_columnToField_fails_on_generated_columns :
    FieldToColumn "UserIdDate" = "user_id_date"
      ∧ ColumnToField "user_id_date" = .ok "UserIDDate"
      ∧ FieldToColumn "UserIDDate" = "user_iddate"
      ∧ FieldToColumn "UserIDDate" ≠ "user_id_date"
      ∧ FieldToColumn "Created_At" = "created__at"
      ∧ ColumnToField "created__at" = .error .sliceBounds := by
  decide

/-- C25 (amended): for a well-formed column name `c` (every part between underscores a
lowercase ASCII letter followed by lowercase ASCII letters and digits, no part `i` or
`id` directly followed by a part that starts with `d`), `ColumnToField c` completes
with a field name `f`, and `FieldToColumn f` is `c`; so `c` is a name `FieldToColumn`
produces. -/
theorem fieldToColumn_columnToField_wellFormed (c : String)
    (h : wellFormedColumn c = true) :
    ∃ f, ColumnToField c = .ok f ∧ FieldToColumn f = c := by
  obtain ⟨f, h1, h2⟩ := roundTrip_wellFormed c h
  exact ⟨f, h1, h2⟩

/-- C25 (witness): the column name `post_code2` is well-formed, `ColumnToField` makes
`PostCode2` of it, and `FieldToColumn` restores it; so for `id` and `user_id`. -/
theorem fieldToColumn_columnToField_wellFormed_witness :
    wellFormedColumn "post_code2" = true
      ∧ (∃ f, ColumnToField "post_code2" = .ok f ∧ FieldToColumn f = "post_code2")
      ∧ ColumnToField "post_code2" = .ok "PostCode2"
      ∧ FieldToColumn "PostCode2" = "post_code2"
      ∧ ColumnToField "id" = .ok "ID" ∧ FieldToColumn "ID" = "id"
      ∧ ColumnToField "user_id" = .ok "UserID" ∧ FieldToColumn "UserID" = "user_id"
      ∧ wellFormedColumn "user_id_date" = false
      ∧ wellFormedColumn "created__at" = false :=
  ⟨by decide, fieldToColumn_columnToField_wellFormed "post_code2" (by decide), by decide,
    by decide, by decide, by decide, by decide, by decide, by decide, by decide⟩

/-! ## C31: `StructFieldValueFromString` on fields of unsigned integer kinds -/

/-- C31: when the field that `StructFieldValueFromString` finds for the name (the first
field of a supported kind with that name) has the kind `uint`, `uint8`, `uint16`,
`uint32` or `uint64`, the result is `false` with nil for every text, although
`IsFieldKindSupported` reports the kind of that field as supported; and in a record
whose fields have distinct names, as the fields of a struct have, every field of such a
kind is the field found for its name. -/
theorem structFieldValueFromString_unsigned (ParseFloat : String → Option ℚ)
    (obj : StructType) (name : String) (f : StructField)
    (hfield : fieldNamed obj name = some f)
    (hkind : f.Kind ∈ [ReflectKind.Uint, .Uint8, .Uint16, .Uint32, .Uint64]) :
    (∀ value : String, StructFieldValueFromString ParseFloat obj name value = (false, none))
    ∧ IsFieldKindSupported f.Kind = true
    ∧ f ∈ obj.Fields ∧ f.Name = name
    ∧ (∀ k ∈ [ReflectKind.Uint, .Uint8, .Uint16, .Uint32, .Uint64],
        IsFieldKindSupported k = true)
    ∧ (∀ (o : StructType) (g : StructField), g ∈ o.Fields →
        (o.Fields.map (fun x => x.Name)).Nodup →
        g.Kind ∈ [ReflectKind.Uint, .Uint8, .Uint16, .Uint32, .Uint64] →
        fieldNamed o g.Name = some g
          ∧ ∀ value : String,
              StructFieldValueFromString ParseFloat o g.Name value = (false, none)) := by
  have hsupk : ∀ k ∈ [ReflectKind.Uint, .Uint8, .Uint16, .Uint32, .Uint64],
      IsFieldKindSupported k = true := by decide
  refine ⟨?_, hsupk _ hkind, ?_, ?_, hsupk, ?_⟩
  · intro value
    exact structFieldValueLoop_unsigned ParseFloat name value f hkind obj.Fields hfield
  · exact List.mem_of_find?_eq_some hfield
  · have := List.find?_some hfield
    simp only [Bool.and_eq_true, decide_eq_true_eq] at this
    exact this.2
  · intro o g hg hnd hk
    have hfound : fieldNamed o g.Name = some g :=
      find?_of_distinct_names g.Name g o.Fields hg hnd rfl (hsupk _ hk)
    exact ⟨hfound, fun value =>
      structFieldValueLoop_unsigned ParseFloat g.Name value g hk o.Fields hfound⟩

/-- Witness of C31: in `type Counter struct { Id int64; Hits uint32; Total uint64;
Step uint8 }` the field `Hits` gives `false` with nil for the texts `0`, `42`, `-1` and
`abc`, while the field `Id` of kind `int64` takes the text `42`. -/
theorem structFieldValueFromString_unsigned_witness :
    fieldNamed counterStruct "Hits"
        = some { Name := "Hits", Kind := .Uint32, TypeString := "uint32" }
    ∧ ((∀ value : String,
          StructFieldValueFromString (fun _ => none) counterStruct "Hits" value
            = (false, none))
      ∧ IsFieldKindSupported ReflectKind.Uint32 = true)
    ∧ StructFieldValueFromString (fun _ => none) counterStruct "Hits" "0" = (false, none)
    ∧ StructFieldValueFromString (fun _ => none) counterStruct "Hits" "42" = (false, none)
    ∧ StructFieldValueFromString (fun _ => none) counterStruct "Total" "42" = (false, none)
    ∧ StructFieldValueFromString (fun _ => none) counterStruct "Step" "-1" = (false, none)
    ∧ StructFieldValueFromString (fun _ => none) counterStruct "Hits" "abc" = (false, none)
    ∧ StructFieldValueFromString (fun _ => none) counterStruct "Id" "42"
        = (true, some (.int64 42)) := by
  have h := structFieldValueFromString_unsigned (fun _ => none) counterStruct "Hits"
    { Name := "Hits", Kind := .Uint32, TypeString := "uint32" } (by decide) (by decide)
  exact ⟨by decide, ⟨h.1, h.2.1⟩, by decide, by decide, by decide, by decide, by decide,
    by decide⟩

end PgsqlBuilder
